import Mathlib

/-!
Offline HMM map matching (`map_matching.h`): embedding and verified properties

A shallow embedding of the offline driver and the route reconstruction of
`src/map_matching.h` (namespace `mm`).

Conventions of the embedding.

* `float` and `double` values are modelled by rationals, and the arithmetic
  on them is exact: rounding, NaN and infinities are not modelled. The initial
  `+infinity` of `interpolate` is `none` of `Option ℚ`, and `std::exp` is a
  parameter of the constructor of the model.
* `Time`, `StateId` and container sizes are natural numbers (the lattices are
  far below `2^32` columns and states); the 16-bit destination counter of
  `State::route` wraps at `2^16`.
* A `const State*` is the state it points to, with the routing cache it has
  at the moment it is read; a null pointer and an invalid `state_iterator`
  are `none`.
* An access outside a vector (undefined behaviour in C++) makes the embedded
  function return `none`.
* Logging is omitted.
-/

namespace mm

/-! ## Graph identifiers and the graph oracle -/

/-- Modelled from the spec: `baldr::GraphId` (its header is not part of the
sources). An identifier is a number; one reserved value is the invalid id that
the default constructor `GraphId()` produces. -/
structure GraphId where
  value : Nat
deriving DecidableEq, Repr

/-- The reserved value of the invalid identifier. -/
def kInvalidGraphId : Nat := 0x3fffffffffff

/-- The default constructed `GraphId()`. -/
def GraphId.invalid : GraphId := ⟨kInvalidGraphId⟩

/-- Validity test `GraphId::Is_Valid`. -/
def GraphId.Is_Valid (g : GraphId) : Bool := g.value != kInvalidGraphId

/-- A directed edge as far as the matcher reads it: its end node. -/
structure DirectedEdge where
  endnode : GraphId
deriving DecidableEq, Repr

/-- A graph tile: lookup of a directed edge (`nullptr` is `none`). -/
structure GraphTile where
  directededge : GraphId → Option DirectedEdge

/-- Modelled from the spec: the read-only graph oracle of section 6
(`GraphReader` and the helpers of `graph_helpers.h`, neither of which is part
of the sources): opposing edge, tile lookup, start node and end node of an
edge. The two node helpers return the invalid id when the edge is unknown. -/
structure GraphReader where
  GetOpposingEdge : GraphId → Option DirectedEdge
  GetGraphTile : GraphId → Option GraphTile
  edge_startnodeid : GraphId → GraphId
  edge_endnodeid : GraphId → GraphId

/-- The exceptions thrown by the embedded functions. -/
inductive Exn where
  | invalid_argument (what : String)
  | runtime_error (what : String)
  | out_of_range (what : String)
deriving DecidableEq, Repr

/-- The `std::max` of two floats: `(a < b) ? b : a`. -/
def fmax (a b : ℚ) : ℚ := if a < b then b else a

/-! ## Measurements, candidates, labels and states -/

/-- A longitude/latitude point. -/
structure PointLL where
  lng : ℚ
  lat : ℚ
deriving DecidableEq, Repr

/-- Class `Measurement`. -/
structure Measurement where
  lnglat : PointLL
deriving DecidableEq, Repr

/-- An edge projection of a candidate: edge id and offset along the edge. -/
structure PathEdge where
  id : GraphId
  dist : ℚ
deriving DecidableEq, Repr

/-- Modelled from the spec: `Candidate` (declared in `edge_search.h`, not part
of the sources): projected vertex, squared distance and distance to the
measurement, node flag, and the edge projections. -/
structure Candidate where
  vertex : PointLL
  sq_distance : ℚ
  distance : ℚ
  IsNode : Bool
  edges : List PathEdge
deriving DecidableEq, Repr

/-- Modelled from the spec: a `Label` of a `LabelSet` (declared in `sp.h`, not
part of the sources): optional node id and edge id, the edge offsets, the
road distance and turn cost accumulated from the source, the predecessor
index inside the same label set and the edge label handle. -/
structure Label where
  nodeid : GraphId
  edgeid : GraphId
  source : ℚ
  target : ℚ
  cost : ℚ
  turn_cost : ℚ
  predecessor : Option Nat
  edgelabel : Option Nat
deriving DecidableEq, Repr

/-- A label set: the labels, addressed by position. -/
structure LabelSet where
  labels : List Label
deriving DecidableEq, Repr

/-- Class `State`: id, time, candidate and the routing cache (`labelset_` is
`none` until `route` has run; `label_idx_` maps target state ids to label
indices). -/
structure State where
  id : Nat
  time : Nat
  candidate : Candidate
  labelset_ : Option LabelSet
  label_idx_ : List (Nat × Nat)
deriving DecidableEq, Repr

/-- The constructor `State(id, time, candidate)`: empty routing cache. -/
def State.new (id time : Nat) (candidate : Candidate) : State :=
  { id := id, time := time, candidate := candidate, labelset_ := none, label_idx_ := [] }

/-- Method `State::routed`. -/
def State.routed (s : State) : Bool := s.labelset_.isSome

/-- Modelled from the spec: the walk of a `RoutePathIterator` (declared in
`sp.h`, not part of the sources) from label `idx` along the predecessor links
to the root; the labels are yielded target first. The first argument bounds
the number of labels yielded. -/
def RoutePathIterator.walk (labels : List Label) : Nat → Option Nat → List Label
  | 0, _ => []
  | _ + 1, none => []
  | fuel + 1, some idx =>
    match labels.get? idx with
    | none => []
    | some label => label :: RoutePathIterator.walk labels fuel label.predecessor

/-- The labels visited from `RouteBegin(state)` up to `RouteEnd()`: empty when
`state` is not in the routing cache. -/
def State.RoutePath (s : State) (state : State) : List Label :=
  match s.label_idx_.lookup state.id, s.labelset_ with
  | some idx, some labelset => RoutePathIterator.walk labelset.labels labelset.labels.length (some idx)
  | _, _ => []

/-! ## The lattice of the map matching model -/

/-- Class `MapMatching`: the graph reader, the measurements and columns it
owns, the HMM parameters with the values derived from them, the turn cost
table, and the state arena and unreached columns of its base class
`ViterbiSearch<State>`. The costing (`mode_costing_`, `mode_`) is part of the
routing function the model is used with. -/
structure MapMatching where
  graphreader_ : GraphReader
  measurements_ : List Measurement
  states_ : List (List State)
  sigma_z_ : ℚ
  inv_double_sq_sigma_z_ : ℚ
  beta_ : ℚ
  inv_beta_ : ℚ
  breakage_distance_ : ℚ
  max_route_distance_factor_ : ℚ
  turn_penalty_factor_ : ℚ
  turn_cost_table_ : List ℚ
  state_ : List State
  unreached_states_ : List (List State)

/-- Method `MapMatching::Clear`: drops the measurements, the columns and
(through `ViterbiSearch<State>::Clear`) the states. -/
def MapMatching.Clear (mm : MapMatching) : MapMatching :=
  { mm with measurements_ := [], states_ := [], state_ := [], unreached_states_ := [] }

/-- Method `MapMatching::size`. -/
def MapMatching.size (mm : MapMatching) : Nat := mm.measurements_.length

/-- The candidate loop of `AppendState`: one new state per candidate, pushed on
the arena and on the column. -/
def MapMatching.AppendState.loop (time : Nat) :
    List Candidate → List State → List State → List State × List State
  | [], state_, column => (state_, column)
  | it :: rest, state_, column =>
    let id := state_.length
    let state := State.new id time it
    MapMatching.AppendState.loop time rest (state_ ++ [state]) (column ++ [state])

/-- Method `MapMatching::AppendState`: returns the updated model and the time
of the new column. -/
def MapMatching.AppendState (mm : MapMatching) (measurement : Measurement)
    (candidates : List Candidate) : MapMatching × Nat :=
  let time := mm.states_.length
  let (state_, column) := MapMatching.AppendState.loop time candidates mm.state_ []
  ({ mm with
      state_ := state_
      unreached_states_ := mm.unreached_states_ ++ [column]
      states_ := mm.states_ ++ [column]
      measurements_ := mm.measurements_ ++ [measurement] }, time)

/-! ## Match results -/

/-- Enum `GraphType`. -/
inductive GraphType where
  | kUnknown
  | kEdge
  | kNode
deriving DecidableEq, Repr

/-- Class `MatchResult`. -/
structure MatchResult where
  lnglat : PointLL
  distance : ℚ
  graphid : GraphId
  graphtype : GraphType
  state : Option State
deriving DecidableEq, Repr

/-- The constructor `MatchResult(lnglat)`: an unmatched point. -/
def MatchResult.ofPoint (lnglat : PointLL) : MatchResult :=
  { lnglat := lnglat, distance := 0, graphid := GraphId.invalid,
    graphtype := GraphType.kUnknown, state := none }

/-- Insertion into a `std::unordered_set<GraphId>`, kept as a duplicate-free
list in insertion order. -/
def GraphIdSet.insert (s : List GraphId) (x : GraphId) : List GraphId :=
  if x ∈ s then s else s ++ [x]

/-- Function `collect_nodes`: the node ids of a path location. -/
def collect_nodes (reader : GraphReader) (location : Candidate) : List GraphId :=
  location.edges.foldl (fun results edge =>
    if !edge.id.Is_Valid then results
    else if edge.dist = (0 : ℚ) then
      match reader.GetOpposingEdge edge.id with
      | some opp_edge => GraphIdSet.insert results opp_edge.endnode
      | none => results
    else if edge.dist = (1 : ℚ) then
      match reader.GetGraphTile edge.id with
      | some tile =>
        match tile.directededge edge.id with
        | some directededge => GraphIdSet.insert results directededge.endnode
        | none => results
      | none => results
    else results) []

/-- Function `guess_source_result`. -/
def guess_source_result (source target : Option State) (source_measurement : Measurement) :
    MatchResult :=
  match source, target with
  | some s, some t =>
    let last_valid := (s.RoutePath t).foldl (fun (acc : GraphId × GraphType) label =>
      if label.nodeid.Is_Valid then (label.nodeid, GraphType.kNode)
      else if label.edgeid.Is_Valid then (label.edgeid, GraphType.kEdge)
      else acc) (GraphId.invalid, GraphType.kUnknown)
    { lnglat := s.candidate.vertex, distance := s.candidate.distance,
      graphid := last_valid.1, graphtype := last_valid.2, state := some s }
  | some s, none =>
    { lnglat := source_measurement.lnglat, distance := 0, graphid := GraphId.invalid,
      graphtype := GraphType.kUnknown, state := some s }
  | none, _ => MatchResult.ofPoint source_measurement.lnglat

/-- Function `guess_target_result`. -/
def guess_target_result (source target : Option State) (target_measurement : Measurement) :
    MatchResult :=
  match source, target with
  | some s, some t =>
    let first : GraphId × GraphType :=
      match s.RoutePath t with
      | label :: _ =>
        if label.nodeid.Is_Valid then (label.nodeid, GraphType.kNode)
        else if label.edgeid.Is_Valid then (label.edgeid, GraphType.kEdge)
        else (GraphId.invalid, GraphType.kUnknown)
      | [] => (GraphId.invalid, GraphType.kUnknown)
    { lnglat := t.candidate.vertex, distance := t.candidate.distance,
      graphid := first.1, graphtype := first.2, state := some t }
  | none, some t =>
    { lnglat := target_measurement.lnglat, distance := 0, graphid := GraphId.invalid,
      graphtype := GraphType.kUnknown, state := some t }
  | _, none => MatchResult.ofPoint target_measurement.lnglat

/-! ## Interpolation of skipped measurements -/

/-- The local variables of `interpolate`; `closest_candidate = end` and
`closest_sq_distance = +infinity` are `none`. -/
structure Closest where
  closest_candidate : Option Candidate
  closest_sq_distance : Option ℚ
  closest_graphid : GraphId
  closest_graphtype : GraphType
deriving DecidableEq, Repr

/-- The inner loops of `interpolate`: every id of the candidate found in the
graph set overwrites the closest match. -/
def interpolate.scan (graphset : List GraphId) (candidate : Candidate) (graphtype : GraphType) :
    List GraphId → Closest → Closest
  | [], closest => closest
  | id :: rest, closest =>
    if id ∈ graphset then
      interpolate.scan graphset candidate graphtype rest
        { closest_candidate := some candidate
          closest_sq_distance := some candidate.sq_distance
          closest_graphid := id
          closest_graphtype := graphtype }
    else interpolate.scan graphset candidate graphtype rest closest

/-- The test `candidate->sq_distance() < closest_sq_distance`. -/
def interpolate.closer (candidate : Candidate) (closest : Closest) : Bool :=
  match closest.closest_sq_distance with
  | none => true
  | some d => decide (candidate.sq_distance < d)

/-- The body of the candidate loop of `interpolate`. -/
def interpolate.step (reader : GraphReader) (graphset : List GraphId)
    (closest : Closest) (candidate : Candidate) : Closest :=
  if interpolate.closer candidate closest then
    if !candidate.IsNode then
      interpolate.scan graphset candidate GraphType.kEdge
        (candidate.edges.map (fun edge => edge.id)) closest
    else
      interpolate.scan graphset candidate GraphType.kNode
        (collect_nodes reader candidate) closest
  else closest

/-- Function `interpolate`. -/
def interpolate (reader : GraphReader) (graphset : List GraphId)
    (candidates : List Candidate) (measurement : Measurement) : MatchResult :=
  let closest := candidates.foldl (interpolate.step reader graphset)
    { closest_candidate := none, closest_sq_distance := none,
      closest_graphid := GraphId.invalid, closest_graphtype := GraphType.kUnknown }
  match closest.closest_candidate with
  | some c =>
    { lnglat := c.vertex, distance := c.distance, graphid := closest.closest_graphid,
      graphtype := closest.closest_graphtype, state := none }
  | none => MatchResult.ofPoint measurement.lnglat

/-- Function `collect_graphset`. -/
def collect_graphset (reader : GraphReader) (source target : Option State) : List GraphId :=
  match source, target with
  | some s, some t =>
    (s.RoutePath t).foldl (fun graphset label =>
      let graphset :=
        if label.edgeid.Is_Valid then GraphIdSet.insert graphset label.edgeid else graphset
      if label.nodeid.Is_Valid then GraphIdSet.insert graphset label.nodeid else graphset) []
  | some s, none =>
    if !s.candidate.IsNode then
      s.candidate.edges.foldl (fun graphset edge =>
        if edge.id.Is_Valid then GraphIdSet.insert graphset edge.id else graphset) []
    else
      (collect_nodes reader s.candidate).foldl (fun graphset nodeid =>
        if nodeid.Is_Valid then GraphIdSet.insert graphset nodeid else graphset) []
  | none, _ => []

/-! ## The offline driver -/

/-- The candidate index: `Query(lnglat, max_sq_search_radius, filter)`, the
edge filter being the one of the costing the model was built with. -/
structure CandidateQuery where
  Query : PointLL → ℚ → List Candidate

/-- The variables of the column building loop of `OfflineMatch`. The map
`proximate_measurements` is a total function: no entry is the empty list. -/
structure LoadState where
  mm : MapMatching
  time : Nat
  last_idx : Nat
  proximate_measurements : Nat → List Nat

/-- Element `measurements[idx]` inside the column building loop, whose indices
never exceed `end_idx`. -/
def OfflineMatch.at (measurements : List Measurement) (idx : Nat) : Measurement :=
  measurements.getD idx ⟨⟨0, 0⟩⟩

/-- The body of the column building loop of `OfflineMatch`, with the squared
great-circle distance of two points (`PointLL::DistanceSquared`) as first
argument. -/
def OfflineMatch.load (DistanceSquared : PointLL → PointLL → ℚ) (cq : CandidateQuery)
    (measurements : List Measurement) (max_sq_search_radius sq_interpolation_distance : ℚ)
    (st : LoadState) (idx : Nat) : LoadState :=
  let end_idx := measurements.length - 1
  let measurement := OfflineMatch.at measurements idx
  let sq_distance :=
    DistanceSquared (OfflineMatch.at measurements st.last_idx).lnglat measurement.lnglat
  if sq_interpolation_distance ≤ sq_distance ∨ idx = 0 ∨ idx = end_idx then
    let candidates := cq.Query measurement.lnglat max_sq_search_radius
    let appended := st.mm.AppendState measurement candidates
    { st with mm := appended.1, time := appended.2, last_idx := idx }
  else
    { st with
      proximate_measurements := fun time =>
        if time = st.time then st.proximate_measurements time ++ [idx]
        else st.proximate_measurements time }

/-- The column building loop of `OfflineMatch`, started on the cleared model. -/
def OfflineMatch.loadStates (DistanceSquared : PointLL → PointLL → ℚ) (mm : MapMatching)
    (cq : CandidateQuery) (measurements : List Measurement)
    (max_sq_search_radius interpolation_distance : ℚ) : LoadState :=
  (List.range measurements.length).foldl
    (OfflineMatch.load DistanceSquared cq measurements max_sq_search_radius
      (interpolation_distance * interpolation_distance))
    { mm := mm.Clear, time := 0, last_idx := 0, proximate_measurements := fun _ => [] }

/-- The interpolation loop of `OfflineMatch` over the skipped measurements
attached to one column. -/
def OfflineMatch.interpolateAll (reader : GraphReader) (cq : CandidateQuery)
    (measurements : List Measurement) (max_sq_search_radius : ℚ) (graphset : List GraphId) :
    List Nat → List MatchResult → Option (List MatchResult)
  | [], results => some results
  | idx :: rest, results =>
    match measurements.get? idx with
    | none => none
    | some measurement =>
      let candidates := cq.Query measurement.lnglat max_sq_search_radius
      OfflineMatch.interpolateAll reader cq measurements max_sq_search_radius graphset rest
        (results ++ [interpolate reader graphset candidates measurement])

/-- The first statement of the result loop of `OfflineMatch`: a last result
without graph id is replaced by the guessed source result. -/
def OfflineMatch.replaceSource (measurements : List Measurement)
    (source_state target_state : Option State) (results : List MatchResult) :
    Option (List MatchResult) :=
  match results.getLast? with
  | none => none
  | some back =>
    if !back.graphid.Is_Valid then
      let results := results.dropLast
      match measurements.get? results.length with
      | none => none
      | some measurement =>
        some (results ++ [guess_source_result source_state target_state measurement])
    else some results

/-- The body of the result loop of `OfflineMatch` for column `time`. -/
def OfflineMatch.assembleStep (reader : GraphReader) (cq : CandidateQuery)
    (measurements : List Measurement) (max_sq_search_radius : ℚ)
    (proximate_measurements : Nat → List Nat) (iterpath : List (Option State))
    (results : List MatchResult) (time : Nat) : Option (List MatchResult) :=
  match iterpath.get? (time - 1), iterpath.get? time with
  | some source_state, some target_state =>
    match OfflineMatch.replaceSource measurements source_state target_state results with
    | none => none
    | some results =>
      let graphset := collect_graphset reader source_state target_state
      match OfflineMatch.interpolateAll reader cq measurements max_sq_search_radius graphset
          (proximate_measurements (time - 1)) results with
      | none => none
      | some results =>
        match measurements.get? results.length with
        | none => none
        | some measurement =>
          some (results ++ [guess_target_result source_state target_state measurement])
  | _, _ => none

/-- The result loop of `OfflineMatch` over the given column times. -/
def OfflineMatch.assemble (reader : GraphReader) (cq : CandidateQuery)
    (measurements : List Measurement) (max_sq_search_radius : ℚ)
    (proximate_measurements : Nat → List Nat) (iterpath : List (Option State)) :
    List Nat → List MatchResult → Option (List MatchResult)
  | [], results => some results
  | time :: rest, results =>
    match OfflineMatch.assembleStep reader cq measurements max_sq_search_radius
        proximate_measurements iterpath results time with
    | none => none
    | some results =>
      OfflineMatch.assemble reader cq measurements max_sq_search_radius
        proximate_measurements iterpath rest results

/-- Function `OfflineMatch`. Its first two arguments stand for code outside
the sources: `PointLL::DistanceSquared`, and `ViterbiSearch::SearchPath`,
which yields the state iterators of the path from the given time back to
time 0 (each state with the routing cache the search left in it). -/
def OfflineMatch (DistanceSquared : PointLL → PointLL → ℚ)
    (SearchPath : MapMatching → Nat → List (Option State))
    (mm : MapMatching) (cq : CandidateQuery) (measurements : List Measurement)
    (max_sq_search_radius interpolation_distance : ℚ) : Option (List MatchResult) :=
  match measurements.head? with
  | none => some []
  | some front =>
    let st := OfflineMatch.loadStates DistanceSquared mm cq measurements
      max_sq_search_radius interpolation_distance
    let iterpath := (SearchPath st.mm st.time).reverse
    OfflineMatch.assemble st.mm.graphreader_ cq measurements max_sq_search_radius
      st.proximate_measurements iterpath (List.range' 1 (st.mm.size - 1))
      [MatchResult.ofPoint front.lnglat]

/-! ## Edge segments and route reconstruction -/

/-- Struct `EdgeSegment`. -/
structure EdgeSegment where
  edgeid : GraphId
  source : ℚ
  target : ℚ
deriving DecidableEq, Repr

/-- The constructor of `EdgeSegment`, which throws `invalid_argument` unless
`0 <= source <= target <= 1`. -/
def EdgeSegment.new (the_edgeid : GraphId) (the_source the_target : ℚ) :
    Except Exn EdgeSegment :=
  if ¬ (0 ≤ the_source ∧ the_source ≤ the_target ∧ the_target ≤ 1) then
    Except.error (Exn.invalid_argument "Expect 0.f <= source <= source <= 1.f")
  else
    Except.ok { edgeid := the_edgeid, source := the_source, target := the_target }

/-- Method `EdgeSegment::Adjoined`. -/
def EdgeSegment.Adjoined (graphreader : GraphReader) (self other : EdgeSegment) : Bool :=
  if self.edgeid ≠ other.edgeid then
    if self.target = 1 ∧ other.source = 0 then
      let endnode := graphreader.edge_endnodeid self.edgeid
      decide (endnode = graphreader.edge_startnodeid other.edgeid) && endnode.Is_Valid
    else false
  else decide (self.target = other.source)

/-- The segment loop of `ValidateRoute`; `prev_segment` is the segment before
the current one and `first` tells that it is the first (dummy) segment. -/
def ValidateRoute.loop (graphreader : GraphReader) :
    EdgeSegment → Bool → List EdgeSegment → Bool
  | _, _, [] => true
  | prev_segment, first, segment :: rest =>
    if !segment.edgeid.Is_Valid then false
    else if first then ValidateRoute.loop graphreader segment false rest
    else if prev_segment.edgeid = segment.edgeid then
      if prev_segment.target ≠ segment.source then
        let endnodeid := graphreader.edge_endnodeid prev_segment.edgeid
        let startnodeid := graphreader.edge_startnodeid segment.edgeid
        if endnodeid = startnodeid then true
        else false
      else ValidateRoute.loop graphreader segment false rest
    else
      let endnodeid := graphreader.edge_endnodeid prev_segment.edgeid
      let startnodeid := graphreader.edge_startnodeid segment.edgeid
      if ¬ (prev_segment.target = 1 ∧ segment.source = 0 ∧ endnodeid = startnodeid) then false
      else ValidateRoute.loop graphreader segment false rest

/-- Function `ValidateRoute`. -/
def ValidateRoute (graphreader : GraphReader) : List EdgeSegment → Bool
  | [] => true
  | segment_begin :: rest =>
    if ¬ (segment_begin.edgeid.Is_Valid = false ∧ segment_begin.source = 0
        ∧ segment_begin.target = 0) then false
    else ValidateRoute.loop graphreader segment_begin true rest

/-- The segment loop of `MergeRoute` over the segments after the first one:
the route as the loop leaves it, and the exception if one was thrown. -/
def MergeRoute.loop : List EdgeSegment → List EdgeSegment → List EdgeSegment × Option Exn
  | route, [] => (route, none)
  | route, segment :: rest =>
    if !segment.edgeid.Is_Valid then
      (route, some (Exn.runtime_error "Still found an invalid edgeid in route segments"))
    else
      match route.getLast? with
      | some last_segment =>
        if last_segment.edgeid = segment.edgeid then
          MergeRoute.loop
            (route.dropLast ++
              [{ last_segment with target := fmax last_segment.target segment.target }])
            rest
        else MergeRoute.loop (route ++ [segment]) rest
      | none => MergeRoute.loop (route ++ [segment]) rest

/-- Function `MergeRoute`: the route (passed by reference) after the call, and
the exception if one was thrown. -/
def MergeRoute (route : List EdgeSegment) : List EdgeSegment → List EdgeSegment × Option Exn
  | [] => (route, none)
  | _ :: rest => MergeRoute.loop route rest

/-- The inner loop of `ConstructRoute`: one `EdgeSegment` is constructed per
label of the chain, in the order of the chain. -/
def ConstructRoute.segments : List Label → Except Exn (List EdgeSegment)
  | [] => Except.ok []
  | segment :: rest =>
    match EdgeSegment.new segment.edgeid segment.source segment.target with
    | Except.error e => Except.error e
    | Except.ok s =>
      match ConstructRoute.segments rest with
      | Except.error e => Except.error e
      | Except.ok segments => Except.ok (s :: segments)

/-- The match loop of `ConstructRoute`; `previous_match` is the state of the
previous match that carries one. -/
def ConstructRoute.loop (graphreader : GraphReader) :
    List MatchResult → Option State → List EdgeSegment → Except Exn (List EdgeSegment)
  | [], _, route => Except.ok route
  | m :: rest, previous_match, route =>
    match m.state with
    | none => ConstructRoute.loop graphreader rest previous_match route
    | some state =>
      match previous_match with
      | none => ConstructRoute.loop graphreader rest (some state) route
      | some previous =>
        match ConstructRoute.segments (previous.RoutePath state) with
        | Except.error e => Except.error e
        | Except.ok segments =>
          if ValidateRoute graphreader segments.reverse then
            match MergeRoute route segments.reverse with
            | (_, some e) => Except.error e
            | (route, none) => ConstructRoute.loop graphreader rest (some state) route
          else Except.error (Exn.runtime_error "Found invalid route")

/-- Function `ConstructRoute`. -/
def ConstructRoute (graphreader : GraphReader) (ms : List MatchResult) :
    Except Exn (List EdgeSegment) :=
  ConstructRoute.loop graphreader ms none []

/-! ## The HMM model: construction, routing cache and costs -/

/-- The `std::min` of two floats: `(b < a) ? b : a`. -/
def fmin (a b : ℚ) : ℚ := if b < a then b else a

/-- The constructor of `MapMatching` from the five HMM parameters: the member
initialisers, the three checks and the turn cost table loop over the degrees
`0..180`. Its first argument stands for `std::exp`. -/
def MapMatching.new (exp : ℚ → ℚ) (graphreader : GraphReader)
    (sigma_z beta breakage_distance max_route_distance_factor turn_penalty_factor : ℚ) :
    Except Exn MapMatching :=
  let mm : MapMatching :=
    { graphreader_ := graphreader
      measurements_ := []
      states_ := []
      sigma_z_ := sigma_z
      inv_double_sq_sigma_z_ := 1 / (sigma_z * sigma_z * 2)
      beta_ := beta
      inv_beta_ := 1 / beta
      breakage_distance_ := breakage_distance
      max_route_distance_factor_ := max_route_distance_factor
      turn_penalty_factor_ := turn_penalty_factor
      turn_cost_table_ := List.replicate 181 0
      state_ := []
      unreached_states_ := [] }
  if sigma_z ≤ 0 then
    Except.error (Exn.invalid_argument "Expect sigma_z to be positive")
  else if beta ≤ 0 then
    Except.error (Exn.invalid_argument "Expect beta to be positive")
  else if 0 < turn_penalty_factor then
    Except.ok { mm with
      turn_cost_table_ :=
        (List.range 181).map (fun (i : Nat) => turn_penalty_factor * exp (-(i : ℚ) / 45)) }
  else if turn_penalty_factor < 0 then
    Except.error (Exn.invalid_argument "Expect turn penalty factor to be nonnegative")
  else Except.ok mm

/-- The signature of `find_shortest_path` (declared in `sp.h`, not part of
the sources), which the model takes as a parameter: graph reader, locations
(the origin first), origin index, cost bound of the label set it fills, seed
edge label and turn cost table; it gives the filled label set and the map from
destination index to label index. The costing is fixed within it. -/
abbrev ShortestPath :=
  GraphReader → List Candidate → Nat → Int → Option Nat → List ℚ → LabelSet × List (Nat × Nat)

/-- The assignment `label_idx_[id] = idx` of a `std::unordered_map`. -/
def LabelIndex.assign (label_idx_ : List (Nat × Nat)) (id idx : Nat) : List (Nat × Nat) :=
  (id, idx) :: label_idx_.filter (fun entry => entry.1 != id)

/-- The caching loop of `State::route` over the target states; `dest` is the
16-bit destination counter. -/
def State.route.cache (results : List (Nat × Nat)) :
    List State → Nat → List (Nat × Nat) → List (Nat × Nat)
  | [], _, label_idx_ => label_idx_
  | state :: rest, dest, label_idx_ =>
    let label_idx_ :=
      match results.lookup dest with
      | some idx => LabelIndex.assign label_idx_ state.id idx
      | none => label_idx_
    State.route.cache results rest ((dest + 1) % 65536) label_idx_

/-- Method `State::route`: the state with its routing cache filled. -/
def State.route (find_shortest_path : ShortestPath) (s : State) (states : List State)
    (graphreader : GraphReader) (max_route_distance : ℚ) (edgelabel : Option Nat)
    (turn_cost_table : List ℚ) : State :=
  let locations := s.candidate :: states.map State.candidate
  let routed := find_shortest_path graphreader locations 0 ⌈max_route_distance⌉ edgelabel
    turn_cost_table
  { s with
    labelset_ := some routed.1
    label_idx_ := State.route.cache routed.2 states 1 [] }

/-- Method `State::last_label`: `some none` is the null pointer, and `none`
stands for the access to a label outside the label set. -/
def State.last_label (s state : State) : Option (Option Label) :=
  match s.label_idx_.lookup state.id with
  | some idx =>
    match s.labelset_ with
    | some labelset => (labelset.labels.get? idx).map some
    | none => none
  | none => some none

/-- Method `MapMatching::MaxRouteDistance`, with the great-circle distance of
two points (`PointLL::Distance`) as first argument. -/
def MapMatching.MaxRouteDistance (Distance : PointLL → PointLL → ℚ) (mm : MapMatching)
    (left right : State) : Option ℚ :=
  match mm.measurements_.get? left.time, mm.measurements_.get? right.time with
  | some left_measurement, some right_measurement =>
    let mmt_distance := Distance left_measurement.lnglat right_measurement.lnglat
    some (fmin (mmt_distance * mm.max_route_distance_factor_) mm.breakage_distance_)
  | _, _ => none

/-- The seed edge label `TransitionCost` looks up for a state that is not
routed yet; `predecessor` stands for `ViterbiSearch::predecessor`, with `none`
for `kInvalidStateId`. -/
def MapMatching.TransitionCost.edgelabel (predecessor : Nat → Option Nat) (mm : MapMatching)
    (left : State) : Option (Option Nat) :=
  match predecessor left.id with
  | some prev_stateid =>
    match mm.state_.get? prev_stateid with
    | some prev_state =>
      match prev_state.last_label left with
      | some (some label) => some label.edgelabel
      | some none => some none
      | none => none
    | none => none
  | none => some none

/-- The first statement of `TransitionCost`: the state at arena position
`left` is routed unless it is routed already. -/
def MapMatching.TransitionCost.routeLeft (Distance : PointLL → PointLL → ℚ)
    (find_shortest_path : ShortestPath) (predecessor : Nat → Option Nat) (mm : MapMatching)
    (left : Nat) (l r : State) : Option MapMatching :=
  if !l.routed then
    match MapMatching.TransitionCost.edgelabel predecessor mm l,
        mm.unreached_states_.get? r.time, mm.MaxRouteDistance Distance l r with
    | some edgelabel, some targets, some max_route_distance =>
      some { mm with
        state_ := mm.state_.set left
          (l.route find_shortest_path targets mm.graphreader_ max_route_distance edgelabel
            mm.turn_cost_table_) }
    | _, _, _ => none
  else some mm

/-- Method `MapMatching::TransitionCost` for the states at the arena positions
`left` and `right`: the cost and the model with the routing cache of `left`
filled. -/
def MapMatching.TransitionCost (Distance : PointLL → PointLL → ℚ)
    (find_shortest_path : ShortestPath) (predecessor : Nat → Option Nat) (mm : MapMatching)
    (left right : Nat) : Option (ℚ × MapMatching) :=
  match mm.state_.get? left, mm.state_.get? right with
  | some l, some r =>
    match MapMatching.TransitionCost.routeLeft Distance find_shortest_path predecessor mm
        left l r with
    | some mm =>
      match mm.state_.get? left with
      | some l =>
        match l.last_label r with
        | some (some label) =>
          match mm.measurements_.get? l.time, mm.measurements_.get? r.time with
          | some left_measurement, some right_measurement =>
            let mmt_distance := Distance left_measurement.lnglat right_measurement.lnglat
            some ((label.turn_cost + |label.cost - mmt_distance|) * mm.inv_beta_, mm)
          | _, _ => none
        | some none => some (-1, mm)
        | none => none
      | none => none
    | none => none
  | _, _ => none

/-- Method `MapMatching::EmissionCost`. -/
def MapMatching.EmissionCost (mm : MapMatching) (state : State) : ℚ :=
  state.candidate.sq_distance * mm.inv_double_sq_sigma_z_

/-- Method `MapMatching::CostSofar`. -/
def MapMatching.CostSofar (prev_costsofar transition_cost emission_cost : ℚ) : ℚ :=
  prev_costsofar + transition_cost + emission_cost

/-! ## Configuration trees and the matcher factory

A `boost::property_tree::ptree` is a node with a data string and an ordered
list of keyed children; keys may repeat. The keys and mode names handled here
are single path fragments (they hold no path separator `.`), so that a path is
a key. The exceptions of the property tree (`ptree_bad_path`) are runtime
errors, as in their C++ class hierarchy. -/

/-- Class `boost::property_tree::ptree`. -/
inductive ptree where
  | node (data : String) (children : List (String × ptree))

/-- The data of a tree. -/
def ptree.data : ptree → String
  | ptree.node data _ => data

/-- The children of a tree, in order. -/
def ptree.children : ptree → List (String × ptree)
  | ptree.node _ children => children

/-- The default constructor `ptree()`. -/
def ptree.empty : ptree := ptree.node "" []

/-- Method `ptree::get_child_optional` for a key: the first child with that
key. -/
def ptree.get_child_optional (t : ptree) (key : String) : Option ptree :=
  t.children.lookup key

/-- Method `ptree::get_child` for a key, which throws `ptree_bad_path` when
there is no such child. -/
def ptree.get_child (t : ptree) (key : String) : Except Exn ptree :=
  match t.get_child_optional key with
  | some child => Except.ok child
  | none => Except.error (Exn.runtime_error ("No such node (" ++ key ++ ")"))

/-- The child list after `put_child(key, value)`: the first child with that key
is replaced, and without such a child the new one is pushed at the back. -/
def ptree.put_child.go (key : String) (value : ptree) :
    List (String × ptree) → List (String × ptree)
  | [] => [(key, value)]
  | child :: rest =>
    if child.1 = key then (key, value) :: rest
    else child :: ptree.put_child.go key value rest

/-- Method `ptree::put_child` for a key. -/
def ptree.put_child (t : ptree) (key : String) (value : ptree) : ptree :=
  ptree.node t.data (ptree.put_child.go key value t.children)

/-- Method `ptree::get<std::string>(key)`: the data of the child. -/
def ptree.get_string (t : ptree) (key : String) : Except Exn String :=
  match t.get_child key with
  | Except.ok child => Except.ok child.data
  | Except.error e => Except.error e

/-- Method `ptree::get<std::string>(key, default_value)`. -/
def ptree.get_string_or (t : ptree) (key : String) (default_value : String) : String :=
  match t.get_child_optional key with
  | some child => child.data
  | none => default_value

/-- The constructor of `MapMatching` from a configuration tree. Its first
argument stands for `ptree::get<float>`; the five parameters are read in the
order in which they are written. -/
def MapMatching.ofConfig (get_float : ptree → String → Except Exn ℚ) (exp : ℚ → ℚ)
    (graphreader : GraphReader) (config : ptree) : Except Exn MapMatching :=
  match get_float config "sigma_z" with
  | Except.error e => Except.error e
  | Except.ok sigma_z =>
    match get_float config "beta" with
    | Except.error e => Except.error e
    | Except.ok beta =>
      match get_float config "breakage_distance" with
      | Except.error e => Except.error e
      | Except.ok breakage_distance =>
        match get_float config "max_route_distance_factor" with
        | Except.error e => Except.error e
        | Except.ok max_route_distance_factor =>
          match get_float config "turn_penalty_factor" with
          | Except.error e => Except.error e
          | Except.ok turn_penalty_factor =>
            MapMatching.new exp graphreader sigma_z beta breakage_distance
              max_route_distance_factor turn_penalty_factor

/-- Class `MapMatcher`; the travel mode is the index of its costing. -/
structure MapMatcher where
  config_ : ptree
  graphreader_ : GraphReader
  travelmode_ : Nat
  mapmatching_ : MapMatching

/-- The constructor of `MapMatcher`. -/
def MapMatcher.new (get_float : ptree → String → Except Exn ℚ) (exp : ℚ → ℚ)
    (config : ptree) (graphreader : GraphReader) (travelmode : Nat) :
    Except Exn MapMatcher :=
  match MapMatching.ofConfig get_float exp graphreader config with
  | Except.error e => Except.error e
  | Except.ok mapmatching =>
    Except.ok { config_ := config, graphreader_ := graphreader, travelmode_ := travelmode,
                mapmatching_ := mapmatching }

/-- The constant `kModeCostingCount`. -/
def kModeCostingCount : Nat := 8

/-- A costing (`sif::cost_ptr_t`), of which the factory uses the travel mode
only. -/
structure Costing where
  travelmode : Nat
deriving DecidableEq, Repr

/-- Class `MapMatcherFactory`: the `mm` configuration, the graph reader, and
the arrays `mode_costing_` and `mode_name_`, of which the slots below
`kModeCostingCount` are used. -/
structure MapMatcherFactory where
  config_ : ptree
  graphreader_ : GraphReader
  mode_costing_ : Nat → Option Costing
  mode_name_ : Nat → String

/-- Method `MapMatcherFactory::NameToTravelMode`. -/
def MapMatcherFactory.NameToTravelMode (f : MapMatcherFactory) (name : String) :
    Except Exn Nat :=
  match (List.range kModeCostingCount).find?
      (fun idx => decide (name ≠ "" ∧ f.mode_name_ idx = name)) with
  | some idx => Except.ok idx
  | none => Except.error (Exn.invalid_argument ("Invalid costing name: " ++ name))

/-- Method `MapMatcherFactory::TravelModeToName`. -/
def MapMatcherFactory.TravelModeToName (f : MapMatcherFactory) (travelmode : Nat) :
    Except Exn String :=
  let index := travelmode
  if index < kModeCostingCount ∧ f.mode_name_ index ≠ "" then Except.ok (f.mode_name_ index)
  else Except.error (Exn.invalid_argument ("Invalid travelmode code " ++ toString index))

/-- Method `MapMatcherFactory::MergeConfig(const std::string&, const ptree&)`,
the overload that returns a new tree. -/
def MapMatcherFactory.MergeConfig (f : MapMatcherFactory) (name : String)
    (preferences : ptree) : Except Exn ptree :=
  match f.config_.get_child "default" with
  | Except.error e => Except.error e
  | Except.ok config =>
    let config :=
      match f.config_.get_child_optional name with
      | some mode_config =>
        mode_config.children.foldl (fun config child => config.put_child child.1 child.2) config
      | none => config
    Except.ok
      (preferences.children.foldl (fun config child => config.put_child child.1 child.2) config)

/-- Method `MapMatcherFactory::Create(sif::TravelMode, const ptree&)`. -/
def MapMatcherFactory.Create (get_float : ptree → String → Except Exn ℚ) (exp : ℚ → ℚ)
    (f : MapMatcherFactory) (travelmode : Nat) (preferences : ptree) :
    Except Exn MapMatcher :=
  match f.TravelModeToName travelmode with
  | Except.error e => Except.error e
  | Except.ok name =>
    match f.MergeConfig name preferences with
    | Except.error e => Except.error e
    | Except.ok config => MapMatcher.new get_float exp config f.graphreader_ travelmode

/-- Method `MapMatcherFactory::Create(const std::string&)`. -/
def MapMatcherFactory.CreateByName (get_float : ptree → String → Except Exn ℚ) (exp : ℚ → ℚ)
    (f : MapMatcherFactory) (name : String) : Except Exn MapMatcher :=
  match f.NameToTravelMode name with
  | Except.error e => Except.error e
  | Except.ok travelmode => f.Create get_float exp travelmode ptree.empty

/-- Method `MapMatcherFactory::Create(const ptree&)`; the default value
`config_.get<std::string>("mode")` is evaluated before `preferences` is
asked. -/
def MapMatcherFactory.CreateFromPreferences (get_float : ptree → String → Except Exn ℚ)
    (exp : ℚ → ℚ) (f : MapMatcherFactory) (preferences : ptree) : Except Exn MapMatcher :=
  match f.config_.get_string "mode" with
  | Except.error e => Except.error e
  | Except.ok default_value =>
    let name := preferences.get_string_or "mode" default_value
    match f.NameToTravelMode name with
    | Except.error e => Except.error e
    | Except.ok travelmode =>
      match f.MergeConfig name preferences with
      | Except.error e => Except.error e
      | Except.ok _ => f.Create get_float exp travelmode preferences

/-- Method `MapMatcherFactory::register_costing`, with the costing the factory
function has made: the updated factory and the index of the slot. -/
def MapMatcherFactory.register_costing (f : MapMatcherFactory) (mode_name : String)
    (costing : Costing) : Except Exn (MapMatcherFactory × Nat) :=
  let index := costing.travelmode
  if ¬ index < kModeCostingCount then
    Except.error (Exn.out_of_range "Configuration error: out of bounds")
  else if (f.mode_costing_ index).isSome then
    Except.error (Exn.runtime_error "Configuration error: found duplicate travel mode")
  else
    Except.ok
      ({ f with
          mode_costing_ := fun i => if i = index then some costing else f.mode_costing_ i
          mode_name_ := fun i => if i = index then mode_name else f.mode_name_ i }, index)

/-- Method `MapMatcherFactory::init_costings`, with the costings the four
factory functions have made. -/
def MapMatcherFactory.init_costings (f : MapMatcherFactory)
    (auto bicycle pedestrian multimodal : Costing) : Except Exn MapMatcherFactory :=
  match f.register_costing "auto" auto with
  | Except.error e => Except.error e
  | Except.ok r =>
    match r.1.register_costing "bicycle" bicycle with
    | Except.error e => Except.error e
    | Except.ok r =>
      match r.1.register_costing "pedestrian" pedestrian with
      | Except.error e => Except.error e
      | Except.ok r =>
        match r.1.register_costing "multimodal" multimodal with
        | Except.error e => Except.error e
        | Except.ok r => Except.ok r.1


/-- The dummy segment `(invalid, 0, 0)`. -/
def EdgeSegment.dummy : EdgeSegment := ⟨GraphId.invalid, 0, 0⟩

/-- A segment is a dummy: invalid edge id, `source == 0` and `target == 0`. -/
abbrev EdgeSegment.IsDummy (s : EdgeSegment) : Prop :=
  s.edgeid.Is_Valid = false ∧ s.source = 0 ∧ s.target = 0

/-- The range condition `0 <= source <= target <= 1` of a segment. -/
abbrev EdgeSegment.InRange (s : EdgeSegment) : Prop :=
  0 ≤ s.source ∧ s.source ≤ s.target ∧ s.target ≤ 1

/-- Adjacency of two segments as the specification words it: the same edge
with `prev.target == cur.source`, or different edges with `prev.target == 1`,
`cur.source == 0` and `end_node(prev.edge) == start_node(cur.edge)`. -/
abbrev SpecAdjoined (g : GraphReader) (a b : EdgeSegment) : Prop :=
  (a.edgeid = b.edgeid ∧ a.target = b.source) ∨
  (a.edgeid ≠ b.edgeid ∧ a.target = 1 ∧ b.source = 0 ∧
    g.edge_endnodeid a.edgeid = g.edge_startnodeid b.edgeid)

/-- Adjacency in the sense of section 4.6: same-edge adjacency or cross-edge
adjacency. -/
abbrev Sec46Adjoined (g : GraphReader) (a b : EdgeSegment) : Prop :=
  (a.edgeid = b.edgeid ∧ a.target = b.source) ∨
  (a.target = 1 ∧ b.source = 0 ∧
    g.edge_endnodeid a.edgeid = g.edge_startnodeid b.edgeid)

/-- Two consecutive segments are linked when they lie on the same edge or are
adjoined in the sense of section 4.6. -/
abbrev Linked (g : GraphReader) (a b : EdgeSegment) : Prop :=
  a.edgeid = b.edgeid ∨ Sec46Adjoined g a b

/-- One step of merging as the specification words it: a segment on the edge
of the last entry of the route is collapsed into that entry, whose target
becomes the maximum of the two targets; any other segment is appended. -/
def MergeSpec.step (route : List EdgeSegment) (segment : EdgeSegment) : List EdgeSegment :=
  match route.getLast? with
  | some last =>
    if last.edgeid = segment.edgeid then
      route.dropLast ++ [{ last with target := max last.target segment.target }]
    else route ++ [segment]
  | none => route ++ [segment]

/-- Merging as the specification words it: the steps over the segments after
the first (dummy) one, in order. -/
def MergeSpec (route segments : List EdgeSegment) : List EdgeSegment :=
  segments.tail.foldl MergeSpec.step route

/-- No two adjacent entries of a route have the same edge id. -/
abbrev NoRepeatedEdge (route : List EdgeSegment) : Prop :=
  List.Chain' (fun a b => a.edgeid ≠ b.edgeid) route

/-- The segment a label stands for, before the range check of the
constructor. -/
def Label.segment (label : Label) : EdgeSegment :=
  ⟨label.edgeid, label.source, label.target⟩

/-- The chains `ConstructRoute` reads: for each match that carries a state,
after the first such match, the labels between the previous state and this
one, in chronological order. -/
def ConstructRoute.chains : List MatchResult → Option State → List (List EdgeSegment)
  | [], _ => []
  | m :: rest, previous_match =>
    match m.state with
    | none => ConstructRoute.chains rest previous_match
    | some state =>
      match previous_match with
      | none => ConstructRoute.chains rest (some state)
      | some previous =>
        ((previous.RoutePath state).reverse.map Label.segment) ::
          ConstructRoute.chains rest (some state)

/-- No two consecutive non-dummy segments of a chain lie on the same edge with
mismatched offsets (the case `ValidateRoute` tolerates for self-loops). -/
abbrev NoMismatch (chain : List EdgeSegment) : Prop :=
  List.Chain' (fun a b => a.edgeid = b.edgeid → a.target = b.source) chain.tail

/-- Where two chains meet, the last non-dummy segment read so far and the
first non-dummy segment of the next chain are linked. -/
def JunctionsLinked (g : GraphReader) : Option EdgeSegment → List (List EdgeSegment) → Prop
  | _, [] => True
  | last, chain :: rest =>
    (∀ x ∈ last, ∀ y ∈ chain.tail.head?, Linked g x y) ∧
      JunctionsLinked g (chain.tail.getLast?.or last) rest

/-- The relation between the route built so far and the last non-dummy segment
read so far that `MergeRoute` maintains: adjacent entries are adjoined, the
entries are in range, and the last entry lies on the edge of the last
segment read and reaches at least as far. -/
def MergeInv (g : GraphReader) (route : List EdgeSegment) (read : Option EdgeSegment) : Prop :=
  List.Chain' (Sec46Adjoined g) route ∧ (∀ x ∈ route, x.InRange) ∧
    match read, route.getLast? with
    | none, none => True
    | some p, some l => l.edgeid = p.edgeid ∧ p.target ≤ l.target
    | _, _ => False

/-- A candidate matches a graph set: a non-node candidate when one of its edge
ids is in the graph set, a node candidate when one of its `collect_nodes` ids
is in the graph set. -/
def CandidateMatches (reader : GraphReader) (graphset : List GraphId) (c : Candidate) : Prop :=
  if c.IsNode then ∃ id ∈ collect_nodes reader c, id ∈ graphset
  else ∃ edge ∈ c.edges, edge.id ∈ graphset

/-- The graph attachment `(id, type)` belongs to the candidate and to the graph
set: an edge id of a non-node candidate with type `kEdge`, a collected node id
of a node candidate with type `kNode`. -/
def AttachedTo (reader : GraphReader) (graphset : List GraphId) (c : Candidate)
    (id : GraphId) (graphtype : GraphType) : Prop :=
  id ∈ graphset ∧
    if c.IsNode then id ∈ collect_nodes reader c ∧ graphtype = GraphType.kNode
    else (∃ edge ∈ c.edges, edge.id = id) ∧ graphtype = GraphType.kEdge

/-- The invariant of the candidate loop of `interpolate` over the candidates
seen so far. -/
def interpolate.Inv (reader : GraphReader) (graphset : List GraphId) (seen : List Candidate)
    (closest : Closest) : Prop :=
  match closest.closest_candidate with
  | none => closest.closest_sq_distance = none ∧
      ∀ c ∈ seen, ¬ CandidateMatches reader graphset c
  | some c => c ∈ seen ∧ closest.closest_sq_distance = some c.sq_distance ∧
      (∀ c2 ∈ seen, CandidateMatches reader graphset c2 → c.sq_distance ≤ c2.sq_distance) ∧
      AttachedTo reader graphset c closest.closest_graphid closest.closest_graphtype

/-- The most recently admitted measurement among the measurements `0..i`, as
the specification words the column building pass: measurement 0 is admitted,
and a later measurement is admitted when it is the last one or lies at a
squared distance of at least `d2` from the most recently admitted one. -/
def Spec.last_admitted (DistanceSquared : PointLL → PointLL → ℚ) (ms : List Measurement)
    (d2 : ℚ) : Nat → Nat
  | 0 => 0
  | i + 1 =>
    if i + 1 = ms.length - 1 ∨
        d2 ≤ DistanceSquared
          (OfflineMatch.at ms (Spec.last_admitted DistanceSquared ms d2 i)).lnglat
          (OfflineMatch.at ms (i + 1)).lnglat
    then i + 1
    else Spec.last_admitted DistanceSquared ms d2 i

/-- Measurement `i` is admitted: `i == 0`, or `i == n - 1`, or its squared
distance from the most recently admitted measurement before it is at least
`d2`. -/
def Spec.admitted (DistanceSquared : PointLL → PointLL → ℚ) (ms : List Measurement)
    (d2 : ℚ) (i : Nat) : Bool :=
  decide (i = 0 ∨ i = ms.length - 1 ∨
    d2 ≤ DistanceSquared
      (OfflineMatch.at ms (Spec.last_admitted DistanceSquared ms d2 (i - 1))).lnglat
      (OfflineMatch.at ms i).lnglat)

/-- The column time of an admitted measurement `j`: the number of measurements
admitted before it. -/
def Spec.column_time (DistanceSquared : PointLL → PointLL → ℚ) (ms : List Measurement)
    (d2 : ℚ) (j : Nat) : Nat :=
  ((List.range j).filter (Spec.admitted DistanceSquared ms d2)).length

/-- The skipped measurements keyed by column time `t`: the measurements that
are not admitted and whose most recently admitted measurement has column time
`t`. -/
def Spec.skipped (DistanceSquared : PointLL → PointLL → ℚ) (ms : List Measurement)
    (d2 : ℚ) (t : Nat) (i : Nat) : Bool :=
  !Spec.admitted DistanceSquared ms d2 i &&
    decide (Spec.column_time DistanceSquared ms d2
      (Spec.last_admitted DistanceSquared ms d2 i) = t)

/-- The state of the column building loop after the measurements `0..k-1`. -/
def OfflineMatch.loadPrefix (DistanceSquared : PointLL → PointLL → ℚ) (mm : MapMatching)
    (cq : CandidateQuery) (measurements : List Measurement)
    (max_sq_search_radius interpolation_distance : ℚ) (k : Nat) : LoadState :=
  (List.range k).foldl
    (OfflineMatch.load DistanceSquared cq measurements max_sq_search_radius
      (interpolation_distance * interpolation_distance))
    { mm := mm.Clear, time := 0, last_idx := 0, proximate_measurements := fun _ => [] }

/-- The number of skipped measurements attached to the column times below
`T`. -/
def Spec.skipped_count (proximate_measurements : Nat → List Nat) (T : Nat) : Nat :=
  ((List.range T).map (fun t => (proximate_measurements t).length)).sum

/-- What the constructor of `MapMatching` establishes about the parameters and
the values derived from them: `sigma_z` and `beta` are positive, the turn
penalty factor is not negative, `inv_double_sq_sigma_z_` is
`1 / (sigma_z * sigma_z * 2)` and `inv_beta_` is `1 / beta`. -/
def MapMatching.Constructed (mm : MapMatching) : Prop :=
  0 < mm.sigma_z_ ∧ 0 < mm.beta_ ∧ 0 ≤ mm.turn_penalty_factor_ ∧
    mm.inv_double_sq_sigma_z_ = 1 / (mm.sigma_z_ * mm.sigma_z_ * 2) ∧
    mm.inv_beta_ = 1 / mm.beta_

/-- The column `AppendState` builds: one new state per candidate, in candidate
order, with the column time and, as id, its position in the state arena. -/
def Spec.new_column (mm : MapMatching) (candidates : List Candidate) : List State :=
  (candidates.enumFrom mm.state_.length).map (fun p => State.new p.1 mm.states_.length p.2)

/-- The ids of the arena are the positions of its states. -/
def MapMatching.IdsArePositions (mm : MapMatching) : Prop :=
  ∀ (i : Nat) (s : State), mm.state_.get? i = some s → s.id = i

/-- The operations of a matching session between two calls of `Clear`: the
evaluation of a transition cost, with the predecessor links of the search at
that moment, and the appending of a column. -/
inductive Spec.Op where
  | transition (predecessor : Nat → Option Nat) (left right : Nat)
  | append (measurement : Measurement) (candidates : List Candidate)

/-- The arena position of the state on which an operation calls `route`: the
left state of a transition when `routed()` is false for it. -/
def Spec.routes (mm : MapMatching) : Spec.Op → Option Nat
  | .transition _ left _ =>
    match mm.state_.get? left with
    | some l => if !l.routed then some left else none
    | none => none
  | .append _ _ => none

/-- The model after an operation. -/
def Spec.apply (Distance : PointLL → PointLL → ℚ) (find_shortest_path : ShortestPath)
    (mm : MapMatching) : Spec.Op → Option MapMatching
  | .transition predecessor left right =>
    (mm.TransitionCost Distance find_shortest_path predecessor left right).map Prod.snd
  | .append measurement candidates => some (mm.AppendState measurement candidates).1

/-- A session: the operations are applied in order; the result is the list of
the arena positions on which `route` was called, in call order, and the final
model. -/
def Spec.session (Distance : PointLL → PointLL → ℚ) (find_shortest_path : ShortestPath) :
    MapMatching → List Spec.Op → Option (List Nat × MapMatching)
  | mm, [] => some ([], mm)
  | mm, op :: rest =>
    match Spec.apply Distance find_shortest_path mm op with
    | some mm2 =>
      match Spec.session Distance find_shortest_path mm2 rest with
      | some (log, mm3) => some ((Spec.routes mm op).toList ++ log, mm3)
      | none => none
    | none => none

/-- The states of the matches that carry one, in match order. -/
def Spec.matched_states (ms : List MatchResult) : List State :=
  ms.filterMap (fun m => m.state)

/-- The consecutive pairs of a list of states. -/
def Spec.consecutive : List State → List (State × State)
  | a :: b :: rest => (a, b) :: Spec.consecutive (b :: rest)
  | _ => []

/-- The chain between the two states of a pair in chronological order: the
labels from the root to the label that reaches the second state, as
segments. -/
def Spec.chain (p : State × State) : List EdgeSegment :=
  (p.1.RoutePath p.2).reverse.map Label.segment

/-- Every label between the two states of a pair has offsets with
`0 <= source <= target <= 1`, so that its segment can be constructed. -/
def Spec.InRangeChain (p : State × State) : Prop :=
  ∀ label ∈ p.1.RoutePath p.2, 0 ≤ label.source ∧ label.source ≤ label.target
    ∧ label.target ≤ 1

/-- What the claim lets `ConstructRoute` do with one pair of states: an
exception of the segment constructor is passed on, a chain `ValidateRoute`
rejects is a runtime error, and an accepted chain is merged into the route. -/
def Spec.construct_pair (g : GraphReader) (route : List EdgeSegment) (p : State × State) :
    Except Exn (List EdgeSegment) :=
  match ConstructRoute.segments (p.1.RoutePath p.2) with
  | Except.error e => Except.error e
  | Except.ok _ =>
    if ValidateRoute g (Spec.chain p) then
      match MergeRoute route (Spec.chain p) with
      | (_, some e) => Except.error e
      | (route, none) => Except.ok route
    else Except.error (Exn.runtime_error "Found invalid route")

/-- The pairs are handled in order, up to the first exception. -/
def Spec.construct (g : GraphReader) :
    List EdgeSegment → List (State × State) → Except Exn (List EdgeSegment)
  | route, [] => Except.ok route
  | route, p :: rest =>
    match Spec.construct_pair g route p with
    | Except.error e => Except.error e
    | Except.ok route => Spec.construct g route rest

/-- The graph attachment a label offers: its node id when that is valid,
else its edge id when that is valid. -/
def Spec.attachment (label : Label) : Option (GraphId × GraphType) :=
  if label.nodeid.Is_Valid then some (label.nodeid, GraphType.kNode)
  else if label.edgeid.Is_Valid then some (label.edgeid, GraphType.kEdge)
  else none

/-- The node id an edge projection contributes to `collect_nodes`: for a
projection on an existing edge (valid id) at offset 0 the end node of the
opposing edge, at offset 1 the end node of the edge itself, when the graph
holds that edge; nothing otherwise. -/
def Spec.contribution (reader : GraphReader) (edge : PathEdge) : Option GraphId :=
  if edge.id.Is_Valid then
    if edge.dist = 0 then (reader.GetOpposingEdge edge.id).map (fun e => e.endnode)
    else if edge.dist = 1 then
      ((reader.GetGraphTile edge.id).bind (fun tile => tile.directededge edge.id)).map
        (fun e => e.endnode)
    else none
  else none

/-- Two states of one model: the graph reader, the HMM parameters and the turn
cost table are the same. -/
def Spec.SameModel (a b : MapMatching) : Prop :=
  a.graphreader_ = b.graphreader_ ∧ a.sigma_z_ = b.sigma_z_ ∧
  a.inv_double_sq_sigma_z_ = b.inv_double_sq_sigma_z_ ∧ a.beta_ = b.beta_ ∧
  a.inv_beta_ = b.inv_beta_ ∧ a.breakage_distance_ = b.breakage_distance_ ∧
  a.max_route_distance_factor_ = b.max_route_distance_factor_ ∧
  a.turn_penalty_factor_ = b.turn_penalty_factor_ ∧ a.turn_cost_table_ = b.turn_cost_table_

/-- The admitted measurements among `0..k-1`, in order. -/
def Spec.admitted_upto (DistanceSquared : PointLL → PointLL → ℚ) (ms : List Measurement)
    (d2 : ℚ) (k : Nat) : List Nat :=
  (List.range k).filter (Spec.admitted DistanceSquared ms d2)

/-- The layout of the measurement indices `0..k-1` over the columns: `A` lists
the admitted measurement of every column and `P t` the skipped measurements
attached to column `t`. Column 0 starts at measurement 0; the skipped
measurements of a column are the indices that follow its admitted measurement;
the next column starts behind them; and the last column ends at `k - 1`. -/
def Spec.Layout (A : List Nat) (P : Nat → List Nat) (k : Nat) : Prop :=
  1 ≤ A.length ∧ A.getD 0 0 = 0 ∧
  (∀ t, t < A.length → P t = List.range' (A.getD t 0 + 1) (P t).length) ∧
  (∀ t, t + 1 < A.length → A.getD (t + 1) 0 = A.getD t 0 + 1 + (P t).length) ∧
  A.getD (A.length - 1) 0 + 1 + (P (A.length - 1)).length = k ∧
  (∀ t, A.length ≤ t → P t = [])

/-- The target result pushed for the measurement `i` admitted as column `t`;
for column 0 it is the initial result. -/
def Spec.placed (ms : List Measurement) (path : List (Option State)) (t i : Nat) :
    MatchResult :=
  if t = 0 then MatchResult.ofPoint (OfflineMatch.at ms i).lnglat
  else guess_target_result (path.getD (t - 1) none) (path.getD t none) (OfflineMatch.at ms i)

/-- The final result for the measurement `i` admitted as column `t` of `T`
columns: the result pushed for it, replaced by the guessed source result when
it has no valid graph id and a next column exists. -/
def Spec.column_result (ms : List Measurement) (path : List (Option State)) (T t i : Nat) :
    MatchResult :=
  if t + 1 < T ∧ (Spec.placed ms path t i).graphid.Is_Valid = false then
    guess_source_result (path.getD t none) (path.getD (t + 1) none) (OfflineMatch.at ms i)
  else Spec.placed ms path t i

/-- The result for the skipped measurement `i` attached to column `t`. -/
def Spec.skipped_result (reader : GraphReader) (cq : CandidateQuery) (ms : List Measurement)
    (r : ℚ) (path : List (Option State)) (t i : Nat) : MatchResult :=
  interpolate reader (collect_graphset reader (path.getD t none) (path.getD (t + 1) none))
    (cq.Query (OfflineMatch.at ms i).lnglat r) (OfflineMatch.at ms i)

/-- The results of column `t`: the one of its admitted measurement `a t` and
those of the skipped measurements attached to it. -/
def Spec.block (reader : GraphReader) (cq : CandidateQuery) (ms : List Measurement)
    (r : ℚ) (path : List (Option State)) (T : Nat) (a : Nat → Nat) (prox : Nat → List Nat)
    (t : Nat) : List MatchResult :=
  Spec.column_result ms path T t (a t) ::
    (prox t).map (Spec.skipped_result reader cq ms r path t)

/-- The result list after the column times `1..s` have been handled. -/
def Spec.expected (reader : GraphReader) (cq : CandidateQuery) (ms : List Measurement)
    (r : ℚ) (path : List (Option State)) (T : Nat) (a : Nat → Nat) (prox : Nat → List Nat)
    (s : Nat) : List MatchResult :=
  (List.range s).flatMap (Spec.block reader cq ms r path T a prox) ++
    [Spec.placed ms path s (a s)]

/-- A result that is the raw measurement point: the lnglat of the measurement,
distance 0 and an invalid graph id of type Unknown. -/
def Spec.IsRaw (m : Measurement) (res : MatchResult) : Prop :=
  res.lnglat = m.lnglat ∧ res.distance = 0 ∧ res.graphid = GraphId.invalid ∧
    res.graphtype = GraphType.kUnknown

/-- The path entry of the column before column `t`: null for column 0. -/
def Spec.prev_entry (path : List (Option State)) (t : Nat) : Option State :=
  if t = 0 then none else path.getD (t - 1) none

/-- The path entry of the column behind column `t` of `T` columns: null for
the last column. -/
def Spec.next_entry (path : List (Option State)) (T t : Nat) : Option State :=
  if t + 1 < T then path.getD (t + 1) none else none

/-- A result at the candidate of the chosen state `s` of a column, `prev` and
`next` being the path entries of the neighbouring columns. It carries `s` and
the vertex and distance of the candidate of `s`. Its graph attachment is that
of the first label of the chain that leads to `s` from the chosen state
`prev`, or that of the last label with a valid id of the chain that leads from
`s` to the chosen state `next`; or else its graph id is invalid and of type
Unknown, and then the first label of the chain from `prev` offers no valid id
(or there is no such label) and no label of the chain to `next` offers one. -/
def Spec.IsChosen (prev : Option State) (s : State) (next : Option State)
    (res : MatchResult) : Prop :=
  res.state = some s ∧ res.lnglat = s.candidate.vertex ∧
    res.distance = s.candidate.distance ∧
    ((∃ p, prev = some p ∧
        (p.RoutePath s).head?.bind Spec.attachment = some (res.graphid, res.graphtype)) ∨
      (∃ n, next = some n ∧
        (s.RoutePath n).reverse.findSome? Spec.attachment =
          some (res.graphid, res.graphtype)) ∨
      (res.graphid = GraphId.invalid ∧ res.graphtype = GraphType.kUnknown ∧
        (∀ p, prev = some p → (p.RoutePath s).head?.bind Spec.attachment = none) ∧
        (∀ n, next = some n → (s.RoutePath n).reverse.findSome? Spec.attachment = none)))

/-- An interpolated result at one of the given candidates: it carries no
state, it has the vertex and the distance of the candidate, and its graph id
is valid, belongs to the candidate and lies in the given graph set. -/
def Spec.IsInterpolated (reader : GraphReader) (graphset : List GraphId)
    (candidates : List Candidate) (res : MatchResult) : Prop :=
  res.state = none ∧ res.graphid.Is_Valid = true ∧
    ∃ c ∈ candidates, res.lnglat = c.vertex ∧ res.distance = c.distance ∧
      AttachedTo reader graphset c res.graphid res.graphtype

/-- The child a tree gives last for a key: the last child with that key. -/
def ptree.last_child (t : ptree) (key : String) : Option ptree :=
  t.children.reverse.lookup key

/-- No key occurs twice among the children of a tree. -/
def ptree.UniqueKeys (t : ptree) : Prop := (t.children.map Prod.fst).Nodup

/-- The creation of a matcher as the claim words it: the matcher is built from
the merged configuration `MergeConfig(name, preferences)` for the travel mode
`NameToTravelMode(name)`, `name` being the `mode` entry of the preferences or
else the configured default mode. -/
def Spec.CreateMerged (get_float : ptree → String → Except Exn ℚ) (exp : ℚ → ℚ)
    (f : MapMatcherFactory) (preferences : ptree) : Except Exn MapMatcher :=
  match f.config_.get_string "mode" with
  | Except.error e => Except.error e
  | Except.ok default_value =>
    match f.NameToTravelMode (preferences.get_string_or "mode" default_value) with
    | Except.error e => Except.error e
    | Except.ok travelmode =>
      match f.MergeConfig (preferences.get_string_or "mode" default_value) preferences with
      | Except.error e => Except.error e
      | Except.ok config => MapMatcher.new get_float exp config f.graphreader_ travelmode

/-- One pass of the caching loop of `State::route` for a target paired with the
destination index under which it is looked up: the target `p.1` gets the
label index the result map holds under `p.2`, if any. -/
def Spec.cache_under (results : List (Nat × Nat)) (label_idx_ : List (Nat × Nat))
    (p : State × Nat) : List (Nat × Nat) :=
  match results.lookup p.2 with
  | some idx => LabelIndex.assign label_idx_ p.1.id idx
  | none => label_idx_

/-! ## A small graph used for concrete evaluations

Edge `A` runs from node 10 to node 11, edge `B` from node 11 to node 12, edge
`C` from node 10 to node 12, edge `L` is a self-loop at node 13 and edge `R`
is the opposing edge of `A`, from node 11 to node 10. Every other edge id is
unknown to the graph. -/

/-- Edge `A` of the example graph. -/
def Example.edgeA : GraphId := ⟨1⟩

/-- Edge `B` of the example graph. -/
def Example.edgeB : GraphId := ⟨2⟩

/-- Edge `L` of the example graph, a self-loop. -/
def Example.edgeL : GraphId := ⟨3⟩

/-- Edge `C` of the example graph. -/
def Example.edgeC : GraphId := ⟨4⟩

/-- Edge `R` of the example graph, the opposing edge of `A`. -/
def Example.edgeR : GraphId := ⟨5⟩

/-- Start node of the edges of the example graph. -/
def Example.startnode (e : GraphId) : GraphId :=
  if e.value = 1 then ⟨10⟩ else if e.value = 2 then ⟨11⟩ else if e.value = 3 then ⟨13⟩
  else if e.value = 4 then ⟨10⟩ else if e.value = 5 then ⟨11⟩ else GraphId.invalid

/-- End node of the edges of the example graph. -/
def Example.endnode (e : GraphId) : GraphId :=
  if e.value = 1 then ⟨11⟩ else if e.value = 2 then ⟨12⟩ else if e.value = 3 then ⟨13⟩
  else if e.value = 4 then ⟨12⟩ else if e.value = 5 then ⟨10⟩ else GraphId.invalid

/-- The offset one half. -/
def Example.half : ℚ := ⟨1, 2, by decide, by decide⟩

/-- The example graph. -/
def Example.reader : GraphReader :=
  { GetOpposingEdge := fun e =>
      if (Example.startnode e).Is_Valid then some ⟨Example.startnode e⟩ else none
    GetGraphTile := fun _ =>
      some ⟨fun e => if (Example.endnode e).Is_Valid then some ⟨Example.endnode e⟩ else none⟩
    edge_startnodeid := Example.startnode
    edge_endnodeid := Example.endnode }

/-- A route whose second and third segment lie on the self-loop `L` with
mismatched offsets, followed by edge `B`, which does not start where `L`
ends. -/
def Example.loopThenGap : List EdgeSegment :=
  [EdgeSegment.dummy, ⟨Example.edgeL, Example.half, 1⟩, ⟨Example.edgeL, 0, Example.half⟩,
    ⟨Example.edgeB, 0, 1⟩]

/-- A route whose second and third segment lie on the self-loop `L` with
mismatched offsets, followed by a segment without edge id. -/
def Example.loopThenInvalid : List EdgeSegment :=
  [EdgeSegment.dummy, ⟨Example.edgeL, Example.half, 1⟩, ⟨Example.edgeL, 0, Example.half⟩,
    EdgeSegment.dummy]

/-- The root label of a label set: no edge, no node, no predecessor. -/
def Example.root : Label :=
  { nodeid := GraphId.invalid, edgeid := GraphId.invalid, source := 0, target := 0,
    cost := 0, turn_cost := 0, predecessor := none, edgelabel := none }

/-- A label for the stretch of edge `e` from offset `s` to offset `t`, behind
the label at index `p`. -/
def Example.label (e : GraphId) (s t : ℚ) (p : Nat) : Label :=
  { nodeid := GraphId.invalid, edgeid := e, source := s, target := t,
    cost := 0, turn_cost := 0, predecessor := some p, edgelabel := none }

/-- A candidate in the middle of a two-way road: half way along `A` and half
way along its opposing edge `R`. -/
def Example.midA : Candidate :=
  { vertex := ⟨1, 0⟩, sq_distance := 0, distance := 0, IsNode := false,
    edges := [⟨Example.edgeA, Example.half⟩, ⟨Example.edgeR, Example.half⟩] }

/-- A candidate at node 10, the start of `A` and the end of `R`. -/
def Example.atNode10 : Candidate :=
  { vertex := ⟨0, 0⟩, sq_distance := 0, distance := 0, IsNode := true,
    edges := [⟨Example.edgeA, 0⟩, ⟨Example.edgeR, 1⟩] }

/-- A candidate half way along edge `B`. -/
def Example.midB : Candidate :=
  { vertex := ⟨3, 0⟩, sq_distance := 0, distance := 0, IsNode := false,
    edges := [⟨Example.edgeB, Example.half⟩] }

/-- A candidate at node 12, the end of `B`. -/
def Example.atNode12 : Candidate :=
  { vertex := ⟨4, 0⟩, sq_distance := 0, distance := 0, IsNode := true,
    edges := [⟨Example.edgeB, 1⟩] }

/-- A state with the given id, time and candidate that was routed to the
state with id `id + 1` along the given labels, the last of which reaches it. -/
def Example.routed (id : Nat) (c : Candidate) (labels : List Label) : State :=
  { id := id, time := id, candidate := c, labelset_ := some ⟨labels⟩,
    label_idx_ := [(id + 1, labels.length - 1)] }

/-- A match at the candidate of the given state. -/
def Example.matched (s : State) (e : GraphId) : MatchResult :=
  { lnglat := s.candidate.vertex, distance := s.candidate.distance, graphid := e,
    graphtype := GraphType.kEdge, state := some s }

/-- The matches of a trip from node 10 half way along `A` and back: the
second chain leaves on the opposing edge `R`. -/
def Example.uturn : List MatchResult :=
  [Example.matched (Example.routed 0 Example.atNode10
      [Example.root, Example.label Example.edgeA 0 Example.half 0]) Example.edgeA,
    Example.matched (Example.routed 1 Example.midA
      [Example.root, Example.label Example.edgeR Example.half 1 0]) Example.edgeR,
    Example.matched (State.new 2 2 Example.atNode10) Example.edgeR]

/-- The matches of a trip from node 10 along `A` half way into `B`, then to
the end of `B`, with an unmatched point in between. -/
def Example.straight : List MatchResult :=
  [Example.matched (Example.routed 0 Example.atNode10
      [Example.root, Example.label Example.edgeA 0 1 0,
        Example.label Example.edgeB 0 Example.half 1]) Example.edgeA,
    MatchResult.ofPoint ⟨2, 0⟩,
    Example.matched (Example.routed 1 Example.midB
      [Example.root, Example.label Example.edgeB Example.half 1 0]) Example.edgeB,
    Example.matched (State.new 2 2 Example.atNode12) Example.edgeB]

/-- The two chains `ConstructRoute` reads for the trip along `A` and `B`. -/
def Example.straightChains : List (List EdgeSegment) :=
  [[EdgeSegment.dummy, ⟨Example.edgeA, 0, 1⟩, ⟨Example.edgeB, 0, Example.half⟩],
    [EdgeSegment.dummy, ⟨Example.edgeB, Example.half, 1⟩]]

/-- Three candidates around a skipped measurement: one on edge `B` at squared
distance 9, one on the road `A`/`R` at squared distance 1 and one at node 12
at squared distance 4. -/
def Example.candidates : List Candidate :=
  [{ vertex := ⟨3, 3⟩, sq_distance := 9, distance := 3, IsNode := false,
      edges := [⟨Example.edgeB, Example.half⟩] },
    { vertex := ⟨1, 1⟩, sq_distance := 1, distance := 1, IsNode := false,
      edges := [⟨Example.edgeA, Example.half⟩, ⟨Example.edgeR, Example.half⟩] },
    { vertex := ⟨4, 0⟩, sq_distance := 4, distance := 2, IsNode := true,
      edges := [⟨Example.edgeB, 1⟩] }]

/-- The squared distance of two points of the examples, which lie on one
line: the square of the difference of their longitudes. -/
def Example.DistanceSquared (a b : PointLL) : ℚ := (a.lng - b.lng) * (a.lng - b.lng)

/-- A trace of five measurements at longitudes 0, 1, 3, 4 and 5. -/
def Example.trace : List Measurement :=
  [⟨⟨0, 0⟩⟩, ⟨⟨1, 0⟩⟩, ⟨⟨3, 0⟩⟩, ⟨⟨4, 0⟩⟩, ⟨⟨5, 0⟩⟩]

/-- A candidate index that finds `Example.candidates` around every point. -/
def Example.cq : CandidateQuery := ⟨fun _ _ => Example.candidates⟩

/-- A candidate index that finds nothing. -/
def Example.emptyCq : CandidateQuery := ⟨fun _ _ => []⟩

/-- A model with `sigma_z = 5`, `beta = 3`, breakage distance 2000, route
distance factor 3 and no turn penalty, that holds no measurement yet. -/
def Example.mm : MapMatching :=
  { graphreader_ := Example.reader, measurements_ := [], states_ := [],
    sigma_z_ := 5, inv_double_sq_sigma_z_ := ⟨1, 50, by decide, by decide⟩,
    beta_ := 3, inv_beta_ := ⟨1, 3, by decide, by decide⟩,
    breakage_distance_ := 2000, max_route_distance_factor_ := 3,
    turn_penalty_factor_ := 0, turn_cost_table_ := List.replicate 181 0,
    state_ := [], unreached_states_ := [] }

/-- A search that picks the first state of every column up to the given
time, and yields an invalid iterator for an empty column. -/
def Example.SearchPath (mm : MapMatching) (time : Nat) : List (Option State) :=
  ((mm.states_.take (time + 1)).map List.head?).reverse

/-- A stand-in for `std::exp` in concrete evaluations: positive everywhere and
1 at 0. -/
def Example.exp (x : ℚ) : ℚ := 1 / (1 + x * x)

/-- The example model with turn penalty factor 1. -/
def Example.mmTurn : MapMatching :=
  { Example.mm with
    turn_penalty_factor_ := 1
    turn_cost_table_ := (List.range 181).map (fun (i : Nat) => 1 * Example.exp (-(i : ℚ) / 45)) }

/-- The distance of two points of the examples, which lie on one line: the
absolute difference of their longitudes. -/
def Example.Distance (a b : PointLL) : ℚ := |a.lng - b.lng|

/-- The labels of a route along `A` and half way into `B`. -/
def Example.labels : List Label :=
  [Example.root, Example.label Example.edgeA 0 1 0,
    Example.label Example.edgeB 0 Example.half 1]

/-- A routing function that reaches the first destination with the last of
`Example.labels` and no other destination. -/
def Example.find_shortest_path : ShortestPath :=
  fun _ _ _ _ _ _ => (⟨Example.labels⟩, [(1, 2)])

/-- No state has a predecessor yet. -/
def Example.predecessor : Nat → Option Nat := fun _ => none

/-- The example model after two measurements, at longitudes 0 and 3, with one
candidate each: state 0 at node 10 and state 1 half way along `B`. -/
def Example.lattice : MapMatching :=
  ((Example.mm.AppendState ⟨⟨0, 0⟩⟩ [Example.atNode10]).1.AppendState ⟨⟨3, 0⟩⟩
    [Example.midB]).1

/-- The lattice after state 0 has been routed towards the column of state 1
with budget `min (3 * 3) 2000`. -/
def Example.latticeRouted : MapMatching :=
  { Example.lattice with
    state_ := Example.lattice.state_.set 0
      ((State.new 0 0 Example.atNode10).route Example.find_shortest_path
        [State.new 1 1 Example.midB] Example.reader 9 none (List.replicate 181 0)) }

/-- A candidate at node 12 at squared distance 4 from its measurement. -/
def Example.atNode12Far : Candidate :=
  { vertex := ⟨4, 0⟩, sq_distance := 4, distance := 2, IsNode := true,
    edges := [⟨Example.edgeB, 1⟩] }


/-- A target list of 65537 states, the state at position `k` with id `k`. -/
def Example.manyTargets : List State :=
  (List.range 65537).map (fun k => State.new k 1 Example.midB)

/-- The result map `Example.find_shortest_path` gives for the origin
`Example.atNode10` and the targets `Example.manyTargets`: destination 1 is
reached with label 2, no other destination is. -/
def Example.manyResults : List (Nat × Nat) :=
  (Example.find_shortest_path Example.reader
    (Example.atNode10 :: Example.manyTargets.map State.candidate) 0 9 none []).2

/-- A session on `Example.lattice`: the transition from state 0 to state 1 is
evaluated twice, then the transition from state 0 to itself. -/
def Example.ops : List Spec.Op :=
  [Spec.Op.transition Example.predecessor 0 1, Spec.Op.transition Example.predecessor 0 1,
    Spec.Op.transition Example.predecessor 0 0]

/-- A state at node 10 whose route to state 1 ends in a label with source 1
and target 0. -/
def Example.brokenFirst : State :=
  Example.routed 0 Example.atNode10 [Example.root, Example.label Example.edgeA 1 0 0]

/-- A state at node 10 whose route to state 2 runs along `A` and then along
`C`, which does not start where `A` ends. -/
def Example.brokenSecond : State :=
  Example.routed 1 Example.atNode10
    [Example.root, Example.label Example.edgeA 0 1 0, Example.label Example.edgeC 0 1 1]

/-- A state at node 12 that has not been routed. -/
def Example.brokenThird : State := State.new 2 2 Example.atNode12

/-- Three matches that carry the states `brokenFirst`, `brokenSecond` and
`brokenThird`. -/
def Example.broken : List MatchResult :=
  [Example.matched Example.brokenFirst Example.edgeA,
    Example.matched Example.brokenSecond Example.edgeA,
    Example.matched Example.brokenThird Example.edgeC]

/-- A state at node 10 whose route to state 1 ends in a label without node id
and edge id, behind a label on edge `A`. -/
def Example.detour : State :=
  Example.routed 0 Example.atNode10
    [Example.root, Example.label Example.edgeA 0 1 0,
      { Example.root with predecessor := some 1 }]

/-- A state at node 10 whose route to state 1 runs along `A` to node 11 (the
label carries the node id) and half way into `B`. -/
def Example.viaNode : State :=
  Example.routed 0 Example.atNode10
    [Example.root, { Example.label Example.edgeA 0 1 0 with nodeid := ⟨11⟩ },
      Example.label Example.edgeB 0 Example.half 1]

/-- The unrouted state 1, half way along `B`. -/
def Example.second : State := State.new 1 1 Example.midB

/-- A candidate index that finds the candidate at node 12, at distance 2, on
edge `B`, around every point. -/
def Example.oneCq : CandidateQuery := ⟨fun _ _ => [Example.atNode12Far]⟩

/-- A trace of two measurements at longitudes 0 and 5. -/
def Example.pair : List Measurement := [⟨⟨0, 0⟩⟩, ⟨⟨5, 0⟩⟩]

/-- A search that picks the first state of every column, each routed without
having reached any target: the chain is broken between every two columns. -/
def Example.brokenSearch (mm : MapMatching) (time : Nat) : List (Option State) :=
  (Example.SearchPath mm time).map
    (Option.map (fun s => { s with labelset_ := some ⟨[Example.root]⟩ }))

/-- A tree without children. -/
def Example.leaf (data : String) : ptree := ptree.node data []

/-- The `mm` configuration of the example factory: the default mode `auto`, a
`default` block with the five HMM parameters and an `auto` block that
overrides `beta`. -/
def Example.config : ptree :=
  ptree.node "" [("mode", Example.leaf "auto"),
    ("default", ptree.node "" [("sigma_z", Example.leaf "4"), ("beta", Example.leaf "3"),
      ("breakage_distance", Example.leaf "2000"),
      ("max_route_distance_factor", Example.leaf "3"),
      ("turn_penalty_factor", Example.leaf "0")]),
    ("auto", ptree.node "" [("beta", Example.leaf "5")])]

/-- A factory with the example configuration and no costing registered. -/
def Example.emptyFactory : MapMatcherFactory :=
  { config_ := Example.config, graphreader_ := Example.reader,
    mode_costing_ := fun _ => none, mode_name_ := fun _ => "" }

/-- The example factory after `init_costings` with costings of the travel
modes 0 (auto), 2 (bicycle), 1 (pedestrian) and 3 (multimodal). -/
def Example.factory : MapMatcherFactory :=
  match Example.emptyFactory.init_costings ⟨0⟩ ⟨2⟩ ⟨1⟩ ⟨3⟩ with
  | Except.ok f => f
  | Except.error _ => Example.emptyFactory

/-- Preferences that override `sigma_z` and name no mode. -/
def Example.preferences : ptree := ptree.node "" [("sigma_z", Example.leaf "5")]

/-- A stand-in for `ptree::get<float>` that knows the numbers of the
examples. -/
def Example.get_float (t : ptree) (key : String) : Except Exn ℚ :=
  match t.get_child_optional key with
  | some child =>
    if child.data = "0" then Except.ok 0
    else if child.data = "3" then Except.ok 3
    else if child.data = "4" then Except.ok 4
    else if child.data = "5" then Except.ok 5
    else if child.data = "2000" then Except.ok 2000
    else Except.error (Exn.runtime_error "conversion of data failed")
  | none => Except.error (Exn.runtime_error ("No such node (" ++ key ++ ")"))
/-- A search that chooses, for two columns, the state at node 10 that is
routed via node 11 to the state half way along `B`, and that state. -/
def Example.routedSearch (_ : MapMatching) (_ : Nat) : List (Option State) :=
  [some Example.second, some Example.viaNode]

/-! ## Lemmas on merging -/

theorem snoc_cases {α : Type} (l : List α) : l = [] ∨ ∃ init last, l = init ++ [last] := by
  rcases List.eq_nil_or_concat l with h | ⟨init, last, h⟩
  · exact Or.inl h
  · exact Or.inr ⟨init, last, by simpa using h⟩

theorem fmax_eq_max (a b : ℚ) : fmax a b = max a b := by
  unfold fmax
  split
  · rename_i h; exact (max_eq_right (le_of_lt h)).symm
  · rename_i h; exact (max_eq_left (not_lt.mp h)).symm

theorem MergeRoute.loop_invalid (route rest : List EdgeSegment) (segment : EdgeSegment)
    (h : segment.edgeid.Is_Valid = false) :
    MergeRoute.loop route (segment :: rest) =
      (route, some (Exn.runtime_error "Still found an invalid edgeid in route segments")) := by
  simp [MergeRoute.loop, h]

theorem MergeRoute.loop_valid (route rest : List EdgeSegment) (segment : EdgeSegment)
    (h : segment.edgeid.Is_Valid = true) :
    MergeRoute.loop route (segment :: rest) =
      MergeRoute.loop (MergeSpec.step route segment) rest := by
  rw [MergeRoute.loop]
  simp only [h, Bool.not_true, Bool.false_eq_true, if_false]
  unfold MergeSpec.step
  cases hl : route.getLast? with
  | none => simp
  | some last =>
    simp only
    split
    · rw [fmax_eq_max]
    · rfl

theorem MergeSpec.step_nil (segment : EdgeSegment) : MergeSpec.step [] segment = [segment] := by
  simp [MergeSpec.step]

theorem MergeSpec.step_concat (init : List EdgeSegment) (last segment : EdgeSegment) :
    MergeSpec.step (init ++ [last]) segment =
      if last.edgeid = segment.edgeid then
        init ++ [{ last with target := max last.target segment.target }]
      else init ++ [last] ++ [segment] := by
  simp [MergeSpec.step]

theorem MergeRoute.loop_all_valid (segments : List EdgeSegment) :
    ∀ route : List EdgeSegment, (∀ s ∈ segments, s.edgeid.Is_Valid = true) →
      MergeRoute.loop route segments = (segments.foldl MergeSpec.step route, none) := by
  induction segments with
  | nil => intro route _; simp [MergeRoute.loop]
  | cons s rest ih =>
    intro route h
    rw [MergeRoute.loop_valid route rest s (h s (List.mem_cons_self _ _))]
    rw [ih _ (fun x hx => h x (List.mem_cons_of_mem _ hx))]
    rfl

theorem MergeRoute.loop_first_invalid (pre post : List EdgeSegment) (bad : EdgeSegment) :
    ∀ route : List EdgeSegment, (∀ s ∈ pre, s.edgeid.Is_Valid = true) →
      bad.edgeid.Is_Valid = false →
      MergeRoute.loop route (pre ++ bad :: post) =
        (pre.foldl MergeSpec.step route,
          some (Exn.runtime_error "Still found an invalid edgeid in route segments")) := by
  induction pre with
  | nil => intro route _ hb; simpa using MergeRoute.loop_invalid route post bad hb
  | cons s rest ih =>
    intro route h hb
    rw [List.cons_append, MergeRoute.loop_valid route _ s (h s (List.mem_cons_self _ _))]
    rw [ih _ (fun x hx => h x (List.mem_cons_of_mem _ hx)) hb]
    rfl

/-- Whatever the loop does, it leaves the route that the merge steps over a
prefix of the segments produce. -/
theorem MergeRoute.loop_prefix (segments : List EdgeSegment) :
    ∀ route : List EdgeSegment, ∃ pre, pre <+: segments ∧
      (MergeRoute.loop route segments).1 = pre.foldl MergeSpec.step route := by
  induction segments with
  | nil => intro route; exact ⟨[], List.prefix_refl _, by simp [MergeRoute.loop]⟩
  | cons s rest ih =>
    intro route
    cases hv : s.edgeid.Is_Valid with
    | false =>
      refine ⟨[], List.nil_prefix, ?_⟩
      rw [MergeRoute.loop_invalid route rest s hv]; rfl
    | true =>
      obtain ⟨pre, hpre, heq⟩ := ih (MergeSpec.step route s)
      refine ⟨s :: pre, ?_, ?_⟩
      · exact (List.prefix_cons_inj s).mpr hpre
      · rw [MergeRoute.loop_valid route rest s hv, heq]; rfl

/-- A loop that ends without exception has seen valid edge ids only. -/
theorem MergeRoute.loop_accepted (segments : List EdgeSegment) :
    ∀ route m : List EdgeSegment, MergeRoute.loop route segments = (m, none) →
      ∀ s ∈ segments, s.edgeid.Is_Valid = true := by
  induction segments with
  | nil => intro route m _ s hs; simp at hs
  | cons s rest ih =>
    intro route m h x hx
    cases hv : s.edgeid.Is_Valid with
    | false => rw [MergeRoute.loop_invalid route rest s hv] at h; simp at h
    | true =>
      rw [MergeRoute.loop_valid route rest s hv] at h
      rcases List.mem_cons.mp hx with rfl | hx
      · exact hv
      · exact ih _ m h x hx

theorem MergeSpec.step_noRepeatedEdge (route : List EdgeSegment) (segment : EdgeSegment)
    (h : NoRepeatedEdge route) : NoRepeatedEdge (MergeSpec.step route segment) := by
  rcases snoc_cases route with rfl | ⟨init, last, rfl⟩
  · simp [MergeSpec.step_nil, NoRepeatedEdge]
  · rw [MergeSpec.step_concat]
    unfold NoRepeatedEdge at *
    split
    · rw [List.chain'_append] at h ⊢
      refine ⟨h.1, List.chain'_singleton _, ?_⟩
      intro x hx y hy
      simp only [List.head?_cons, Option.mem_def, Option.some.injEq] at hy
      subst hy
      have := h.2.2 x hx last (by simp)
      simpa using this
    · rename_i hne
      rw [List.chain'_append]
      refine ⟨h, List.chain'_singleton _, ?_⟩
      intro x hx y hy
      simp at hx hy
      subst hx; subst hy
      exact hne

theorem MergeSpec.foldl_noRepeatedEdge (segments : List EdgeSegment) :
    ∀ route, NoRepeatedEdge route → NoRepeatedEdge (segments.foldl MergeSpec.step route) := by
  induction segments with
  | nil => intro route h; exact h
  | cons s rest ih => intro route h; exact ih _ (MergeSpec.step_noRepeatedEdge route s h)

/-- A property of segments that survives the raising of a target survives a
merge step. -/
theorem MergeSpec.step_forall (P : EdgeSegment → Prop)
    (hP : ∀ last segment : EdgeSegment, P last → P segment →
      P { last with target := max last.target segment.target })
    (route : List EdgeSegment) (segment : EdgeSegment)
    (hr : ∀ x ∈ route, P x) (hs : P segment) : ∀ x ∈ MergeSpec.step route segment, P x := by
  rcases snoc_cases route with rfl | ⟨init, last, rfl⟩
  · intro x hx
    simp [MergeSpec.step_nil] at hx
    subst hx; exact hs
  · rw [MergeSpec.step_concat]
    split
    · intro x hx
      rcases List.mem_append.mp hx with hx | hx
      · exact hr x (List.mem_append_left _ hx)
      · simp at hx
        subst hx
        exact hP last segment (hr last (by simp)) hs
    · intro x hx
      rcases List.mem_append.mp hx with hx | hx
      · exact hr x hx
      · simp at hx
        subst hx; exact hs

theorem MergeSpec.foldl_forall (P : EdgeSegment → Prop)
    (hP : ∀ last segment : EdgeSegment, P last → P segment →
      P { last with target := max last.target segment.target })
    (segments : List EdgeSegment) :
    ∀ route : List EdgeSegment, (∀ x ∈ route, P x) → (∀ x ∈ segments, P x) →
      ∀ x ∈ segments.foldl MergeSpec.step route, P x := by
  induction segments with
  | nil => intro route hr _; simpa using hr
  | cons s rest ih =>
    intro route hr hs
    exact ih _ (MergeSpec.step_forall P hP route s hr (hs s (List.mem_cons_self _ _)))
      (fun x hx => hs x (List.mem_cons_of_mem _ hx))

theorem EdgeSegment.inRange_raise (last segment : EdgeSegment) (hl : last.InRange)
    (hs : segment.InRange) :
    EdgeSegment.InRange { last with target := max last.target segment.target } :=
  ⟨hl.1, le_trans hl.2.1 (le_max_left _ _), max_le hl.2.2 hs.2.2⟩

/-- Merging a route without repeated edge into a route it continues without
repeated edge appends it unchanged. -/
theorem MergeSpec.foldl_of_noRepeatedEdge (segments : List EdgeSegment) :
    ∀ route : List EdgeSegment, NoRepeatedEdge (route ++ segments) →
      segments.foldl MergeSpec.step route = route ++ segments := by
  induction segments with
  | nil => intro route _; simp
  | cons s rest ih =>
    intro route h
    have hstep : MergeSpec.step route s = route ++ [s] := by
      rcases snoc_cases route with rfl | ⟨init, last, rfl⟩
      · simp [MergeSpec.step_nil]
      · rw [MergeSpec.step_concat]
        have hne : last.edgeid ≠ s.edgeid := by
          unfold NoRepeatedEdge at h
          rw [List.chain'_append] at h
          exact h.2.2 last (by simp) s (by simp)
        simp [hne]
    rw [List.foldl_cons, hstep]
    have h2 : NoRepeatedEdge (route ++ [s] ++ rest) := by simpa using h
    rw [ih _ h2]; simp

theorem EdgeSegment.new_ok_iff (e : GraphId) (s t : ℚ) (seg : EdgeSegment) :
    EdgeSegment.new e s t = Except.ok seg ↔ ((0 ≤ s ∧ s ≤ t ∧ t ≤ 1) ∧ seg = ⟨e, s, t⟩) := by
  by_cases h : 0 ≤ s ∧ s ≤ t ∧ t ≤ 1
  · rw [EdgeSegment.new, if_neg (not_not.mpr h)]
    simp only [Except.ok.injEq, h, and_self, true_and]
    exact eq_comm
  · rw [EdgeSegment.new, if_pos h]
    simp [h]

/-! ## Lemmas on route construction -/

theorem MergeInv.step (g : GraphReader) (route : List EdgeSegment) (read : Option EdgeSegment)
    (segment : EdgeSegment) (h : MergeInv g route read) (hs : segment.InRange)
    (hl : ∀ p ∈ read, Linked g p segment) :
    MergeInv g (MergeSpec.step route segment) (some segment) := by
  obtain ⟨hc, hr, hm⟩ := h
  rcases snoc_cases route with rfl | ⟨init, last, rfl⟩
  · rw [MergeSpec.step_nil]
    refine ⟨List.chain'_singleton _, ?_, ?_⟩
    · intro x hx; simp at hx; subst hx; exact hs
    · simp
  · have hlast : (init ++ [last]).getLast? = some last := by simp
    rw [hlast] at hm
    cases read with
    | none => simp at hm
    | some p =>
      simp only at hm
      obtain ⟨hpe, hpt⟩ := hm
      rw [MergeSpec.step_concat]
      split
      · rename_i he
        refine ⟨?_, ?_, ?_⟩
        · rw [List.chain'_append] at hc ⊢
          refine ⟨hc.1, List.chain'_singleton _, ?_⟩
          intro x hx y hy
          simp only [List.head?_cons, Option.mem_def, Option.some.injEq] at hy
          subst hy
          exact hc.2.2 x hx last (by simp)
        · intro x hx
          rcases List.mem_append.mp hx with hx | hx
          · exact hr x (List.mem_append_left _ hx)
          · simp at hx
            subst hx
            exact EdgeSegment.inRange_raise last segment (hr last (by simp)) hs
        · simp only [List.getLast?_append, List.getLast?_singleton, Option.or]
          exact ⟨he, le_max_right _ _⟩
      · rename_i he
        have hlr : last.InRange := hr last (by simp)
        have hadj : Sec46Adjoined g last segment := by
          have hps : p.edgeid ≠ segment.edgeid := fun e => he (hpe.trans e)
          rcases hl p rfl with h1 | h1 | h1
          · exact absurd h1 hps
          · exact absurd h1.1 hps
          · refine Or.inr ⟨?_, h1.2.1, ?_⟩
            · exact le_antisymm hlr.2.2 (h1.1 ▸ hpt)
            · rw [hpe]; exact h1.2.2
        refine ⟨?_, ?_, ?_⟩
        · rw [List.chain'_append]
          refine ⟨hc, List.chain'_singleton _, ?_⟩
          intro x hx y hy
          simp at hx hy
          subst hx; subst hy
          exact hadj
        · intro x hx
          rcases List.mem_append.mp hx with hx | hx
          · exact hr x hx
          · simp at hx
            subst hx; exact hs
        · simp

theorem MergeInv.foldl (g : GraphReader) (segments : List EdgeSegment) :
    ∀ (route : List EdgeSegment) (read : Option EdgeSegment), MergeInv g route read →
      (∀ s ∈ segments, s.InRange) → List.Chain' (Linked g) segments →
      (∀ p ∈ read, ∀ y ∈ segments.head?, Linked g p y) →
      MergeInv g (segments.foldl MergeSpec.step route) (segments.getLast?.or read) := by
  induction segments with
  | nil => intro route read h _ _ _; simpa using h
  | cons s rest ih =>
    intro route read h hs hc hj
    have h1 := MergeInv.step g route read s h (hs s (List.mem_cons_self _ _))
      (fun p hp => hj p hp s (by simp))
    have h2 := ih (MergeSpec.step route s) (some s) h1
      (fun x hx => hs x (List.mem_cons_of_mem _ hx)) (List.Chain'.tail hc)
      (by
        intro p hp y hy
        simp only [Option.mem_def, Option.some.injEq] at hp
        subst hp
        cases rest with
        | nil => simp at hy
        | cons r rest2 =>
          simp only [List.head?_cons, Option.mem_def, Option.some.injEq] at hy
          subst hy
          exact (List.chain'_cons.mp hc).1)
    rw [List.foldl_cons]
    have e : (s :: rest).getLast?.or read = rest.getLast?.or (some s) := by
      cases rest with
      | nil => simp
      | cons r rest2 =>
        rw [List.getLast?_cons_cons, List.getLast?_eq_getLast (r :: rest2) (by simp)]
        rfl
    rw [e]; exact h2

theorem ConstructRoute.segments_ok (labels : List Label) :
    ∀ segments : List EdgeSegment, ConstructRoute.segments labels = Except.ok segments →
      segments = labels.map Label.segment ∧ ∀ s ∈ segments, s.InRange := by
  induction labels with
  | nil =>
    intro segments h
    simp only [ConstructRoute.segments, Except.ok.injEq] at h
    subst h; simp
  | cons l rest ih =>
    intro segments h
    rw [ConstructRoute.segments] at h
    cases hn : EdgeSegment.new l.edgeid l.source l.target with
    | error e => rw [hn] at h; simp at h
    | ok s =>
      rw [hn] at h
      cases hr : ConstructRoute.segments rest with
      | error e => rw [hr] at h; simp at h
      | ok segs =>
        rw [hr] at h
        simp only [Except.ok.injEq] at h
        subst h
        obtain ⟨hc, hseg⟩ := (EdgeSegment.new_ok_iff _ _ _ _).mp hn
        obtain ⟨hmap, hin⟩ := ih segs hr
        refine ⟨?_, ?_⟩
        · rw [List.map_cons, ← hmap, hseg]; rfl
        · intro x hx
          rcases List.mem_cons.mp hx with rfl | hx
          · rw [hseg]; exact hc
          · exact hin x hx

theorem ValidateRoute.loop_adjoined (g : GraphReader) (rest : List EdgeSegment) :
    ∀ prev : EdgeSegment, ValidateRoute.loop g prev false rest = true →
      List.Chain' (fun a b : EdgeSegment => a.edgeid = b.edgeid → a.target = b.source)
        (prev :: rest) →
      List.Chain' (SpecAdjoined g) (prev :: rest) := by
  induction rest with
  | nil => intro prev _ _; exact List.chain'_singleton _
  | cons seg rest ih =>
    intro prev h hc
    obtain ⟨hps, hc2⟩ := List.chain'_cons.mp hc
    rw [ValidateRoute.loop] at h
    by_cases hv : seg.edgeid.Is_Valid = true
    · simp only [hv, Bool.not_true, Bool.false_eq_true, if_false] at h
      by_cases he : prev.edgeid = seg.edgeid
      · have ht := hps he
        simp only [he, ht, ne_eq, not_true_eq_false, if_true, if_false] at h
        exact List.chain'_cons.mpr ⟨Or.inl ⟨he, ht⟩, ih seg h hc2⟩
      · simp only [he, if_false] at h
        by_cases hx : prev.target = 1 ∧ seg.source = 0 ∧
            g.edge_endnodeid prev.edgeid = g.edge_startnodeid seg.edgeid
        · rw [if_neg (not_not.mpr hx)] at h
          exact List.chain'_cons.mpr ⟨Or.inr ⟨he, hx⟩, ih seg h hc2⟩
        · rw [if_pos hx] at h
          simp at h
    · simp [hv] at h

theorem ValidateRoute.tail_adjoined (g : GraphReader) (chain : List EdgeSegment)
    (h : ValidateRoute g chain = true) (hn : NoMismatch chain) :
    List.Chain' (SpecAdjoined g) chain.tail := by
  cases chain with
  | nil => exact List.chain'_nil
  | cons b rest =>
    cases rest with
    | nil => exact List.chain'_nil
    | cons seg rest2 =>
      rw [ValidateRoute] at h
      by_cases hd : b.edgeid.Is_Valid = false ∧ b.source = 0 ∧ b.target = 0
      · rw [if_neg (not_not.mpr hd), ValidateRoute.loop] at h
        by_cases hv : seg.edgeid.Is_Valid = true
        · simp only [hv, Bool.not_true, Bool.false_eq_true, if_false, if_true] at h
          exact ValidateRoute.loop_adjoined g rest2 seg h hn
        · simp [hv] at h
      · rw [if_pos hd] at h
        simp at h

theorem MergeRoute.accepted_eq (route chain merged : List EdgeSegment)
    (h : MergeRoute route chain = (merged, none)) :
    merged = chain.tail.foldl MergeSpec.step route := by
  cases chain with
  | nil =>
    simp only [MergeRoute, Prod.mk.injEq, and_true] at h
    simp [h]
  | cons b rest =>
    have h1 : MergeRoute.loop route rest = (merged, none) := h
    have hv := MergeRoute.loop_accepted rest route merged h1
    rw [MergeRoute.loop_all_valid rest route hv] at h1
    simp only [Prod.mk.injEq, and_true] at h1
    simp [h1]

theorem ConstructRoute.loop_inv (g : GraphReader) (ms : List MatchResult) :
    ∀ (previous_match : Option State) (route : List EdgeSegment) (read : Option EdgeSegment)
      (result : List EdgeSegment),
      ConstructRoute.loop g ms previous_match route = Except.ok result →
      MergeInv g route read →
      (∀ c ∈ ConstructRoute.chains ms previous_match, NoMismatch c) →
      JunctionsLinked g read (ConstructRoute.chains ms previous_match) →
      ∃ read2, MergeInv g result read2 := by
  induction ms with
  | nil =>
    intro previous_match route read result h hinv _ _
    simp only [ConstructRoute.loop, Except.ok.injEq] at h
    subst h; exact ⟨read, hinv⟩
  | cons m rest ih =>
    intro previous_match route read result h hinv hnm hj
    rw [ConstructRoute.loop] at h
    rw [ConstructRoute.chains] at hnm hj
    cases hs : m.state with
    | none =>
      simp only [hs] at h hnm hj
      exact ih previous_match route read result h hinv hnm hj
    | some state =>
      simp only [hs] at h hnm hj
      cases previous_match with
      | none =>
        simp only at h hnm hj
        exact ih (some state) route read result h hinv hnm hj
      | some previous =>
        simp only at h hnm hj
        cases hseg : ConstructRoute.segments (previous.RoutePath state) with
        | error e => rw [hseg] at h; simp at h
        | ok segments =>
          rw [hseg] at h
          simp only at h
          obtain ⟨hmap, hin⟩ := ConstructRoute.segments_ok _ segments hseg
          have hchain : (previous.RoutePath state).reverse.map Label.segment =
              segments.reverse := by rw [hmap, List.map_reverse]
          rw [hchain] at hnm hj
          by_cases hv : ValidateRoute g segments.reverse = true
          · rw [if_pos hv] at h
            cases hm : MergeRoute route segments.reverse with
            | mk merged exn =>
              rw [hm] at h
              cases exn with
              | some e => simp at h
              | none =>
                simp only at h
                have hmerged := MergeRoute.accepted_eq route segments.reverse merged hm
                have hnmc : NoMismatch segments.reverse := hnm _ (List.mem_cons_self _ _)
                have hadj := ValidateRoute.tail_adjoined g segments.reverse hv hnmc
                have hlinked : List.Chain' (Linked g) segments.reverse.tail :=
                  List.Chain'.imp (fun a b hab => by
                    rcases hab with h1 | h1
                    · exact Or.inl h1.1
                    · exact Or.inr (Or.inr h1.2)) hadj
                have hrange : ∀ s ∈ segments.reverse.tail, s.InRange := fun s hs2 =>
                  hin s (List.mem_reverse.mp (List.mem_of_mem_tail hs2))
                have hinv2 := MergeInv.foldl g segments.reverse.tail route read hinv hrange
                  hlinked hj.1
                rw [← hmerged] at hinv2
                exact ih (some state) merged _ result h hinv2
                  (fun c hc => hnm c (List.mem_cons_of_mem _ hc)) hj.2
          · rw [if_neg hv] at h
            simp at h

theorem Example.straight_chains :
    ConstructRoute.chains Example.straight none = Example.straightChains := by
  decide

theorem Example.straight_noMismatch :
    ∀ c ∈ ConstructRoute.chains Example.straight none, NoMismatch c := by
  rw [Example.straight_chains]
  simp [Example.straightChains, NoMismatch]
  decide

theorem Example.straight_junctions :
    JunctionsLinked Example.reader none (ConstructRoute.chains Example.straight none) := by
  rw [Example.straight_chains]
  simp [Example.straightChains, JunctionsLinked]
  decide

/-! ## Lemmas on interpolation -/

theorem interpolate.scan_none (graphset : List GraphId) (candidate : Candidate)
    (graphtype : GraphType) (ids : List GraphId) :
    ∀ closest : Closest, (∀ id ∈ ids, id ∉ graphset) →
      interpolate.scan graphset candidate graphtype ids closest = closest := by
  induction ids with
  | nil => intro closest _; rfl
  | cons id rest ih =>
    intro closest h
    rw [interpolate.scan, if_neg (h id (List.mem_cons_self _ _))]
    exact ih closest (fun x hx => h x (List.mem_cons_of_mem _ hx))

theorem interpolate.scan_some (graphset : List GraphId) (candidate : Candidate)
    (graphtype : GraphType) (ids : List GraphId) :
    ∀ closest : Closest, (∃ id ∈ ids, id ∈ graphset) →
      ∃ id ∈ ids, id ∈ graphset ∧
        interpolate.scan graphset candidate graphtype ids closest =
          { closest_candidate := some candidate
            closest_sq_distance := some candidate.sq_distance
            closest_graphid := id
            closest_graphtype := graphtype } := by
  induction ids with
  | nil => intro closest h; obtain ⟨id, hid, _⟩ := h; simp at hid
  | cons id rest ih =>
    intro closest h
    rw [interpolate.scan]
    by_cases hrest : ∃ x ∈ rest, x ∈ graphset
    · split
      · obtain ⟨x, hx, hxg, heq⟩ := ih _ hrest
        exact ⟨x, List.mem_cons_of_mem _ hx, hxg, heq⟩
      · obtain ⟨x, hx, hxg, heq⟩ := ih closest hrest
        exact ⟨x, List.mem_cons_of_mem _ hx, hxg, heq⟩
    · have hnone : ∀ x ∈ rest, x ∉ graphset := fun x hx hxg => hrest ⟨x, hx, hxg⟩
      have hid : id ∈ graphset := by
        obtain ⟨x, hx, hxg⟩ := h
        rcases List.mem_cons.mp hx with rfl | hx
        · exact hxg
        · exact absurd hxg (hnone x hx)
      rw [if_pos hid, interpolate.scan_none graphset candidate graphtype rest _ hnone]
      exact ⟨id, List.mem_cons_self _ _, hid, rfl⟩

/-- The candidate loop body either keeps the closest match or replaces it by
the candidate, attached to one of its ids found in the graph set. -/
theorem interpolate.step_cases (reader : GraphReader) (graphset : List GraphId)
    (closest : Closest) (candidate : Candidate) :
    (interpolate.step reader graphset closest candidate = closest ∧
      (interpolate.closer candidate closest = false ∨
        ¬ CandidateMatches reader graphset candidate)) ∨
    (interpolate.closer candidate closest = true ∧
      CandidateMatches reader graphset candidate ∧
      ∃ id graphtype, AttachedTo reader graphset candidate id graphtype ∧
        interpolate.step reader graphset closest candidate =
          { closest_candidate := some candidate
            closest_sq_distance := some candidate.sq_distance
            closest_graphid := id
            closest_graphtype := graphtype }) := by
  unfold interpolate.step
  cases hc : interpolate.closer candidate closest with
  | false => exact Or.inl ⟨by simp, Or.inl rfl⟩
  | true =>
    simp only [if_true]
    cases hn : candidate.IsNode with
    | false =>
      simp only [Bool.not_false, if_true]
      by_cases hm : ∃ id ∈ candidate.edges.map (fun edge => edge.id), id ∈ graphset
      · obtain ⟨id, hid, hidg, heq⟩ :=
          interpolate.scan_some graphset candidate GraphType.kEdge _ closest hm
        refine Or.inr ⟨trivial, ?_, id, GraphType.kEdge, ?_, heq⟩
        · unfold CandidateMatches
          simp only [hn, Bool.false_eq_true, if_false]
          obtain ⟨e, he, hee⟩ := List.mem_map.mp hid
          exact ⟨e, he, hee ▸ hidg⟩
        · unfold AttachedTo
          simp only [hn, Bool.false_eq_true, if_false, and_true]
          obtain ⟨e, he, hee⟩ := List.mem_map.mp hid
          exact ⟨hidg, e, he, hee⟩
      · refine Or.inl ⟨?_, Or.inr ?_⟩
        · exact interpolate.scan_none graphset candidate GraphType.kEdge _ closest
            (fun x hx hxg => hm ⟨x, hx, hxg⟩)
        · unfold CandidateMatches
          simp only [hn, Bool.false_eq_true, if_false]
          rintro ⟨e, he, heg⟩
          exact hm ⟨e.id, List.mem_map.mpr ⟨e, he, rfl⟩, heg⟩
    | true =>
      simp only [Bool.not_true, Bool.false_eq_true, if_false]
      by_cases hm : ∃ id ∈ collect_nodes reader candidate, id ∈ graphset
      · obtain ⟨id, hid, hidg, heq⟩ :=
          interpolate.scan_some graphset candidate GraphType.kNode _ closest hm
        refine Or.inr ⟨trivial, ?_, id, GraphType.kNode, ?_, heq⟩
        · unfold CandidateMatches
          simp only [hn, if_true]
          exact hm
        · unfold AttachedTo
          simp only [hn, if_true, and_true]
          exact ⟨hidg, hid⟩
      · refine Or.inl ⟨?_, Or.inr ?_⟩
        · exact interpolate.scan_none graphset candidate GraphType.kNode _ closest
            (fun x hx hxg => hm ⟨x, hx, hxg⟩)
        · unfold CandidateMatches
          simp only [hn, if_true]
          exact hm

theorem interpolate.Inv_step (reader : GraphReader) (graphset : List GraphId)
    (seen : List Candidate) (closest : Closest) (candidate : Candidate)
    (h : interpolate.Inv reader graphset seen closest) :
    interpolate.Inv reader graphset (seen ++ [candidate])
      (interpolate.step reader graphset closest candidate) := by
  rcases interpolate.step_cases reader graphset closest candidate with
    ⟨heq, hkeep⟩ | ⟨hcl, hmatch, id, graphtype, hatt, heq⟩
  · rw [heq]
    unfold interpolate.Inv at h ⊢
    cases hc : closest.closest_candidate with
    | none =>
      rw [hc] at h
      simp only at h ⊢
      refine ⟨h.1, ?_⟩
      intro c hcmem
      rcases List.mem_append.mp hcmem with hcs | hcs
      · exact h.2 c hcs
      · simp only [List.mem_singleton] at hcs
        subst hcs
        rcases hkeep with hk | hk
        · simp [interpolate.closer, h.1] at hk
        · exact hk
    | some c0 =>
      rw [hc] at h
      simp only at h ⊢
      obtain ⟨hmem, hsq, hmin, hatt⟩ := h
      refine ⟨List.mem_append_left _ hmem, hsq, ?_, hatt⟩
      intro c2 hc2 hm2
      rcases List.mem_append.mp hc2 with hcs | hcs
      · exact hmin c2 hcs hm2
      · simp only [List.mem_singleton] at hcs
        subst hcs
        rcases hkeep with hk | hk
        · simp only [interpolate.closer, hsq, decide_eq_false_iff_not, not_lt] at hk
          exact hk
        · exact absurd hm2 hk
  · rw [heq]
    unfold interpolate.Inv at h ⊢
    simp only
    refine ⟨by simp, trivial, ?_, hatt⟩
    intro c2 hc2 hm2
    rcases List.mem_append.mp hc2 with hcs | hcs
    · cases hc : closest.closest_candidate with
      | none =>
        rw [hc] at h
        exact absurd hm2 (h.2 c2 hcs)
      | some c0 =>
        rw [hc] at h
        simp only at h
        obtain ⟨_, hsq, hmin, _⟩ := h
        simp only [interpolate.closer, hsq, decide_eq_true_eq] at hcl
        exact le_trans (le_of_lt hcl) (hmin c2 hcs hm2)
    · simp only [List.mem_singleton] at hcs
      subst hcs
      exact le_refl _

theorem interpolate.Inv_foldl (reader : GraphReader) (graphset : List GraphId)
    (candidates : List Candidate) :
    ∀ (seen : List Candidate) (closest : Closest),
      interpolate.Inv reader graphset seen closest →
      interpolate.Inv reader graphset (seen ++ candidates)
        (candidates.foldl (interpolate.step reader graphset) closest) := by
  induction candidates with
  | nil => intro seen closest h; simpa using h
  | cons c rest ih =>
    intro seen closest h
    have h2 := ih (seen ++ [c]) _ (interpolate.Inv_step reader graphset seen closest c h)
    simpa using h2

theorem interpolate.eq_of_closest (reader : GraphReader) (graphset : List GraphId)
    (candidates : List Candidate) (measurement : Measurement) (closest : Closest)
    (h : candidates.foldl (interpolate.step reader graphset)
      { closest_candidate := none, closest_sq_distance := none,
        closest_graphid := GraphId.invalid, closest_graphtype := GraphType.kUnknown } = closest) :
    interpolate reader graphset candidates measurement =
      match closest.closest_candidate with
      | some c =>
        { lnglat := c.vertex, distance := c.distance, graphid := closest.closest_graphid,
          graphtype := closest.closest_graphtype, state := none }
      | none => MatchResult.ofPoint measurement.lnglat := by
  subst h
  rfl

theorem Example.candidates_match :
    ∃ c ∈ Example.candidates,
      CandidateMatches Example.reader [Example.edgeB, ⟨12⟩] c := by
  unfold CandidateMatches; decide

theorem Example.candidates_no_match :
    ¬ ∃ c ∈ Example.candidates, CandidateMatches Example.reader [Example.edgeC] c := by
  unfold CandidateMatches; decide

/-! ## Lemmas on the column building loop -/

theorem MapMatching.AppendState.loop_candidates (time : Nat) (candidates : List Candidate) :
    ∀ state_ column : List State,
      (MapMatching.AppendState.loop time candidates state_ column).2.map State.candidate =
        column.map State.candidate ++ candidates := by
  induction candidates with
  | nil => intro state_ column; simp [MapMatching.AppendState.loop]
  | cons c rest ih =>
    intro state_ column
    rw [MapMatching.AppendState.loop, ih]
    simp [State.new]

theorem MapMatching.AppendState_measurements (mm : MapMatching) (measurement : Measurement)
    (candidates : List Candidate) :
    (mm.AppendState measurement candidates).1.measurements_ =
      mm.measurements_ ++ [measurement] := by
  simp [MapMatching.AppendState]

theorem MapMatching.AppendState_time (mm : MapMatching) (measurement : Measurement)
    (candidates : List Candidate) :
    (mm.AppendState measurement candidates).2 = mm.states_.length := by
  simp [MapMatching.AppendState]

theorem MapMatching.AppendState_states (mm : MapMatching) (measurement : Measurement)
    (candidates : List Candidate) :
    (mm.AppendState measurement candidates).1.states_.map (List.map State.candidate) =
      mm.states_.map (List.map State.candidate) ++ [candidates] := by
  simp [MapMatching.AppendState, MapMatching.AppendState.loop_candidates]

theorem MapMatching.AppendState_graphreader (mm : MapMatching) (measurement : Measurement)
    (candidates : List Candidate) :
    (mm.AppendState measurement candidates).1.graphreader_ = mm.graphreader_ := by
  simp [MapMatching.AppendState]

theorem Spec.last_admitted_eq (D : PointLL → PointLL → ℚ) (ms : List Measurement) (d2 : ℚ)
    (k : Nat) :
    Spec.last_admitted D ms d2 k =
      if Spec.admitted D ms d2 k = true then k else Spec.last_admitted D ms d2 (k - 1) := by
  cases k with
  | zero => simp [Spec.last_admitted, Spec.admitted]
  | succ j =>
    rw [Spec.last_admitted]
    simp only [Spec.admitted, Nat.add_sub_cancel, decide_eq_true_eq, Nat.add_one_ne_zero,
      false_or]

theorem OfflineMatch.loadPrefix_succ (D : PointLL → PointLL → ℚ) (mm : MapMatching)
    (cq : CandidateQuery) (ms : List Measurement) (r d : ℚ) (k : Nat) :
    OfflineMatch.loadPrefix D mm cq ms r d (k + 1) =
      OfflineMatch.load D cq ms r (d * d) (OfflineMatch.loadPrefix D mm cq ms r d k) k := by
  simp [OfflineMatch.loadPrefix, List.range_succ, List.foldl_append]

theorem OfflineMatch.load_cond_iff (D : PointLL → PointLL → ℚ) (ms : List Measurement)
    (d2 : ℚ) (k : Nat) :
    (d2 ≤ D (OfflineMatch.at ms (Spec.last_admitted D ms d2 (k - 1))).lnglat
        (OfflineMatch.at ms k).lnglat ∨ k = 0 ∨ k = ms.length - 1) ↔
      Spec.admitted D ms d2 k = true := by
  simp only [Spec.admitted, decide_eq_true_eq]
  constructor
  · rintro (h | h | h)
    · exact Or.inr (Or.inr h)
    · exact Or.inl h
    · exact Or.inr (Or.inl h)
  · rintro (h | h | h)
    · exact Or.inr (Or.inl h)
    · exact Or.inr (Or.inr h)
    · exact Or.inl h

theorem OfflineMatch.loadPrefix_spec (D : PointLL → PointLL → ℚ) (mm : MapMatching)
    (cq : CandidateQuery) (ms : List Measurement) (r d : ℚ) (k : Nat) :
    (OfflineMatch.loadPrefix D mm cq ms r d k).mm.measurements_ =
      ((List.range k).filter (Spec.admitted D ms (d * d))).map (OfflineMatch.at ms) ∧
    (OfflineMatch.loadPrefix D mm cq ms r d k).mm.states_.map (List.map State.candidate) =
      ((List.range k).filter (Spec.admitted D ms (d * d))).map
        (fun i => cq.Query (OfflineMatch.at ms i).lnglat r) ∧
    (OfflineMatch.loadPrefix D mm cq ms r d k).last_idx =
      Spec.last_admitted D ms (d * d) (k - 1) ∧
    (OfflineMatch.loadPrefix D mm cq ms r d k).time =
      Spec.column_time D ms (d * d) (Spec.last_admitted D ms (d * d) (k - 1)) ∧
    (∀ t, (OfflineMatch.loadPrefix D mm cq ms r d k).proximate_measurements t =
      (List.range k).filter (Spec.skipped D ms (d * d) t)) ∧
    (OfflineMatch.loadPrefix D mm cq ms r d k).mm.graphreader_ = mm.graphreader_ := by
  induction k with
  | zero =>
    simp [OfflineMatch.loadPrefix, MapMatching.Clear, Spec.last_admitted, Spec.column_time]
  | succ k ih =>
    obtain ⟨hm, hs, hl, ht, hp, hg⟩ := ih
    rw [OfflineMatch.loadPrefix_succ]
    generalize OfflineMatch.loadPrefix D mm cq ms r d k = st at hm hs hl ht hp hg
    have hlen : st.mm.states_.length = Spec.column_time D ms (d * d) k := by
      have := congrArg List.length hs
      simpa [Spec.column_time] using this
    simp only [Nat.add_sub_cancel]
    unfold OfflineMatch.load
    simp only [hl]
    by_cases hc : Spec.admitted D ms (d * d) k = true
    · have hcond := (OfflineMatch.load_cond_iff D ms (d * d) k).mpr hc
      rw [if_pos hcond]
      have hlast : Spec.last_admitted D ms (d * d) k = k := by
        rw [Spec.last_admitted_eq, if_pos hc]
      simp only [MapMatching.AppendState_measurements, MapMatching.AppendState_time,
        MapMatching.AppendState_states, MapMatching.AppendState_graphreader]
      refine ⟨?_, ?_, hlast.symm, ?_, ?_, hg⟩
      · rw [List.range_succ, List.filter_append, List.map_append, hm]
        simp [hc]
      · rw [List.range_succ, List.filter_append, List.map_append, hs]
        simp [hc]
      · rw [hlast, hlen]
      · intro t
        rw [List.range_succ, List.filter_append, hp t]
        simp [Spec.skipped, hc]
    · have hcond := mt (OfflineMatch.load_cond_iff D ms (d * d) k).mp hc
      rw [if_neg hcond]
      have hlast : Spec.last_admitted D ms (d * d) k = Spec.last_admitted D ms (d * d) (k - 1) := by
        rw [Spec.last_admitted_eq, if_neg hc]
      simp only
      refine ⟨?_, ?_, hlast.symm, ?_, ?_, hg⟩
      · rw [List.range_succ, List.filter_append, List.map_append, hm]
        simp [hc]
      · rw [List.range_succ, List.filter_append, List.map_append, hs]
        simp [hc]
      · rw [hlast, ht]
      · intro t
        rw [List.range_succ, List.filter_append, ← hp t]
        have hc2 : Spec.admitted D ms (d * d) k = false := by simpa using hc
        by_cases htt : t = st.time
        · rw [if_pos htt]
          simp [Spec.skipped, hc2, hlast, ← ht, htt]
        · rw [if_neg htt]
          have : ¬ (st.time = t) := fun e => htt e.symm
          simp [Spec.skipped, hc2, hlast, ← ht, this]

theorem Spec.skipped_count_succ (p : Nat → List Nat) (T : Nat) :
    Spec.skipped_count p (T + 1) = Spec.skipped_count p T + (p T).length := by
  simp [Spec.skipped_count, List.range_succ]

theorem Spec.skipped_count_update (p : Nat → List Nat) (t0 i : Nat) (T : Nat) (h : t0 < T) :
    Spec.skipped_count (fun t => if t = t0 then p t ++ [i] else p t) T =
      Spec.skipped_count p T + 1 := by
  induction T with
  | zero => omega
  | succ T ih =>
    rw [Spec.skipped_count_succ, Spec.skipped_count_succ]
    by_cases hT : t0 = T
    · subst hT
      have hlow : Spec.skipped_count (fun t => if t = t0 then p t ++ [i] else p t) t0 =
          Spec.skipped_count p t0 := by
        unfold Spec.skipped_count
        congr 1
        apply List.map_congr_left
        intro t ht
        have : t ≠ t0 := Nat.ne_of_lt (List.mem_range.mp ht)
        simp [this]
      rw [hlow]
      simp
      omega
    · have hlt : t0 < T := by omega
      rw [ih hlt]
      have : ¬ (T = t0) := fun e => hT e.symm
      simp [this]
      omega

theorem MapMatching.AppendState_states_length (mm : MapMatching) (measurement : Measurement)
    (candidates : List Candidate) :
    (mm.AppendState measurement candidates).1.states_.length = mm.states_.length + 1 := by
  simp [MapMatching.AppendState]

theorem OfflineMatch.load_admit (D : PointLL → PointLL → ℚ) (cq : CandidateQuery)
    (ms : List Measurement) (r d2 : ℚ) (st : LoadState) (idx : Nat)
    (h : d2 ≤ D (OfflineMatch.at ms st.last_idx).lnglat (OfflineMatch.at ms idx).lnglat ∨
      idx = 0 ∨ idx = ms.length - 1) :
    OfflineMatch.load D cq ms r d2 st idx =
      { st with
        mm := (st.mm.AppendState (OfflineMatch.at ms idx)
          (cq.Query (OfflineMatch.at ms idx).lnglat r)).1
        time := (st.mm.AppendState (OfflineMatch.at ms idx)
          (cq.Query (OfflineMatch.at ms idx).lnglat r)).2
        last_idx := idx } := by
  unfold OfflineMatch.load
  exact if_pos h

theorem OfflineMatch.load_skip (D : PointLL → PointLL → ℚ) (cq : CandidateQuery)
    (ms : List Measurement) (r d2 : ℚ) (st : LoadState) (idx : Nat)
    (h : ¬ (d2 ≤ D (OfflineMatch.at ms st.last_idx).lnglat (OfflineMatch.at ms idx).lnglat ∨
      idx = 0 ∨ idx = ms.length - 1)) :
    OfflineMatch.load D cq ms r d2 st idx =
      { st with
        proximate_measurements := fun time =>
          if time = st.time then st.proximate_measurements time ++ [idx]
          else st.proximate_measurements time } := by
  unfold OfflineMatch.load
  exact if_neg h

theorem OfflineMatch.loadPrefix_count (D : PointLL → PointLL → ℚ) (mm : MapMatching)
    (cq : CandidateQuery) (ms : List Measurement) (r d : ℚ) (k : Nat) :
    (OfflineMatch.loadPrefix D mm cq ms r d k).mm.measurements_.length =
      (OfflineMatch.loadPrefix D mm cq ms r d k).mm.states_.length ∧
    (1 ≤ k → (OfflineMatch.loadPrefix D mm cq ms r d k).time + 1 =
      (OfflineMatch.loadPrefix D mm cq ms r d k).mm.states_.length) ∧
    Spec.skipped_count (OfflineMatch.loadPrefix D mm cq ms r d k).proximate_measurements
        (OfflineMatch.loadPrefix D mm cq ms r d k).mm.states_.length +
      (OfflineMatch.loadPrefix D mm cq ms r d k).mm.states_.length = k ∧
    (∀ t, (OfflineMatch.loadPrefix D mm cq ms r d k).mm.states_.length ≤ t →
      (OfflineMatch.loadPrefix D mm cq ms r d k).proximate_measurements t = []) := by
  induction k with
  | zero =>
    simp [OfflineMatch.loadPrefix, MapMatching.Clear, Spec.skipped_count]
  | succ k ih =>
    obtain ⟨hlen, htime, hsum, hempty⟩ := ih
    rw [OfflineMatch.loadPrefix_succ]
    generalize OfflineMatch.loadPrefix D mm cq ms r d k = st at hlen htime hsum hempty
    by_cases hcond : d * d ≤ D (OfflineMatch.at ms st.last_idx).lnglat
        (OfflineMatch.at ms k).lnglat ∨ k = 0 ∨ k = ms.length - 1
    · rw [OfflineMatch.load_admit D cq ms r (d * d) st k hcond]
      simp only [MapMatching.AppendState_measurements, MapMatching.AppendState_time,
        MapMatching.AppendState_states_length, List.length_append, List.length_singleton]
      refine ⟨by omega, fun _ => trivial, ?_, ?_⟩
      · rw [Spec.skipped_count_succ, hempty _ (le_refl _)]
        simp
        omega
      · intro t ht
        exact hempty t (by omega)
    · rw [OfflineMatch.load_skip D cq ms r (d * d) st k hcond]
      have hk : 1 ≤ k := by
        by_contra hk0
        have : k = 0 := by omega
        exact hcond (Or.inr (Or.inl this))
      have ht := htime hk
      simp only
      refine ⟨hlen, fun _ => ht, ?_, ?_⟩
      · rw [Spec.skipped_count_update _ _ _ _ (by omega)]
        omega
      · intro t hT
        have : ¬ (t = st.time) := by omega
        simp only [this, if_false]
        exact hempty t hT

/-- The last measurement always gets a column: no skipped measurement is
attached to the last column. -/
theorem OfflineMatch.loadStates_last (D : PointLL → PointLL → ℚ) (mm : MapMatching)
    (cq : CandidateQuery) (ms : List Measurement) (r d : ℚ) (hne : ms ≠ []) :
    1 ≤ (OfflineMatch.loadStates D mm cq ms r d).mm.states_.length ∧
    (OfflineMatch.loadStates D mm cq ms r d).time + 1 =
      (OfflineMatch.loadStates D mm cq ms r d).mm.states_.length ∧
    (OfflineMatch.loadStates D mm cq ms r d).proximate_measurements
      ((OfflineMatch.loadStates D mm cq ms r d).mm.states_.length - 1) = [] := by
  obtain ⟨m, hm⟩ : ∃ m, ms.length = m + 1 :=
    ⟨ms.length - 1, by have := List.length_pos.mpr hne; omega⟩
  have hload : OfflineMatch.loadStates D mm cq ms r d =
      OfflineMatch.loadPrefix D mm cq ms r d (m + 1) := by
    unfold OfflineMatch.loadStates OfflineMatch.loadPrefix
    rw [hm]
  rw [hload, OfflineMatch.loadPrefix_succ]
  obtain ⟨_, _, _, hempty⟩ := OfflineMatch.loadPrefix_count D mm cq ms r d m
  generalize OfflineMatch.loadPrefix D mm cq ms r d m = st at hempty
  have hcond : d * d ≤ D (OfflineMatch.at ms st.last_idx).lnglat (OfflineMatch.at ms m).lnglat ∨
      m = 0 ∨ m = ms.length - 1 := Or.inr (Or.inr (by omega))
  rw [OfflineMatch.load_admit D cq ms r (d * d) st m hcond]
  simp only [MapMatching.AppendState_time, MapMatching.AppendState_states_length,
    Nat.add_sub_cancel]
  exact ⟨by omega, trivial, hempty _ (le_refl _)⟩

/-- The index `Spec.last_admitted i` is the most recently admitted measurement
among `0..i`. -/
theorem Spec.last_admitted_spec (D : PointLL → PointLL → ℚ) (ms : List Measurement) (d2 : ℚ)
    (i : Nat) :
    Spec.last_admitted D ms d2 i ≤ i ∧
    Spec.admitted D ms d2 (Spec.last_admitted D ms d2 i) = true ∧
    ∀ j, Spec.last_admitted D ms d2 i < j → j ≤ i → Spec.admitted D ms d2 j = false := by
  induction i with
  | zero =>
    refine ⟨by simp [Spec.last_admitted], by simp [Spec.last_admitted, Spec.admitted], ?_⟩
    intro j h1 h2
    simp only [Spec.last_admitted] at h1
    omega
  | succ i ih =>
    obtain ⟨hle, hadm, hgap⟩ := ih
    rw [Spec.last_admitted_eq]
    by_cases hc : Spec.admitted D ms d2 (i + 1) = true
    · rw [if_pos hc]
      exact ⟨le_refl _, hc, fun j h1 h2 => by omega⟩
    · rw [if_neg hc]
      simp only [Nat.add_sub_cancel]
      refine ⟨by omega, hadm, ?_⟩
      intro j h1 h2
      by_cases hj : j = i + 1
      · subst hj; simpa using hc
      · exact hgap j h1 (by omega)

/-! ## Lemmas on the result loop -/

theorem OfflineMatch.interpolateAll_some (reader : GraphReader) (cq : CandidateQuery)
    (ms : List Measurement) (r : ℚ) (graphset : List GraphId) (l : List Nat) :
    ∀ results : List MatchResult, (∀ idx ∈ l, idx < ms.length) →
      ∃ res, OfflineMatch.interpolateAll reader cq ms r graphset l results = some res ∧
        res.length = results.length + l.length := by
  induction l with
  | nil => intro results _; exact ⟨results, rfl, by simp⟩
  | cons idx rest ih =>
    intro results h
    have hidx : idx < ms.length := h idx (List.mem_cons_self _ _)
    rw [OfflineMatch.interpolateAll, List.get?_eq_get hidx]
    obtain ⟨res, hres, hlen⟩ := ih
      (results ++ [interpolate reader graphset (cq.Query (ms.get ⟨idx, hidx⟩).lnglat r)
        (ms.get ⟨idx, hidx⟩)])
      (fun x hx => h x (List.mem_cons_of_mem _ hx))
    refine ⟨res, hres, ?_⟩
    rw [hlen]
    simp
    omega

theorem OfflineMatch.replaceSource_some (ms : List Measurement)
    (source_state target_state : Option State) (results : List MatchResult)
    (hne : results ≠ []) (hlen : results.length ≤ ms.length) :
    ∃ res, OfflineMatch.replaceSource ms source_state target_state results = some res ∧
      res.length = results.length := by
  unfold OfflineMatch.replaceSource
  rw [List.getLast?_eq_getLast results hne]
  simp only
  have hpos : 0 < results.length := List.length_pos.mpr hne
  split
  · have hlt : results.dropLast.length < ms.length := by
      rw [List.length_dropLast]; omega
    rw [List.get?_eq_get hlt]
    refine ⟨_, rfl, ?_⟩
    have hd := List.length_dropLast results
    simp only [List.length_append, List.length_singleton]
    omega
  · exact ⟨results, rfl, rfl⟩

theorem OfflineMatch.assembleStep_some (reader : GraphReader) (cq : CandidateQuery)
    (ms : List Measurement) (r : ℚ) (prox : Nat → List Nat) (iterpath : List (Option State))
    (results : List MatchResult) (time : Nat)
    (ht : time < iterpath.length) (hne : results ≠ [])
    (hlen : results.length + (prox (time - 1)).length < ms.length)
    (hidx : ∀ idx ∈ prox (time - 1), idx < ms.length) :
    ∃ res, OfflineMatch.assembleStep reader cq ms r prox iterpath results time = some res ∧
      res.length = results.length + (prox (time - 1)).length + 1 := by
  unfold OfflineMatch.assembleStep
  have ht1 : time - 1 < iterpath.length := by omega
  rw [List.get?_eq_get ht1, List.get?_eq_get ht]
  simp only
  obtain ⟨res1, hres1, hlen1⟩ := OfflineMatch.replaceSource_some ms
    (iterpath.get ⟨time - 1, ht1⟩) (iterpath.get ⟨time, ht⟩) results hne (by omega)
  rw [hres1]
  simp only
  obtain ⟨res2, hres2, hlen2⟩ := OfflineMatch.interpolateAll_some reader cq ms r
    (collect_graphset reader (iterpath.get ⟨time - 1, ht1⟩) (iterpath.get ⟨time, ht⟩))
    (prox (time - 1)) res1 hidx
  rw [hres2]
  simp only
  have hlt : res2.length < ms.length := by omega
  rw [List.get?_eq_get hlt]
  refine ⟨_, rfl, ?_⟩
  rw [List.length_append]
  simp
  omega

theorem OfflineMatch.assemble_some (reader : GraphReader) (cq : CandidateQuery)
    (ms : List Measurement) (r : ℚ) (prox : Nat → List Nat) (iterpath : List (Option State))
    (times : List Nat) :
    ∀ results : List MatchResult,
      (∀ t ∈ times, t < iterpath.length ∧ ∀ idx ∈ prox (t - 1), idx < ms.length) →
      results ≠ [] →
      results.length + (times.map (fun t => (prox (t - 1)).length + 1)).sum ≤ ms.length →
      ∃ res, OfflineMatch.assemble reader cq ms r prox iterpath times results = some res ∧
        res.length =
          results.length + (times.map (fun t => (prox (t - 1)).length + 1)).sum := by
  induction times with
  | nil => intro results _ _ _; exact ⟨results, rfl, by simp⟩
  | cons t rest ih =>
    intro results h hne hlen
    simp only [List.map_cons, List.sum_cons] at hlen ⊢
    obtain ⟨ht, hidx⟩ := h t (List.mem_cons_self _ _)
    obtain ⟨res1, hres1, hlen1⟩ := OfflineMatch.assembleStep_some reader cq ms r prox iterpath
      results t ht hne (by omega) hidx
    rw [OfflineMatch.assemble, hres1]
    simp only
    have hne1 : res1 ≠ [] := by
      intro e
      rw [e] at hlen1
      simp at hlen1
    obtain ⟨res, hres, hlen2⟩ := ih res1 (fun x hx => h x (List.mem_cons_of_mem _ hx)) hne1
      (by omega)
    exact ⟨res, hres, by omega⟩

theorem Spec.sum_range_shift (f : Nat → Nat) (m : Nat) :
    ((List.range' 1 m).map (fun t => f (t - 1) + 1)).sum =
      m + ((List.range m).map f).sum := by
  induction m with
  | zero => simp
  | succ m ih =>
    rw [List.range'_1_concat, List.map_append, List.sum_append, ih, List.range_succ,
      List.map_append, List.sum_append]
    simp
    omega

theorem OfflineMatch.eq_assemble (D : PointLL → PointLL → ℚ)
    (SearchPath : MapMatching → Nat → List (Option State)) (mm : MapMatching)
    (cq : CandidateQuery) (ms : List Measurement) (r d : ℚ) (front : Measurement)
    (h : ms.head? = some front) :
    OfflineMatch D SearchPath mm cq ms r d =
      OfflineMatch.assemble (OfflineMatch.loadStates D mm cq ms r d).mm.graphreader_ cq ms r
        (OfflineMatch.loadStates D mm cq ms r d).proximate_measurements
        (SearchPath (OfflineMatch.loadStates D mm cq ms r d).mm
          (OfflineMatch.loadStates D mm cq ms r d).time).reverse
        (List.range' 1 ((OfflineMatch.loadStates D mm cq ms r d).mm.size - 1))
        [MatchResult.ofPoint front.lnglat] := by
  unfold OfflineMatch
  rw [h]

/-! ## Lemmas on the construction of the model -/

theorem MapMatching.new_eq (exp : ℚ → ℚ) (g : GraphReader) (sigma_z beta b f t : ℚ) :
    MapMatching.new exp g sigma_z beta b f t =
      if sigma_z ≤ 0 then
        Except.error (Exn.invalid_argument "Expect sigma_z to be positive")
      else if beta ≤ 0 then
        Except.error (Exn.invalid_argument "Expect beta to be positive")
      else if 0 < t then
        Except.ok
          { graphreader_ := g, measurements_ := [], states_ := [], sigma_z_ := sigma_z,
            inv_double_sq_sigma_z_ := 1 / (sigma_z * sigma_z * 2), beta_ := beta,
            inv_beta_ := 1 / beta, breakage_distance_ := b, max_route_distance_factor_ := f,
            turn_penalty_factor_ := t,
            turn_cost_table_ := (List.range 181).map (fun (i : Nat) => t * exp (-(i : ℚ) / 45)),
            state_ := [], unreached_states_ := [] }
      else if t < 0 then
        Except.error (Exn.invalid_argument "Expect turn penalty factor to be nonnegative")
      else
        Except.ok
          { graphreader_ := g, measurements_ := [], states_ := [], sigma_z_ := sigma_z,
            inv_double_sq_sigma_z_ := 1 / (sigma_z * sigma_z * 2), beta_ := beta,
            inv_beta_ := 1 / beta, breakage_distance_ := b, max_route_distance_factor_ := f,
            turn_penalty_factor_ := t, turn_cost_table_ := List.replicate 181 0,
            state_ := [], unreached_states_ := [] } := by
  rfl

theorem MapMatching.new_ok (exp : ℚ → ℚ) (g : GraphReader) (sigma_z beta b f t : ℚ)
    (mm : MapMatching) (h : MapMatching.new exp g sigma_z beta b f t = Except.ok mm) :
    0 < sigma_z ∧ 0 < beta ∧ 0 ≤ t ∧
    mm.sigma_z_ = sigma_z ∧ mm.beta_ = beta ∧ mm.turn_penalty_factor_ = t ∧
    mm.breakage_distance_ = b ∧ mm.max_route_distance_factor_ = f ∧
    mm.inv_double_sq_sigma_z_ = 1 / (sigma_z * sigma_z * 2) ∧ mm.inv_beta_ = 1 / beta ∧
    mm.turn_cost_table_ =
      (if 0 < t then (List.range 181).map (fun (i : Nat) => t * exp (-(i : ℚ) / 45))
        else List.replicate 181 0) ∧
    mm.measurements_ = [] ∧ mm.states_ = [] ∧ mm.state_ = [] ∧ mm.unreached_states_ = [] := by
  rw [MapMatching.new_eq] at h
  by_cases h1 : sigma_z ≤ 0
  · rw [if_pos h1] at h; simp at h
  · rw [if_neg h1] at h
    by_cases h2 : beta ≤ 0
    · rw [if_pos h2] at h; simp at h
    · rw [if_neg h2] at h
      by_cases h3 : 0 < t
      · rw [if_pos h3] at h
        simp only [Except.ok.injEq] at h
        subst h
        exact ⟨not_le.mp h1, not_le.mp h2, le_of_lt h3, rfl, rfl, rfl, rfl, rfl, rfl, rfl,
          (if_pos h3).symm, rfl, rfl, rfl, rfl⟩
      · rw [if_neg h3] at h
        by_cases h4 : t < 0
        · rw [if_pos h4] at h; simp at h
        · rw [if_neg h4] at h
          simp only [Except.ok.injEq] at h
          subst h
          exact ⟨not_le.mp h1, not_le.mp h2, not_lt.mp h4, rfl, rfl, rfl, rfl, rfl, rfl, rfl,
            (if_neg h3).symm, rfl, rfl, rfl, rfl⟩

theorem MapMatching.new_constructed (exp : ℚ → ℚ) (g : GraphReader)
    (sigma_z beta b f t : ℚ) (mm : MapMatching)
    (h : MapMatching.new exp g sigma_z beta b f t = Except.ok mm) : mm.Constructed := by
  obtain ⟨h1, h2, h3, e1, e2, e3, _, _, e4, e5, _⟩ :=
    MapMatching.new_ok exp g sigma_z beta b f t mm h
  unfold MapMatching.Constructed
  rw [e1, e2, e3, e4, e5]
  exact ⟨h1, h2, h3, rfl, rfl⟩

theorem MapMatching.Clear_constructed (mm : MapMatching) (h : mm.Constructed) :
    mm.Clear.Constructed := h

theorem MapMatching.AppendState_constructed (mm : MapMatching) (measurement : Measurement)
    (candidates : List Candidate) (h : mm.Constructed) :
    (mm.AppendState measurement candidates).1.Constructed := h

theorem Example.mm_new :
    MapMatching.new Example.exp Example.reader 5 3 2000 3 0 = Except.ok Example.mm := by
  with_unfolding_all rfl

theorem Example.exp_nonneg : ∀ x, 0 ≤ Example.exp x := by
  intro x
  unfold Example.exp
  have : 0 < 1 + x * x := by nlinarith [mul_self_nonneg x]
  exact le_of_lt (div_pos one_pos this)

theorem Example.mmTurn_new :
    MapMatching.new Example.exp Example.reader 5 3 2000 3 1 = Except.ok Example.mmTurn := by
  with_unfolding_all rfl

/-! ## Lemmas on the transition cost -/

theorem fmin_eq_min (a b : ℚ) : fmin a b = min a b := by
  unfold fmin
  split
  · rename_i h; exact (min_eq_right (le_of_lt h)).symm
  · rename_i h; exact (min_eq_left (not_lt.mp h)).symm

theorem State.route_routed (fsp : ShortestPath) (s : State) (states : List State)
    (g : GraphReader) (b : ℚ) (el : Option Nat) (table : List ℚ) :
    (s.route fsp states g b el table).routed = true := rfl

theorem State.route_fields (fsp : ShortestPath) (s : State) (states : List State)
    (g : GraphReader) (b : ℚ) (el : Option Nat) (table : List ℚ) :
    (s.route fsp states g b el table).id = s.id ∧
    (s.route fsp states g b el table).time = s.time ∧
    (s.route fsp states g b el table).candidate = s.candidate := ⟨rfl, rfl, rfl⟩

theorem MapMatching.TransitionCost.routeLeft_routed (D : PointLL → PointLL → ℚ)
    (fsp : ShortestPath) (pred : Nat → Option Nat) (mm : MapMatching) (left : Nat)
    (l r : State) (h : l.routed = true) :
    MapMatching.TransitionCost.routeLeft D fsp pred mm left l r = some mm := by
  simp [MapMatching.TransitionCost.routeLeft, h]

theorem MapMatching.TransitionCost.routeLeft_unrouted (D : PointLL → PointLL → ℚ)
    (fsp : ShortestPath) (pred : Nat → Option Nat) (mm mm2 : MapMatching) (left : Nat)
    (l r : State) (h : l.routed = false)
    (hr : MapMatching.TransitionCost.routeLeft D fsp pred mm left l r = some mm2) :
    ∃ el targets b, MapMatching.TransitionCost.edgelabel pred mm l = some el ∧
      mm.unreached_states_.get? r.time = some targets ∧
      mm.MaxRouteDistance D l r = some b ∧
      mm2 = { mm with
        state_ := mm.state_.set left
          (l.route fsp targets mm.graphreader_ b el mm.turn_cost_table_) } := by
  unfold MapMatching.TransitionCost.routeLeft at hr
  simp only [h, Bool.not_false, if_true] at hr
  split at hr
  · rename_i el targets b he ht hb
    simp only [Option.some.injEq] at hr
    exact ⟨el, targets, b, he, ht, hb, hr.symm⟩
  · exact absurd hr (by simp)

/-- Routing the left state changes nothing of the model but the arena entry of
that state: the measurements, the parameters and the other states stay. -/
theorem MapMatching.TransitionCost.routeLeft_frame (D : PointLL → PointLL → ℚ)
    (fsp : ShortestPath) (pred : Nat → Option Nat) (mm mm2 : MapMatching) (left : Nat)
    (l r : State) (hl : mm.state_.get? left = some l)
    (hr : MapMatching.TransitionCost.routeLeft D fsp pred mm left l r = some mm2) :
    mm2.measurements_ = mm.measurements_ ∧ mm2.inv_beta_ = mm.inv_beta_ ∧
    mm2.beta_ = mm.beta_ ∧ mm2.unreached_states_ = mm.unreached_states_ ∧
    mm2.states_ = mm.states_ ∧ (mm.Constructed → mm2.Constructed) ∧
    mm2.state_.length = mm.state_.length ∧
    (∀ i, i ≠ left → mm2.state_.get? i = mm.state_.get? i) ∧
    ∃ l2, mm2.state_.get? left = some l2 ∧ l2.routed = true ∧ l2.id = l.id ∧
      l2.time = l.time ∧ l2.candidate = l.candidate ∧ (l.routed = true → l2 = l) := by
  cases hrt : l.routed with
  | true =>
    rw [MapMatching.TransitionCost.routeLeft_routed D fsp pred mm left l r hrt] at hr
    simp only [Option.some.injEq] at hr
    subst hr
    exact ⟨rfl, rfl, rfl, rfl, rfl, id, rfl, fun _ _ => rfl, l, hl, hrt, rfl, rfl, rfl,
      fun _ => rfl⟩
  | false =>
    obtain ⟨el, targets, b, _, _, _, rfl⟩ :=
      MapMatching.TransitionCost.routeLeft_unrouted D fsp pred mm mm2 left l r hrt hr
    have hlt : left < mm.state_.length := by
      rcases Nat.lt_or_ge left mm.state_.length with h | h
      · exact h
      · rw [List.get?_eq_none.mpr h] at hl; simp at hl
    refine ⟨rfl, rfl, rfl, rfl, rfl, id, by simp, ?_,
      l.route fsp targets mm.graphreader_ b el mm.turn_cost_table_, ?_, rfl, rfl, rfl, rfl, ?_⟩
    · intro i hi
      simp only [List.get?_eq_getElem?]
      exact List.getElem?_set_ne (fun e => hi e.symm)
    · simp only [List.get?_eq_getElem?]
      rw [List.getElem?_set_self hlt]
    · intro hc; simp at hc

theorem State.last_label_null_iff (s state : State) :
    s.last_label state = some none ↔ s.label_idx_.lookup state.id = none := by
  unfold State.last_label
  cases h : s.label_idx_.lookup state.id with
  | none => simp
  | some idx =>
    simp only
    cases hs : s.labelset_ with
    | none => simp
    | some labelset =>
      simp only
      cases hg : labelset.labels.get? idx with
      | none => simp
      | some label => simp

theorem State.last_label_some_iff (s state : State) (label : Label) :
    s.last_label state = some (some label) ↔
      ∃ idx labelset, s.label_idx_.lookup state.id = some idx ∧
        s.labelset_ = some labelset ∧ labelset.labels.get? idx = some label := by
  unfold State.last_label
  cases h : s.label_idx_.lookup state.id with
  | none => simp
  | some idx =>
    simp only
    cases hs : s.labelset_ with
    | none => simp
    | some labelset =>
      simp only
      cases hg : labelset.labels.get? idx with
      | none =>
        simp only [Option.map_none', Option.some.injEq]
        constructor
        · intro e; exact absurd e (by simp)
        · rintro ⟨i, ls, rfl, rfl, h3⟩
          rw [hg] at h3
          exact absurd h3 (by simp)
      | some label2 =>
        simp only [Option.map_some', Option.some.injEq]
        constructor
        · intro e; exact ⟨idx, labelset, rfl, rfl, e ▸ hg⟩
        · rintro ⟨i, ls, rfl, rfl, h3⟩
          rw [hg] at h3
          exact Option.some.inj h3

theorem MapMatching.TransitionCost_eq (D : PointLL → PointLL → ℚ) (fsp : ShortestPath)
    (pred : Nat → Option Nat) (mm mm2 : MapMatching) (left right : Nat) (l r l2 : State)
    (hl : mm.state_.get? left = some l) (hr : mm.state_.get? right = some r)
    (hroute : MapMatching.TransitionCost.routeLeft D fsp pred mm left l r = some mm2)
    (hl2 : mm2.state_.get? left = some l2) :
    mm.TransitionCost D fsp pred left right =
      match l2.last_label r with
      | some (some label) =>
        match mm2.measurements_.get? l2.time, mm2.measurements_.get? r.time with
        | some left_measurement, some right_measurement =>
          some ((label.turn_cost +
            |label.cost - D left_measurement.lnglat right_measurement.lnglat|) *
              mm2.inv_beta_, mm2)
        | _, _ => none
      | some none => some (-1, mm2)
      | none => none := by
  unfold MapMatching.TransitionCost
  rw [hl, hr]
  simp only
  rw [hroute]
  simp only
  rw [hl2]

theorem MapMatching.TransitionCost_some (D : PointLL → PointLL → ℚ) (fsp : ShortestPath)
    (pred : Nat → Option Nat) (mm mm2 : MapMatching) (left right : Nat) (c : ℚ)
    (h : mm.TransitionCost D fsp pred left right = some (c, mm2)) :
    ∃ l r l2, mm.state_.get? left = some l ∧ mm.state_.get? right = some r ∧
      MapMatching.TransitionCost.routeLeft D fsp pred mm left l r = some mm2 ∧
      mm2.state_.get? left = some l2 ∧
      ((l2.last_label r = some none ∧ c = -1) ∨
        ∃ label ml mr, l2.last_label r = some (some label) ∧
          mm2.measurements_.get? l2.time = some ml ∧
          mm2.measurements_.get? r.time = some mr ∧
          c = (label.turn_cost + |label.cost - D ml.lnglat mr.lnglat|) * mm2.inv_beta_) := by
  unfold MapMatching.TransitionCost at h
  split at h
  · rename_i l r hl hr
    split at h
    · rename_i mm3 hroute
      split at h
      · rename_i l2 hl2
        split at h
        · rename_i label hlabel
          split at h
          · rename_i ml mr hml hmr
            simp only [Option.some.injEq, Prod.mk.injEq] at h
            obtain ⟨hc, hmm⟩ := h
            subst hmm
            exact ⟨l, r, l2, hl, hr, hroute, hl2,
              Or.inr ⟨label, ml, mr, hlabel, hml, hmr, hc.symm⟩⟩
          · exact absurd h (by simp)
        · simp only [Option.some.injEq, Prod.mk.injEq] at h
          obtain ⟨hc, hmm⟩ := h
          subst hmm
          rename_i hlabel
          exact ⟨l, r, l2, hl, hr, hroute, hl2, Or.inl ⟨hlabel, hc.symm⟩⟩
        · exact absurd h (by simp)
      · exact absurd h (by simp)
    · exact absurd h (by simp)
  · exact absurd h (by simp)

theorem MapMatching.MaxRouteDistance_some (D : PointLL → PointLL → ℚ) (mm : MapMatching)
    (l r : State) (b : ℚ) (h : mm.MaxRouteDistance D l r = some b) :
    ∃ ml mr, mm.measurements_.get? l.time = some ml ∧ mm.measurements_.get? r.time = some mr ∧
      b = min (D ml.lnglat mr.lnglat * mm.max_route_distance_factor_) mm.breakage_distance_ := by
  unfold MapMatching.MaxRouteDistance at h
  split at h
  · rename_i ml mr hml hmr
    simp only [Option.some.injEq] at h
    exact ⟨ml, mr, hml, hmr, by rw [← h, fmin_eq_min]⟩
  · exact absurd h (by simp)

theorem Example.lattice_constructed : Example.lattice.Constructed := by
  unfold MapMatching.Constructed
  with_unfolding_all decide

theorem Example.lattice_transition :
    Example.lattice.TransitionCost Example.Distance Example.find_shortest_path
      Example.predecessor 0 1 = some (1, Example.latticeRouted) := by
  with_unfolding_all rfl

theorem Example.latticeRouted_transition :
    Example.latticeRouted.TransitionCost Example.Distance Example.find_shortest_path
      Example.predecessor 0 0 = some (-1, Example.latticeRouted) := by
  with_unfolding_all rfl

theorem Example.labels_turn_cost :
    ∀ labelset,
      ((State.new 0 0 Example.atNode10).route Example.find_shortest_path
        [State.new 1 1 Example.midB] Example.reader 9 none
        (List.replicate 181 0)).labelset_ = some labelset →
      ∀ label ∈ labelset.labels, 0 ≤ label.turn_cost := by
  intro labelset h
  have : labelset = ⟨Example.labels⟩ := by
    simp only [State.route, Example.find_shortest_path, Option.some.injEq] at h
    exact h.symm
  subst this
  decide

/-! ## Lemmas on `AppendState` -/

theorem MapMatching.AppendState.loop_eq (time : Nat) (candidates : List Candidate) :
    ∀ state_ column : List State,
      MapMatching.AppendState.loop time candidates state_ column =
        (state_ ++ (candidates.enumFrom state_.length).map (fun p => State.new p.1 time p.2),
          column ++ (candidates.enumFrom state_.length).map (fun p => State.new p.1 time p.2)) := by
  induction candidates with
  | nil => intro state_ column; simp [MapMatching.AppendState.loop]
  | cons c rest ih =>
    intro state_ column
    rw [MapMatching.AppendState.loop, ih]
    simp [List.enumFrom]

theorem MapMatching.AppendState_eq (mm : MapMatching) (measurement : Measurement)
    (candidates : List Candidate) :
    mm.AppendState measurement candidates =
      ({ mm with
          state_ := mm.state_ ++ Spec.new_column mm candidates
          unreached_states_ := mm.unreached_states_ ++ [Spec.new_column mm candidates]
          states_ := mm.states_ ++ [Spec.new_column mm candidates]
          measurements_ := mm.measurements_ ++ [measurement] }, mm.states_.length) := by
  simp only [MapMatching.AppendState, MapMatching.AppendState.loop_eq, Spec.new_column,
    List.nil_append]

theorem Spec.new_column_get (mm : MapMatching) (candidates : List Candidate) (k : Nat) :
    (Spec.new_column mm candidates).get? k =
      (candidates.get? k).map (fun c => State.new (mm.state_.length + k) mm.states_.length c) := by
  unfold Spec.new_column
  simp only [List.get?_eq_getElem?, List.getElem?_map, List.getElem?_enumFrom, Option.map_map]
  rfl

theorem Spec.new_column_length (mm : MapMatching) (candidates : List Candidate) :
    (Spec.new_column mm candidates).length = candidates.length := by
  simp [Spec.new_column]

theorem MapMatching.AppendState_ids (mm : MapMatching) (measurement : Measurement)
    (candidates : List Candidate) (hids : mm.IdsArePositions) :
    (mm.AppendState measurement candidates).1.IdsArePositions := by
  intro i s hs
  rw [MapMatching.AppendState_eq] at hs
  simp only [List.get?_eq_getElem?] at hs
  by_cases hi : i < mm.state_.length
  · rw [List.getElem?_append_left hi] at hs
    exact hids i s (by rw [List.get?_eq_getElem?]; exact hs)
  · rw [List.getElem?_append_right (by omega), ← List.get?_eq_getElem?,
      Spec.new_column_get] at hs
    cases hc : candidates.get? (i - mm.state_.length) with
    | none => rw [hc] at hs; cases hs
    | some c =>
      rw [hc] at hs
      simp only [Option.map_some', Option.some.injEq] at hs
      rw [← hs]
      simp only [State.new]
      omega

theorem MapMatching.ids_nodup (mm : MapMatching) (hids : mm.IdsArePositions) :
    (mm.state_.map State.id).Nodup := by
  rw [List.nodup_iff_getElem?_ne_getElem?]
  intro i j hij hj
  rw [List.length_map] at hj
  have hi : i < mm.state_.length := by omega
  have h1 := hids i mm.state_[i] (by rw [List.get?_eq_getElem?]; exact List.getElem?_eq_getElem hi)
  have h2 := hids j mm.state_[j] (by rw [List.get?_eq_getElem?]; exact List.getElem?_eq_getElem hj)
  rw [List.getElem?_map, List.getElem?_map, List.getElem?_eq_getElem hi,
    List.getElem?_eq_getElem hj]
  simp only [Option.map_some', ne_eq, Option.some.injEq]
  omega

theorem MapMatching.Clear_ids (mm : MapMatching) : mm.Clear.IdsArePositions := by
  intro i s hs
  simp [MapMatching.Clear] at hs

/-! ## Lemmas on the routing cache -/

theorem LabelIndex.lookup_filter_ne (m : List (Nat × Nat)) (id id2 : Nat) (h : id2 ≠ id) :
    (m.filter (fun entry => entry.1 != id)).lookup id2 = m.lookup id2 := by
  induction m with
  | nil => rfl
  | cons e rest ih =>
    obtain ⟨k, v⟩ := e
    by_cases hk : k = id
    · subst hk
      have h2 : (id2 == k) = false := by simpa using h
      simp only [List.filter_cons, bne_self_eq_false, Bool.false_eq_true, if_false,
        List.lookup_cons, h2]
      exact ih
    · have h1 : (k != id) = true := by simpa using hk
      simp only [List.filter_cons, h1, if_true, List.lookup_cons, ih]

theorem LabelIndex.lookup_assign_self (m : List (Nat × Nat)) (id idx : Nat) :
    (LabelIndex.assign m id idx).lookup id = some idx := by
  simp [LabelIndex.assign, List.lookup_cons]

theorem LabelIndex.lookup_assign_ne (m : List (Nat × Nat)) (id idx id2 : Nat) (h : id2 ≠ id) :
    (LabelIndex.assign m id idx).lookup id2 = m.lookup id2 := by
  have h2 : (id2 == id) = false := by simpa using h
  rw [LabelIndex.assign, List.lookup_cons, h2]
  exact LabelIndex.lookup_filter_ne m id id2 h

/-- An entry of the cache comes from the entries present before the loop or
from a target whose destination index is in the result map. -/
theorem State.route.cache_sound (results : List (Nat × Nat)) (id v : Nat) :
    ∀ (targets : List State) (dest : Nat) (acc : List (Nat × Nat)), dest < 65536 →
      (State.route.cache results targets dest acc).lookup id = some v →
      acc.lookup id = some v ∨
        ∃ (k : Nat) (t : State), targets.get? k = some t ∧ t.id = id ∧
          results.lookup ((dest + k) % 65536) = some v := by
  intro targets
  induction targets with
  | nil => intro dest acc _ h; exact Or.inl h
  | cons t rest ih =>
    intro dest acc hd h
    rw [State.route.cache] at h
    rcases ih _ _ (Nat.mod_lt _ (by decide)) h with h1 | ⟨k, t2, hk, hid, hv⟩
    · cases hr : results.lookup dest with
      | none => rw [hr] at h1; exact Or.inl h1
      | some idx =>
        rw [hr] at h1
        by_cases hid : id = t.id
        · subst hid
          rw [LabelIndex.lookup_assign_self] at h1
          refine Or.inr ⟨0, t, rfl, rfl, ?_⟩
          rw [Nat.add_zero, Nat.mod_eq_of_lt hd, hr, ← h1]
        · rw [LabelIndex.lookup_assign_ne _ _ _ _ hid] at h1
          exact Or.inl h1
    · refine Or.inr ⟨k + 1, t2, hk, hid, ?_⟩
      have : (dest + (k + 1)) % 65536 = ((dest + 1) % 65536 + k) % 65536 := by omega
      rw [this]; exact hv

/-- An entry present before the loop, or a target whose destination index is in
the result map, gives an entry of the cache. -/
theorem State.route.cache_complete (results : List (Nat × Nat)) (id : Nat) :
    ∀ (targets : List State) (dest : Nat) (acc : List (Nat × Nat)), dest < 65536 →
      ((acc.lookup id).isSome = true ∨
        ∃ (k : Nat) (t : State), targets.get? k = some t ∧ t.id = id ∧
          (results.lookup ((dest + k) % 65536)).isSome = true) →
      ((State.route.cache results targets dest acc).lookup id).isSome = true := by
  intro targets
  induction targets with
  | nil =>
    intro dest acc _ h
    rcases h with h | ⟨k, t, hk, _⟩
    · exact h
    · cases hk
  | cons t rest ih =>
    intro dest acc hd h
    rw [State.route.cache]
    apply ih _ _ (Nat.mod_lt _ (by decide))
    rcases h with h | ⟨k, t2, hk, hid, hv⟩
    · left
      cases hr : results.lookup dest with
      | none => exact h
      | some idx =>
        by_cases hid : id = t.id
        · subst hid; simp only; rw [LabelIndex.lookup_assign_self]; rfl
        · simp only; rw [LabelIndex.lookup_assign_ne _ _ _ _ hid]; exact h
    · cases k with
      | zero =>
        left
        simp only [List.get?_cons_zero, Option.some.injEq] at hk
        subst hk
        rw [Nat.add_zero, Nat.mod_eq_of_lt hd] at hv
        cases hr : results.lookup dest with
        | none => rw [hr] at hv; cases hv
        | some idx => simp only; rw [← hid, LabelIndex.lookup_assign_self]; rfl
      | succ k =>
        right
        refine ⟨k, t2, hk, hid, ?_⟩
        have : ((dest + 1) % 65536 + k) % 65536 = (dest + (k + 1)) % 65536 := by omega
        rw [this]; exact hv

/-- The loop leaves the entries of ids that belong to no target alone. -/
theorem State.route.cache_frame (results : List (Nat × Nat)) (id : Nat) :
    ∀ (targets : List State) (dest : Nat) (acc : List (Nat × Nat)),
      id ∉ targets.map State.id →
      (State.route.cache results targets dest acc).lookup id = acc.lookup id := by
  intro targets
  induction targets with
  | nil => intro dest acc _; rfl
  | cons t rest ih =>
    intro dest acc h
    simp only [List.map_cons, List.mem_cons, not_or] at h
    rw [State.route.cache, ih _ _ h.2]
    cases hr : results.lookup dest with
    | none => rfl
    | some idx => exact LabelIndex.lookup_assign_ne _ _ _ _ h.1

/-- With pairwise distinct target ids, the entry of a target is the label
index the result map gives for its destination index. -/
theorem State.route.cache_value (results : List (Nat × Nat)) :
    ∀ (targets : List State) (dest : Nat) (acc : List (Nat × Nat)), dest < 65536 →
      (targets.map State.id).Nodup →
      ∀ (k : Nat) (t : State) (v : Nat), targets.get? k = some t →
        results.lookup ((dest + k) % 65536) = some v →
        (State.route.cache results targets dest acc).lookup t.id = some v := by
  intro targets
  induction targets with
  | nil => intro dest acc _ _ k t v hk; cases hk
  | cons t0 rest ih =>
    intro dest acc hd hn k t v hk hv
    simp only [List.map_cons, List.nodup_cons] at hn
    rw [State.route.cache]
    cases k with
    | zero =>
      simp only [List.get?_cons_zero, Option.some.injEq] at hk
      subst hk
      rw [Nat.add_zero, Nat.mod_eq_of_lt hd] at hv
      rw [State.route.cache_frame _ _ _ _ _ hn.1, hv]
      exact LabelIndex.lookup_assign_self _ _ _
    | succ k =>
      apply ih _ _ (Nat.mod_lt _ (by decide)) hn.2 k t v hk
      have : ((dest + 1) % 65536 + k) % 65536 = (dest + (k + 1)) % 65536 := by omega
      rw [this]; exact hv

theorem State.route_label_idx (fsp : ShortestPath) (s : State) (targets : List State)
    (g : GraphReader) (b : ℚ) (el : Option Nat) (table : List ℚ) :
    (s.route fsp targets g b el table).label_idx_ =
      State.route.cache
        (fsp g (s.candidate :: targets.map State.candidate) 0 ⌈b⌉ el table).2 targets 1 [] :=
  rfl

theorem Example.manyTargets_get (k : Nat) (t : State)
    (h : Example.manyTargets.get? k = some t) : t.id = k := by
  unfold Example.manyTargets at h
  rw [List.get?_eq_getElem?, List.getElem?_map] at h
  by_cases hk : k < 65537
  · rw [List.getElem?_range hk] at h
    simp only [Option.map_some', Option.some.injEq] at h
    rw [← h]; rfl
  · rw [List.getElem?_eq_none (by rw [List.length_range]; omega)] at h
    cases h

theorem Example.manyTargets_last :
    Example.manyTargets.get? 65536 = some (State.new 65536 1 Example.midB) := by
  unfold Example.manyTargets
  rw [List.get?_eq_getElem?, List.getElem?_map,
    List.getElem?_range (show 65536 < 65537 by decide)]
  rfl

/-! ## Lemmas on sessions -/

theorem Spec.apply_keeps_routed (D : PointLL → PointLL → ℚ) (fsp : ShortestPath)
    (mm mm2 : MapMatching) (op : Spec.Op) (h : Spec.apply D fsp mm op = some mm2)
    (i : Nat) (s : State) (hs : mm.state_.get? i = some s) (hr : s.routed = true) :
    mm2.state_.get? i = some s := by
  cases op with
  | transition pred left right =>
    simp only [Spec.apply, Option.map_eq_some', Prod.exists, exists_eq_right] at h
    obtain ⟨c, h⟩ := h
    obtain ⟨l, r, l2, hl, _, hroute, _, _⟩ :=
      MapMatching.TransitionCost_some D fsp pred mm mm2 left right c h
    obtain ⟨_, _, _, _, _, _, _, hframe, l3, hl3, _, _, _, _, hsame⟩ :=
      MapMatching.TransitionCost.routeLeft_frame D fsp pred mm mm2 left l r hl hroute
    by_cases hi : i = left
    · subst hi
      rw [hl] at hs
      simp only [Option.some.injEq] at hs
      subst hs
      rw [hl3, hsame hr]
    · rw [hframe i hi, hs]
  | append measurement candidates =>
    simp only [Spec.apply, Option.some.injEq] at h
    rw [← h, MapMatching.AppendState_eq]
    simp only [List.get?_eq_getElem?] at hs ⊢
    have hi : i < mm.state_.length := (List.getElem?_eq_some_iff.mp hs).1
    rw [List.getElem?_append_left hi, hs]

theorem Spec.apply_routes (D : PointLL → PointLL → ℚ) (fsp : ShortestPath)
    (mm mm2 : MapMatching) (op : Spec.Op) (h : Spec.apply D fsp mm op = some mm2)
    (i : Nat) (hi : Spec.routes mm op = some i) :
    ∃ s s2, mm.state_.get? i = some s ∧ s.routed = false ∧
      mm2.state_.get? i = some s2 ∧ s2.routed = true := by
  cases op with
  | transition pred left right =>
    simp only [Spec.apply, Option.map_eq_some', Prod.exists, exists_eq_right] at h
    obtain ⟨c, h⟩ := h
    obtain ⟨l, r, l2, hl, _, hroute, _, _⟩ :=
      MapMatching.TransitionCost_some D fsp pred mm mm2 left right c h
    obtain ⟨_, _, _, _, _, _, _, _, l3, hl3, hrouted, _⟩ :=
      MapMatching.TransitionCost.routeLeft_frame D fsp pred mm mm2 left l r hl hroute
    simp only [Spec.routes, hl] at hi
    cases hrt : l.routed with
    | true => simp [hrt] at hi
    | false =>
      simp only [hrt, Bool.not_false, if_true, Option.some.injEq] at hi
      subst hi
      exact ⟨l, l3, hl, hrt, hl3, hrouted⟩
  | append measurement candidates => simp [Spec.routes] at hi

theorem Spec.session_inv (D : PointLL → PointLL → ℚ) (fsp : ShortestPath) :
    ∀ (ops : List Spec.Op) (mm mm3 : MapMatching) (log : List Nat),
      Spec.session D fsp mm ops = some (log, mm3) →
      log.Nodup ∧
      (∀ i ∈ log, ∀ s, mm.state_.get? i = some s → s.routed = false) ∧
      (∀ i s, mm.state_.get? i = some s → s.routed = true → mm3.state_.get? i = some s) ∧
      (∀ i ∈ log, ∃ s, mm3.state_.get? i = some s ∧ s.routed = true) := by
  intro ops
  induction ops with
  | nil =>
    intro mm mm3 log h
    simp only [Spec.session, Option.some.injEq, Prod.mk.injEq] at h
    obtain ⟨rfl, rfl⟩ := h
    exact ⟨List.nodup_nil, fun _ hi => absurd hi (List.not_mem_nil _),
      fun _ _ hs _ => hs, fun _ hi => absurd hi (List.not_mem_nil _)⟩
  | cons op rest ih =>
    intro mm mm3 log h
    rw [Spec.session] at h
    cases ha : Spec.apply D fsp mm op with
    | none => rw [ha] at h; cases h
    | some mm2 =>
      rw [ha] at h
      simp only at h
      cases hs : Spec.session D fsp mm2 rest with
      | none => rw [hs] at h; cases h
      | some p =>
        obtain ⟨log2, mm4⟩ := p
        rw [hs] at h
        simp only [Option.some.injEq, Prod.mk.injEq] at h
        obtain ⟨rfl, rfl⟩ := h
        obtain ⟨hnd, hun, hkeep, hrouted⟩ := ih mm2 mm4 log2 hs
        have keep := Spec.apply_keeps_routed D fsp mm mm2 op ha
        have hun2 : ∀ i ∈ log2, ∀ s, mm.state_.get? i = some s → s.routed = false := by
          intro i hi s hsi
          cases hrt : s.routed with
          | false => rfl
          | true => rw [← hun i hi s (keep i s hsi hrt)]; exact hrt.symm
        cases hro : Spec.routes mm op with
        | none =>
          simp only [Option.toList, List.nil_append]
          exact ⟨hnd, hun2, fun i s hsi hrt => hkeep i s (keep i s hsi hrt) hrt, hrouted⟩
        | some j =>
          obtain ⟨s, s2, hsj, hsr, hs2, hs2r⟩ := Spec.apply_routes D fsp mm mm2 op ha j hro
          simp only [Option.toList, List.singleton_append]
          refine ⟨List.nodup_cons.mpr ⟨?_, hnd⟩, ?_,
            fun i s hsi hrt => hkeep i s (keep i s hsi hrt) hrt, ?_⟩
          · intro hj
            have := hun j hj s2 hs2
            rw [hs2r] at this
            cases this
          · intro i hi t hti
            rcases List.mem_cons.mp hi with rfl | hi
            · rw [hsj] at hti
              simp only [Option.some.injEq] at hti
              rw [← hti]; exact hsr
            · exact hun2 i hi t hti
          · intro i hi
            rcases List.mem_cons.mp hi with rfl | hi
            · exact ⟨s2, hkeep _ s2 hs2 hs2r, hs2r⟩
            · exact hrouted i hi

/-! ## Lemmas on the match pairs of `ConstructRoute` -/

theorem ConstructRoute.segments_ok_iff (labels : List Label) :
    (∃ segments, ConstructRoute.segments labels = Except.ok segments) ↔
      ∀ label ∈ labels, 0 ≤ label.source ∧ label.source ≤ label.target ∧ label.target ≤ 1 := by
  induction labels with
  | nil => simp [ConstructRoute.segments]
  | cons l rest ih =>
    rw [ConstructRoute.segments]
    by_cases h : 0 ≤ l.source ∧ l.source ≤ l.target ∧ l.target ≤ 1
    · rw [EdgeSegment.new, if_neg (not_not.mpr h)]
      simp only [List.mem_cons, forall_eq_or_imp, h, true_and]
      rw [← ih]
      cases hs : ConstructRoute.segments rest with
      | error e => simp
      | ok segments => simp
    · rw [EdgeSegment.new, if_pos h]
      simp only [List.mem_cons, forall_eq_or_imp, h, false_and, iff_false]
      rintro ⟨_, h2⟩
      cases h2

theorem ConstructRoute.segments_error (labels : List Label) (e : Exn)
    (h : ConstructRoute.segments labels = Except.error e) :
    e = Exn.invalid_argument "Expect 0.f <= source <= source <= 1.f" := by
  induction labels with
  | nil => simp [ConstructRoute.segments] at h
  | cons l rest ih =>
    rw [ConstructRoute.segments] at h
    by_cases hr : 0 ≤ l.source ∧ l.source ≤ l.target ∧ l.target ≤ 1
    · rw [EdgeSegment.new, if_neg (not_not.mpr hr)] at h
      simp only at h
      cases hs : ConstructRoute.segments rest with
      | error e2 =>
        rw [hs] at h
        simp only [Except.error.injEq] at h
        subst h; exact ih hs
      | ok segments => rw [hs] at h; cases h
    · rw [EdgeSegment.new, if_pos hr] at h
      simp only [Except.error.injEq] at h
      exact h.symm

theorem MergeRoute.loop_error (segments : List EdgeSegment) :
    ∀ (route : List EdgeSegment) (e : Exn), (MergeRoute.loop route segments).2 = some e →
      e = Exn.runtime_error "Still found an invalid edgeid in route segments" := by
  induction segments with
  | nil => intro route e h; simp [MergeRoute.loop] at h
  | cons s rest ih =>
    intro route e h
    rw [MergeRoute.loop] at h
    split at h
    · simp only [Option.some.injEq] at h
      exact h.symm
    · split at h
      · split at h
        · exact ih _ e h
        · exact ih _ e h
      · exact ih _ e h

theorem MergeRoute.error (route segments : List EdgeSegment) (e : Exn)
    (h : (MergeRoute route segments).2 = some e) :
    e = Exn.runtime_error "Still found an invalid edgeid in route segments" := by
  cases segments with
  | nil => simp [MergeRoute] at h
  | cons s rest => exact MergeRoute.loop_error rest route e h

theorem Spec.chain_eq (previous state : State) (segments : List EdgeSegment)
    (h : ConstructRoute.segments (previous.RoutePath state) = Except.ok segments) :
    segments.reverse = Spec.chain (previous, state) := by
  rw [(ConstructRoute.segments_ok _ segments h).1, Spec.chain, List.map_reverse]

theorem ConstructRoute.loop_refines (g : GraphReader) (ms : List MatchResult) :
    ∀ (previous_match : Option State) (route : List EdgeSegment),
      ConstructRoute.loop g ms previous_match route =
        Spec.construct g route
          (Spec.consecutive (previous_match.toList ++ Spec.matched_states ms)) := by
  induction ms with
  | nil =>
    intro previous_match route
    cases previous_match with
    | none => rfl
    | some previous => rfl
  | cons m rest ih =>
    intro previous_match route
    rw [ConstructRoute.loop]
    cases hm : m.state with
    | none =>
      have : Spec.matched_states (m :: rest) = Spec.matched_states rest := by
        simp [Spec.matched_states, hm]
      rw [this]
      exact ih previous_match route
    | some state =>
      have hms : Spec.matched_states (m :: rest) = state :: Spec.matched_states rest := by
        simp [Spec.matched_states, hm]
      rw [hms]
      cases previous_match with
      | none => exact ih (some state) route
      | some previous =>
        show _ = Spec.construct g route
          ((previous, state) :: Spec.consecutive (state :: Spec.matched_states rest))
        rw [Spec.construct, Spec.construct_pair]
        dsimp only
        cases hseg : ConstructRoute.segments (previous.RoutePath state) with
        | error e => rfl
        | ok segments =>
          dsimp only
          rw [Spec.chain_eq previous state segments hseg]
          cases hv : ValidateRoute g (Spec.chain (previous, state)) with
          | false => rfl
          | true =>
            simp only [if_true]
            cases hmerge : MergeRoute route (Spec.chain (previous, state)) with
            | mk merged err =>
              cases err with
              | some e => rfl
              | none => exact ih (some state) merged

theorem Spec.construct_pair_rejected (g : GraphReader) (route : List EdgeSegment)
    (p : State × State) (hr : Spec.InRangeChain p)
    (hv : ValidateRoute g (Spec.chain p) = false) :
    Spec.construct_pair g route p = Except.error (Exn.runtime_error "Found invalid route") := by
  obtain ⟨segments, hseg⟩ := (ConstructRoute.segments_ok_iff _).mpr hr
  rw [Spec.construct_pair, hseg]
  simp only [hv, Bool.false_eq_true, if_false]

theorem Spec.construct_pair_ok (g : GraphReader) (route merged : List EdgeSegment)
    (p : State × State) (h : Spec.construct_pair g route p = Except.ok merged) :
    Spec.InRangeChain p ∧ ValidateRoute g (Spec.chain p) = true ∧
      MergeRoute route (Spec.chain p) = (merged, none) := by
  rw [Spec.construct_pair] at h
  cases hseg : ConstructRoute.segments (p.1.RoutePath p.2) with
  | error e => rw [hseg] at h; cases h
  | ok segments =>
    rw [hseg] at h
    simp only at h
    cases hv : ValidateRoute g (Spec.chain p) with
    | false => rw [hv] at h; simp at h
    | true =>
      rw [hv] at h
      simp only [if_true] at h
      cases hmerge : MergeRoute route (Spec.chain p) with
      | mk merged2 err =>
        rw [hmerge] at h
        cases err with
        | some e => cases h
        | none =>
          simp only [Except.ok.injEq] at h
          subst h
          exact ⟨(ConstructRoute.segments_ok_iff _).mp ⟨segments, hseg⟩, rfl, rfl⟩

theorem Spec.construct_pair_error (g : GraphReader) (route : List EdgeSegment)
    (p : State × State)
    (h : Spec.construct_pair g route p = Except.error (Exn.runtime_error "Found invalid route")) :
    Spec.InRangeChain p ∧ ValidateRoute g (Spec.chain p) = false := by
  rw [Spec.construct_pair] at h
  cases hseg : ConstructRoute.segments (p.1.RoutePath p.2) with
  | error e =>
    rw [hseg] at h
    simp only [Except.error.injEq] at h
    have := ConstructRoute.segments_error _ e hseg
    rw [h] at this
    cases this
  | ok segments =>
    rw [hseg] at h
    simp only at h
    cases hv : ValidateRoute g (Spec.chain p) with
    | false => exact ⟨(ConstructRoute.segments_ok_iff _).mp ⟨segments, hseg⟩, rfl⟩
    | true =>
      rw [hv] at h
      simp only [if_true] at h
      cases hmerge : MergeRoute route (Spec.chain p) with
      | mk merged2 err =>
        rw [hmerge] at h
        cases err with
        | none => cases h
        | some e =>
          simp only [Except.error.injEq] at h
          have := MergeRoute.error route (Spec.chain p) e (by rw [hmerge])
          rw [h] at this
          exact absurd this (by decide)

theorem Spec.construct_append (g : GraphReader) (pre post : List (State × State)) :
    ∀ route : List EdgeSegment,
      Spec.construct g route (pre ++ post) =
        match Spec.construct g route pre with
        | Except.error e => Except.error e
        | Except.ok merged => Spec.construct g merged post := by
  induction pre with
  | nil => intro route; rfl
  | cons p rest ih =>
    intro route
    rw [List.cons_append, Spec.construct, Spec.construct]
    cases Spec.construct_pair g route p with
    | error e => rfl
    | ok merged => exact ih merged

theorem Spec.construct_ok (g : GraphReader) (pairs : List (State × State)) :
    ∀ route result : List EdgeSegment, Spec.construct g route pairs = Except.ok result →
      ∀ p ∈ pairs, Spec.InRangeChain p ∧ ValidateRoute g (Spec.chain p) = true := by
  induction pairs with
  | nil => intro _ _ _ p hp; cases hp
  | cons q rest ih =>
    intro route result h p hp
    rw [Spec.construct] at h
    cases hq : Spec.construct_pair g route q with
    | error e => rw [hq] at h; cases h
    | ok merged =>
      rw [hq] at h
      rcases List.mem_cons.mp hp with rfl | hp
      · exact ⟨(Spec.construct_pair_ok g route merged p hq).1,
          (Spec.construct_pair_ok g route merged p hq).2.1⟩
      · exact ih merged result h p hp

theorem Spec.construct_error (g : GraphReader) (pairs : List (State × State)) :
    ∀ route : List EdgeSegment,
      Spec.construct g route pairs = Except.error (Exn.runtime_error "Found invalid route") →
      ∃ p ∈ pairs, Spec.InRangeChain p ∧ ValidateRoute g (Spec.chain p) = false := by
  induction pairs with
  | nil => intro route h; cases h
  | cons q rest ih =>
    intro route h
    rw [Spec.construct] at h
    cases hq : Spec.construct_pair g route q with
    | error e =>
      rw [hq] at h
      simp only [Except.error.injEq] at h
      subst h
      exact ⟨q, List.mem_cons_self _ _, Spec.construct_pair_error g route q hq⟩
    | ok merged =>
      rw [hq] at h
      obtain ⟨p, hp, hres⟩ := ih merged h
      exact ⟨p, List.mem_cons_of_mem _ hp, hres⟩

theorem Spec.matched_states_filter (ms : List MatchResult) :
    Spec.matched_states (ms.filter (fun m => m.state.isSome)) = Spec.matched_states ms := by
  induction ms with
  | nil => rfl
  | cons m rest ih =>
    cases hm : m.state with
    | none =>
      rw [List.filter_cons_of_neg (by simp [hm])]
      simp only [Spec.matched_states, List.filterMap_cons, hm] at ih ⊢
      exact ih
    | some state =>
      rw [List.filter_cons_of_pos (by simp [hm])]
      simp only [Spec.matched_states, List.filterMap_cons, hm] at ih ⊢
      rw [ih]

theorem ConstructRoute_eq (g : GraphReader) (ms : List MatchResult) :
    ConstructRoute g ms =
      Spec.construct g [] (Spec.consecutive (Spec.matched_states ms)) :=
  ConstructRoute.loop_refines g ms none []

/-! ## Lemmas on the guessed results and on `collect_nodes` -/

theorem GraphId.invalid_not_valid : GraphId.invalid.Is_Valid = false := by decide

theorem Spec.foldl_attachment (labels : List Label) :
    ∀ acc : GraphId × GraphType,
      labels.foldl (fun (acc : GraphId × GraphType) label =>
        if label.nodeid.Is_Valid then (label.nodeid, GraphType.kNode)
        else if label.edgeid.Is_Valid then (label.edgeid, GraphType.kEdge)
        else acc) acc =
        (labels.reverse.findSome? Spec.attachment).getD acc := by
  induction labels with
  | nil => intro acc; rfl
  | cons label rest ih =>
    intro acc
    rw [List.foldl_cons, ih, List.reverse_cons, List.findSome?_append]
    cases rest.reverse.findSome? Spec.attachment with
    | some a => rfl
    | none =>
      simp only [Option.none_or, List.findSome?_cons, List.findSome?_nil, Spec.attachment]
      by_cases h1 : label.nodeid.Is_Valid = true
      · simp [h1]
      · by_cases h2 : label.edgeid.Is_Valid = true
        · simp [h1, h2]
        · simp [h1, h2]

theorem guess_source_result_both (s t : State) (m : Measurement) :
    guess_source_result (some s) (some t) m =
      { lnglat := s.candidate.vertex, distance := s.candidate.distance,
        graphid := (((s.RoutePath t).reverse.findSome? Spec.attachment).getD
          (GraphId.invalid, GraphType.kUnknown)).1,
        graphtype := (((s.RoutePath t).reverse.findSome? Spec.attachment).getD
          (GraphId.invalid, GraphType.kUnknown)).2,
        state := some s } := by
  simp only [guess_source_result]
  rw [Spec.foldl_attachment]

theorem guess_target_result_both (s t : State) (m : Measurement) :
    guess_target_result (some s) (some t) m =
      { lnglat := t.candidate.vertex, distance := t.candidate.distance,
        graphid := (((s.RoutePath t).head?.bind Spec.attachment).getD
          (GraphId.invalid, GraphType.kUnknown)).1,
        graphtype := (((s.RoutePath t).head?.bind Spec.attachment).getD
          (GraphId.invalid, GraphType.kUnknown)).2,
        state := some t } := by
  simp only [guess_target_result]
  cases s.RoutePath t with
  | nil => rfl
  | cons label rest =>
    simp only [List.head?_cons, Option.some_bind, Spec.attachment]
    by_cases h1 : label.nodeid.Is_Valid = true
    · simp [h1]
    · by_cases h2 : label.edgeid.Is_Valid = true
      · simp [h1, h2]
      · simp [h1, h2]

theorem Spec.attachment_valid (label : Label) (a : GraphId × GraphType)
    (h : Spec.attachment label = some a) :
    a.1.Is_Valid = true ∧
      ((a.1 = label.nodeid ∧ a.2 = GraphType.kNode) ∨
        (a.1 = label.edgeid ∧ a.2 = GraphType.kEdge)) := by
  unfold Spec.attachment at h
  split at h
  · rename_i h1
    simp only [Option.some.injEq] at h
    subst h
    exact ⟨h1, Or.inl ⟨rfl, rfl⟩⟩
  · split at h
    · rename_i h2
      simp only [Option.some.injEq] at h
      subst h
      exact ⟨h2, Or.inr ⟨rfl, rfl⟩⟩
    · cases h

theorem collect_nodes_eq (reader : GraphReader) (location : Candidate) :
    collect_nodes reader location =
      location.edges.foldl (fun results edge =>
        match Spec.contribution reader edge with
        | some n => GraphIdSet.insert results n
        | none => results) [] := by
  unfold collect_nodes
  congr 1
  funext results edge
  unfold Spec.contribution
  cases hv : edge.id.Is_Valid with
  | false => simp
  | true =>
    simp only [Bool.not_true, Bool.false_eq_true, if_false, if_true]
    by_cases h0 : edge.dist = 0
    · simp only [h0, if_true]
      cases reader.GetOpposingEdge edge.id with
      | none => rfl
      | some e => rfl
    · simp only [h0, if_false]
      by_cases h1 : edge.dist = 1
      · simp only [h1, if_true]
        cases reader.GetGraphTile edge.id with
        | none => rfl
        | some tile =>
          simp only [Option.some_bind]
          cases tile.directededge edge.id with
          | none => rfl
          | some e => rfl
      · simp only [h1, if_false]

theorem GraphIdSet.mem_insert (s : List GraphId) (x n : GraphId) :
    n ∈ GraphIdSet.insert s x ↔ n ∈ s ∨ n = x := by
  unfold GraphIdSet.insert
  split
  · rename_i h
    constructor
    · exact Or.inl
    · rintro (h1 | h1)
      · exact h1
      · rw [h1]; exact h
  · simp

theorem GraphIdSet.nodup_insert (s : List GraphId) (x : GraphId) (h : s.Nodup) :
    (GraphIdSet.insert s x).Nodup := by
  unfold GraphIdSet.insert
  split
  · exact h
  · rename_i hx
    rw [List.nodup_append]
    refine ⟨h, List.nodup_singleton x, ?_⟩
    intro a ha hb
    rw [List.mem_singleton] at hb
    rw [hb] at ha
    exact hx ha

theorem GraphIdSet.foldl_insert {α : Type} (g : α → Option GraphId) (l : List α) :
    ∀ acc : List GraphId,
      (∀ n, n ∈ l.foldl (fun results x =>
          match g x with
          | some n => GraphIdSet.insert results n
          | none => results) acc ↔ n ∈ acc ∨ ∃ x ∈ l, g x = some n) ∧
      (acc.Nodup → (l.foldl (fun results x =>
          match g x with
          | some n => GraphIdSet.insert results n
          | none => results) acc).Nodup) := by
  induction l with
  | nil => intro acc; simp
  | cons x rest ih =>
    intro acc
    rw [List.foldl_cons]
    obtain ⟨hmem, hnd⟩ := ih (match g x with
      | some n => GraphIdSet.insert acc n
      | none => acc)
    constructor
    · intro n
      rw [hmem n]
      cases hg : g x with
      | none => simp [hg]
      | some k =>
        simp only [GraphIdSet.mem_insert, List.mem_cons, exists_eq_or_imp, hg,
          Option.some.injEq]
        constructor
        · rintro ((h | h) | h)
          · exact Or.inl h
          · exact Or.inr (Or.inl h.symm)
          · exact Or.inr (Or.inr h)
        · rintro (h | h | h)
          · exact Or.inl (Or.inl h)
          · exact Or.inl (Or.inr h.symm)
          · exact Or.inr h
    · intro h
      apply hnd
      cases hg : g x with
      | none => exact h
      | some k => exact GraphIdSet.nodup_insert acc k h

/-! ## The layout of the measurements over the columns -/

theorem Spec.admitted_zero (D : PointLL → PointLL → ℚ) (ms : List Measurement) (d2 : ℚ) :
    Spec.admitted D ms d2 0 = true := by
  simp [Spec.admitted]

theorem Spec.admitted_upto_succ (D : PointLL → PointLL → ℚ) (ms : List Measurement) (d2 : ℚ)
    (k : Nat) :
    Spec.admitted_upto D ms d2 (k + 1) =
      if Spec.admitted D ms d2 k = true then Spec.admitted_upto D ms d2 k ++ [k]
      else Spec.admitted_upto D ms d2 k := by
  unfold Spec.admitted_upto
  rw [List.range_succ, List.filter_append]
  by_cases h : Spec.admitted D ms d2 k = true
  · simp [h]
  · simp [h]

theorem Spec.skipped_upto_succ (D : PointLL → PointLL → ℚ) (ms : List Measurement) (d2 : ℚ)
    (k t : Nat) :
    (List.range (k + 1)).filter (Spec.skipped D ms d2 t) =
      if Spec.skipped D ms d2 t k = true then
        (List.range k).filter (Spec.skipped D ms d2 t) ++ [k]
      else (List.range k).filter (Spec.skipped D ms d2 t) := by
  rw [List.range_succ, List.filter_append]
  by_cases h : Spec.skipped D ms d2 t k = true
  · simp [h]
  · simp [h]

theorem Spec.column_time_last (D : PointLL → PointLL → ℚ) (ms : List Measurement) (d2 : ℚ)
    (k : Nat) :
    Spec.column_time D ms d2 (Spec.last_admitted D ms d2 k) + 1 =
      (Spec.admitted_upto D ms d2 (k + 1)).length := by
  induction k with
  | zero =>
    rw [Spec.admitted_upto_succ, if_pos (Spec.admitted_zero D ms d2)]
    simp [Spec.last_admitted, Spec.column_time, Spec.admitted_upto]
  | succ k ih =>
    rw [Spec.last_admitted_eq, Spec.admitted_upto_succ D ms d2 (k + 1)]
    by_cases h : Spec.admitted D ms d2 (k + 1) = true
    · rw [if_pos h, if_pos h, List.length_append, List.length_singleton]
      rfl
    · rw [if_neg h, if_neg h, Nat.add_sub_cancel]
      exact ih

theorem Spec.layout (D : PointLL → PointLL → ℚ) (ms : List Measurement) (d2 : ℚ) (k : Nat) :
    Spec.Layout (Spec.admitted_upto D ms d2 (k + 1))
      (fun t => (List.range (k + 1)).filter (Spec.skipped D ms d2 t)) (k + 1) := by
  induction k with
  | zero =>
    have hA : Spec.admitted_upto D ms d2 1 = [0] := by
      rw [Spec.admitted_upto_succ, if_pos (Spec.admitted_zero D ms d2)]
      rfl
    have hP : ∀ t, (List.range 1).filter (Spec.skipped D ms d2 t) = [] := by
      intro t
      simp [Spec.skipped, Spec.admitted_zero]
    rw [hA]
    unfold Spec.Layout
    simp only [hP]
    refine ⟨by simp, rfl, ?_, ?_, ?_, ?_⟩
    · intro t _
      rfl
    · intro t ht
      simp at ht
    · rfl
    · intro t _
      trivial
  | succ k ih =>
    unfold Spec.Layout at ih
    obtain ⟨hT, h0, h1, h2, h4, h5⟩ := ih
    have hcol := Spec.column_time_last D ms d2 k
    generalize hAdef : Spec.admitted_upto D ms d2 (k + 1) = A at hT h0 h1 h2 h4 h5 hcol
    simp only at h1 h2 h4 h5
    by_cases hp : Spec.admitted D ms d2 (k + 1) = true
    · have hA : Spec.admitted_upto D ms d2 (k + 1 + 1) = A ++ [k + 1] := by
        rw [Spec.admitted_upto_succ, if_pos hp, hAdef]
      have hP : ∀ t, (List.range (k + 1 + 1)).filter (Spec.skipped D ms d2 t) =
          (List.range (k + 1)).filter (Spec.skipped D ms d2 t) := by
        intro t
        rw [Spec.skipped_upto_succ, if_neg]
        simp [Spec.skipped, hp]
      rw [hA]
      unfold Spec.Layout
      simp only [hP, List.length_append, List.length_singleton]
      refine ⟨by omega, ?_, ?_, ?_, ?_, ?_⟩
      · rw [List.getD_append _ _ _ _ (by omega)]
        exact h0
      · intro t ht
        by_cases htT : t < A.length
        · rw [List.getD_append _ _ _ _ htT]
          exact h1 t htT
        · rw [h5 t (by omega)]
          rfl
      · intro t ht
        by_cases htT : t + 1 < A.length
        · rw [List.getD_append _ _ _ _ htT, List.getD_append _ _ _ _ (by omega)]
          exact h2 t htT
        · have hte : t + 1 = A.length := by omega
          rw [List.getD_append_right _ _ _ _ (by omega), List.getD_append _ _ _ _ (by omega)]
          have ht1 : t = A.length - 1 := by omega
          subst ht1
          have hz : A.length - 1 + 1 - A.length = 0 := by omega
          rw [hz]
          simp only [List.getD_cons_zero]
          omega
      · rw [Nat.add_sub_cancel, List.getD_append_right _ _ _ _ (le_refl _), Nat.sub_self,
          h5 A.length (le_refl _)]
        simp
      · intro t ht
        exact h5 t (by omega)
    · have hA : Spec.admitted_upto D ms d2 (k + 1 + 1) = A := by
        rw [Spec.admitted_upto_succ, if_neg hp, hAdef]
      have hlast : Spec.column_time D ms d2 (Spec.last_admitted D ms d2 (k + 1)) =
          A.length - 1 := by
        rw [Spec.last_admitted_eq, if_neg hp, Nat.add_sub_cancel]
        omega
      have hP : ∀ t, (List.range (k + 1 + 1)).filter (Spec.skipped D ms d2 t) =
          if t = A.length - 1 then
            (List.range (k + 1)).filter (Spec.skipped D ms d2 t) ++ [k + 1]
          else (List.range (k + 1)).filter (Spec.skipped D ms d2 t) := by
        intro t
        rw [Spec.skipped_upto_succ]
        have hs : (Spec.skipped D ms d2 t (k + 1) = true) ↔ t = A.length - 1 := by
          simp only [Spec.skipped, hlast, Bool.and_eq_true, Bool.not_eq_true',
            decide_eq_true_eq]
          constructor
          · intro h; exact h.2.symm
          · intro h; exact ⟨by simpa using hp, h.symm⟩
        by_cases ht : t = A.length - 1
        · rw [if_pos (hs.mpr ht), if_pos ht]
        · rw [if_neg (fun h => ht (hs.mp h)), if_neg ht]
      rw [hA]
      unfold Spec.Layout
      refine ⟨hT, h0, ?_, ?_, ?_, ?_⟩
      · intro t ht
        simp only [hP t]
        by_cases hte : t = A.length - 1
        · rw [if_pos hte, List.length_append, List.length_singleton, List.range'_1_concat,
            ← h1 t ht]
          congr 2
          rw [hte]
          omega
        · rw [if_neg hte]
          exact h1 t ht
      · intro t ht
        simp only [hP t]
        rw [if_neg (by omega)]
        exact h2 t ht
      · simp only [hP (A.length - 1), if_true, List.length_append, List.length_singleton]
        omega
      · intro t ht
        simp only [hP t]
        rw [if_neg (by omega)]
        exact h5 t ht

/-! ## The results of the offline driver, position by position -/

theorem OfflineMatch.get_at (ms : List Measurement) (idx : Nat) (h : idx < ms.length) :
    ms.get? idx = some (OfflineMatch.at ms idx) := by
  rw [List.get?_eq_getElem?, OfflineMatch.at, List.getD_eq_getElem?_getD,
    List.getElem?_eq_getElem h]
  rfl

theorem Spec.path_get (path : List (Option State)) (t : Nat) (h : t < path.length) :
    path.get? t = some (path.getD t none) := by
  rw [List.get?_eq_getElem?, List.getD_eq_getElem?_getD, List.getElem?_eq_getElem h]
  rfl

theorem OfflineMatch.interpolateAll_eq (reader : GraphReader) (cq : CandidateQuery)
    (ms : List Measurement) (r : ℚ) (graphset : List GraphId) (l : List Nat) :
    ∀ results : List MatchResult, (∀ idx ∈ l, idx < ms.length) →
      OfflineMatch.interpolateAll reader cq ms r graphset l results =
        some (results ++ l.map (fun idx =>
          interpolate reader graphset (cq.Query (OfflineMatch.at ms idx).lnglat r)
            (OfflineMatch.at ms idx))) := by
  induction l with
  | nil => intro results _; simp [OfflineMatch.interpolateAll]
  | cons idx rest ih =>
    intro results h
    rw [OfflineMatch.interpolateAll, OfflineMatch.get_at ms idx (h idx (List.mem_cons_self _ _))]
    simp only
    rw [ih _ (fun x hx => h x (List.mem_cons_of_mem _ hx))]
    simp

theorem Spec.blocks_length (reader : GraphReader) (cq : CandidateQuery)
    (ms : List Measurement) (r : ℚ) (path : List (Option State)) (T : Nat) (a : Nat → Nat)
    (prox : Nat → List Nat) (h0 : a 0 = 0)
    (hF2 : ∀ t, t + 1 < T → a (t + 1) = a t + 1 + (prox t).length) :
    ∀ s, s < T →
      ((List.range s).flatMap (Spec.block reader cq ms r path T a prox)).length = a s := by
  intro s
  induction s with
  | zero => intro _; simp [h0]
  | succ s ih =>
    intro hs
    rw [List.range_succ, List.flatMap_append, List.length_append, ih (by omega),
      List.flatMap_singleton, Spec.block, List.length_cons, List.length_map, hF2 s hs]
    omega

theorem OfflineMatch.assembleStep_expected (reader : GraphReader) (cq : CandidateQuery)
    (ms : List Measurement) (r : ℚ) (path : List (Option State)) (T : Nat) (a : Nat → Nat)
    (prox : Nat → List Nat) (hpath : path.length = T) (h0 : a 0 = 0)
    (hF1 : ∀ t, t < T → prox t = List.range' (a t + 1) (prox t).length)
    (hF2 : ∀ t, t + 1 < T → a (t + 1) = a t + 1 + (prox t).length)
    (hbound : ∀ t, t < T → a t < ms.length) (s : Nat) (hs : s + 1 < T) :
    OfflineMatch.assembleStep reader cq ms r prox path
        (Spec.expected reader cq ms r path T a prox s) (s + 1) =
      some (Spec.expected reader cq ms r path T a prox (s + 1)) := by
  have hlen := Spec.blocks_length reader cq ms r path T a prox h0 hF2 s (by omega)
  have hrep : OfflineMatch.replaceSource ms (path.getD s none) (path.getD (s + 1) none)
      (Spec.expected reader cq ms r path T a prox s) =
      some ((List.range s).flatMap (Spec.block reader cq ms r path T a prox) ++
        [Spec.column_result ms path T s (a s)]) := by
    unfold OfflineMatch.replaceSource Spec.expected
    rw [List.getLast?_concat]
    simp only
    by_cases hv : (Spec.placed ms path s (a s)).graphid.Is_Valid = true
    · simp only [hv, Bool.not_true, Bool.false_eq_true, if_false]
      rw [Spec.column_result, if_neg (by simp [hv])]
    · have hv2 : (Spec.placed ms path s (a s)).graphid.Is_Valid = false := by simpa using hv
      simp only [hv2, Bool.not_false, if_true]
      rw [List.dropLast_concat, hlen, OfflineMatch.get_at ms (a s) (hbound s (by omega))]
      simp only
      rw [Spec.column_result, if_pos ⟨hs, hv2⟩]
  have hidx : ∀ idx ∈ prox s, idx < ms.length := by
    intro idx hmem
    rw [hF1 s (by omega), List.mem_range'_1] at hmem
    have := hbound (s + 1) hs
    rw [hF2 s hs] at this
    omega
  unfold OfflineMatch.assembleStep
  rw [Nat.add_sub_cancel, Spec.path_get path s (by omega), Spec.path_get path (s + 1) (by omega)]
  simp only
  rw [hrep]
  simp only
  rw [OfflineMatch.interpolateAll_eq reader cq ms r _ (prox s) _ hidx]
  simp only
  have hlen2 : ((List.range s).flatMap (Spec.block reader cq ms r path T a prox) ++
      [Spec.column_result ms path T s (a s)] ++
      (prox s).map (fun idx => interpolate reader
        (collect_graphset reader (path.getD s none) (path.getD (s + 1) none))
        (cq.Query (OfflineMatch.at ms idx).lnglat r) (OfflineMatch.at ms idx))).length =
      a (s + 1) := by
    rw [List.length_append, List.length_append, hlen, List.length_map, List.length_singleton,
      hF2 s hs]
  rw [hlen2, OfflineMatch.get_at ms (a (s + 1)) (hbound (s + 1) hs)]
  simp only
  unfold Spec.expected
  rw [List.range_succ, List.flatMap_append, List.flatMap_singleton]
  simp [Spec.block, Spec.placed, Spec.skipped_result]

theorem OfflineMatch.assemble_expected (reader : GraphReader) (cq : CandidateQuery)
    (ms : List Measurement) (r : ℚ) (path : List (Option State)) (T : Nat) (a : Nat → Nat)
    (prox : Nat → List Nat) (hpath : path.length = T) (h0 : a 0 = 0)
    (hF1 : ∀ t, t < T → prox t = List.range' (a t + 1) (prox t).length)
    (hF2 : ∀ t, t + 1 < T → a (t + 1) = a t + 1 + (prox t).length)
    (hbound : ∀ t, t < T → a t < ms.length) :
    ∀ m s, s + m < T →
      OfflineMatch.assemble reader cq ms r prox path (List.range' (s + 1) m)
          (Spec.expected reader cq ms r path T a prox s) =
        some (Spec.expected reader cq ms r path T a prox (s + m)) := by
  intro m
  induction m with
  | zero => intro s _; rfl
  | succ m ih =>
    intro s h
    rw [List.range'_succ, OfflineMatch.assemble,
      OfflineMatch.assembleStep_expected reader cq ms r path T a prox hpath h0 hF1 hF2 hbound s
        (by omega)]
    simp only
    have := ih (s + 1) (by omega)
    rw [show s + 1 + m = s + (m + 1) by omega] at this
    exact this

theorem Spec.blocks_get (reader : GraphReader) (cq : CandidateQuery)
    (ms : List Measurement) (r : ℚ) (path : List (Option State)) (T : Nat) (a : Nat → Nat)
    (prox : Nat → List Nat) (h0 : a 0 = 0)
    (hF1 : ∀ t, t < T → prox t = List.range' (a t + 1) (prox t).length)
    (hF2 : ∀ t, t + 1 < T → a (t + 1) = a t + 1 + (prox t).length) :
    ∀ s, s < T → ∀ (i : Nat) (res : MatchResult),
      ((List.range s).flatMap (Spec.block reader cq ms r path T a prox)).get? i = some res →
      (∃ t, t < s ∧ a t = i ∧ res = Spec.column_result ms path T t i) ∨
      (∃ t, t < s ∧ i ∈ prox t ∧ res = Spec.skipped_result reader cq ms r path t i) := by
  intro s
  induction s with
  | zero => intro _ i res h; simp at h
  | succ s ih =>
    intro hs i res hget
    have hlen := Spec.blocks_length reader cq ms r path T a prox h0 hF2 s (by omega)
    rw [List.range_succ, List.flatMap_append, List.flatMap_singleton,
      List.get?_eq_getElem?] at hget
    by_cases hi : i < a s
    · rw [List.getElem?_append_left (by rw [hlen]; exact hi), ← List.get?_eq_getElem?] at hget
      rcases ih (by omega) i res hget with ⟨t, ht, h1, h2⟩ | ⟨t, ht, h1, h2⟩
      · exact Or.inl ⟨t, by omega, h1, h2⟩
      · exact Or.inr ⟨t, by omega, h1, h2⟩
    · rw [List.getElem?_append_right (by rw [hlen]; omega), hlen, Spec.block] at hget
      cases hj : i - a s with
      | zero =>
        rw [hj, List.getElem?_cons_zero, Option.some.injEq] at hget
        have hia : a s = i := by omega
        exact Or.inl ⟨s, by omega, hia, by rw [← hget, hia]⟩
      | succ j =>
        rw [hj, List.getElem?_cons_succ, List.getElem?_map, Option.map_eq_some'] at hget
        obtain ⟨idx, hidx, hres⟩ := hget
        have hmem : idx ∈ prox s := List.mem_iff_getElem?.mpr ⟨j, hidx⟩
        have hval : idx = i := by
          have hidx2 := hidx
          rw [hF1 s (by omega), List.getElem?_range'] at hidx2
          · simp only [Option.some.injEq] at hidx2
            omega
          · have := (List.getElem?_eq_some_iff.mp hidx).1
            exact this
        rw [hval] at hmem hres
        exact Or.inr ⟨s, by omega, hmem, hres.symm⟩

theorem Spec.admitted_upto_lt (D : PointLL → PointLL → ℚ) (ms : List Measurement) (d2 : ℚ)
    (k t : Nat) (ht : t < (Spec.admitted_upto D ms d2 k).length) :
    (Spec.admitted_upto D ms d2 k).getD t 0 < k ∧
    (Spec.admitted_upto D ms d2 k).get? t = some ((Spec.admitted_upto D ms d2 k).getD t 0) ∧
    Spec.admitted D ms d2 ((Spec.admitted_upto D ms d2 k).getD t 0) = true := by
  have hget : (Spec.admitted_upto D ms d2 k).get? t =
      some ((Spec.admitted_upto D ms d2 k).getD t 0) := by
    rw [List.get?_eq_getElem?, List.getD_eq_getElem?_getD, List.getElem?_eq_getElem ht]
    rfl
  have hmem : (Spec.admitted_upto D ms d2 k).getD t 0 ∈ Spec.admitted_upto D ms d2 k := by
    rw [List.get?_eq_getElem?] at hget
    exact List.mem_iff_getElem?.mpr ⟨t, hget⟩
  unfold Spec.admitted_upto at hmem
  rw [List.mem_filter, List.mem_range] at hmem
  exact ⟨hmem.1, hget, hmem.2⟩

/-- The results of `OfflineMatch`, position by position: when the Viterbi path
holds one entry per column, the result at the index of the measurement
admitted as column `t` is `Spec.column_result` for that column, and the result
at the index of a skipped measurement attached to column `t` is
`Spec.skipped_result` for that column. -/
theorem OfflineMatch.results_spec (D : PointLL → PointLL → ℚ)
    (SearchPath : MapMatching → Nat → List (Option State)) (mm : MapMatching)
    (cq : CandidateQuery) (ms : List Measurement) (r d : ℚ) (hne : ms ≠ [])
    (hpath : (SearchPath (OfflineMatch.loadStates D mm cq ms r d).mm
        (OfflineMatch.loadStates D mm cq ms r d).time).length =
      (OfflineMatch.loadStates D mm cq ms r d).mm.size) :
    ∃ results, OfflineMatch D SearchPath mm cq ms r d = some results ∧
      results.length = ms.length ∧
      ∀ (i : Nat) (res : MatchResult), results.get? i = some res →
        (∃ t, t < (OfflineMatch.loadStates D mm cq ms r d).mm.states_.length ∧
          (Spec.admitted_upto D ms (d * d) ms.length).get? t = some i ∧
          res = Spec.column_result ms
            (SearchPath (OfflineMatch.loadStates D mm cq ms r d).mm
              (OfflineMatch.loadStates D mm cq ms r d).time).reverse
            (OfflineMatch.loadStates D mm cq ms r d).mm.states_.length t i) ∨
        (∃ t, t + 1 < (OfflineMatch.loadStates D mm cq ms r d).mm.states_.length ∧
          i ∈ (OfflineMatch.loadStates D mm cq ms r d).proximate_measurements t ∧
          res = Spec.skipped_result (OfflineMatch.loadStates D mm cq ms r d).mm.graphreader_
            cq ms r
            (SearchPath (OfflineMatch.loadStates D mm cq ms r d).mm
              (OfflineMatch.loadStates D mm cq ms r d).time).reverse t i) := by
  obtain ⟨hlen, _, _, _⟩ := OfflineMatch.loadPrefix_count D mm cq ms r d ms.length
  obtain ⟨_, hs, _, _, hprox, _⟩ := OfflineMatch.loadPrefix_spec D mm cq ms r d ms.length
  obtain ⟨_, _, hlast⟩ := OfflineMatch.loadStates_last D mm cq ms r d hne
  have hst : OfflineMatch.loadPrefix D mm cq ms r d ms.length =
      OfflineMatch.loadStates D mm cq ms r d := rfl
  rw [hst] at hlen hs hprox
  obtain ⟨front, hfront⟩ : ∃ front, ms.head? = some front := by
    cases ms with
    | nil => exact absurd rfl hne
    | cons front rest => exact ⟨front, rfl⟩
  obtain ⟨k, hk⟩ : ∃ k, ms.length = k + 1 :=
    ⟨ms.length - 1, by have := List.length_pos.mpr hne; omega⟩
  have hlayout := Spec.layout D ms (d * d) k
  rw [← hk] at hlayout
  have hT : (OfflineMatch.loadStates D mm cq ms r d).mm.states_.length =
      (Spec.admitted_upto D ms (d * d) ms.length).length := by
    have := congrArg List.length hs
    simpa [Spec.admitted_upto] using this
  have hproxfun : (OfflineMatch.loadStates D mm cq ms r d).proximate_measurements =
      fun t => (List.range ms.length).filter (Spec.skipped D ms (d * d) t) := funext hprox
  rw [OfflineMatch.eq_assemble D SearchPath mm cq ms r d front hfront]
  have hsize : (OfflineMatch.loadStates D mm cq ms r d).mm.size =
      (OfflineMatch.loadStates D mm cq ms r d).mm.states_.length := hlen
  rw [hsize] at hpath ⊢
  rw [hproxfun] at hlast ⊢
  rw [hT] at hpath hlast ⊢
  have hpath2 : (SearchPath (OfflineMatch.loadStates D mm cq ms r d).mm
      (OfflineMatch.loadStates D mm cq ms r d).time).reverse.length =
      (Spec.admitted_upto D ms (d * d) ms.length).length := by
    rw [List.length_reverse]; exact hpath
  generalize (OfflineMatch.loadStates D mm cq ms r d).mm.graphreader_ = reader
  generalize (SearchPath (OfflineMatch.loadStates D mm cq ms r d).mm
    (OfflineMatch.loadStates D mm cq ms r d).time).reverse = path at hpath2 ⊢
  unfold Spec.Layout at hlayout
  obtain ⟨h1T, h0, hF1, hF2, hF4, _⟩ := hlayout
  simp only at hF1 hF2 hF4
  generalize hA : Spec.admitted_upto D ms (d * d) ms.length = A at *
  have hbound : ∀ t, t < A.length → A.getD t 0 < ms.length := by
    intro t ht
    rw [← hA] at ht ⊢
    exact (Spec.admitted_upto_lt D ms (d * d) ms.length t ht).1
  have hgetA : ∀ t, t < A.length → A.get? t = some (A.getD t 0) := by
    intro t ht
    rw [← hA] at ht ⊢
    exact (Spec.admitted_upto_lt D ms (d * d) ms.length t ht).2.1
  have hat0 : OfflineMatch.at ms 0 = front := by
    cases ms with
    | nil => exact absurd rfl hne
    | cons m rest =>
      simp only [List.head?_cons, Option.some.injEq] at hfront
      rw [← hfront]
      rfl
  have hinit : [MatchResult.ofPoint front.lnglat] =
      Spec.expected reader cq ms r path A.length (fun t => A.getD t 0)
        (fun t => (List.range ms.length).filter (Spec.skipped D ms (d * d) t)) 0 := by
    unfold Spec.expected Spec.placed
    simp only [List.range_zero, List.flatMap_nil, List.nil_append, if_true, h0, hat0]
  have hrun := OfflineMatch.assemble_expected reader cq ms r path A.length
    (fun t => A.getD t 0)
    (fun t => (List.range ms.length).filter (Spec.skipped D ms (d * d) t))
    hpath2 h0 hF1 hF2 hbound (A.length - 1) 0 (by omega)
  simp only [Nat.zero_add] at hrun
  have hblen := Spec.blocks_length reader cq ms r path A.length (fun t => A.getD t 0)
    (fun t => (List.range ms.length).filter (Spec.skipped D ms (d * d) t)) h0 hF2
    (A.length - 1) (by omega)
  simp only at hlast hblen
  rw [hlast, List.length_nil] at hF4
  rw [hinit]
  refine ⟨_, hrun, ?_, ?_⟩
  · unfold Spec.expected
    rw [List.length_append, hblen, List.length_singleton]
    omega
  · intro i res hget
    unfold Spec.expected at hget
    rw [List.get?_eq_getElem?] at hget
    by_cases hi : i < A.getD (A.length - 1) 0
    · rw [List.getElem?_append_left (by rw [hblen]; exact hi), ← List.get?_eq_getElem?] at hget
      rcases Spec.blocks_get reader cq ms r path A.length (fun t => A.getD t 0)
        (fun t => (List.range ms.length).filter (Spec.skipped D ms (d * d) t)) h0 hF1 hF2
        (A.length - 1) (by omega) i res hget with ⟨t, ht, h1, h2⟩ | ⟨t, ht, h1, h2⟩
      · refine Or.inl ⟨t, by omega, ?_, h2⟩
        rw [hgetA t (by omega)]
        exact congrArg some h1
      · exact Or.inr ⟨t, by omega, h1, h2⟩
    · have hilt := (List.getElem?_eq_some_iff.mp hget).1
      rw [List.length_append, hblen, List.length_singleton] at hilt
      have hie : i = A.getD (A.length - 1) 0 := by omega
      rw [List.getElem?_append_right (by rw [hblen]; omega), hblen, hie, Nat.sub_self,
        List.getElem?_cons_zero, Option.some.injEq] at hget
      refine Or.inl ⟨A.length - 1, by omega, ?_, ?_⟩
      · rw [hgetA (A.length - 1) (by omega), hie]
      · rw [← hget, hie, Spec.column_result, if_neg]
        intro h
        omega

/-! ## The kinds of results -/

theorem Spec.foldl_inv {α β : Type} (P : β → Prop) (f : β → α → β)
    (h : ∀ b a, P b → P (f b a)) (l : List α) : ∀ b, P b → P (l.foldl f b) := by
  induction l with
  | nil => intro b hb; exact hb
  | cons a rest ih => intro b hb; exact ih (f b a) (h b a hb)

theorem GraphIdSet.valid_insert (s : List GraphId) (x : GraphId)
    (hs : ∀ id ∈ s, id.Is_Valid = true) (hx : x.Is_Valid = true) :
    ∀ id ∈ GraphIdSet.insert s x, id.Is_Valid = true := by
  intro id hid
  rcases (GraphIdSet.mem_insert s x id).mp hid with h | h
  · exact hs id h
  · rw [h]; exact hx

theorem collect_graphset_valid (reader : GraphReader) (source target : Option State) :
    ∀ id ∈ collect_graphset reader source target, id.Is_Valid = true := by
  unfold collect_graphset
  split
  · apply Spec.foldl_inv (fun graphset : List GraphId => ∀ id ∈ graphset, id.Is_Valid = true)
    · intro b label hb
      simp only
      have h1 : ∀ id ∈ (if label.edgeid.Is_Valid = true then GraphIdSet.insert b label.edgeid
          else b), id.Is_Valid = true := by
        split
        · rename_i hv; exact GraphIdSet.valid_insert b _ hb hv
        · exact hb
      split
      · rename_i hv; exact GraphIdSet.valid_insert _ _ h1 hv
      · exact h1
    · intro id hid; cases hid
  · split
    · apply Spec.foldl_inv (fun graphset : List GraphId => ∀ id ∈ graphset, id.Is_Valid = true)
      · intro b edge hb
        split
        · rename_i hv; exact GraphIdSet.valid_insert b _ hb hv
        · exact hb
      · intro id hid; cases hid
    · apply Spec.foldl_inv (fun graphset : List GraphId => ∀ id ∈ graphset, id.Is_Valid = true)
      · intro b nodeid hb
        split
        · rename_i hv; exact GraphIdSet.valid_insert b _ hb hv
        · exact hb
      · intro id hid; cases hid
  · intro id hid; cases hid

theorem interpolate_kind (reader : GraphReader) (graphset : List GraphId)
    (candidates : List Candidate) (m : Measurement) :
    interpolate reader graphset candidates m = MatchResult.ofPoint m.lnglat ∨
    ((interpolate reader graphset candidates m).state = none ∧
      ∃ c ∈ candidates, (interpolate reader graphset candidates m).lnglat = c.vertex ∧
        (interpolate reader graphset candidates m).distance = c.distance ∧
        AttachedTo reader graphset c (interpolate reader graphset candidates m).graphid
          (interpolate reader graphset candidates m).graphtype) := by
  have hinv := interpolate.Inv_foldl reader graphset candidates []
    { closest_candidate := none, closest_sq_distance := none,
      closest_graphid := GraphId.invalid, closest_graphtype := GraphType.kUnknown }
    (by simp [interpolate.Inv])
  rw [interpolate.eq_of_closest reader graphset candidates m _ rfl]
  generalize candidates.foldl (interpolate.step reader graphset)
    { closest_candidate := none, closest_sq_distance := none,
      closest_graphid := GraphId.invalid, closest_graphtype := GraphType.kUnknown } = closest
    at hinv
  unfold interpolate.Inv at hinv
  cases hc : closest.closest_candidate with
  | none => exact Or.inl rfl
  | some c =>
    rw [hc] at hinv
    simp only [List.nil_append] at hinv
    exact Or.inr ⟨rfl, c, hinv.1, rfl, rfl, hinv.2.2.2⟩

theorem interpolate_empty (reader : GraphReader) (candidates : List Candidate)
    (m : Measurement) : interpolate reader [] candidates m = MatchResult.ofPoint m.lnglat := by
  rcases interpolate_kind reader [] candidates m with h | ⟨_, c, _, _, _, hatt⟩
  · exact h
  · exact absurd hatt.1 (List.not_mem_nil _)

theorem MatchResult.ofPoint_raw (m : Measurement) : Spec.IsRaw m (MatchResult.ofPoint m.lnglat) :=
  ⟨rfl, rfl, rfl, rfl⟩

theorem Spec.attachment_of_head (l : List Label) (a : GraphId × GraphType)
    (h : l.head?.bind Spec.attachment = some a) :
    ∃ label ∈ l, Spec.attachment label = some a := by
  cases l with
  | nil => cases h
  | cons label rest => exact ⟨label, List.mem_cons_self _ _, h⟩

theorem Spec.attachment_of_last (l : List Label) (a : GraphId × GraphType)
    (h : l.reverse.findSome? Spec.attachment = some a) :
    ∃ label ∈ l, Spec.attachment label = some a := by
  obtain ⟨label, hmem, hatt⟩ := List.exists_of_findSome?_eq_some h
  exact ⟨label, List.mem_reverse.mp hmem, hatt⟩

theorem guess_target_result_invalid (p s : State) (m : Measurement)
    (h : (guess_target_result (some p) (some s) m).graphid.Is_Valid = false) :
    (p.RoutePath s).head?.bind Spec.attachment = none := by
  rw [guess_target_result_both] at h
  cases hb : (p.RoutePath s).head?.bind Spec.attachment with
  | none => rfl
  | some a =>
    rw [hb] at h
    obtain ⟨label, _, hatt⟩ := Spec.attachment_of_head _ a hb
    have hv := (Spec.attachment_valid label a hatt).1
    simp only [Option.getD_some] at h
    rw [h] at hv
    cases hv

theorem Spec.column_result_null (ms : List Measurement) (path : List (Option State))
    (T t i : Nat) (hcur : path.getD t none = none) :
    Spec.column_result ms path T t i = MatchResult.ofPoint (OfflineMatch.at ms i).lnglat := by
  unfold Spec.column_result
  split
  · rw [hcur]
    unfold guess_source_result
    cases path.getD (t + 1) none <;> rfl
  · unfold Spec.placed
    split
    · rfl
    · rw [hcur]
      unfold guess_target_result
      cases path.getD (t - 1) none <;> rfl

/-- The result of the measurement admitted as column `t` is the raw point of
the measurement or lies at the candidate of the path entry of column `t`, with
the graph attachment of the chain from the entry before or to the entry
behind. -/
theorem Spec.column_result_kind (ms : List Measurement) (path : List (Option State))
    (T t i : Nat) :
    Spec.IsRaw (OfflineMatch.at ms i) (Spec.column_result ms path T t i) ∨
      ∃ s, path.getD t none = some s ∧
        Spec.IsChosen (Spec.prev_entry path t) s (Spec.next_entry path T t)
          (Spec.column_result ms path T t i) := by
  cases hcur : path.getD t none with
  | none =>
    left
    rw [Spec.column_result_null ms path T t i hcur]
    exact MatchResult.ofPoint_raw _
  | some s =>
    unfold Spec.column_result
    split
    · rename_i hcond
      obtain ⟨hlt, hinv⟩ := hcond
      rw [hcur]
      cases hnext : path.getD (t + 1) none with
      | none => exact Or.inl ⟨rfl, rfl, rfl, rfl⟩
      | some n =>
        right
        have hn : Spec.next_entry path T t = some n := by
          unfold Spec.next_entry
          rw [if_pos hlt, hnext]
        refine ⟨s, rfl, ?_⟩
        rw [guess_source_result_both, hn]
        refine ⟨rfl, rfl, rfl, ?_⟩
        cases hf : (s.RoutePath n).reverse.findSome? Spec.attachment with
        | some a => exact Or.inr (Or.inl ⟨n, rfl, hf⟩)
        | none =>
          refine Or.inr (Or.inr ⟨rfl, rfl, ?_, ?_⟩)
          · intro p hp
            unfold Spec.prev_entry at hp
            by_cases ht : t = 0
            · rw [if_pos ht] at hp
              cases hp
            · rw [if_neg ht] at hp
              unfold Spec.placed at hinv
              rw [if_neg ht, hp, hcur] at hinv
              exact guess_target_result_invalid p s _ hinv
          · intro n2 hn2
            rw [Option.some.injEq] at hn2
            rw [← hn2]
            exact hf
    · rename_i hcond
      unfold Spec.placed at hcond ⊢
      by_cases ht : t = 0
      · rw [if_pos ht]
        exact Or.inl (MatchResult.ofPoint_raw _)
      · rw [if_neg ht] at hcond ⊢
        rw [hcur] at hcond ⊢
        have hprev : Spec.prev_entry path t = path.getD (t - 1) none := by
          unfold Spec.prev_entry
          rw [if_neg ht]
        cases hp : path.getD (t - 1) none with
        | none => exact Or.inl ⟨rfl, rfl, rfl, rfl⟩
        | some p =>
          right
          rw [hp] at hcond hprev
          refine ⟨s, rfl, ?_⟩
          rw [hprev]
          have hboth := guess_target_result_both p s (OfflineMatch.at ms i)
          rw [hboth]
          refine ⟨rfl, rfl, rfl, ?_⟩
          cases hb : (p.RoutePath s).head?.bind Spec.attachment with
          | some a => exact Or.inl ⟨p, rfl, hb⟩
          | none =>
            refine Or.inr (Or.inr ⟨rfl, rfl, ?_, ?_⟩)
            · intro p2 hp2
              rw [Option.some.injEq] at hp2
              rw [← hp2]
              exact hb
            · intro n hn
              unfold Spec.next_entry at hn
              by_cases hlt : t + 1 < T
              · exfalso
                apply hcond
                refine ⟨hlt, ?_⟩
                rw [hboth, hb]
                exact GraphId.invalid_not_valid
              · rw [if_neg hlt] at hn
                cases hn

/-- The result of a skipped measurement attached to column `t` is the raw
point of the measurement or an interpolated result in the graph set of the
path entries of the columns `t` and `t + 1`. -/
theorem Spec.skipped_result_kind (reader : GraphReader) (cq : CandidateQuery)
    (ms : List Measurement) (r : ℚ) (path : List (Option State)) (t i : Nat) :
    Spec.IsRaw (OfflineMatch.at ms i) (Spec.skipped_result reader cq ms r path t i) ∨
      Spec.IsInterpolated reader
        (collect_graphset reader (path.getD t none) (path.getD (t + 1) none))
        (cq.Query (OfflineMatch.at ms i).lnglat r)
        (Spec.skipped_result reader cq ms r path t i) := by
  unfold Spec.skipped_result
  rcases interpolate_kind reader
    (collect_graphset reader (path.getD t none) (path.getD (t + 1) none))
    (cq.Query (OfflineMatch.at ms i).lnglat r) (OfflineMatch.at ms i) with
    h | ⟨hstate, c, hc, hv, hd, hatt⟩
  · rw [h]; exact Or.inl (MatchResult.ofPoint_raw _)
  · exact Or.inr ⟨hstate, collect_graphset_valid reader _ _ _ hatt.1, c, hc, hv, hd, hatt⟩

theorem Spec.IsRaw.invalid (m : Measurement) (res : MatchResult) (h : Spec.IsRaw m res) :
    res.graphid.Is_Valid = false := by
  rw [h.2.2.1]
  exact GraphId.invalid_not_valid

/-- The graph attachment of a result at a chosen state: a valid id is offered
by a label of the chain from the entry before or to the entry behind, and an
invalid id is of type Unknown. -/
theorem Spec.IsChosen.attached (prev : Option State) (s : State) (next : Option State)
    (res : MatchResult) (h : Spec.IsChosen prev s next res) :
    (res.graphid.Is_Valid = false → res.graphtype = GraphType.kUnknown) ∧
    (res.graphid.Is_Valid = true →
      (∃ p label, prev = some p ∧ label ∈ p.RoutePath s ∧
        Spec.attachment label = some (res.graphid, res.graphtype)) ∨
      (∃ n label, next = some n ∧ label ∈ s.RoutePath n ∧
        Spec.attachment label = some (res.graphid, res.graphtype))) := by
  obtain ⟨_, _, _, hcase⟩ := h
  rcases hcase with ⟨p, hp, hb⟩ | ⟨n, hn, hf⟩ | ⟨hid, htype, _, _⟩
  · obtain ⟨label, hmem, hatt⟩ := Spec.attachment_of_head _ _ hb
    constructor
    · intro hinv
      have hv := (Spec.attachment_valid label _ hatt).1
      simp only at hv
      rw [hinv] at hv
      cases hv
    · intro _
      exact Or.inl ⟨p, label, hp, hmem, hatt⟩
  · obtain ⟨label, hmem, hatt⟩ := Spec.attachment_of_last _ _ hf
    constructor
    · intro hinv
      have hv := (Spec.attachment_valid label _ hatt).1
      simp only at hv
      rw [hinv] at hv
      cases hv
    · intro _
      exact Or.inr ⟨n, label, hn, hmem, hatt⟩
  · constructor
    · intro _; exact htype
    · intro hval
      rw [hid, GraphId.invalid_not_valid] at hval
      cases hval

theorem OfflineMatch.at_of_get (ms : List Measurement) (i : Nat) (m : Measurement)
    (h : ms.get? i = some m) : OfflineMatch.at ms i = m := by
  have hi : i < ms.length := by
    rw [List.get?_eq_getElem?] at h
    exact (List.getElem?_eq_some_iff.mp h).1
  rw [OfflineMatch.get_at ms i hi] at h
  exact Option.some.inj h

theorem OfflineMatch.single (D : PointLL → PointLL → ℚ)
    (SearchPath : MapMatching → Nat → List (Option State)) (mm : MapMatching)
    (cq : CandidateQuery) (m : Measurement) (r d : ℚ) :
    OfflineMatch D SearchPath mm cq [m] r d = some [MatchResult.ofPoint m.lnglat] := by
  obtain ⟨hlen, _, hsum, _⟩ := OfflineMatch.loadPrefix_count D mm cq [m] r d 1
  have hst : OfflineMatch.loadPrefix D mm cq [m] r d 1 =
      OfflineMatch.loadStates D mm cq [m] r d := rfl
  rw [hst] at hlen hsum
  rw [OfflineMatch.eq_assemble D SearchPath mm cq [m] r d m rfl]
  have hsize : (OfflineMatch.loadStates D mm cq [m] r d).mm.size - 1 = 0 := by
    unfold MapMatching.size
    omega
  rw [hsize]
  rfl

theorem OfflineMatch.columns_empty (D : PointLL → PointLL → ℚ) (mm : MapMatching)
    (cq : CandidateQuery) (ms : List Measurement) (r d : ℚ)
    (hempty : ∀ i, i < ms.length → Spec.admitted D ms (d * d) i = true →
      cq.Query (OfflineMatch.at ms i).lnglat r = []) :
    ∀ column ∈ (OfflineMatch.loadStates D mm cq ms r d).mm.states_, column = [] := by
  obtain ⟨_, hs, _, _, _, _⟩ := OfflineMatch.loadPrefix_spec D mm cq ms r d ms.length
  have hst : OfflineMatch.loadPrefix D mm cq ms r d ms.length =
      OfflineMatch.loadStates D mm cq ms r d := rfl
  rw [hst] at hs
  intro column hcol
  have hmem : column.map State.candidate ∈
      (OfflineMatch.loadStates D mm cq ms r d).mm.states_.map (List.map State.candidate) :=
    List.mem_map_of_mem _ hcol
  rw [hs, List.mem_map] at hmem
  obtain ⟨i, hi, hq⟩ := hmem
  rw [List.mem_filter, List.mem_range] at hi
  rw [hempty i hi.1 hi.2] at hq
  exact List.map_eq_nil_iff.mp hq.symm

theorem Spec.column_result_none (ms : List Measurement) (path : List (Option State))
    (T t i : Nat) (hnone : ∀ t, path.getD t none = none) :
    Spec.column_result ms path T t i = MatchResult.ofPoint (OfflineMatch.at ms i).lnglat := by
  have hplaced : Spec.placed ms path t i = MatchResult.ofPoint (OfflineMatch.at ms i).lnglat := by
    unfold Spec.placed
    split
    · rfl
    · rw [hnone, hnone]
      rfl
  unfold Spec.column_result
  rw [hplaced]
  split
  · rw [hnone, hnone]
    rfl
  · rfl

theorem Spec.skipped_result_none (reader : GraphReader) (cq : CandidateQuery)
    (ms : List Measurement) (r : ℚ) (path : List (Option State)) (t i : Nat)
    (hnone : ∀ t, path.getD t none = none) :
    Spec.skipped_result reader cq ms r path t i =
      MatchResult.ofPoint (OfflineMatch.at ms i).lnglat := by
  unfold Spec.skipped_result
  rw [hnone, hnone]
  exact interpolate_empty _ _ _

theorem Example.emptyPath :
    (Example.SearchPath
      (OfflineMatch.loadStates Example.DistanceSquared Example.mm Example.emptyCq
        Example.trace 100 2).mm
      (OfflineMatch.loadStates Example.DistanceSquared Example.mm Example.emptyCq
        Example.trace 100 2).time).reverse = [none, none, none] := by
  with_unfolding_all rfl

theorem Spec.SameModel.clear_eq (a b : MapMatching) (h : Spec.SameModel a b) :
    a.Clear = b.Clear := by
  obtain ⟨h1, h2, h3, h4, h5, h6, h7, h8, h9⟩ := h
  cases a
  cases b
  simp only at h1 h2 h3 h4 h5 h6 h7 h8 h9
  simp only [MapMatching.Clear, MapMatching.mk.injEq, and_true, true_and]
  exact ⟨h1, h2, h3, h4, h5, h6, h7, h8, h9⟩

theorem Spec.SameModel.trans (a b c : MapMatching) (h1 : Spec.SameModel a b)
    (h2 : Spec.SameModel b c) : Spec.SameModel a c :=
  ⟨h1.1.trans h2.1, h1.2.1.trans h2.2.1, h1.2.2.1.trans h2.2.2.1,
    h1.2.2.2.1.trans h2.2.2.2.1, h1.2.2.2.2.1.trans h2.2.2.2.2.1,
    h1.2.2.2.2.2.1.trans h2.2.2.2.2.2.1, h1.2.2.2.2.2.2.1.trans h2.2.2.2.2.2.2.1,
    h1.2.2.2.2.2.2.2.1.trans h2.2.2.2.2.2.2.2.1, h1.2.2.2.2.2.2.2.2.trans h2.2.2.2.2.2.2.2.2⟩

theorem Spec.SameModel.appendState (mm : MapMatching) (measurement : Measurement)
    (candidates : List Candidate) :
    Spec.SameModel mm (mm.AppendState measurement candidates).1 := by
  rw [MapMatching.AppendState_eq]
  exact ⟨rfl, rfl, rfl, rfl, rfl, rfl, rfl, rfl, rfl⟩

theorem Spec.SameModel.transitionCost (D : PointLL → PointLL → ℚ) (fsp : ShortestPath)
    (pred : Nat → Option Nat) (mm mm2 : MapMatching) (left right : Nat) (c : ℚ)
    (h : mm.TransitionCost D fsp pred left right = some (c, mm2)) : Spec.SameModel mm mm2 := by
  obtain ⟨l, r, l2, _, _, hroute, _, _⟩ :=
    MapMatching.TransitionCost_some D fsp pred mm mm2 left right c h
  cases hrt : l.routed with
  | true =>
    rw [MapMatching.TransitionCost.routeLeft_routed D fsp pred mm left l r hrt] at hroute
    simp only [Option.some.injEq] at hroute
    rw [← hroute]
    exact ⟨rfl, rfl, rfl, rfl, rfl, rfl, rfl, rfl, rfl⟩
  | false =>
    obtain ⟨el, targets, b, _, _, _, hmm2⟩ :=
      MapMatching.TransitionCost.routeLeft_unrouted D fsp pred mm mm2 left l r hrt hroute
    rw [hmm2]
    exact ⟨rfl, rfl, rfl, rfl, rfl, rfl, rfl, rfl, rfl⟩

theorem OfflineMatch.loadPrefix_same (D : PointLL → PointLL → ℚ) (mm : MapMatching)
    (cq : CandidateQuery) (ms : List Measurement) (r d : ℚ) (k : Nat) :
    Spec.SameModel mm (OfflineMatch.loadPrefix D mm cq ms r d k).mm := by
  induction k with
  | zero => exact ⟨rfl, rfl, rfl, rfl, rfl, rfl, rfl, rfl, rfl⟩
  | succ k ih =>
    rw [OfflineMatch.loadPrefix_succ]
    generalize OfflineMatch.loadPrefix D mm cq ms r d k = st at ih
    by_cases hcond : d * d ≤ D (OfflineMatch.at ms st.last_idx).lnglat
        (OfflineMatch.at ms k).lnglat ∨ k = 0 ∨ k = ms.length - 1
    · rw [OfflineMatch.load_admit D cq ms r (d * d) st k hcond]
      exact Spec.SameModel.trans _ _ _ ih (Spec.SameModel.appendState _ _ _)
    · rw [OfflineMatch.load_skip D cq ms r (d * d) st k hcond]
      exact ih

theorem OfflineMatch.congr_clear (D : PointLL → PointLL → ℚ)
    (SearchPath : MapMatching → Nat → List (Option State)) (mm1 mm2 : MapMatching)
    (cq : CandidateQuery) (ms : List Measurement) (r d : ℚ) (h : mm1.Clear = mm2.Clear) :
    OfflineMatch.loadStates D mm1 cq ms r d = OfflineMatch.loadStates D mm2 cq ms r d ∧
    OfflineMatch D SearchPath mm1 cq ms r d = OfflineMatch D SearchPath mm2 cq ms r d := by
  have hload : OfflineMatch.loadStates D mm1 cq ms r d =
      OfflineMatch.loadStates D mm2 cq ms r d := by
    unfold OfflineMatch.loadStates
    rw [h]
  refine ⟨hload, ?_⟩
  unfold OfflineMatch
  rw [hload]

/-! ## Lemmas on configuration trees and the factory -/

theorem ptree.lookup_cons (k k0 : String) (v0 : ptree) (rest : List (String × ptree)) :
    List.lookup k ((k0, v0) :: rest) = if k = k0 then some v0 else List.lookup k rest := by
  rw [List.lookup_cons]
  by_cases h : k = k0
  · rw [if_pos h, beq_iff_eq.mpr h]
  · rw [if_neg h, beq_eq_false_iff_ne.mpr h]

theorem ptree.put_child.go_lookup (key : String) (value : ptree) (k : String) :
    ∀ l : List (String × ptree),
      (ptree.put_child.go key value l).lookup k =
        if k = key then some value else l.lookup k := by
  intro l
  induction l with
  | nil =>
    rw [ptree.put_child.go, ptree.lookup_cons]
  | cons child rest ih =>
    obtain ⟨k0, v0⟩ := child
    rw [ptree.put_child.go]
    by_cases h0 : k0 = key
    · rw [if_pos h0, ptree.lookup_cons, ptree.lookup_cons]
      subst h0
      split_ifs <;> rfl
    · rw [if_neg h0, ptree.lookup_cons, ptree.lookup_cons, ih]
      split_ifs with h1 h2
      · exact absurd (h1.symm.trans h2) h0
      · rfl
      · rfl
      · rfl

theorem ptree.get_put_child (t : ptree) (key : String) (value : ptree) (k : String) :
    (t.put_child key value).get_child_optional k =
      if k = key then some value else t.get_child_optional k := by
  unfold ptree.put_child ptree.get_child_optional
  exact ptree.put_child.go_lookup key value k t.children

theorem ptree.get_foldl_put (k : String) (l : List (String × ptree)) :
    ∀ config : ptree,
      (l.foldl (fun config child => config.put_child child.1 child.2) config).get_child_optional
          k = (l.reverse.lookup k).or (config.get_child_optional k) := by
  induction l with
  | nil => intro config; rfl
  | cons child rest ih =>
    intro config
    obtain ⟨k0, v0⟩ := child
    rw [List.foldl_cons, ih, ptree.get_put_child, List.reverse_cons, List.lookup_append]
    cases rest.reverse.lookup k with
    | some v => rfl
    | none =>
      rw [Option.none_or, Option.none_or, ptree.lookup_cons]
      by_cases h : k = k0
      · rw [if_pos h, if_pos h]; rfl
      · rw [if_neg h, if_neg h]; rfl

theorem ptree.last_child_of_unique (t : ptree) (h : t.UniqueKeys) (k : String) :
    t.last_child k = t.get_child_optional k := by
  unfold ptree.last_child ptree.get_child_optional
  unfold ptree.UniqueKeys at h
  generalize t.children = l at h
  induction l with
  | nil => rfl
  | cons child rest ih =>
    obtain ⟨k0, v0⟩ := child
    rw [List.map_cons, List.nodup_cons] at h
    rw [List.reverse_cons, List.lookup_append, ih h.2, ptree.lookup_cons, ptree.lookup_cons]
    by_cases hk : k = k0
    · have hnone : rest.lookup k = none := by
        rw [List.lookup_eq_none_iff]
        intro p hp
        have hne : k ≠ p.1 := by
          intro e
          have hp1 : p.1 = k0 := e.symm.trans hk
          have hmem : p.1 ∈ rest.map Prod.fst := List.mem_map_of_mem Prod.fst hp
          rw [hp1] at hmem
          exact h.1 hmem
        exact bne_iff_ne.mpr hne
      rw [if_pos hk, if_pos hk, hnone]
      rfl
    · rw [if_neg hk, if_neg hk]
      cases rest.lookup k <;> rfl

theorem MapMatcherFactory.MergeConfig_ok (f : MapMatcherFactory) (name : String)
    (preferences default_block : ptree)
    (hd : f.config_.get_child_optional "default" = some default_block) :
    ∃ config, f.MergeConfig name preferences = Except.ok config ∧
      ∀ key, config.get_child_optional key =
        (preferences.last_child key).or
          (((f.config_.get_child_optional name).bind (fun mode => mode.last_child key)).or
            (default_block.get_child_optional key)) := by
  unfold MapMatcherFactory.MergeConfig ptree.get_child
  rw [hd]
  refine ⟨_, rfl, ?_⟩
  intro key
  rw [ptree.get_foldl_put]
  cases f.config_.get_child_optional name with
  | none => rfl
  | some mode =>
    simp only [Option.some_bind]
    rw [ptree.get_foldl_put]
    rfl

theorem MapMatcherFactory.MergeConfig_error (f : MapMatcherFactory) (name : String)
    (preferences : ptree) (hd : f.config_.get_child_optional "default" = none) :
    f.MergeConfig name preferences =
      Except.error (Exn.runtime_error "No such node (default)") := by
  unfold MapMatcherFactory.MergeConfig ptree.get_child
  rw [hd]
  rfl

theorem MapMatcherFactory.NameToTravelMode_ok_iff (f : MapMatcherFactory) (name : String)
    (tm : Nat) :
    f.NameToTravelMode name = Except.ok tm ↔
      tm < kModeCostingCount ∧ name ≠ "" ∧ f.mode_name_ tm = name ∧
        ∀ j, j < tm → f.mode_name_ j ≠ name := by
  unfold MapMatcherFactory.NameToTravelMode
  cases h : (List.range kModeCostingCount).find?
      (fun idx => decide (name ≠ "" ∧ f.mode_name_ idx = name)) with
  | none =>
    rw [List.find?_range_eq_none] at h
    constructor
    · intro e; cases e
    · rintro ⟨h1, h2, h3, _⟩
      have := h tm h1
      simp [h2, h3] at this
  | some idx =>
    rw [List.find?_range_eq_some] at h
    obtain ⟨hp, hmem, hlow⟩ := h
    simp only [decide_eq_true_eq] at hp
    rw [List.mem_range] at hmem
    have hlow2 : ∀ j, j < idx → f.mode_name_ j ≠ name := by
      intro j hj e
      have := hlow j hj
      simp [hp.1, e] at this
    constructor
    · intro e
      simp only [Except.ok.injEq] at e
      subst e
      exact ⟨hmem, hp.1, hp.2, hlow2⟩
    · rintro ⟨h1, h2, h3, h4⟩
      have hidx : idx = tm := by
        rcases Nat.lt_trichotomy idx tm with hlt | heq | hgt
        · exact absurd hp.2 (h4 idx hlt)
        · exact heq
        · exact absurd h3 (hlow2 tm hgt)
      rw [hidx]

theorem MapMatcherFactory.NameToTravelMode_error_iff (f : MapMatcherFactory) (name : String)
    (e : Exn) :
    f.NameToTravelMode name = Except.error e ↔
      e = Exn.invalid_argument ("Invalid costing name: " ++ name) ∧
        (name = "" ∨ ∀ idx, idx < kModeCostingCount → f.mode_name_ idx ≠ name) := by
  unfold MapMatcherFactory.NameToTravelMode
  cases h : (List.range kModeCostingCount).find?
      (fun idx => decide (name ≠ "" ∧ f.mode_name_ idx = name)) with
  | none =>
    rw [List.find?_range_eq_none] at h
    simp only [Except.error.injEq]
    constructor
    · intro e2
      refine ⟨e2.symm, ?_⟩
      by_cases hn : name = ""
      · exact Or.inl hn
      · right
        intro idx hidx e3
        have := h idx hidx
        simp [hn, e3] at this
    · rintro ⟨e2, _⟩
      exact e2.symm
  | some idx =>
    rw [List.find?_range_eq_some] at h
    obtain ⟨hp, hmem, _⟩ := h
    simp only [decide_eq_true_eq] at hp
    rw [List.mem_range] at hmem
    constructor
    · intro e2; cases e2
    · rintro ⟨_, h2 | h2⟩
      · exact absurd h2 hp.1
      · exact absurd hp.2 (h2 idx hmem)

theorem MapMatcherFactory.TravelModeToName_of_name (f : MapMatcherFactory) (name : String)
    (tm : Nat) (h : f.NameToTravelMode name = Except.ok tm) :
    f.TravelModeToName tm = Except.ok name := by
  obtain ⟨h1, h2, h3, _⟩ := (MapMatcherFactory.NameToTravelMode_ok_iff f name tm).mp h
  unfold MapMatcherFactory.TravelModeToName
  simp only
  rw [if_pos ⟨h1, by rw [h3]; exact h2⟩, h3]

theorem MapMatcher.new_fields (get_float : ptree → String → Except Exn ℚ) (exp : ℚ → ℚ)
    (config : ptree) (graphreader : GraphReader) (travelmode : Nat) (matcher : MapMatcher)
    (h : MapMatcher.new get_float exp config graphreader travelmode = Except.ok matcher) :
    matcher.config_ = config ∧ matcher.travelmode_ = travelmode ∧
      matcher.graphreader_ = graphreader ∧
      MapMatching.ofConfig get_float exp graphreader config = Except.ok matcher.mapmatching_ := by
  unfold MapMatcher.new at h
  cases hm : MapMatching.ofConfig get_float exp graphreader config with
  | error e =>
    rw [hm] at h
    cases h
  | ok mapmatching =>
    rw [hm] at h
    simp only [Except.ok.injEq] at h
    subst h
    exact ⟨rfl, rfl, rfl, rfl⟩

theorem MapMatcherFactory.Create_of_name (get_float : ptree → String → Except Exn ℚ)
    (exp : ℚ → ℚ) (f : MapMatcherFactory) (travelmode : Nat) (name : String)
    (preferences : ptree) (h : f.TravelModeToName travelmode = Except.ok name) :
    f.Create get_float exp travelmode preferences =
      match f.MergeConfig name preferences with
      | Except.error e => Except.error e
      | Except.ok config => MapMatcher.new get_float exp config f.graphreader_ travelmode := by
  unfold MapMatcherFactory.Create
  rw [h]

theorem MapMatcherFactory.CreateFromPreferences_eq (get_float : ptree → String → Except Exn ℚ)
    (exp : ℚ → ℚ) (f : MapMatcherFactory) (preferences : ptree) :
    f.CreateFromPreferences get_float exp preferences =
      Spec.CreateMerged get_float exp f preferences := by
  unfold MapMatcherFactory.CreateFromPreferences Spec.CreateMerged
  cases hd : f.config_.get_string "mode" with
  | error e => rfl
  | ok default_value =>
    dsimp only
    cases hn : f.NameToTravelMode (preferences.get_string_or "mode" default_value) with
    | error e => rfl
    | ok travelmode =>
      have hname := MapMatcherFactory.TravelModeToName_of_name f _ travelmode hn
      have hcreate := MapMatcherFactory.Create_of_name get_float exp f travelmode _ preferences
        hname
      cases hc : f.MergeConfig (preferences.get_string_or "mode" default_value) preferences with
      | error e => rfl
      | ok config =>
        rw [hc] at hcreate
        dsimp only
        rw [hcreate]

/-! ## Lemmas on the destination counter -/

/-- The caching loop looks the target at position `k` up under the
destination index `(dest + k) mod 2^16`, `dest` being the counter at its
start. -/
theorem State.route.cache_under_counter (results : List (Nat × Nat)) :
    ∀ (targets : List State) (dest : Nat) (acc : List (Nat × Nat)), dest < 65536 →
      State.route.cache results targets dest acc =
        (targets.zip ((List.range targets.length).map (fun k => (dest + k) % 65536))).foldl
          (Spec.cache_under results) acc := by
  intro targets
  induction targets with
  | nil => intro dest acc _; rfl
  | cons t rest ih =>
    intro dest acc hd
    rw [State.route.cache, ih _ _ (Nat.mod_lt _ (by decide)), List.length_cons,
      List.range_succ_eq_map, List.map_cons, List.zip_cons_cons, List.foldl_cons, List.map_map]
    have h0 : (dest + 0) % 65536 = dest := by omega
    have hfun : (fun k => ((dest + 1) % 65536 + k) % 65536) =
        ((fun k => (dest + k) % 65536) ∘ Nat.succ) := by
      funext k
      simp only [Function.comp, Nat.succ_eq_add_one]
      omega
    rw [h0, hfun]
    rfl

theorem Spec.zip_get {α β : Type} (f : Nat → β) :
    ∀ (l : List α) (k : Nat) (x : α), l.get? k = some x →
      (l.zip ((List.range l.length).map f)).get? k = some (x, f k) := by
  intro l k x h
  rw [List.get?_eq_getElem?] at h ⊢
  have hk : k < l.length := (List.getElem?_eq_some_iff.mp h).1
  rw [List.getElem?_zip_eq_some]
  refine ⟨h, ?_⟩
  rw [List.getElem?_map, List.getElem?_range hk]
  rfl

/-! ## Lemmas on the in-place merge -/

theorem guess_source_result_state (source target : Option State) (m : Measurement) :
    (guess_source_result source target m).state = source := by
  unfold guess_source_result
  cases source with
  | none => rfl
  | some s =>
    cases target with
    | none => rfl
    | some t => rfl

theorem guess_target_result_state (source target : Option State) (m : Measurement) :
    (guess_target_result source target m).state = target := by
  unfold guess_target_result
  cases target with
  | none => cases source <;> rfl
  | some t => cases source <;> rfl

theorem interpolate_state (reader : GraphReader) (graphset : List GraphId)
    (candidates : List Candidate) (m : Measurement) :
    (interpolate reader graphset candidates m).state = none := by
  rcases interpolate_kind reader graphset candidates m with h | ⟨h, _⟩
  · rw [h]; rfl
  · exact h

theorem Spec.placed_state (ms : List Measurement) (path : List (Option State)) (t i : Nat)
    (ht : 0 < t) : (Spec.placed ms path t i).state = path.getD t none := by
  unfold Spec.placed
  rw [if_neg (by omega)]
  exact guess_target_result_state _ _ _

/-- The result of the measurement admitted as column `t` carries the path entry
of column `t`, unless there is one column only. -/
theorem Spec.column_result_state (ms : List Measurement) (path : List (Option State))
    (T t i : Nat) (h : t = 0 → 1 < T) :
    (Spec.column_result ms path T t i).state = path.getD t none := by
  unfold Spec.column_result
  split
  · exact guess_source_result_state _ _ _
  · rename_i hn
    by_cases ht : t = 0
    · exfalso
      apply hn
      refine ⟨by have := h ht; omega, ?_⟩
      unfold Spec.placed
      rw [if_pos ht]
      exact GraphId.invalid_not_valid
    · exact Spec.placed_state ms path t i (by omega)

theorem Spec.skipped_result_state (reader : GraphReader) (cq : CandidateQuery)
    (ms : List Measurement) (r : ℚ) (path : List (Option State)) (t i : Nat) :
    (Spec.skipped_result reader cq ms r path t i).state = none :=
  interpolate_state _ _ _ _

theorem Spec.matched_states_append (a b : List MatchResult) :
    Spec.matched_states (a ++ b) = Spec.matched_states a ++ Spec.matched_states b := by
  unfold Spec.matched_states
  exact List.filterMap_append _ _ _

theorem Spec.matched_states_skipped (reader : GraphReader) (cq : CandidateQuery)
    (ms : List Measurement) (r : ℚ) (path : List (Option State)) (t : Nat) (l : List Nat) :
    Spec.matched_states (l.map (Spec.skipped_result reader cq ms r path t)) = [] := by
  unfold Spec.matched_states
  induction l with
  | nil => rfl
  | cons i rest ih =>
    rw [List.map_cons, List.filterMap_cons, Spec.skipped_result_state]
    exact ih

/-- The states of the results of the columns before column `s`, in result
order, are the valid path entries of these columns. -/
theorem Spec.matched_states_blocks (reader : GraphReader) (cq : CandidateQuery)
    (ms : List Measurement) (r : ℚ) (path : List (Option State)) (T : Nat) (a : Nat → Nat)
    (prox : Nat → List Nat) :
    ∀ s, s < T →
      Spec.matched_states ((List.range s).flatMap (Spec.block reader cq ms r path T a prox)) =
        (List.range s).flatMap (fun t => (path.getD t none).toList) := by
  intro s
  induction s with
  | zero => intro _; rfl
  | succ s ih =>
    intro hs
    rw [List.range_succ, List.flatMap_append, List.flatMap_append, Spec.matched_states_append,
      ih (by omega), List.flatMap_singleton, List.flatMap_singleton, Spec.block]
    congr 1
    have hcons : Spec.matched_states (Spec.column_result ms path T s (a s) ::
        (prox s).map (Spec.skipped_result reader cq ms r path s)) =
        (Spec.column_result ms path T s (a s)).state.toList ++
          Spec.matched_states ((prox s).map (Spec.skipped_result reader cq ms r path s)) := by
      unfold Spec.matched_states
      rw [List.filterMap_cons]
      cases (Spec.column_result ms path T s (a s)).state <;> rfl
    rw [hcons, Spec.matched_states_skipped, List.append_nil,
      Spec.column_result_state ms path T s (a s) (by omega)]

theorem Spec.flatMap_entries {α : Type} :
    ∀ l : List (Option α),
      (List.range l.length).flatMap (fun t => (l.getD t none).toList) = l.filterMap id := by
  intro l
  induction l with
  | nil => rfl
  | cons x rest ih =>
    rw [List.length_cons, List.range_succ_eq_map, List.flatMap_cons, List.flatMap_map,
      List.filterMap_cons]
    have hfun : (fun t => ((x :: rest).getD (Nat.succ t) none).toList) =
        (fun t => (rest.getD t none).toList) := by
      funext t
      rfl
    rw [hfun, ih]
    cases x <;> rfl

theorem Spec.consecutive_short (l : List State) (h : l.length ≤ 1) :
    Spec.consecutive l = [] := by
  cases l with
  | nil => rfl
  | cons a rest =>
    cases rest with
    | nil => rfl
    | cons b rest2 => simp at h

/-- The result list of `OfflineMatch` as a whole: the results of the columns
before the last one, each followed by the results of its skipped measurements,
and the result pushed for the last column. -/
theorem OfflineMatch.results_expected (D : PointLL → PointLL → ℚ)
    (SearchPath : MapMatching → Nat → List (Option State)) (mm : MapMatching)
    (cq : CandidateQuery) (ms : List Measurement) (r d : ℚ) (hne : ms ≠ [])
    (hpath : (SearchPath (OfflineMatch.loadStates D mm cq ms r d).mm
        (OfflineMatch.loadStates D mm cq ms r d).time).length =
      (OfflineMatch.loadStates D mm cq ms r d).mm.size) :
    OfflineMatch D SearchPath mm cq ms r d =
      some (Spec.expected (OfflineMatch.loadStates D mm cq ms r d).mm.graphreader_ cq ms r
        (SearchPath (OfflineMatch.loadStates D mm cq ms r d).mm
          (OfflineMatch.loadStates D mm cq ms r d).time).reverse
        (Spec.admitted_upto D ms (d * d) ms.length).length
        (fun t => (Spec.admitted_upto D ms (d * d) ms.length).getD t 0)
        (fun t => (List.range ms.length).filter (Spec.skipped D ms (d * d) t))
        ((Spec.admitted_upto D ms (d * d) ms.length).length - 1)) ∧
    (SearchPath (OfflineMatch.loadStates D mm cq ms r d).mm
        (OfflineMatch.loadStates D mm cq ms r d).time).reverse.length =
      (Spec.admitted_upto D ms (d * d) ms.length).length ∧
    1 ≤ (Spec.admitted_upto D ms (d * d) ms.length).length ∧
    (2 ≤ ms.length → 2 ≤ (Spec.admitted_upto D ms (d * d) ms.length).length) := by
  obtain ⟨hlen, _, _, _⟩ := OfflineMatch.loadPrefix_count D mm cq ms r d ms.length
  obtain ⟨_, hs, _, _, hprox, _⟩ := OfflineMatch.loadPrefix_spec D mm cq ms r d ms.length
  obtain ⟨_, _, hlast⟩ := OfflineMatch.loadStates_last D mm cq ms r d hne
  have hst : OfflineMatch.loadPrefix D mm cq ms r d ms.length =
      OfflineMatch.loadStates D mm cq ms r d := rfl
  rw [hst] at hlen hs hprox
  obtain ⟨front, hfront⟩ : ∃ front, ms.head? = some front := by
    cases ms with
    | nil => exact absurd rfl hne
    | cons front rest => exact ⟨front, rfl⟩
  obtain ⟨k, hk⟩ : ∃ k, ms.length = k + 1 :=
    ⟨ms.length - 1, by have := List.length_pos.mpr hne; omega⟩
  have hlayout := Spec.layout D ms (d * d) k
  rw [← hk] at hlayout
  have hT : (OfflineMatch.loadStates D mm cq ms r d).mm.states_.length =
      (Spec.admitted_upto D ms (d * d) ms.length).length := by
    have := congrArg List.length hs
    simpa [Spec.admitted_upto] using this
  have hproxfun : (OfflineMatch.loadStates D mm cq ms r d).proximate_measurements =
      fun t => (List.range ms.length).filter (Spec.skipped D ms (d * d) t) := funext hprox
  rw [OfflineMatch.eq_assemble D SearchPath mm cq ms r d front hfront]
  have hsize : (OfflineMatch.loadStates D mm cq ms r d).mm.size =
      (OfflineMatch.loadStates D mm cq ms r d).mm.states_.length := hlen
  rw [hsize] at hpath ⊢
  rw [hproxfun] at hlast ⊢
  rw [hT] at hpath hlast ⊢
  have hpath2 : (SearchPath (OfflineMatch.loadStates D mm cq ms r d).mm
      (OfflineMatch.loadStates D mm cq ms r d).time).reverse.length =
      (Spec.admitted_upto D ms (d * d) ms.length).length := by
    rw [List.length_reverse]; exact hpath
  generalize (OfflineMatch.loadStates D mm cq ms r d).mm.graphreader_ = reader
  generalize (SearchPath (OfflineMatch.loadStates D mm cq ms r d).mm
    (OfflineMatch.loadStates D mm cq ms r d).time).reverse = path at hpath2 ⊢
  unfold Spec.Layout at hlayout
  obtain ⟨h1T, h0, hF1, hF2, hF4, _⟩ := hlayout
  simp only at hF1 hF2 hF4
  generalize hA : Spec.admitted_upto D ms (d * d) ms.length = A at *
  have hbound : ∀ t, t < A.length → A.getD t 0 < ms.length := by
    intro t ht
    rw [← hA] at ht ⊢
    exact (Spec.admitted_upto_lt D ms (d * d) ms.length t ht).1
  have hat0 : OfflineMatch.at ms 0 = front := by
    cases ms with
    | nil => exact absurd rfl hne
    | cons m rest =>
      simp only [List.head?_cons, Option.some.injEq] at hfront
      rw [← hfront]
      rfl
  have hinit : [MatchResult.ofPoint front.lnglat] =
      Spec.expected reader cq ms r path A.length (fun t => A.getD t 0)
        (fun t => (List.range ms.length).filter (Spec.skipped D ms (d * d) t)) 0 := by
    unfold Spec.expected Spec.placed
    simp only [List.range_zero, List.flatMap_nil, List.nil_append, if_true, h0, hat0]
  have hrun := OfflineMatch.assemble_expected reader cq ms r path A.length
    (fun t => A.getD t 0)
    (fun t => (List.range ms.length).filter (Spec.skipped D ms (d * d) t))
    hpath2 h0 hF1 hF2 hbound (A.length - 1) 0 (by omega)
  simp only [Nat.zero_add] at hrun
  simp only at hlast
  rw [hlast, List.length_nil] at hF4
  rw [hinit]
  refine ⟨hrun, hpath2, h1T, ?_⟩
  intro h2
  by_contra hlt
  have h1 : A.length = 1 := by omega
  rw [h1] at hF4
  simp only [Nat.sub_self] at hF4
  omega

theorem Spec.admitted_upto_nodup (D : PointLL → PointLL → ℚ) (ms : List Measurement) (d2 : ℚ)
    (k : Nat) : (Spec.admitted_upto D ms d2 k).Nodup :=
  List.Nodup.filter _ (List.nodup_range k)

theorem Spec.admitted_upto_mem (D : PointLL → PointLL → ℚ) (ms : List Measurement) (d2 : ℚ)
    (k t i : Nat) (h : (Spec.admitted_upto D ms d2 k).get? t = some i) :
    i < k ∧ Spec.admitted D ms d2 i = true := by
  rw [List.get?_eq_getElem?] at h
  have hmem : i ∈ Spec.admitted_upto D ms d2 k := List.mem_iff_getElem?.mpr ⟨t, h⟩
  unfold Spec.admitted_upto at hmem
  rw [List.mem_filter, List.mem_range] at hmem
  exact hmem

theorem Spec.admitted_upto_column (D : PointLL → PointLL → ℚ) (ms : List Measurement) (d2 : ℚ)
    (k t t2 i : Nat) (h : (Spec.admitted_upto D ms d2 k).get? t = some i)
    (h2 : (Spec.admitted_upto D ms d2 k).get? t2 = some i) : t = t2 := by
  rw [List.get?_eq_getElem?] at h h2
  obtain ⟨ht, hv⟩ := List.getElem?_eq_some_iff.mp h
  obtain ⟨ht2, hv2⟩ := List.getElem?_eq_some_iff.mp h2
  exact (List.Nodup.getElem_inj_iff (Spec.admitted_upto_nodup D ms d2 k)).mp (hv.trans hv2.symm)

/-! ## Properties of the offline driver (C1, C2) -/

/-- C1: for a non-empty measurement list, when the Viterbi path holds exactly
one (possibly invalid) entry per lattice column, `OfflineMatch` returns a
result list with one result per measurement: one initial result, plus for each
column `t >= 1` one result per skipped measurement attached to column `t - 1`
and one target result; and no skipped measurement is attached to the last
column. -/
theorem OfflineMatch_one_result_per_measurement (D : PointLL → PointLL → ℚ)
    (SearchPath : MapMatching → Nat → List (Option State)) (mm : MapMatching)
    (cq : CandidateQuery) (ms : List Measurement) (r d : ℚ) (hne : ms ≠ [])
    (hpath : (SearchPath (OfflineMatch.loadStates D mm cq ms r d).mm
        (OfflineMatch.loadStates D mm cq ms r d).time).length =
      (OfflineMatch.loadStates D mm cq ms r d).mm.size) :
    ∃ results, OfflineMatch D SearchPath mm cq ms r d = some results ∧
      results.length = ms.length ∧
      results.length = 1 +
        ((List.range' 1 ((OfflineMatch.loadStates D mm cq ms r d).mm.size - 1)).map
          (fun t =>
            ((OfflineMatch.loadStates D mm cq ms r d).proximate_measurements (t - 1)).length
              + 1)).sum ∧
      (OfflineMatch.loadStates D mm cq ms r d).proximate_measurements
        ((OfflineMatch.loadStates D mm cq ms r d).mm.size - 1) = [] := by
  obtain ⟨hlen, _, hsum, _⟩ := OfflineMatch.loadPrefix_count D mm cq ms r d ms.length
  obtain ⟨_, _, _, _, hprox, _⟩ := OfflineMatch.loadPrefix_spec D mm cq ms r d ms.length
  obtain ⟨hpos, _, hlast⟩ := OfflineMatch.loadStates_last D mm cq ms r d hne
  have hst : OfflineMatch.loadPrefix D mm cq ms r d ms.length =
      OfflineMatch.loadStates D mm cq ms r d := rfl
  rw [hst] at hlen hsum hprox
  obtain ⟨front, hfront⟩ : ∃ front, ms.head? = some front := by
    cases ms with
    | nil => exact absurd rfl hne
    | cons front rest => exact ⟨front, rfl⟩
  rw [OfflineMatch.eq_assemble D SearchPath mm cq ms r d front hfront]
  generalize OfflineMatch.loadStates D mm cq ms r d = st at hlen hsum hprox hpos hlast hpath
  have hsize : st.mm.size = st.mm.states_.length := hlen
  rw [hsize] at hpath ⊢
  have hidx : ∀ t, ∀ idx ∈ st.proximate_measurements t, idx < ms.length := by
    intro t idx hmem
    rw [hprox t] at hmem
    exact List.mem_range.mp (List.mem_filter.mp hmem).1
  have hshift := Spec.sum_range_shift (fun t => (st.proximate_measurements t).length)
    (st.mm.states_.length - 1)
  have hsucc := Spec.skipped_count_succ st.proximate_measurements (st.mm.states_.length - 1)
  have hT : st.mm.states_.length - 1 + 1 = st.mm.states_.length := by omega
  rw [hT, hlast] at hsucc
  simp only [List.length_nil, Nat.add_zero] at hsucc
  have htotal : 1 + ((List.range' 1 (st.mm.states_.length - 1)).map
      (fun t => (st.proximate_measurements (t - 1)).length + 1)).sum = ms.length := by
    rw [hshift]
    unfold Spec.skipped_count at hsum hsucc
    omega
  obtain ⟨res, hres, hreslen⟩ := OfflineMatch.assemble_some st.mm.graphreader_ cq
    ms r st.proximate_measurements (SearchPath st.mm st.time).reverse
    (List.range' 1 (st.mm.states_.length - 1)) [MatchResult.ofPoint front.lnglat]
    (by
      intro t ht
      rw [List.mem_range'_1] at ht
      refine ⟨?_, hidx (t - 1)⟩
      rw [List.length_reverse, hpath]
      omega)
    (by simp)
    (by
      rw [List.length_singleton]
      exact le_of_eq htotal)
  refine ⟨res, hres, ?_, ?_, hlast⟩
  · rw [hreslen, List.length_singleton]
    exact htotal
  · rw [hreslen, List.length_singleton]

/-- Witness of C1: the trace at longitudes 0, 1, 3, 4, 5 with interpolation
distance 2 has three columns (0, 3 and 5) and two skipped measurements, and
`OfflineMatch` returns five results. -/
theorem OfflineMatch_one_result_per_measurement_witness :
    Example.trace ≠ [] ∧
    (Example.SearchPath
        (OfflineMatch.loadStates Example.DistanceSquared Example.mm Example.cq Example.trace
          100 2).mm
        (OfflineMatch.loadStates Example.DistanceSquared Example.mm Example.cq Example.trace
          100 2).time).length =
      (OfflineMatch.loadStates Example.DistanceSquared Example.mm Example.cq Example.trace
        100 2).mm.size ∧
    (OfflineMatch Example.DistanceSquared Example.SearchPath Example.mm Example.cq
      Example.trace 100 2).map List.length = some 5 ∧
    ∃ results, OfflineMatch Example.DistanceSquared Example.SearchPath Example.mm Example.cq
        Example.trace 100 2 = some results ∧
      results.length = Example.trace.length ∧
      results.length = 1 +
        ((List.range' 1 ((OfflineMatch.loadStates Example.DistanceSquared Example.mm
            Example.cq Example.trace 100 2).mm.size - 1)).map
          (fun t =>
            ((OfflineMatch.loadStates Example.DistanceSquared Example.mm Example.cq
              Example.trace 100 2).proximate_measurements (t - 1)).length + 1)).sum ∧
      (OfflineMatch.loadStates Example.DistanceSquared Example.mm Example.cq Example.trace
          100 2).proximate_measurements
        ((OfflineMatch.loadStates Example.DistanceSquared Example.mm Example.cq Example.trace
          100 2).mm.size - 1) = [] :=
  ⟨by decide, by with_unfolding_all decide, by with_unfolding_all decide,
    OfflineMatch_one_result_per_measurement Example.DistanceSquared Example.SearchPath
      Example.mm Example.cq Example.trace 100 2 (by decide) (by with_unfolding_all decide)⟩

/-- C2: with `Spec.last_admitted i` the most recently admitted measurement
among `0..i`, the column building pass of `OfflineMatch` gives a column to
exactly the admitted measurements (`i == 0`, or `i == n - 1`, or squared
distance from the most recently admitted measurement at least the squared
interpolation distance), in order, the column holding the candidates queried around the
measurement, so that there are as many columns as admitted measurements; and
the skipped list of a column time holds, in increasing order, exactly the
measurements that are not admitted and whose most recently admitted
measurement has that column time. -/
theorem OfflineMatch_columns_are_admitted (D : PointLL → PointLL → ℚ) (mm : MapMatching)
    (cq : CandidateQuery) (ms : List Measurement) (r d : ℚ) :
    (∀ i, Spec.admitted D ms (d * d) i = true ↔
      (i = 0 ∨ i = ms.length - 1 ∨
        d * d ≤ D (OfflineMatch.at ms (Spec.last_admitted D ms (d * d) (i - 1))).lnglat
          (OfflineMatch.at ms i).lnglat)) ∧
    (∀ i, Spec.last_admitted D ms (d * d) i ≤ i ∧
      Spec.admitted D ms (d * d) (Spec.last_admitted D ms (d * d) i) = true ∧
      ∀ j, Spec.last_admitted D ms (d * d) i < j → j ≤ i →
        Spec.admitted D ms (d * d) j = false) ∧
    (OfflineMatch.loadStates D mm cq ms r d).mm.measurements_ =
      ((List.range ms.length).filter (Spec.admitted D ms (d * d))).map (OfflineMatch.at ms) ∧
    (OfflineMatch.loadStates D mm cq ms r d).mm.states_.map (List.map State.candidate) =
      ((List.range ms.length).filter (Spec.admitted D ms (d * d))).map
        (fun i => cq.Query (OfflineMatch.at ms i).lnglat r) ∧
    (OfflineMatch.loadStates D mm cq ms r d).mm.states_.length =
      ((List.range ms.length).filter (Spec.admitted D ms (d * d))).length ∧
    (∀ t, (OfflineMatch.loadStates D mm cq ms r d).proximate_measurements t =
      (List.range ms.length).filter (fun i =>
        !Spec.admitted D ms (d * d) i &&
          decide (Spec.column_time D ms (d * d) (Spec.last_admitted D ms (d * d) i) = t))) ∧
    (∀ t, List.Pairwise (fun i j => i < j)
      ((OfflineMatch.loadStates D mm cq ms r d).proximate_measurements t)) := by
  obtain ⟨hm, hs, _, _, hp, _⟩ := OfflineMatch.loadPrefix_spec D mm cq ms r d ms.length
  have hp2 : ∀ t, (OfflineMatch.loadStates D mm cq ms r d).proximate_measurements t =
      (List.range ms.length).filter (Spec.skipped D ms (d * d) t) := hp
  refine ⟨?_, Spec.last_admitted_spec D ms (d * d), hm, hs, ?_, hp2, ?_⟩
  · intro i
    simp [Spec.admitted]
  · have := congrArg List.length hs
    simpa using this
  · intro t
    rw [hp2 t]
    exact List.Pairwise.filter _ (List.pairwise_lt_range _)

/-- Witness of C2: on the example trace the most recently admitted measurement
among `0..3` is measurement 2, so measurement 3 is skipped; it is attached to
column 1. -/
theorem OfflineMatch_columns_are_admitted_witness :
    Spec.last_admitted Example.DistanceSquared Example.trace (2 * 2) 3 < 3 ∧
    3 ≤ 3 ∧
    Spec.admitted Example.DistanceSquared Example.trace (2 * 2) 3 = false ∧
    (OfflineMatch.loadStates Example.DistanceSquared Example.mm Example.cq Example.trace
      100 2).proximate_measurements 1 =
      (List.range Example.trace.length).filter (fun i =>
        !Spec.admitted Example.DistanceSquared Example.trace (2 * 2) i &&
          decide (Spec.column_time Example.DistanceSquared Example.trace (2 * 2)
            (Spec.last_admitted Example.DistanceSquared Example.trace (2 * 2) i) = 1)) :=
  ⟨by with_unfolding_all decide, le_refl 3,
    ((OfflineMatch_columns_are_admitted Example.DistanceSquared Example.mm Example.cq
      Example.trace 100 2).2.1 3).2.2 3 (by with_unfolding_all decide) (le_refl 3),
    (OfflineMatch_columns_are_admitted Example.DistanceSquared Example.mm Example.cq
      Example.trace 100 2).2.2.2.2.2.1 1⟩

/-- The column building pass on the example trace: the measurements at
longitudes 0, 3 and 5 are the admitted ones and get the columns 0, 1 and 2,
measurement 1 is attached to column 0 and measurement 3 to column 1. -/
theorem Example.trace_columns :
    (List.range 5).map (Spec.admitted Example.DistanceSquared Example.trace (2 * 2)) =
      [true, false, true, false, true] ∧
    (OfflineMatch.loadStates Example.DistanceSquared Example.mm Example.cq Example.trace
      100 2).mm.measurements_ = [⟨⟨0, 0⟩⟩, ⟨⟨3, 0⟩⟩, ⟨⟨5, 0⟩⟩] ∧
    (List.range 3).map (OfflineMatch.loadStates Example.DistanceSquared Example.mm Example.cq
      Example.trace 100 2).proximate_measurements = [[1], [3], []] := by
  with_unfolding_all decide

/-! ## Properties of interpolation (C3) -/

/-- C3: when some candidate matches the graph set, `interpolate` returns the
vertex and distance of a matching candidate whose squared distance is minimal
among all matching candidates, with a graph id that belongs to that candidate
and to the graph set and the graph type `kEdge` or `kNode` accordingly (and no
state); when no candidate matches, it returns the raw measurement point with
graph type `kUnknown`, an invalid graph id, distance 0 and no state. -/
theorem interpolate_closest_match (reader : GraphReader) (graphset : List GraphId)
    (candidates : List Candidate) (measurement : Measurement) :
    ((∃ c ∈ candidates, CandidateMatches reader graphset c) →
      ∃ c ∈ candidates, CandidateMatches reader graphset c ∧
        (∀ c2 ∈ candidates, CandidateMatches reader graphset c2 →
          c.sq_distance ≤ c2.sq_distance) ∧
        (interpolate reader graphset candidates measurement).lnglat = c.vertex ∧
        (interpolate reader graphset candidates measurement).distance = c.distance ∧
        AttachedTo reader graphset c
          (interpolate reader graphset candidates measurement).graphid
          (interpolate reader graphset candidates measurement).graphtype ∧
        (interpolate reader graphset candidates measurement).state = none) ∧
    ((¬ ∃ c ∈ candidates, CandidateMatches reader graphset c) →
      interpolate reader graphset candidates measurement =
        { lnglat := measurement.lnglat, distance := 0, graphid := GraphId.invalid,
          graphtype := GraphType.kUnknown, state := none } ∧
      (interpolate reader graphset candidates measurement).graphid.Is_Valid = false) := by
  have hinit : interpolate.Inv reader graphset []
      { closest_candidate := none, closest_sq_distance := none,
        closest_graphid := GraphId.invalid, closest_graphtype := GraphType.kUnknown } := by
    simp [interpolate.Inv]
  have hinv := interpolate.Inv_foldl reader graphset candidates [] _ hinit
  simp only [List.nil_append] at hinv
  have hi := interpolate.eq_of_closest reader graphset candidates measurement _ rfl
  revert hinv hi
  generalize candidates.foldl (interpolate.step reader graphset)
    { closest_candidate := none, closest_sq_distance := none,
      closest_graphid := GraphId.invalid, closest_graphtype := GraphType.kUnknown } = closest
  intro hinv hi
  rcases closest with ⟨_ | c, sq, gid, gt⟩
  · simp only [interpolate.Inv] at hinv
    simp only at hi
    constructor
    · rintro ⟨c1, hc1, hm1⟩
      exact absurd hm1 (hinv.2 c1 hc1)
    · intro _
      rw [hi]
      exact ⟨rfl, by simp [MatchResult.ofPoint, GraphId.Is_Valid, GraphId.invalid]⟩
  · simp only [interpolate.Inv] at hinv
    simp only at hi
    obtain ⟨hmem, _, hmin, hatt⟩ := hinv
    have hmatch : CandidateMatches reader graphset c := by
      unfold AttachedTo at hatt
      unfold CandidateMatches
      cases hn : c.IsNode with
      | false =>
        simp only [hn, Bool.false_eq_true, if_false] at hatt ⊢
        obtain ⟨hg, ⟨e, he, hee⟩, _⟩ := hatt
        exact ⟨e, he, hee ▸ hg⟩
      | true =>
        simp only [hn, if_true] at hatt ⊢
        exact ⟨_, hatt.2.1, hatt.1⟩
    constructor
    · intro _
      rw [hi]
      exact ⟨c, hmem, hmatch, hmin, rfl, rfl, hatt, rfl⟩
    · intro hno
      exact absurd ⟨c, hmem, hmatch⟩ hno

/-- Witness of C3: against the graph set of edge `B` and node 12 the
candidate at node 12 wins (the closer candidate on `A` does not match, the
candidate on `B` is farther); against the graph set of edge `C` nothing
matches. -/
theorem interpolate_closest_match_witness :
    (∃ c ∈ Example.candidates, CandidateMatches Example.reader [Example.edgeB, ⟨12⟩] c) ∧
    interpolate Example.reader [Example.edgeB, ⟨12⟩] Example.candidates ⟨⟨3, 1⟩⟩ =
      { lnglat := ⟨4, 0⟩, distance := 2, graphid := ⟨12⟩, graphtype := GraphType.kNode,
        state := none } ∧
    (∃ c ∈ Example.candidates, CandidateMatches Example.reader [Example.edgeB, ⟨12⟩] c ∧
      (∀ c2 ∈ Example.candidates, CandidateMatches Example.reader [Example.edgeB, ⟨12⟩] c2 →
        c.sq_distance ≤ c2.sq_distance) ∧
      (interpolate Example.reader [Example.edgeB, ⟨12⟩] Example.candidates
        ⟨⟨3, 1⟩⟩).lnglat = c.vertex ∧
      (interpolate Example.reader [Example.edgeB, ⟨12⟩] Example.candidates
        ⟨⟨3, 1⟩⟩).distance = c.distance ∧
      AttachedTo Example.reader [Example.edgeB, ⟨12⟩] c
        (interpolate Example.reader [Example.edgeB, ⟨12⟩] Example.candidates ⟨⟨3, 1⟩⟩).graphid
        (interpolate Example.reader [Example.edgeB, ⟨12⟩] Example.candidates
          ⟨⟨3, 1⟩⟩).graphtype ∧
      (interpolate Example.reader [Example.edgeB, ⟨12⟩] Example.candidates
        ⟨⟨3, 1⟩⟩).state = none) ∧
    (¬ ∃ c ∈ Example.candidates, CandidateMatches Example.reader [Example.edgeC] c) ∧
    interpolate Example.reader [Example.edgeC] Example.candidates ⟨⟨3, 1⟩⟩ =
      { lnglat := ⟨3, 1⟩, distance := 0, graphid := GraphId.invalid,
        graphtype := GraphType.kUnknown, state := none } :=
  ⟨Example.candidates_match, by decide,
    (interpolate_closest_match Example.reader [Example.edgeB, ⟨12⟩] Example.candidates
      ⟨⟨3, 1⟩⟩).1 Example.candidates_match,
    Example.candidates_no_match,
    ((interpolate_closest_match Example.reader [Example.edgeC] Example.candidates
      ⟨⟨3, 1⟩⟩).2 Example.candidates_no_match).1⟩

/-! ## Properties of route validation (C4, C5) -/

/-- C4 (code defect): `ValidateRoute` returns `true` on the route dummy,
`(L, 1/2, 1)`, `(L, 0, 1/2)`, `(B, 0, 1)`, in which the self-loop `L` appears
consecutively with mismatched offsets and is followed by edge `B`, although
`L` and `B` are different edges that are not adjoined (a disconnection other
than the tolerated one); it also returns `true` when the loop is followed by a
segment without valid edge id, which `MergeRoute` then rejects. The tolerated
case returns from the function instead of moving on to the next segment. -/
theorem ValidateRoute_stops_checking_after_loop :
    (ValidateRoute Example.reader Example.loopThenGap = true ∧
      ¬ SpecAdjoined Example.reader ⟨Example.edgeL, 0, Example.half⟩ ⟨Example.edgeB, 0, 1⟩ ∧
      Example.edgeL ≠ Example.edgeB) ∧
    (ValidateRoute Example.reader Example.loopThenInvalid = true ∧
      ¬ (∀ s ∈ Example.loopThenInvalid.tail, s.edgeid.Is_Valid = true) ∧
      (MergeRoute [] Example.loopThenInvalid).2 =
        some (Exn.runtime_error "Still found an invalid edgeid in route segments")) := by
  decide

/-- C5: `ValidateRoute` accepts the empty sequence and rejects every sequence
whose first segment is not the dummy segment, whatever follows. -/
theorem ValidateRoute_first_segment (g : GraphReader) :
    ValidateRoute g [] = true ∧
    ∀ (first : EdgeSegment) (rest : List EdgeSegment),
      ¬ first.IsDummy → ValidateRoute g (first :: rest) = false := by
  refine ⟨rfl, ?_⟩
  intro first rest h
  simp only [ValidateRoute]
  rw [if_pos h]

/-- Witness of C5: a sequence starting with a segment of edge `A`. -/
theorem ValidateRoute_first_segment_witness :
    ¬ EdgeSegment.IsDummy ⟨Example.edgeA, 0, 1⟩ ∧
    ValidateRoute Example.reader [] = true ∧
    ValidateRoute Example.reader
      [⟨Example.edgeA, 0, 1⟩, ⟨Example.edgeB, 0, 1⟩] = false :=
  ⟨by decide, (ValidateRoute_first_segment Example.reader).1,
    (ValidateRoute_first_segment Example.reader).2 ⟨Example.edgeA, 0, 1⟩
      [⟨Example.edgeB, 0, 1⟩] (by decide)⟩

/-! ## Properties of route construction (C6) -/

/-- C6, as stated, fails: for a trip half way along `A` and back on the
opposing edge `R`, `ConstructRoute` returns the route `(A, 0, 1/2)`,
`(R, 1/2, 1)`; the two segments come from two consecutive match pairs and are
not adjoined. -/
theorem ConstructRoute_junction_not_adjoined :
    ConstructRoute Example.reader Example.uturn =
      Except.ok [⟨Example.edgeA, 0, Example.half⟩, ⟨Example.edgeR, Example.half, 1⟩] ∧
    ¬ List.Chain' (Sec46Adjoined Example.reader)
      [⟨Example.edgeA, 0, Example.half⟩, ⟨Example.edgeR, Example.half, 1⟩] := by
  refine ⟨rfl, ?_⟩
  rw [List.chain'_pair]
  decide

/-- C6, amended: in the route returned by `ConstructRoute`, every adjacent
pair of segments is adjoined in the sense of section 4.6, provided that no
chain read holds two consecutive segments of one edge with mismatched offsets
(the tolerated self-loop case, after which `ValidateRoute` checks nothing),
and that wherever the chains of two match pairs meet, the last segment read
before and the first non-dummy segment of the later chain lie on the same edge
or are adjoined. `ConstructRoute` itself checks nothing where two chains
meet. -/
theorem ConstructRoute_adjoined (g : GraphReader) (ms : List MatchResult)
    (route : List EdgeSegment)
    (h : ConstructRoute g ms = Except.ok route)
    (hloop : ∀ c ∈ ConstructRoute.chains ms none, NoMismatch c)
    (hjunction : JunctionsLinked g none (ConstructRoute.chains ms none)) :
    List.Chain' (Sec46Adjoined g) route := by
  have hinit : MergeInv g [] none := ⟨List.chain'_nil, by simp, by simp⟩
  obtain ⟨_, hinv⟩ := ConstructRoute.loop_inv g ms none [] none route h hinit hloop hjunction
  exact hinv.1

/-- Witness of C6: the trip along `A` and `B`, whose two chains meet on
edge `B`. -/
theorem ConstructRoute_adjoined_witness :
    ConstructRoute Example.reader Example.straight =
      Except.ok [⟨Example.edgeA, 0, 1⟩, ⟨Example.edgeB, 0, 1⟩] ∧
    (∀ c ∈ ConstructRoute.chains Example.straight none, NoMismatch c) ∧
    JunctionsLinked Example.reader none (ConstructRoute.chains Example.straight none) ∧
    List.Chain' (Sec46Adjoined Example.reader)
      [⟨Example.edgeA, 0, 1⟩, ⟨Example.edgeB, 0, 1⟩] :=
  ⟨rfl, Example.straight_noMismatch, Example.straight_junctions,
    ConstructRoute_adjoined Example.reader Example.straight
      [⟨Example.edgeA, 0, 1⟩, ⟨Example.edgeB, 0, 1⟩] rfl Example.straight_noMismatch
      Example.straight_junctions⟩

/-! ## Properties of merging (C7, C8) -/

/-- C7, as stated, fails: a segment without valid edge id that follows the
first one is not appended; `MergeRoute` throws and leaves the route as it
was. -/
theorem MergeRoute_invalid_segment_not_appended :
    ¬ (MergeRoute [] [EdgeSegment.dummy, EdgeSegment.dummy] =
        (MergeSpec [] [EdgeSegment.dummy, EdgeSegment.dummy], none)) := by
  decide

/-- C7, amended: when every segment after the first has a valid edge id,
`MergeRoute` performs the merge steps of the specification over them, in
order, and throws nothing; at the first segment without valid edge id it
throws a runtime error and leaves the route as merged so far; in every case a
route without two adjacent entries of the same edge id stays so. -/
theorem MergeRoute_merges_in_order (route segments : List EdgeSegment) :
    ((∀ s ∈ segments.tail, s.edgeid.Is_Valid = true) →
      MergeRoute route segments = (MergeSpec route segments, none)) ∧
    (∀ (pre post : List EdgeSegment) (bad : EdgeSegment),
      segments.tail = pre ++ bad :: post → (∀ s ∈ pre, s.edgeid.Is_Valid = true) →
      bad.edgeid.Is_Valid = false →
      MergeRoute route segments =
        (pre.foldl MergeSpec.step route,
          some (Exn.runtime_error "Still found an invalid edgeid in route segments"))) ∧
    (NoRepeatedEdge route → NoRepeatedEdge (MergeRoute route segments).1) := by
  cases segments with
  | nil =>
    refine ⟨fun _ => rfl, ?_, fun h => h⟩
    intro pre post bad h
    simp at h
  | cons first rest =>
    refine ⟨?_, ?_, ?_⟩
    · intro h
      exact MergeRoute.loop_all_valid rest route h
    · intro pre post bad h hpre hbad
      simp only [List.tail_cons] at h
      subst h
      exact MergeRoute.loop_first_invalid pre post bad route hpre hbad
    · intro h
      obtain ⟨pre, _, heq⟩ := MergeRoute.loop_prefix rest route
      show NoRepeatedEdge (MergeRoute.loop route rest).1
      rw [heq]
      exact MergeSpec.foldl_noRepeatedEdge pre route h

/-- Witness of C7: a segment of edge `A` merged into a route that ends on `A`
and a segment of edge `B` appended; and a chain that is rejected at its third
segment. -/
theorem MergeRoute_merges_in_order_witness :
    ((∀ s ∈ ([EdgeSegment.dummy, ⟨Example.edgeA, 0, 1⟩, ⟨Example.edgeB, 0, 1⟩] :
        List EdgeSegment).tail, s.edgeid.Is_Valid = true) ∧
      NoRepeatedEdge [⟨Example.edgeA, 0, 0⟩] ∧
      MergeRoute [⟨Example.edgeA, 0, 0⟩]
          [EdgeSegment.dummy, ⟨Example.edgeA, 0, 1⟩, ⟨Example.edgeB, 0, 1⟩] =
        ([⟨Example.edgeA, 0, 1⟩, ⟨Example.edgeB, 0, 1⟩], none) ∧
      NoRepeatedEdge (MergeRoute [⟨Example.edgeA, 0, 0⟩]
          [EdgeSegment.dummy, ⟨Example.edgeA, 0, 1⟩, ⟨Example.edgeB, 0, 1⟩]).1) ∧
    MergeRoute []
        [EdgeSegment.dummy, ⟨Example.edgeA, 0, 1⟩, EdgeSegment.dummy, ⟨Example.edgeB, 0, 1⟩] =
      ([⟨Example.edgeA, 0, 1⟩],
        some (Exn.runtime_error "Still found an invalid edgeid in route segments")) :=
  ⟨⟨by decide, List.chain'_singleton _,
      (MergeRoute_merges_in_order [⟨Example.edgeA, 0, 0⟩]
        [EdgeSegment.dummy, ⟨Example.edgeA, 0, 1⟩, ⟨Example.edgeB, 0, 1⟩]).1 (by decide),
      (MergeRoute_merges_in_order [⟨Example.edgeA, 0, 0⟩]
        [EdgeSegment.dummy, ⟨Example.edgeA, 0, 1⟩, ⟨Example.edgeB, 0, 1⟩]).2.2
        (List.chain'_singleton _)⟩,
    (MergeRoute_merges_in_order []
      [EdgeSegment.dummy, ⟨Example.edgeA, 0, 1⟩, EdgeSegment.dummy, ⟨Example.edgeB, 0, 1⟩]).2.1
      [⟨Example.edgeA, 0, 1⟩] [⟨Example.edgeB, 0, 1⟩] EdgeSegment.dummy rfl (by decide)
      (by decide)⟩

/-- C8, as stated, fails: `MergeRoute` skips the first segment of what it is
given, so merging the merged route `[A]` again loses the segment of `A`. -/
theorem MergeRoute_drops_first_of_merged :
    MergeRoute [] (MergeRoute [] [EdgeSegment.dummy, ⟨Example.edgeA, 0, 1⟩]).1 ≠
      MergeRoute [] [EdgeSegment.dummy, ⟨Example.edgeA, 0, 1⟩] := by
  decide

/-- C8, amended: merging is idempotent once the first (skipped) segment is
put back: if `MergeRoute` accepts `r` and produces `m`, then `MergeRoute`
applied to `m` behind any first segment (the dummy segment in particular)
produces `m` again. -/
theorem MergeRoute_idempotent_behind_first (r m : List EdgeSegment) (first : EdgeSegment)
    (h : MergeRoute [] r = (m, none)) : MergeRoute [] (first :: m) = (m, none) := by
  have key : NoRepeatedEdge m ∧ ∀ x ∈ m, x.edgeid.Is_Valid = true := by
    cases r with
    | nil =>
      simp only [MergeRoute, Prod.mk.injEq, and_true] at h
      subst h
      exact ⟨List.chain'_nil, by simp⟩
    | cons f rest =>
      have h1 : MergeRoute.loop [] rest = (m, none) := h
      have hv := MergeRoute.loop_accepted rest [] m h1
      rw [MergeRoute.loop_all_valid rest [] hv] at h1
      simp only [Prod.mk.injEq, and_true] at h1
      subst h1
      refine ⟨MergeSpec.foldl_noRepeatedEdge rest [] List.chain'_nil, ?_⟩
      exact MergeSpec.foldl_forall (fun x => x.edgeid.Is_Valid = true)
        (fun _ _ hl _ => hl) rest [] (by simp) hv
  show MergeRoute.loop [] m = (m, none)
  rw [MergeRoute.loop_all_valid m [] key.2]
  rw [MergeSpec.foldl_of_noRepeatedEdge m [] (by simpa using key.1)]
  simp

/-- Witness of C8: the chain dummy, `A`, `A`, `B`. -/
theorem MergeRoute_idempotent_behind_first_witness :
    MergeRoute [] [EdgeSegment.dummy, ⟨Example.edgeA, 0, 0⟩, ⟨Example.edgeA, 0, 1⟩,
        ⟨Example.edgeB, 0, 1⟩] =
      ([⟨Example.edgeA, 0, 1⟩, ⟨Example.edgeB, 0, 1⟩], none) ∧
    MergeRoute [] (EdgeSegment.dummy :: [⟨Example.edgeA, 0, 1⟩, ⟨Example.edgeB, 0, 1⟩]) =
      ([⟨Example.edgeA, 0, 1⟩, ⟨Example.edgeB, 0, 1⟩], none) :=
  ⟨by decide,
    MergeRoute_idempotent_behind_first
      [EdgeSegment.dummy, ⟨Example.edgeA, 0, 0⟩, ⟨Example.edgeA, 0, 1⟩, ⟨Example.edgeB, 0, 1⟩]
      [⟨Example.edgeA, 0, 1⟩, ⟨Example.edgeB, 0, 1⟩] EdgeSegment.dummy (by decide)⟩

/-! ## Properties of edge segments (C9, C10) -/

/-- C9: the constructor of `EdgeSegment` throws `invalid_argument` exactly
when `0 <= source <= target <= 1` is violated, and otherwise builds the
segment with the given fields, which satisfies the condition; the dummy
segment is accepted; and `MergeRoute` keeps the condition on every entry of
the route when the route and the segments satisfy it, also when it throws. -/
theorem EdgeSegment_range_invariant :
    (∀ (e : GraphId) (s t : ℚ),
      (∃ what, EdgeSegment.new e s t = Except.error (Exn.invalid_argument what)) ↔
        ¬ (0 ≤ s ∧ s ≤ t ∧ t ≤ 1)) ∧
    (∀ (e : GraphId) (s t : ℚ) (seg : EdgeSegment),
      EdgeSegment.new e s t = Except.ok seg ↔ ((0 ≤ s ∧ s ≤ t ∧ t ≤ 1) ∧ seg = ⟨e, s, t⟩)) ∧
    (∀ (e : GraphId) (s t : ℚ) (seg : EdgeSegment),
      EdgeSegment.new e s t = Except.ok seg → seg.InRange) ∧
    EdgeSegment.new GraphId.invalid 0 0 = Except.ok EdgeSegment.dummy ∧
    (∀ route segments : List EdgeSegment,
      (∀ x ∈ route, x.InRange) → (∀ x ∈ segments, x.InRange) →
        ∀ x ∈ (MergeRoute route segments).1, x.InRange) := by
  refine ⟨?_, ?_, ?_, rfl, ?_⟩
  · intro e s t
    by_cases h : 0 ≤ s ∧ s ≤ t ∧ t ≤ 1
    · rw [EdgeSegment.new, if_neg (not_not.mpr h)]
      simp [h]
    · rw [EdgeSegment.new, if_pos h]
      simp only [h, not_false_eq_true, iff_true]
      exact ⟨_, rfl⟩
  · intro e s t seg
    exact EdgeSegment.new_ok_iff e s t seg
  · intro e s t seg hn
    obtain ⟨hc, rfl⟩ := (EdgeSegment.new_ok_iff e s t seg).mp hn
    exact hc
  · intro route segments hr hs
    cases segments with
    | nil => exact hr
    | cons first rest =>
      obtain ⟨pre, hpre, heq⟩ := MergeRoute.loop_prefix rest route
      show ∀ x ∈ (MergeRoute.loop route rest).1, x.InRange
      rw [heq]
      exact MergeSpec.foldl_forall EdgeSegment.InRange EdgeSegment.inRange_raise pre route hr
        (fun x hx => hs x (List.mem_cons_of_mem _ (hpre.subset hx)))

/-- Witness of C9: a constructed segment of edge `A`, and a merge into a
route that ends on `A`. -/
theorem EdgeSegment_range_invariant_witness :
    EdgeSegment.new Example.edgeA 0 1 = Except.ok ⟨Example.edgeA, 0, 1⟩ ∧
    EdgeSegment.InRange ⟨Example.edgeA, 0, 1⟩ ∧
    (∀ x ∈ ([⟨Example.edgeA, 0, 0⟩] : List EdgeSegment), x.InRange) ∧
    (∀ x ∈ ([EdgeSegment.dummy, ⟨Example.edgeA, 0, 1⟩] : List EdgeSegment), x.InRange) ∧
    ∀ x ∈ (MergeRoute [⟨Example.edgeA, 0, 0⟩] [EdgeSegment.dummy, ⟨Example.edgeA, 0, 1⟩]).1,
      x.InRange :=
  ⟨rfl, EdgeSegment_range_invariant.2.2.1 Example.edgeA 0 1 ⟨Example.edgeA, 0, 1⟩ rfl,
    by decide, by decide,
    EdgeSegment_range_invariant.2.2.2.2 [⟨Example.edgeA, 0, 0⟩]
      [EdgeSegment.dummy, ⟨Example.edgeA, 0, 1⟩] (by decide) (by decide)⟩

/-- C10, as stated, fails: two segments of different edges unknown to the
graph satisfy the stated condition (both node lookups give the invalid id) but
are not `Adjoined`. -/
theorem Adjoined_rejects_invalid_node :
    ¬ (EdgeSegment.Adjoined Example.reader ⟨⟨7⟩, 0, 1⟩ ⟨⟨8⟩, 0, 1⟩ = true ↔
        SpecAdjoined Example.reader ⟨⟨7⟩, 0, 1⟩ ⟨⟨8⟩, 0, 1⟩) := by
  decide

/-- C10, amended: `a.Adjoined(b)` holds if and only if either the segments
share an edge id and `a.target == b.source`, or they have different edge ids,
`a.target == 1`, `b.source == 0`, the end node of `a`'s edge is the start node
of `b`'s edge, and that node id is valid. -/
theorem Adjoined_iff (g : GraphReader) (a b : EdgeSegment) :
    EdgeSegment.Adjoined g a b = true ↔
      (a.edgeid = b.edgeid ∧ a.target = b.source) ∨
      (a.edgeid ≠ b.edgeid ∧ a.target = 1 ∧ b.source = 0 ∧
        g.edge_endnodeid a.edgeid = g.edge_startnodeid b.edgeid ∧
        (g.edge_endnodeid a.edgeid).Is_Valid = true) := by
  unfold EdgeSegment.Adjoined
  by_cases he : a.edgeid = b.edgeid
  · simp [he]
  · by_cases ht : a.target = 1 ∧ b.source = 0
    · simp [he, ht]
    · simp only [ne_eq, he, not_false_eq_true, if_true, ht, if_false, false_and, false_or,
        true_and]
      constructor
      · intro h; exact absurd h (by simp)
      · intro h; exact absurd ⟨h.1, h.2.1⟩ ht

/-! ## The match pairs of route construction (C11) -/

/-- C11 (as stated, refuted): of three matches with states, the chain of the
second pair, which runs from `A` to `C`, is rejected by `ValidateRoute`, but
the chain of the first pair holds a label with source 1 and target 0, and
`ConstructRoute` fails with the `invalid_argument` of the segment constructor
instead of the runtime error `Found invalid route`. -/
theorem ConstructRoute_fails_with_earlier_exception :
    Spec.consecutive (Spec.matched_states Example.broken) =
      [(Example.brokenFirst, Example.brokenSecond),
        (Example.brokenSecond, Example.brokenThird)] ∧
    Spec.chain (Example.brokenSecond, Example.brokenThird) =
      [EdgeSegment.dummy, ⟨Example.edgeA, 0, 1⟩, ⟨Example.edgeC, 0, 1⟩] ∧
    ValidateRoute Example.reader (Spec.chain (Example.brokenSecond, Example.brokenThird))
      = false ∧
    ConstructRoute Example.reader Example.broken =
      Except.error (Exn.invalid_argument "Expect 0.f <= source <= source <= 1.f") ∧
    ConstructRoute Example.reader Example.broken ≠
      Except.error (Exn.runtime_error "Found invalid route") := by
  refine ⟨rfl, rfl, by with_unfolding_all rfl, by with_unfolding_all rfl, ?_⟩
  have h : ConstructRoute Example.reader Example.broken =
      Except.error (Exn.invalid_argument "Expect 0.f <= source <= source <= 1.f") := by
    with_unfolding_all rfl
  rw [h]
  intro h2
  cases h2

/-- C11 (amended): `ConstructRoute` handles the consecutive pairs of the states
of the matches that carry one, in order, and nothing else: matches without
state are ignored, and with fewer than two states the empty route is returned.
For each pair the chain of labels between the two states is taken in
chronological order. Whenever `ValidateRoute` rejects the chain of some pair,
`ConstructRoute` fails; it fails with the runtime error `Found invalid route`
when the pairs before the rejected one raised no exception, and that error is
raised for no other reason. A returned route means that every chain was in
range and accepted. -/
theorem ConstructRoute_pairs (g : GraphReader) (ms : List MatchResult) :
    ConstructRoute g ms =
      Spec.construct g [] (Spec.consecutive (Spec.matched_states ms)) ∧
    ConstructRoute g ms = ConstructRoute g (ms.filter (fun m => m.state.isSome)) ∧
    ((Spec.matched_states ms).length < 2 → ConstructRoute g ms = Except.ok []) ∧
    (∀ p ∈ Spec.consecutive (Spec.matched_states ms), Spec.InRangeChain p →
      ValidateRoute g (Spec.chain p) = false → ∃ e, ConstructRoute g ms = Except.error e) ∧
    (∀ (pre post : List (State × State)) (p : State × State) (route : List EdgeSegment),
      Spec.consecutive (Spec.matched_states ms) = pre ++ p :: post →
      Spec.construct g [] pre = Except.ok route → Spec.InRangeChain p →
      ValidateRoute g (Spec.chain p) = false →
      ConstructRoute g ms = Except.error (Exn.runtime_error "Found invalid route")) ∧
    (ConstructRoute g ms = Except.error (Exn.runtime_error "Found invalid route") →
      ∃ p ∈ Spec.consecutive (Spec.matched_states ms),
        Spec.InRangeChain p ∧ ValidateRoute g (Spec.chain p) = false) ∧
    (∀ route : List EdgeSegment, ConstructRoute g ms = Except.ok route →
      ∀ p ∈ Spec.consecutive (Spec.matched_states ms),
        Spec.InRangeChain p ∧ ValidateRoute g (Spec.chain p) = true) := by
  refine ⟨ConstructRoute_eq g ms, ?_, ?_, ?_, ?_, ?_, ?_⟩
  · rw [ConstructRoute_eq, ConstructRoute_eq, Spec.matched_states_filter]
  · intro h
    rw [ConstructRoute_eq]
    cases hs : Spec.matched_states ms with
    | nil => rfl
    | cons a rest =>
      cases rest with
      | nil => rfl
      | cons b rest2 =>
        rw [hs] at h
        simp only [List.length_cons] at h
        omega
  · intro p hp hr hv
    cases hc : ConstructRoute g ms with
    | error e => exact ⟨e, rfl⟩
    | ok route =>
      rw [ConstructRoute_eq] at hc
      have := (Spec.construct_ok g _ [] route hc p hp).2
      rw [hv] at this
      cases this
  · intro pre post p route hpairs hpre hr hv
    rw [ConstructRoute_eq, hpairs, Spec.construct_append, hpre]
    simp only [Spec.construct, Spec.construct_pair_rejected g route p hr hv]
  · intro h
    rw [ConstructRoute_eq] at h
    exact Spec.construct_error g _ [] h
  · intro route h
    rw [ConstructRoute_eq] at h
    exact Spec.construct_ok g _ [] route h

theorem ConstructRoute_pairs_witness :
    ConstructRoute Example.reader Example.straight =
      Except.ok [⟨Example.edgeA, 0, 1⟩, ⟨Example.edgeB, 0, 1⟩] ∧
    ConstructRoute Example.reader Example.straight =
      ConstructRoute Example.reader (Example.straight.filter (fun m => m.state.isSome)) ∧
    ConstructRoute Example.reader [Example.matched Example.brokenSecond Example.edgeA,
      Example.matched Example.brokenThird Example.edgeC] =
        Except.error (Exn.runtime_error "Found invalid route") :=
  ⟨rfl, (ConstructRoute_pairs Example.reader Example.straight).2.1,
    (ConstructRoute_pairs Example.reader [Example.matched Example.brokenSecond Example.edgeA,
      Example.matched Example.brokenThird Example.edgeC]).2.2.2.2.1 [] []
      (Example.brokenSecond, Example.brokenThird) [] rfl rfl
      (by
        intro label hl
        have hmem : label ∈ [Example.label Example.edgeC 0 1 1,
            Example.label Example.edgeA 0 1 0, Example.root] := hl
        simp only [List.mem_cons, List.mem_singleton, List.not_mem_nil, or_false] at hmem
        rcases hmem with rfl | rfl | rfl <;>
          simp [Example.label, Example.root])
      (by with_unfolding_all rfl)⟩

/-! ## Properties of the HMM costs (C12, C13, C14, C15) -/

/-- C12: when `right` is present in the routing cache of `left` with label
`l`, `TransitionCost(left, right)` is `(l.turn_cost + |l.cost - d_gc|) *
(1 / beta)`, with `d_gc` the great-circle distance between the measurements of
the columns of `left` and `right`: the call returns that value and leaves the
model as it is when `left` is routed already, and whenever the call returns
with `right` in the cache of the (then routed) `left`, it returns that value
for the cached label. -/
theorem TransitionCost_formula (D : PointLL → PointLL → ℚ) (fsp : ShortestPath)
    (pred : Nat → Option Nat) (mm : MapMatching) (left right : Nat) (r : State)
    (hc : mm.Constructed) (hr : mm.state_.get? right = some r) :
    (∀ (l : State) (labelset : LabelSet) (idx : Nat) (label : Label) (ml mr : Measurement),
      mm.state_.get? left = some l → l.labelset_ = some labelset →
      l.label_idx_.lookup r.id = some idx → labelset.labels.get? idx = some label →
      mm.measurements_.get? l.time = some ml → mm.measurements_.get? r.time = some mr →
      mm.TransitionCost D fsp pred left right =
        some ((label.turn_cost + |label.cost - D ml.lnglat mr.lnglat|) * (1 / mm.beta_), mm)) ∧
    (∀ (c : ℚ) (mm2 : MapMatching) (l2 : State) (labelset : LabelSet) (idx : Nat)
      (label : Label),
      mm.TransitionCost D fsp pred left right = some (c, mm2) →
      mm2.state_.get? left = some l2 → l2.labelset_ = some labelset →
      l2.label_idx_.lookup r.id = some idx → labelset.labels.get? idx = some label →
      ∃ ml mr, mm.measurements_.get? l2.time = some ml ∧
        mm.measurements_.get? r.time = some mr ∧
        c = (label.turn_cost + |label.cost - D ml.lnglat mr.lnglat|) * (1 / mm.beta_)) := by
  have hbeta : mm.inv_beta_ = 1 / mm.beta_ := hc.2.2.2.2
  constructor
  · intro l labelset idx label ml mr hl hset hidx hlabel hml hmr
    have hrouted : l.routed = true := by simp [State.routed, hset]
    rw [MapMatching.TransitionCost_eq D fsp pred mm mm left right l r l hl hr
      (MapMatching.TransitionCost.routeLeft_routed D fsp pred mm left l r hrouted) hl]
    rw [(State.last_label_some_iff l r label).mpr ⟨idx, labelset, hidx, hset, hlabel⟩]
    simp only
    rw [hml, hmr, hbeta]
  · intro c mm2 l2 labelset idx label h hl2 hset hidx hlabel
    obtain ⟨l, r2, l3, hl, hr2, hroute, hl3, hcases⟩ :=
      MapMatching.TransitionCost_some D fsp pred mm mm2 left right c h
    rw [hr] at hr2
    rw [hl2] at hl3
    simp only [Option.some.injEq] at hr2 hl3
    subst hr2; subst hl3
    obtain ⟨hmeas, hinv, _⟩ :=
      MapMatching.TransitionCost.routeLeft_frame D fsp pred mm mm2 left l r hl hroute
    have hlast := (State.last_label_some_iff l2 r label).mpr ⟨idx, labelset, hidx, hset, hlabel⟩
    rcases hcases with ⟨hnull, _⟩ | ⟨label2, ml, mr, hlabel2, hml, hmr, hcost⟩
    · rw [hlast] at hnull
      exact absurd hnull (by simp)
    · rw [hlast] at hlabel2
      simp only [Option.some.injEq] at hlabel2
      subst hlabel2
      rw [hmeas] at hml hmr
      rw [hinv, hbeta] at hcost
      exact ⟨ml, mr, hml, hmr, hcost⟩

/-- Witness of C12: in the example lattice state 1 is cached by the routed
state 0 with a label of cost 0 and turn cost 0, the measurements are 3 apart
and `beta` is 3. -/
theorem TransitionCost_formula_witness :
    Example.latticeRouted.Constructed ∧
    Example.latticeRouted.state_.get? 1 = some (State.new 1 1 Example.midB) ∧
    Example.latticeRouted.TransitionCost Example.Distance Example.find_shortest_path
        Example.predecessor 0 1 =
      some ((0 + |0 - Example.Distance ⟨0, 0⟩ ⟨3, 0⟩|) * (1 / 3), Example.latticeRouted) ∧
    Example.lattice.TransitionCost Example.Distance Example.find_shortest_path
        Example.predecessor 0 1 = some (1, Example.latticeRouted) ∧
    (∃ ml mr, Example.lattice.measurements_.get? 0 = some ml ∧
      Example.lattice.measurements_.get? 1 = some mr ∧
      (1 : ℚ) = (0 + |0 - Example.Distance ml.lnglat mr.lnglat|) * (1 / 3)) :=
  ⟨Example.lattice_constructed, rfl,
    (TransitionCost_formula Example.Distance Example.find_shortest_path Example.predecessor
      Example.latticeRouted 0 1 (State.new 1 1 Example.midB) Example.lattice_constructed
      rfl).1
      ((State.new 0 0 Example.atNode10).route Example.find_shortest_path
        [State.new 1 1 Example.midB] Example.reader 9 none (List.replicate 181 0))
      ⟨Example.labels⟩ 2 (Example.label Example.edgeB 0 Example.half 1) ⟨⟨0, 0⟩⟩ ⟨⟨3, 0⟩⟩
      rfl rfl rfl rfl rfl rfl,
    Example.lattice_transition,
    (TransitionCost_formula Example.Distance Example.find_shortest_path Example.predecessor
      Example.lattice 0 1 (State.new 1 1 Example.midB) Example.lattice_constructed rfl).2
      1 Example.latticeRouted
      ((State.new 0 0 Example.atNode10).route Example.find_shortest_path
        [State.new 1 1 Example.midB] Example.reader 9 none (List.replicate 181 0))
      ⟨Example.labels⟩ 2 (Example.label Example.edgeB 0 Example.half 1)
      Example.lattice_transition rfl rfl rfl rfl⟩

/-- C13: in a constructed model (`beta > 0`) whose labels have a non-negative
turn cost, a returning `TransitionCost(left, right)` leaves `left` routed and
returns the sentinel `-1` if and only if `right` is absent from the routing
cache of `left`; every feasible transition cost is non-negative. -/
theorem TransitionCost_sentinel (D : PointLL → PointLL → ℚ) (fsp : ShortestPath)
    (pred : Nat → Option Nat) (mm mm2 : MapMatching) (left right : Nat) (c : ℚ)
    (l2 r : State) (hc : mm.Constructed)
    (h : mm.TransitionCost D fsp pred left right = some (c, mm2))
    (hl2 : mm2.state_.get? left = some l2) (hr : mm.state_.get? right = some r)
    (hturn : ∀ labelset, l2.labelset_ = some labelset →
      ∀ label ∈ labelset.labels, 0 ≤ label.turn_cost) :
    l2.routed = true ∧
    (c = -1 ↔ l2.label_idx_.lookup r.id = none) ∧
    (l2.label_idx_.lookup r.id ≠ none → 0 ≤ c) := by
  obtain ⟨l, r2, l3, hl, hr2, hroute, hl3, hcases⟩ :=
    MapMatching.TransitionCost_some D fsp pred mm mm2 left right c h
  rw [hr] at hr2
  rw [hl2] at hl3
  simp only [Option.some.injEq] at hr2 hl3
  subst hr2; subst hl3
  obtain ⟨_, hinv, _, _, _, _, _, _, l4, hl4, hrouted, _⟩ :=
    MapMatching.TransitionCost.routeLeft_frame D fsp pred mm mm2 left l r hl hroute
  rw [hl2] at hl4
  simp only [Option.some.injEq] at hl4
  subst hl4
  have hbeta : 0 < mm2.inv_beta_ := by
    rw [hinv, hc.2.2.2.2]
    exact div_pos one_pos hc.2.1
  rcases hcases with ⟨hnull, hcost⟩ | ⟨label, ml, mr, hlabel, _, _, hcost⟩
  · have habsent := (State.last_label_null_iff l2 r).mp hnull
    exact ⟨hrouted, ⟨fun _ => habsent, fun _ => hcost⟩, fun hne => absurd habsent hne⟩
  · obtain ⟨idx, labelset, hidx, hset, hget⟩ := (State.last_label_some_iff l2 r label).mp hlabel
    have hmem : label ∈ labelset.labels := List.get?_mem hget
    have hnonneg : 0 ≤ c := by
      rw [hcost]
      exact mul_nonneg (add_nonneg (hturn labelset hset label hmem) (abs_nonneg _))
        (le_of_lt hbeta)
    refine ⟨hrouted, ⟨?_, ?_⟩, fun _ => hnonneg⟩
    · intro hneg
      rw [hneg] at hnonneg
      exact absurd hnonneg (by norm_num)
    · intro habsent
      rw [hidx] at habsent
      exact absurd habsent (by simp)

/-- Witness of C13: the feasible transition from state 0 to state 1 costs 1,
and the transition from state 0 to itself, absent from its cache, gives the
sentinel. -/
theorem TransitionCost_sentinel_witness :
    Example.lattice.Constructed ∧
    Example.lattice.TransitionCost Example.Distance Example.find_shortest_path
        Example.predecessor 0 1 = some (1, Example.latticeRouted) ∧
    ((1 : ℚ) = -1 ↔ List.lookup 1 [(1, 2)] = none) ∧
    Example.latticeRouted.TransitionCost Example.Distance Example.find_shortest_path
        Example.predecessor 0 0 = some (-1, Example.latticeRouted) ∧
    ((-1 : ℚ) = -1 ↔ List.lookup 0 [(1, 2)] = none) :=
  ⟨Example.lattice_constructed, Example.lattice_transition,
    (TransitionCost_sentinel Example.Distance Example.find_shortest_path Example.predecessor
      Example.lattice Example.latticeRouted 0 1 1
      ((State.new 0 0 Example.atNode10).route Example.find_shortest_path
        [State.new 1 1 Example.midB] Example.reader 9 none (List.replicate 181 0))
      (State.new 1 1 Example.midB) Example.lattice_constructed Example.lattice_transition
      rfl rfl Example.labels_turn_cost).2.1,
    Example.latticeRouted_transition,
    (TransitionCost_sentinel Example.Distance Example.find_shortest_path Example.predecessor
      Example.latticeRouted Example.latticeRouted 0 0 (-1)
      ((State.new 0 0 Example.atNode10).route Example.find_shortest_path
        [State.new 1 1 Example.midB] Example.reader 9 none (List.replicate 181 0))
      ((State.new 0 0 Example.atNode10).route Example.find_shortest_path
        [State.new 1 1 Example.midB] Example.reader 9 none (List.replicate 181 0))
      Example.lattice_constructed
      Example.latticeRouted_transition rfl rfl Example.labels_turn_cost).2.1⟩

/-- C14: in a constructed model (`sigma_z > 0`, which the constructor
establishes and `Clear` and `AppendState` keep) `EmissionCost(s)` is the
squared distance of the candidate multiplied by `1 / (2 * sigma_z^2)`, and it
is non-negative when the squared distance is. -/
theorem EmissionCost_formula :
    (∀ (exp : ℚ → ℚ) (g : GraphReader) (sigma_z beta b f t : ℚ) (mm : MapMatching),
      MapMatching.new exp g sigma_z beta b f t = Except.ok mm →
        mm.Constructed ∧ mm.sigma_z_ = sigma_z) ∧
    (∀ (mm : MapMatching) (measurement : Measurement) (candidates : List Candidate),
      mm.Constructed →
        mm.Clear.Constructed ∧ (mm.AppendState measurement candidates).1.Constructed) ∧
    (∀ (mm : MapMatching) (state : State), mm.Constructed →
      mm.EmissionCost state = state.candidate.sq_distance * (1 / (2 * mm.sigma_z_ ^ 2)) ∧
      (0 ≤ state.candidate.sq_distance → 0 ≤ mm.EmissionCost state)) := by
  refine ⟨?_, ?_, ?_⟩
  · intro exp g sigma_z beta b f t mm h
    exact ⟨MapMatching.new_constructed exp g sigma_z beta b f t mm h,
      (MapMatching.new_ok exp g sigma_z beta b f t mm h).2.2.2.1⟩
  · intro mm measurement candidates h
    exact ⟨MapMatching.Clear_constructed mm h,
      MapMatching.AppendState_constructed mm measurement candidates h⟩
  · intro mm state h
    obtain ⟨hs, _, _, hinv, _⟩ := h
    have heq : mm.EmissionCost state =
        state.candidate.sq_distance * (1 / (2 * mm.sigma_z_ ^ 2)) := by
      unfold MapMatching.EmissionCost
      rw [hinv]
      congr 2
      ring
    refine ⟨heq, ?_⟩
    intro hsq
    rw [heq]
    have : 0 < 2 * mm.sigma_z_ ^ 2 := by positivity
    exact mul_nonneg hsq (le_of_lt (div_pos one_pos this))

/-- Witness of C14: in the example model (`sigma_z = 5`) a candidate at
squared distance 4 has emission cost `4 * (1 / (2 * 5^2))`. -/
theorem EmissionCost_formula_witness :
    MapMatching.new Example.exp Example.reader 5 3 2000 3 0 = Except.ok Example.mm ∧
    Example.mm.Constructed ∧
    Example.mm.EmissionCost (State.new 0 0 (Example.atNode12Far)) =
      4 * (1 / (2 * (5 : ℚ) ^ 2)) ∧
    0 ≤ Example.mm.EmissionCost (State.new 0 0 (Example.atNode12Far)) :=
  ⟨Example.mm_new,
    (EmissionCost_formula.1 Example.exp Example.reader 5 3 2000 3 0 Example.mm
      Example.mm_new).1,
    (EmissionCost_formula.2.2 Example.mm (State.new 0 0 Example.atNode12Far)
      (MapMatching.new_constructed Example.exp Example.reader 5 3 2000 3 0 Example.mm
        Example.mm_new)).1,
    (EmissionCost_formula.2.2 Example.mm (State.new 0 0 Example.atNode12Far)
      (MapMatching.new_constructed Example.exp Example.reader 5 3 2000 3 0 Example.mm
        Example.mm_new)).2 (by decide)⟩

/-- C15: `MaxRouteDistance(left, right)` is `min(d_gc *
max_route_distance_factor, breakage_distance)`, with `d_gc` the great-circle
distance between the measurements of the two states; and the budget with which
`TransitionCost` calls `State::route` on a state that is not routed yet is
that value, so it exceeds neither `breakage_distance` nor `d_gc *
max_route_distance_factor`. -/
theorem MaxRouteDistance_min (D : PointLL → PointLL → ℚ) (fsp : ShortestPath)
    (pred : Nat → Option Nat) (mm : MapMatching) (left right : Nat) (l r : State) :
    (∀ ml mr : Measurement, mm.measurements_.get? l.time = some ml →
      mm.measurements_.get? r.time = some mr →
      mm.MaxRouteDistance D l r =
        some (min (D ml.lnglat mr.lnglat * mm.max_route_distance_factor_)
          mm.breakage_distance_)) ∧
    (∀ (c : ℚ) (mm2 : MapMatching), mm.state_.get? left = some l →
      mm.state_.get? right = some r → l.routed = false →
      mm.TransitionCost D fsp pred left right = some (c, mm2) →
      ∃ (targets : List State) (edgelabel : Option Nat) (ml mr : Measurement) (budget : ℚ),
        mm.measurements_.get? l.time = some ml ∧ mm.measurements_.get? r.time = some mr ∧
        budget = min (D ml.lnglat mr.lnglat * mm.max_route_distance_factor_)
          mm.breakage_distance_ ∧
        budget ≤ mm.breakage_distance_ ∧
        budget ≤ D ml.lnglat mr.lnglat * mm.max_route_distance_factor_ ∧
        mm2.state_ = mm.state_.set left
          (l.route fsp targets mm.graphreader_ budget edgelabel mm.turn_cost_table_)) := by
  constructor
  · intro ml mr hml hmr
    unfold MapMatching.MaxRouteDistance
    rw [hml, hmr]
    simp only
    rw [fmin_eq_min]
  · intro c mm2 hl hr hrouted h
    obtain ⟨l1, r1, _, hl1, hr1, hroute, _, _⟩ :=
      MapMatching.TransitionCost_some D fsp pred mm mm2 left right c h
    rw [hl] at hl1
    rw [hr] at hr1
    simp only [Option.some.injEq] at hl1 hr1
    subst hl1; subst hr1
    obtain ⟨el, targets, b, _, _, hb, hmm2⟩ :=
      MapMatching.TransitionCost.routeLeft_unrouted D fsp pred mm mm2 left l r hrouted hroute
    obtain ⟨ml, mr, hml, hmr, hbeq⟩ := MapMatching.MaxRouteDistance_some D mm l r b hb
    refine ⟨targets, el, ml, mr, b, hml, hmr, hbeq, ?_, ?_, ?_⟩
    · rw [hbeq]; exact min_le_right _ _
    · rw [hbeq]; exact min_le_left _ _
    · rw [hmm2]

/-- Witness of C15: in the example lattice the measurements of the states 0
and 1 are 3 apart, the factor is 3 and the breakage distance 2000: the budget
is 9. -/
theorem MaxRouteDistance_min_witness :
    Example.lattice.MaxRouteDistance Example.Distance (State.new 0 0 Example.atNode10)
        (State.new 1 1 Example.midB) =
      some (min (Example.Distance ⟨0, 0⟩ ⟨3, 0⟩ * 3) 2000) ∧
    Example.lattice.TransitionCost Example.Distance Example.find_shortest_path
        Example.predecessor 0 1 = some (1, Example.latticeRouted) ∧
    ∃ (targets : List State) (edgelabel : Option Nat) (ml mr : Measurement) (budget : ℚ),
      Example.lattice.measurements_.get? 0 = some ml ∧
      Example.lattice.measurements_.get? 1 = some mr ∧
      budget = min (Example.Distance ml.lnglat mr.lnglat * 3) 2000 ∧
      budget ≤ 2000 ∧
      budget ≤ Example.Distance ml.lnglat mr.lnglat * 3 ∧
      Example.latticeRouted.state_ = Example.lattice.state_.set 0
        ((State.new 0 0 Example.atNode10).route Example.find_shortest_path targets
          Example.reader budget edgelabel (List.replicate 181 0)) :=
  ⟨(MaxRouteDistance_min Example.Distance Example.find_shortest_path Example.predecessor
      Example.lattice 0 1 (State.new 0 0 Example.atNode10) (State.new 1 1 Example.midB)).1
      ⟨⟨0, 0⟩⟩ ⟨⟨3, 0⟩⟩ rfl rfl,
    Example.lattice_transition,
    (MaxRouteDistance_min Example.Distance Example.find_shortest_path Example.predecessor
      Example.lattice 0 1 (State.new 0 0 Example.atNode10) (State.new 1 1 Example.midB)).2
      1 Example.latticeRouted rfl rfl rfl Example.lattice_transition⟩

/-! ## Properties of the constructor of the model (C16, C17) -/

/-- C16: the construction of a `MapMatching` model throws `invalid_argument`
if and only if `sigma_z <= 0` or `beta <= 0` or `turn_penalty_factor < 0`; for
every other parameter combination it succeeds, and it throws nothing else. -/
theorem MapMatching_new_invalid_argument (exp : ℚ → ℚ) (g : GraphReader)
    (sigma_z beta b f t : ℚ) :
    ((∃ what, MapMatching.new exp g sigma_z beta b f t =
        Except.error (Exn.invalid_argument what)) ↔
      (sigma_z ≤ 0 ∨ beta ≤ 0 ∨ t < 0)) ∧
    ((∃ mm, MapMatching.new exp g sigma_z beta b f t = Except.ok mm) ↔
      ¬ (sigma_z ≤ 0 ∨ beta ≤ 0 ∨ t < 0)) := by
  rw [MapMatching.new_eq]
  by_cases h1 : sigma_z ≤ 0
  · rw [if_pos h1]
    simp [h1]
  · rw [if_neg h1]
    by_cases h2 : beta ≤ 0
    · rw [if_pos h2]
      simp [h2]
    · rw [if_neg h2]
      by_cases h3 : 0 < t
      · rw [if_pos h3]
        have h4 : ¬ t < 0 := not_lt.mpr (le_of_lt h3)
        simp [h1, h2, h4]
      · rw [if_neg h3]
        by_cases h4 : t < 0
        · rw [if_pos h4]
          simp [h4]
        · rw [if_neg h4]
          simp [h1, h2, h4]

/-- C17: after the successful construction of a model the turn cost table has
the 181 entries `turn_penalty_factor * exp(-i / 45)`, `i = 0..180`, when the
factor is positive, and 181 zero entries when the factor is 0; with factor 1
entry 90 is `exp(-2)`; and every entry is non-negative, `exp` being
non-negative. -/
theorem turn_cost_table_entries (exp : ℚ → ℚ) (g : GraphReader) (sigma_z beta b f t : ℚ)
    (mm : MapMatching) (h : MapMatching.new exp g sigma_z beta b f t = Except.ok mm) :
    mm.turn_cost_table_.length = 181 ∧
    (0 < t → ∀ i : Nat, i ≤ 180 →
      mm.turn_cost_table_.get? i = some (t * exp (-(i : ℚ) / 45))) ∧
    (t = 0 → ∀ i : Nat, i ≤ 180 → mm.turn_cost_table_.get? i = some 0) ∧
    (t = 1 → mm.turn_cost_table_.get? 90 = some (exp (-2))) ∧
    ((∀ x, 0 ≤ exp x) → ∀ c ∈ mm.turn_cost_table_, 0 ≤ c) := by
  obtain ⟨_, _, ht, _, _, _, _, _, _, _, htable, _⟩ :=
    MapMatching.new_ok exp g sigma_z beta b f t mm h
  have hpos : 0 < t → ∀ i : Nat, i ≤ 180 →
      mm.turn_cost_table_.get? i = some (t * exp (-(i : ℚ) / 45)) := by
    intro h0 i hi
    rw [htable, if_pos h0, List.get?_eq_getElem?, List.getElem?_map,
      List.getElem?_range (show i < 181 by omega)]
    rfl
  refine ⟨?_, hpos, ?_, ?_, ?_⟩
  · rw [htable]
    split
    · rw [List.length_map, List.length_range]
    · rw [List.length_replicate]
  · intro h0 i hi
    have h1 : ¬ (0 < t) := by rw [h0]; exact lt_irrefl 0
    rw [htable, if_neg h1, List.get?_eq_getElem?, List.getElem?_replicate,
      if_pos (show i < 181 by omega)]
  · intro h1
    have := hpos (by rw [h1]; exact one_pos) 90 (by omega)
    rw [this, h1]
    norm_num
  · intro hexp c hc
    rw [htable] at hc
    split at hc
    · obtain ⟨i, _, rfl⟩ := List.mem_map.mp hc
      exact mul_nonneg ht (hexp _)
    · rw [List.eq_of_mem_replicate hc]

/-- Witness of C17: the table of the example model (factor 0) and of the
example model with factor 1. -/
theorem turn_cost_table_entries_witness :
    MapMatching.new Example.exp Example.reader 5 3 2000 3 0 = Except.ok Example.mm ∧
    Example.mm.turn_cost_table_.length = 181 ∧
    Example.mm.turn_cost_table_.get? 90 = some 0 ∧
    (∀ x, 0 ≤ Example.exp x) ∧
    (∀ c ∈ Example.mm.turn_cost_table_, 0 ≤ c) ∧
    MapMatching.new Example.exp Example.reader 5 3 2000 3 1 = Except.ok Example.mmTurn ∧
    Example.mmTurn.turn_cost_table_.get? 45 = some (1 * Example.exp (-((45 : Nat) : ℚ) / 45)) ∧
    Example.mmTurn.turn_cost_table_.get? 90 = some (Example.exp (-2)) :=
  ⟨Example.mm_new,
    (turn_cost_table_entries Example.exp Example.reader 5 3 2000 3 0 Example.mm
      Example.mm_new).1,
    (turn_cost_table_entries Example.exp Example.reader 5 3 2000 3 0 Example.mm
      Example.mm_new).2.2.1 rfl 90 (by decide),
    Example.exp_nonneg,
    (turn_cost_table_entries Example.exp Example.reader 5 3 2000 3 0 Example.mm
      Example.mm_new).2.2.2.2 Example.exp_nonneg,
    Example.mmTurn_new,
    (turn_cost_table_entries Example.exp Example.reader 5 3 2000 3 1 Example.mmTurn
      Example.mmTurn_new).2.1 (by decide) 45 (by decide),
    (turn_cost_table_entries Example.exp Example.reader 5 3 2000 3 1 Example.mmTurn
      Example.mmTurn_new).2.2.2.1 rfl⟩

/-! ## Routing at most once (C18) -/

/-- C18: in a session of transition-cost evaluations and column appends that
starts from any model, no arena position occurs twice among the positions on
which `route` is called, and a state that was routed at the start is never
routed again: a call of `TransitionCost` whose left state is routed leaves the
model as it is, so that the cost is answered from the cache, while a call whose
left state is not routed replaces it by the routed state; `route` always leaves
`routed()` true, the operations keep a routed state and its cache, and `Clear`
drops all states. -/
theorem route_at_most_once (D : PointLL → PointLL → ℚ) (fsp : ShortestPath)
    (mm mm3 : MapMatching) (ops : List Spec.Op) (log : List Nat)
    (h : Spec.session D fsp mm ops = some (log, mm3)) :
    log.Nodup ∧
    (∀ i ∈ log, ∀ s, mm.state_.get? i = some s → s.routed = false) ∧
    (∀ i ∈ log, ∃ s, mm3.state_.get? i = some s ∧ s.routed = true) ∧
    (∀ i s, mm.state_.get? i = some s → s.routed = true → mm3.state_.get? i = some s) ∧
    (∀ (pred : Nat → Option Nat) (left right : Nat) (c : ℚ) (mm2 : MapMatching) (l : State),
      mm.state_.get? left = some l → l.routed = true →
      mm.TransitionCost D fsp pred left right = some (c, mm2) → mm2 = mm) ∧
    (∀ (pred : Nat → Option Nat) (left right : Nat) (c : ℚ) (mm2 : MapMatching) (l : State),
      mm.state_.get? left = some l → l.routed = false →
      mm.TransitionCost D fsp pred left right = some (c, mm2) →
      ∃ targets b el, mm2.state_ =
        mm.state_.set left (l.route fsp targets mm.graphreader_ b el mm.turn_cost_table_)) ∧
    (∀ (s : State) (targets : List State) (g : GraphReader) (b : ℚ) (el : Option Nat)
      (table : List ℚ), (s.route fsp targets g b el table).routed = true) ∧
    mm.Clear.state_ = [] := by
  obtain ⟨hnd, hun, hkeep, hrouted⟩ := Spec.session_inv D fsp ops mm mm3 log h
  refine ⟨hnd, hun, hrouted, hkeep, ?_, ?_,
    fun s targets g b el table => State.route_routed fsp s targets g b el table, rfl⟩
  · intro pred left right c mm2 l hl hrt hc
    obtain ⟨l1, r, l2, hl1, _, hroute, _, _⟩ :=
      MapMatching.TransitionCost_some D fsp pred mm mm2 left right c hc
    rw [hl] at hl1
    simp only [Option.some.injEq] at hl1
    subst hl1
    rw [MapMatching.TransitionCost.routeLeft_routed D fsp pred mm left l r hrt] at hroute
    simp only [Option.some.injEq] at hroute
    exact hroute.symm
  · intro pred left right c mm2 l hl hrt hc
    obtain ⟨l1, r, l2, hl1, _, hroute, _, _⟩ :=
      MapMatching.TransitionCost_some D fsp pred mm mm2 left right c hc
    rw [hl] at hl1
    simp only [Option.some.injEq] at hl1
    subst hl1
    obtain ⟨el, targets, b, _, _, _, hmm2⟩ :=
      MapMatching.TransitionCost.routeLeft_unrouted D fsp pred mm mm2 left l r hrt hroute
    exact ⟨targets, b, el, by rw [hmm2]⟩

theorem route_at_most_once_witness :
    Spec.session Example.Distance Example.find_shortest_path Example.lattice Example.ops =
      some ([0], Example.latticeRouted) ∧
    [0].Nodup :=
  ⟨by with_unfolding_all rfl,
    (route_at_most_once Example.Distance Example.find_shortest_path Example.lattice
      Example.latticeRouted Example.ops [0] (by with_unfolding_all rfl)).1⟩

/-! ## The routing cache (C19) -/

/-- C19 (as stated, refuted): with 65537 targets, the target at position 65536
gets a cache entry although the result map, which holds destination 1 only,
does not contain destination index 65537: the 16-bit destination counter has
wrapped around to 1. -/
theorem route_cache_wraps :
    (((State.new 70000 0 Example.atNode10).route Example.find_shortest_path
        Example.manyTargets Example.reader 9 none []).label_idx_.lookup 65536).isSome = true ∧
    ¬ ∃ (k : Nat) (t : State), Example.manyTargets.get? k = some t ∧ t.id = 65536 ∧
        (Example.manyResults.lookup (k + 1)).isSome = true := by
  constructor
  · rw [State.route_label_idx]
    apply State.route.cache_complete _ _ _ _ _ (by decide)
    exact Or.inr ⟨65536, _, Example.manyTargets_last, rfl, rfl⟩
  · rintro ⟨k, t, hk, hid, hv⟩
    have := Example.manyTargets_get k t hk
    have hk2 : k = 65536 := by omega
    subst hk2
    exact absurd hv (by decide)

/-- C19 (amended): for a target list of at most 65535 states, the cache of a
state after `route` has an entry for an id exactly when the id belongs to a
target at a position `k` whose destination index `k + 1` is in the result map
of the shortest-path search; every cached value is the label index the result
map gives for such a `k + 1`, and with pairwise distinct target ids it is so
for every target. An id all of whose targets were not reached has no entry, and
`last_label` returns null for such a target. -/
theorem route_cache_entries (fsp : ShortestPath) (s : State) (targets : List State)
    (g : GraphReader) (b : ℚ) (el : Option Nat) (table : List ℚ)
    (hlen : targets.length ≤ 65535) :
    (∀ id : Nat, ((s.route fsp targets g b el table).label_idx_.lookup id).isSome = true ↔
      ∃ (k : Nat) (t : State), targets.get? k = some t ∧ t.id = id ∧
        ((fsp g (s.candidate :: targets.map State.candidate) 0 ⌈b⌉ el table).2.lookup
          (k + 1)).isSome = true) ∧
    (∀ id v : Nat, (s.route fsp targets g b el table).label_idx_.lookup id = some v →
      ∃ (k : Nat) (t : State), targets.get? k = some t ∧ t.id = id ∧
        (fsp g (s.candidate :: targets.map State.candidate) 0 ⌈b⌉ el table).2.lookup
          (k + 1) = some v) ∧
    ((targets.map State.id).Nodup →
      ∀ (k : Nat) (t : State) (v : Nat), targets.get? k = some t →
        (fsp g (s.candidate :: targets.map State.candidate) 0 ⌈b⌉ el table).2.lookup
          (k + 1) = some v →
        (s.route fsp targets g b el table).label_idx_.lookup t.id = some v) ∧
    (∀ t : State,
      (∀ (k : Nat) (t2 : State), targets.get? k = some t2 → t2.id = t.id →
        (fsp g (s.candidate :: targets.map State.candidate) 0 ⌈b⌉ el table).2.lookup
          (k + 1) = none) →
      (s.route fsp targets g b el table).label_idx_.lookup t.id = none ∧
      (s.route fsp targets g b el table).last_label t = some none) := by
  have key : ∀ (k : Nat) (t : State), targets.get? k = some t → (1 + k) % 65536 = k + 1 := by
    intro k t hk
    have : k < targets.length := by
      rw [List.get?_eq_getElem?] at hk
      exact (List.getElem?_eq_some_iff.mp hk).1
    omega
  have sound : ∀ id v : Nat, (s.route fsp targets g b el table).label_idx_.lookup id = some v →
      ∃ (k : Nat) (t : State), targets.get? k = some t ∧ t.id = id ∧
        (fsp g (s.candidate :: targets.map State.candidate) 0 ⌈b⌉ el table).2.lookup
          (k + 1) = some v := by
    intro id v h
    rw [State.route_label_idx] at h
    rcases State.route.cache_sound _ id v targets 1 [] (by decide) h with h1 | ⟨k, t, hk, hid, hv⟩
    · cases h1
    · rw [key k t hk] at hv
      exact ⟨k, t, hk, hid, hv⟩
  refine ⟨?_, sound, ?_, ?_⟩
  · intro id
    constructor
    · intro h
      obtain ⟨v, hv⟩ := Option.isSome_iff_exists.mp h
      obtain ⟨k, t, hk, hid, hr⟩ := sound id v hv
      exact ⟨k, t, hk, hid, by rw [hr]; rfl⟩
    · rintro ⟨k, t, hk, hid, hv⟩
      rw [State.route_label_idx]
      apply State.route.cache_complete _ _ _ _ _ (by decide)
      exact Or.inr ⟨k, t, hk, hid, by rw [key k t hk]; exact hv⟩
  · intro hn k t v hk hv
    rw [State.route_label_idx]
    apply State.route.cache_value _ _ _ _ (by decide) hn k t v hk
    rw [key k t hk]; exact hv
  · intro t h
    have hnone : (s.route fsp targets g b el table).label_idx_.lookup t.id = none := by
      cases hl : (s.route fsp targets g b el table).label_idx_.lookup t.id with
      | none => rfl
      | some v =>
        obtain ⟨k, t2, hk, hid, hr⟩ := sound t.id v hl
        rw [h k t2 hk hid] at hr
        cases hr
    exact ⟨hnone, (State.last_label_null_iff _ t).mpr hnone⟩

theorem route_cache_entries_witness :
    ([State.new 1 1 Example.midB].length ≤ 65535) ∧
    ((State.new 0 0 Example.atNode10).route Example.find_shortest_path
      [State.new 1 1 Example.midB] Example.reader 9 none []).label_idx_.lookup 1 = some 2 :=
  ⟨by decide,
    (route_cache_entries Example.find_shortest_path (State.new 0 0 Example.atNode10)
      [State.new 1 1 Example.midB] Example.reader 9 none [] (by decide)).2.2.1
      (by decide) 0 (State.new 1 1 Example.midB) 2 rfl rfl⟩

/-! ## Appending a column (C20) -/

/-- C20: `AppendState` returns the number of columns that existed before the
call, for every candidate list, the empty one included. Afterwards `size()` has
grown by one; one column is appended to the lattice and the same column to the
unreached-states list; the column holds one new, unrouted state per candidate,
in candidate order, each with the returned value as time and its position in
the state arena as id. When the ids of the arena were the positions before the
call (as they are after `Clear`), they still are afterwards, so that no two
states share an id. -/
theorem AppendState_new_column (mm : MapMatching) (measurement : Measurement)
    (candidates : List Candidate) (hids : mm.IdsArePositions) :
    (mm.AppendState measurement candidates).2 = mm.states_.length ∧
    (mm.AppendState measurement candidates).1.size = mm.size + 1 ∧
    (mm.AppendState measurement candidates).1.states_.length = mm.states_.length + 1 ∧
    (∃ column : List State,
      (mm.AppendState measurement candidates).1.states_ = mm.states_ ++ [column] ∧
      (mm.AppendState measurement candidates).1.unreached_states_ =
        mm.unreached_states_ ++ [column] ∧
      (mm.AppendState measurement candidates).1.state_ = mm.state_ ++ column ∧
      column.length = candidates.length ∧
      ∀ (k : Nat) (c : Candidate), candidates.get? k = some c →
        ∃ s : State, column.get? k = some s ∧ s.candidate = c ∧ s.routed = false ∧
          s.time = (mm.AppendState measurement candidates).2 ∧
          s.id = mm.state_.length + k ∧
          (mm.AppendState measurement candidates).1.state_.get? s.id = some s) ∧
    (mm.AppendState measurement candidates).1.IdsArePositions ∧
    ((mm.AppendState measurement candidates).1.state_.map State.id).Nodup ∧
    mm.Clear.IdsArePositions ∧ mm.Clear.states_.length = 0 := by
  refine ⟨by rw [MapMatching.AppendState_eq], ?_, ?_, ?_,
    MapMatching.AppendState_ids mm measurement candidates hids,
    MapMatching.ids_nodup _ (MapMatching.AppendState_ids mm measurement candidates hids),
    MapMatching.Clear_ids mm, rfl⟩
  · rw [MapMatching.AppendState_eq]
    simp [MapMatching.size]
  · rw [MapMatching.AppendState_eq]
    simp
  · refine ⟨Spec.new_column mm candidates, ?_, ?_, ?_, Spec.new_column_length mm candidates, ?_⟩
    · rw [MapMatching.AppendState_eq]
    · rw [MapMatching.AppendState_eq]
    · rw [MapMatching.AppendState_eq]
    · intro k c hk
      refine ⟨State.new (mm.state_.length + k) mm.states_.length c, ?_, rfl, rfl, ?_, rfl, ?_⟩
      · rw [Spec.new_column_get, hk]; rfl
      · rw [MapMatching.AppendState_eq]; rfl
      · rw [MapMatching.AppendState_eq]
        show (mm.state_ ++ Spec.new_column mm candidates).get? (mm.state_.length + k) = _
        rw [List.get?_eq_getElem?, List.getElem?_append_right (by omega),
          ← List.get?_eq_getElem?, Spec.new_column_get, Nat.add_sub_cancel_left, hk]
        rfl

theorem AppendState_new_column_witness :
    Example.mm.IdsArePositions ∧
    (Example.lattice.state_.map State.id) = [0, 1] ∧
    (Example.mm.AppendState ⟨⟨0, 0⟩⟩ []).2 = 0 ∧
    ((Example.mm.AppendState ⟨⟨0, 0⟩⟩ [Example.atNode10]).1.state_.map State.id).Nodup :=
  ⟨fun _ _ h => by simp [Example.mm] at h, rfl,
    (AppendState_new_column Example.mm ⟨⟨0, 0⟩⟩ []
      (fun _ _ h => by simp [Example.mm] at h)).1,
    (AppendState_new_column Example.mm ⟨⟨0, 0⟩⟩ [Example.atNode10]
      (fun _ _ h => by simp [Example.mm] at h)).2.2.2.2.2.1⟩

/-! ## A single measurement (C21) -/

/-- C21 (as stated, refuted): for the single measurement at longitude 4, around
which the candidate index finds one candidate on edge `B` at distance 2 (and
the search chooses its state), `OfflineMatch` returns the one result
`MatchResult(lnglat)`: its graph id is not `B` and its distance is not 2. -/
theorem OfflineMatch_single_not_attached :
    Example.oneCq.Query ⟨4, 0⟩ 100 = [Example.atNode12Far] ∧
    Example.atNode12Far.edges.map (fun e => e.id) = [Example.edgeB] ∧
    Example.SearchPath
      (OfflineMatch.loadStates Example.DistanceSquared Example.mm Example.oneCq [⟨⟨4, 0⟩⟩]
        100 2).mm 0 = [some (State.new 0 0 Example.atNode12Far)] ∧
    OfflineMatch Example.DistanceSquared Example.SearchPath Example.mm Example.oneCq
      [⟨⟨4, 0⟩⟩] 100 2 = some [MatchResult.ofPoint ⟨4, 0⟩] ∧
    (MatchResult.ofPoint ⟨4, 0⟩).graphid ≠ Example.edgeB ∧
    (MatchResult.ofPoint ⟨4, 0⟩).distance ≠ Example.atNode12Far.distance := by
  refine ⟨rfl, rfl, by with_unfolding_all rfl, by with_unfolding_all rfl, by decide,
    by with_unfolding_all decide⟩

/-- C21 (amended): for a trace of exactly one measurement `OfflineMatch`
returns exactly one result, whatever the candidate index finds and the search
chooses: the measurement point with distance 0, an invalid graph id of type
Unknown and no state. -/
theorem OfflineMatch_single_measurement (D : PointLL → PointLL → ℚ)
    (SearchPath : MapMatching → Nat → List (Option State)) (mm : MapMatching)
    (cq : CandidateQuery) (m : Measurement) (r d : ℚ) :
    OfflineMatch D SearchPath mm cq [m] r d =
      some [{ lnglat := m.lnglat, distance := 0, graphid := GraphId.invalid,
              graphtype := GraphType.kUnknown, state := none }] ∧
    GraphId.invalid.Is_Valid = false :=
  ⟨OfflineMatch.single D SearchPath mm cq m r d, GraphId.invalid_not_valid⟩

/-! ## Empty columns (C22) -/

/-- C22: when the candidate index finds no candidate around any admitted
measurement, all columns are empty; the Viterbi path, which holds one entry
per column and whose valid entries are states of their columns, then has
invalid entries only, and for every index `i` the `i`-th result of
`OfflineMatch` is `MatchResult(lnglat)` of measurement `i`: its lnglat, an
invalid graph id of type Unknown and no state; this includes the results of
the skipped measurements, whatever the candidate index finds around them. -/
theorem OfflineMatch_all_columns_empty (D : PointLL → PointLL → ℚ)
    (SearchPath : MapMatching → Nat → List (Option State)) (mm : MapMatching)
    (cq : CandidateQuery) (ms : List Measurement) (r d : ℚ) (hne : ms ≠ [])
    (hpath : (SearchPath (OfflineMatch.loadStates D mm cq ms r d).mm
        (OfflineMatch.loadStates D mm cq ms r d).time).length =
      (OfflineMatch.loadStates D mm cq ms r d).mm.size)
    (hcolumns : ∀ (t : Nat) (s : State),
      (SearchPath (OfflineMatch.loadStates D mm cq ms r d).mm
        (OfflineMatch.loadStates D mm cq ms r d).time).reverse.get? t = some (some s) →
      ∃ column, (OfflineMatch.loadStates D mm cq ms r d).mm.states_.get? t = some column ∧
        s.candidate ∈ column.map State.candidate)
    (hempty : ∀ i, i < ms.length → Spec.admitted D ms (d * d) i = true →
      cq.Query (OfflineMatch.at ms i).lnglat r = []) :
    (∀ column ∈ (OfflineMatch.loadStates D mm cq ms r d).mm.states_, column = []) ∧
    (∀ entry ∈ SearchPath (OfflineMatch.loadStates D mm cq ms r d).mm
      (OfflineMatch.loadStates D mm cq ms r d).time, entry = none) ∧
    ∃ results, OfflineMatch D SearchPath mm cq ms r d = some results ∧
      results.length = ms.length ∧
      ∀ (i : Nat) (m : Measurement), ms.get? i = some m →
        ∃ res, results.get? i = some res ∧ res.lnglat = m.lnglat ∧
          res.graphtype = GraphType.kUnknown ∧ res.graphid.Is_Valid = false ∧
          res.state = none ∧ res = MatchResult.ofPoint m.lnglat := by
  have hcols := OfflineMatch.columns_empty D mm cq ms r d hempty
  have hentry : ∀ (t : Nat) (s : State),
      (SearchPath (OfflineMatch.loadStates D mm cq ms r d).mm
        (OfflineMatch.loadStates D mm cq ms r d).time).reverse.get? t ≠ some (some s) := by
    intro t s h
    obtain ⟨column, hcol, hmem⟩ := hcolumns t s h
    rw [List.get?_eq_getElem?] at hcol
    have := hcols column (List.mem_iff_getElem?.mpr ⟨t, hcol⟩)
    rw [this] at hmem
    exact absurd hmem (List.not_mem_nil _)
  have hnone : ∀ t, (SearchPath (OfflineMatch.loadStates D mm cq ms r d).mm
      (OfflineMatch.loadStates D mm cq ms r d).time).reverse.getD t none = none := by
    intro t
    rw [List.getD_eq_getElem?_getD]
    cases hg : (SearchPath (OfflineMatch.loadStates D mm cq ms r d).mm
      (OfflineMatch.loadStates D mm cq ms r d).time).reverse[t]? with
    | none => rfl
    | some entry =>
      cases entry with
      | none => rfl
      | some s =>
        rw [← List.get?_eq_getElem?] at hg
        exact absurd hg (hentry t s)
  refine ⟨hcols, ?_, ?_⟩
  · intro entry hmem
    cases entry with
    | none => rfl
    | some s =>
      obtain ⟨t, ht⟩ := List.mem_iff_getElem?.mp (List.mem_reverse.mpr hmem)
      rw [← List.get?_eq_getElem?] at ht
      exact absurd ht (hentry t s)
  · obtain ⟨results, hres, hlen, hall⟩ :=
      OfflineMatch.results_spec D SearchPath mm cq ms r d hne hpath
    refine ⟨results, hres, hlen, ?_⟩
    intro i m hm
    have him : i < ms.length := by
      rw [List.get?_eq_getElem?] at hm
      exact (List.getElem?_eq_some_iff.mp hm).1
    have hi : i < results.length := by rw [hlen]; exact him
    have hget : results.get? i = some (results.get ⟨i, hi⟩) := List.get?_eq_get hi
    have hat := OfflineMatch.at_of_get ms i m hm
    have hraw : results.get ⟨i, hi⟩ = MatchResult.ofPoint m.lnglat := by
      rcases hall i _ hget with ⟨t, _, _, hval⟩ | ⟨t, _, _, hval⟩
      · rw [hval, Spec.column_result_none ms _ _ t i hnone, hat]
      · rw [hval, Spec.skipped_result_none _ cq ms r _ t i hnone, hat]
    exact ⟨_, hget, by rw [hraw]; rfl, by rw [hraw]; rfl,
      by rw [hraw]; exact GraphId.invalid_not_valid, by rw [hraw]; rfl, hraw⟩

/-- Witness of C22: on the example trace with a candidate index that finds
nothing, the three columns are empty and the five results are the raw
measurement points. -/
theorem OfflineMatch_all_columns_empty_witness :
    Example.trace ≠ [] ∧
    OfflineMatch Example.DistanceSquared Example.SearchPath Example.mm Example.emptyCq
      Example.trace 100 2 = some (Example.trace.map (fun m => MatchResult.ofPoint m.lnglat)) ∧
    ∃ results, OfflineMatch Example.DistanceSquared Example.SearchPath Example.mm
        Example.emptyCq Example.trace 100 2 = some results ∧
      results.length = Example.trace.length :=
  ⟨by decide, by with_unfolding_all rfl,
    (OfflineMatch_all_columns_empty Example.DistanceSquared Example.SearchPath Example.mm
      Example.emptyCq Example.trace 100 2 (by decide) (by with_unfolding_all decide)
      (fun t s h => by
        rw [Example.emptyPath] at h
        rcases t with _ | _ | _ | t <;> simp at h)
      (fun _ _ _ => rfl)).2.2.imp (fun _ h => ⟨h.1, h.2.1⟩)⟩

/-! ## The kinds of results (C23) -/

/-- C23 (as stated, refuted): on a trace of two measurements, at longitudes 0
and 5, with a search whose two chosen states are not connected by a route,
both results have an invalid graph id of type Unknown, but their lnglat is the
vertex `(3, 3)` of the chosen candidate, not the lnglat of the measurement. -/
theorem OfflineMatch_unknown_at_candidate :
    Example.pair.map (fun m => m.lnglat) = [⟨0, 0⟩, ⟨5, 0⟩] ∧
    (OfflineMatch Example.DistanceSquared Example.brokenSearch Example.mm Example.cq
      Example.pair 100 2).map
        (fun results => results.map
          (fun res => (res.lnglat, res.graphid.Is_Valid, res.graphtype))) =
      some [((⟨3, 3⟩ : PointLL), false, GraphType.kUnknown),
        (⟨3, 3⟩, false, GraphType.kUnknown)] ∧
    (⟨3, 3⟩ : PointLL) ≠ ⟨0, 0⟩ ∧ (⟨3, 3⟩ : PointLL) ≠ ⟨5, 0⟩ := by
  refine ⟨rfl, by with_unfolding_all rfl, by decide, by decide⟩

/-- C23 (amended): when the Viterbi path holds one entry per column, every
result of `OfflineMatch` at an index `i` is of one of three kinds. The result
of the measurement admitted as column `t` is the raw point of measurement `i`
with distance 0 and an invalid graph id of type Unknown; or it carries the
chosen state of column `t` and the vertex and distance of the candidate of
that state, and its graph attachment is the valid node id or edge id of the
first label of the chain from the chosen state of column `t - 1`, or of the
last label with a valid id of the chain to the chosen state of column `t + 1`,
or it is invalid and of type Unknown, which happens only when the first label
of the chain from column `t - 1` (if any) and all labels of the chain to column
`t + 1` (if any) offer no valid id. The result of a skipped measurement
attached to column `t` is the raw point of measurement `i`, or it is
interpolated: it carries no state, its vertex and distance are those of a
candidate found around measurement `i`, and its graph id is a valid id of that
candidate that lies in the graph set of the path entries of the columns `t`
and `t + 1`. Hence a result with an invalid graph id is of type Unknown and
lies at the raw lnglat of its measurement or at the candidate of the chosen
state of its column, and a result with a valid graph id lies at the candidate
of the chosen state of its column, a label of a chain between that state and
the chosen state of a neighbouring column offering the id, or at a candidate
found around its measurement to which the id is attached within the graph set
of its column pair. -/
theorem OfflineMatch_result_kinds (D : PointLL → PointLL → ℚ)
    (SearchPath : MapMatching → Nat → List (Option State)) (mm : MapMatching)
    (cq : CandidateQuery) (ms : List Measurement) (r d : ℚ) (hne : ms ≠ [])
    (hpath : (SearchPath (OfflineMatch.loadStates D mm cq ms r d).mm
        (OfflineMatch.loadStates D mm cq ms r d).time).length =
      (OfflineMatch.loadStates D mm cq ms r d).mm.size) :
    ∃ results, OfflineMatch D SearchPath mm cq ms r d = some results ∧
      results.length = ms.length ∧
      ∀ (i : Nat) (res : MatchResult) (m : Measurement),
        results.get? i = some res → ms.get? i = some m →
        ((∃ t, t < (OfflineMatch.loadStates D mm cq ms r d).mm.states_.length ∧
            (Spec.admitted_upto D ms (d * d) ms.length).get? t = some i ∧
            res = Spec.column_result ms
              (SearchPath (OfflineMatch.loadStates D mm cq ms r d).mm
                (OfflineMatch.loadStates D mm cq ms r d).time).reverse
              (OfflineMatch.loadStates D mm cq ms r d).mm.states_.length t i ∧
            (Spec.IsRaw m res ∨
              ∃ s, (SearchPath (OfflineMatch.loadStates D mm cq ms r d).mm
                    (OfflineMatch.loadStates D mm cq ms r d).time).reverse.getD t none =
                  some s ∧
                Spec.IsChosen
                  (Spec.prev_entry
                    (SearchPath (OfflineMatch.loadStates D mm cq ms r d).mm
                      (OfflineMatch.loadStates D mm cq ms r d).time).reverse t)
                  s
                  (Spec.next_entry
                    (SearchPath (OfflineMatch.loadStates D mm cq ms r d).mm
                      (OfflineMatch.loadStates D mm cq ms r d).time).reverse
                    (OfflineMatch.loadStates D mm cq ms r d).mm.states_.length t)
                  res)) ∨
          (∃ t, t + 1 < (OfflineMatch.loadStates D mm cq ms r d).mm.states_.length ∧
            i ∈ (OfflineMatch.loadStates D mm cq ms r d).proximate_measurements t ∧
            res = Spec.skipped_result (OfflineMatch.loadStates D mm cq ms r d).mm.graphreader_
              cq ms r
              (SearchPath (OfflineMatch.loadStates D mm cq ms r d).mm
                (OfflineMatch.loadStates D mm cq ms r d).time).reverse t i ∧
            (Spec.IsRaw m res ∨
              Spec.IsInterpolated (OfflineMatch.loadStates D mm cq ms r d).mm.graphreader_
                (collect_graphset (OfflineMatch.loadStates D mm cq ms r d).mm.graphreader_
                  ((SearchPath (OfflineMatch.loadStates D mm cq ms r d).mm
                    (OfflineMatch.loadStates D mm cq ms r d).time).reverse.getD t none)
                  ((SearchPath (OfflineMatch.loadStates D mm cq ms r d).mm
                    (OfflineMatch.loadStates D mm cq ms r d).time).reverse.getD (t + 1) none))
                (cq.Query m.lnglat r) res))) ∧
        (res.graphid.Is_Valid = false → res.graphtype = GraphType.kUnknown ∧
          (res.lnglat = m.lnglat ∨
            ∃ t s, (Spec.admitted_upto D ms (d * d) ms.length).get? t = some i ∧
              (SearchPath (OfflineMatch.loadStates D mm cq ms r d).mm
                (OfflineMatch.loadStates D mm cq ms r d).time).reverse.getD t none = some s ∧
              res.state = some s ∧ res.lnglat = s.candidate.vertex)) ∧
        (res.graphid.Is_Valid = true →
          (∃ t s, (Spec.admitted_upto D ms (d * d) ms.length).get? t = some i ∧
            (SearchPath (OfflineMatch.loadStates D mm cq ms r d).mm
              (OfflineMatch.loadStates D mm cq ms r d).time).reverse.getD t none = some s ∧
            res.state = some s ∧ res.lnglat = s.candidate.vertex ∧
            res.distance = s.candidate.distance ∧
            ((∃ p label,
                Spec.prev_entry
                  (SearchPath (OfflineMatch.loadStates D mm cq ms r d).mm
                    (OfflineMatch.loadStates D mm cq ms r d).time).reverse t = some p ∧
                label ∈ p.RoutePath s ∧
                Spec.attachment label = some (res.graphid, res.graphtype)) ∨
              (∃ n label,
                Spec.next_entry
                  (SearchPath (OfflineMatch.loadStates D mm cq ms r d).mm
                    (OfflineMatch.loadStates D mm cq ms r d).time).reverse
                  (OfflineMatch.loadStates D mm cq ms r d).mm.states_.length t = some n ∧
                label ∈ s.RoutePath n ∧
                Spec.attachment label = some (res.graphid, res.graphtype)))) ∨
          (∃ t c, i ∈ (OfflineMatch.loadStates D mm cq ms r d).proximate_measurements t ∧
            c ∈ cq.Query m.lnglat r ∧ res.state = none ∧ res.lnglat = c.vertex ∧
            res.distance = c.distance ∧
            AttachedTo (OfflineMatch.loadStates D mm cq ms r d).mm.graphreader_
              (collect_graphset (OfflineMatch.loadStates D mm cq ms r d).mm.graphreader_
                ((SearchPath (OfflineMatch.loadStates D mm cq ms r d).mm
                  (OfflineMatch.loadStates D mm cq ms r d).time).reverse.getD t none)
                ((SearchPath (OfflineMatch.loadStates D mm cq ms r d).mm
                  (OfflineMatch.loadStates D mm cq ms r d).time).reverse.getD (t + 1) none))
              c res.graphid res.graphtype)) := by
  obtain ⟨results, hres, hlen, hall⟩ :=
    OfflineMatch.results_spec D SearchPath mm cq ms r d hne hpath
  refine ⟨results, hres, hlen, ?_⟩
  intro i res m hget hm
  have hat := OfflineMatch.at_of_get ms i m hm
  rcases hall i res hget with ⟨t, htlt, hA, hval⟩ | ⟨t, htlt, hmem, hval⟩
  · have hkind := Spec.column_result_kind ms
      (SearchPath (OfflineMatch.loadStates D mm cq ms r d).mm
        (OfflineMatch.loadStates D mm cq ms r d).time).reverse
      (OfflineMatch.loadStates D mm cq ms r d).mm.states_.length t i
    rw [← hval, hat] at hkind
    refine ⟨Or.inl ⟨t, htlt, hA, hval, hkind⟩, ?_, ?_⟩
    · intro hinv
      rcases hkind with hraw | ⟨s, hs, hch⟩
      · exact ⟨hraw.2.2.2, Or.inl hraw.1⟩
      · exact ⟨(Spec.IsChosen.attached _ _ _ _ hch).1 hinv,
          Or.inr ⟨t, s, hA, hs, hch.1, hch.2.1⟩⟩
    · intro hvalid
      rcases hkind with hraw | ⟨s, hs, hch⟩
      · rw [Spec.IsRaw.invalid m res hraw] at hvalid
        cases hvalid
      · exact Or.inl ⟨t, s, hA, hs, hch.1, hch.2.1, hch.2.2.1,
          (Spec.IsChosen.attached _ _ _ _ hch).2 hvalid⟩
  · have hkind := Spec.skipped_result_kind (OfflineMatch.loadStates D mm cq ms r d).mm.graphreader_
      cq ms r
      (SearchPath (OfflineMatch.loadStates D mm cq ms r d).mm
        (OfflineMatch.loadStates D mm cq ms r d).time).reverse t i
    rw [← hval, hat] at hkind
    refine ⟨Or.inr ⟨t, htlt, hmem, hval, hkind⟩, ?_, ?_⟩
    · intro hinv
      rcases hkind with hraw | ⟨_, hvalid, _⟩
      · exact ⟨hraw.2.2.2, Or.inl hraw.1⟩
      · rw [hinv] at hvalid
        cases hvalid
    · intro hvalid
      rcases hkind with hraw | ⟨hstate, _, c, hc, hv, hd, hatt⟩
      · rw [Spec.IsRaw.invalid m res hraw] at hvalid
        cases hvalid
      · exact Or.inr ⟨t, c, hmem, hc, hstate, hv, hd, hatt⟩

/-- Witness of C23 (amended): on the trace of two measurements, with the
search that chooses the state at node 10, routed via node 11 to the state half
way along `B`, and that state, the first result lies at the vertex `(0, 0)` of
the first state with the node id 11 of the last label with a valid id of the
chain, and the second result lies at the vertex `(3, 0)` of the second state
with the edge id of `B`, the id of the first label of the chain. -/
theorem OfflineMatch_result_kinds_witness :
    Example.pair ≠ [] ∧
    (OfflineMatch Example.DistanceSquared Example.routedSearch Example.mm Example.cq
      Example.pair 100 2).map
        (fun results => results.map
          (fun res => (res.state.map State.id, res.graphid, res.graphtype, res.lnglat))) =
      some [(some 0, ⟨11⟩, GraphType.kNode, ⟨0, 0⟩),
        (some 1, Example.edgeB, GraphType.kEdge, ⟨3, 0⟩)] ∧
    ∃ results, OfflineMatch Example.DistanceSquared Example.routedSearch Example.mm Example.cq
        Example.pair 100 2 = some results ∧
      results.length = Example.pair.length :=
  ⟨by decide, by with_unfolding_all rfl,
    (OfflineMatch_result_kinds Example.DistanceSquared Example.routedSearch Example.mm
      Example.cq Example.pair 100 2 (by decide) (by with_unfolding_all decide)).imp
      (fun _ h => ⟨h.1, h.2.1⟩)⟩
/-! ## The matcher factory (C24, C25, C26) -/

/-- C24: when the configuration has a `default` block, the overload of
`MergeConfig` that returns a new tree succeeds, and the tree it returns maps
every key to the value `preferences` gives for it, else to the value the mode
block named `name` gives for it when that block exists, else to the value of
the default block; a key that none of the three holds is absent. Where a tree
holds a key more than once, the value it gives is that of its last child with
the key (of its first child for the default block); with keys that occur once
this is the child with the key. Without a `default` block `MergeConfig`
throws. -/
theorem MergeConfig_precedence (f : MapMatcherFactory) (name : String) (preferences : ptree) :
    (∀ default_block, f.config_.get_child_optional "default" = some default_block →
      ∃ config, f.MergeConfig name preferences = Except.ok config ∧
        (∀ key, config.get_child_optional key =
          (preferences.last_child key).or
            (((f.config_.get_child_optional name).bind (fun mode => mode.last_child key)).or
              (default_block.get_child_optional key))) ∧
        (∀ key value, preferences.last_child key = some value →
          config.get_child_optional key = some value) ∧
        (∀ key mode value, preferences.last_child key = none →
          f.config_.get_child_optional name = some mode → mode.last_child key = some value →
          config.get_child_optional key = some value) ∧
        (∀ key, preferences.last_child key = none →
          (∀ mode, f.config_.get_child_optional name = some mode → mode.last_child key = none) →
          config.get_child_optional key = default_block.get_child_optional key) ∧
        (∀ key, preferences.get_child_optional key = none →
          (∀ mode, f.config_.get_child_optional name = some mode →
            mode.get_child_optional key = none) →
          default_block.get_child_optional key = none →
          config.get_child_optional key = none)) ∧
    (∀ t : ptree, t.UniqueKeys → ∀ key, t.last_child key = t.get_child_optional key) ∧
    (∀ (t : ptree) (key : String), t.last_child key = none ↔ t.get_child_optional key = none) ∧
    (f.config_.get_child_optional "default" = none →
      ∃ e, f.MergeConfig name preferences = Except.error e) := by
  have hnone : ∀ (t : ptree) (key : String),
      t.last_child key = none ↔ t.get_child_optional key = none := by
    intro t key
    unfold ptree.last_child ptree.get_child_optional
    rw [List.lookup_eq_none_iff, List.lookup_eq_none_iff]
    constructor
    · intro h p hp; exact h p (List.mem_reverse.mpr hp)
    · intro h p hp; exact h p (List.mem_reverse.mp hp)
  refine ⟨?_, fun t h key => ptree.last_child_of_unique t h key, hnone, ?_⟩
  · intro default_block hd
    obtain ⟨config, hok, hget⟩ :=
      MapMatcherFactory.MergeConfig_ok f name preferences default_block hd
    refine ⟨config, hok, hget, ?_, ?_, ?_, ?_⟩
    · intro key value hp
      rw [hget key, hp]
      rfl
    · intro key mode value hp hmode hm
      rw [hget key, hp, hmode]
      simp only [Option.none_or, Option.some_bind, hm]
      rfl
    · intro key hp hm
      rw [hget key, hp]
      cases hmode : f.config_.get_child_optional name with
      | none => rfl
      | some mode =>
        simp only [Option.none_or, Option.some_bind, hm mode hmode]
    · intro key hp hm hdk
      rw [hget key, (hnone preferences key).mpr hp, hdk]
      cases hmode : f.config_.get_child_optional name with
      | none => rfl
      | some mode =>
        simp only [Option.none_or, Option.some_bind, (hnone mode key).mpr (hm mode hmode)]
  · intro hd
    exact ⟨_, MapMatcherFactory.MergeConfig_error f name preferences hd⟩

/-- Evaluation for C24: the example preferences override `sigma_z`, the `auto`
block overrides `beta`, and the other keys come from the default block. -/
theorem MergeConfig_precedence_witness :
    (Example.factory.MergeConfig "auto" Example.preferences).map
        (fun config => config.children.map (fun child => (child.1, child.2.data))) =
      Except.ok [("sigma_z", "5"), ("beta", "5"), ("breakage_distance", "2000"),
        ("max_route_distance_factor", "3"), ("turn_penalty_factor", "0")] ∧
    ∃ config, Example.factory.MergeConfig "auto" Example.preferences = Except.ok config :=
  ⟨by with_unfolding_all rfl,
    ((MergeConfig_precedence Example.factory "auto" Example.preferences).1 _
      (by with_unfolding_all rfl)).imp (fun _ h => h.1)⟩

/-- C25: `Create(preferences)` builds the matcher from the merged
configuration: it is the creation of a matcher with the configuration
`MergeConfig(name, preferences)` for the travel mode `NameToTravelMode(name)`,
where `name` is the `mode` entry of the preferences or else the configured
default mode. The inner `Create` merges the raw preferences again under the
name of the travel mode, which is `name`, so that the merged configuration is
not lost. -/
theorem Create_passes_merged_config (get_float : ptree → String → Except Exn ℚ)
    (exp : ℚ → ℚ) (f : MapMatcherFactory) (preferences : ptree) :
    f.CreateFromPreferences get_float exp preferences =
      Spec.CreateMerged get_float exp f preferences ∧
    (∀ matcher, f.CreateFromPreferences get_float exp preferences = Except.ok matcher →
      ∃ default_value, f.config_.get_string "mode" = Except.ok default_value ∧
        f.NameToTravelMode (preferences.get_string_or "mode" default_value) =
          Except.ok matcher.travelmode_ ∧
        f.MergeConfig (preferences.get_string_or "mode" default_value) preferences =
          Except.ok matcher.config_) ∧
    (∀ (child : ptree) (default_value : String),
      preferences.get_child_optional "mode" = some child →
      preferences.get_string_or "mode" default_value = child.data) ∧
    (∀ default_value : String, preferences.get_child_optional "mode" = none →
      preferences.get_string_or "mode" default_value = default_value) ∧
    (∀ (name : String) (travelmode : Nat), f.NameToTravelMode name = Except.ok travelmode →
      f.TravelModeToName travelmode = Except.ok name) := by
  have heq := MapMatcherFactory.CreateFromPreferences_eq get_float exp f preferences
  refine ⟨heq, ?_, ?_, ?_, fun name tm h => MapMatcherFactory.TravelModeToName_of_name f name tm h⟩
  · intro matcher h
    rw [heq] at h
    unfold Spec.CreateMerged at h
    cases hd : f.config_.get_string "mode" with
    | error e => rw [hd] at h; cases h
    | ok default_value =>
      rw [hd] at h
      dsimp only at h
      cases hn : f.NameToTravelMode (preferences.get_string_or "mode" default_value) with
      | error e => rw [hn] at h; cases h
      | ok travelmode =>
        rw [hn] at h
        dsimp only at h
        cases hc : f.MergeConfig (preferences.get_string_or "mode" default_value)
            preferences with
        | error e => rw [hc] at h; cases h
        | ok config =>
          rw [hc] at h
          dsimp only at h
          obtain ⟨h1, h2, _, _⟩ := MapMatcher.new_fields get_float exp config f.graphreader_
            travelmode matcher h
          exact ⟨default_value, rfl, by rw [h2]; exact hn, by rw [h1]; exact hc⟩
  · intro child default_value h
    unfold ptree.get_string_or
    rw [h]
  · intro default_value h
    unfold ptree.get_string_or
    rw [h]

/-- Evaluation for C25: the example factory creates, for the example
preferences, a matcher for travel mode 0 (`auto`, the default mode) whose
configuration is the merged one. -/
theorem Create_passes_merged_config_witness :
    (Example.factory.CreateFromPreferences Example.get_float Example.exp
        Example.preferences).map
        (fun matcher => (matcher.travelmode_,
          matcher.config_.children.map (fun child => (child.1, child.2.data)),
          matcher.mapmatching_.sigma_z_, matcher.mapmatching_.beta_)) =
      Except.ok (0, [("sigma_z", "5"), ("beta", "5"), ("breakage_distance", "2000"),
        ("max_route_distance_factor", "3"), ("turn_penalty_factor", "0")], 5, 5) ∧
    Example.factory.CreateFromPreferences Example.get_float Example.exp Example.preferences =
      Spec.CreateMerged Example.get_float Example.exp Example.factory Example.preferences :=
  ⟨by with_unfolding_all rfl,
    (Create_passes_merged_config Example.get_float Example.exp Example.factory
      Example.preferences).1⟩

/-- C26: `NameToTravelMode(name)` throws `invalid_argument`, and nothing else,
if and only if `name` is empty or no slot below `kModeCostingCount` carries
that name; otherwise it returns the lowest index of a slot that carries the
name. For a name it accepts, `TravelModeToName(NameToTravelMode(name))` is
`name`; a non-empty name registered by `register_costing` is accepted. When it
throws, `Create(name)` and `Create(preferences)` (for preferences that resolve
to `name`) throw that exception, whatever the constructor of the matcher would
do. -/
theorem NameToTravelMode_registered (f : MapMatcherFactory) (name : String) :
    ((∃ what, f.NameToTravelMode name = Except.error (Exn.invalid_argument what)) ↔
      (name = "" ∨ ∀ idx, idx < kModeCostingCount → f.mode_name_ idx ≠ name)) ∧
    (∀ e, f.NameToTravelMode name = Except.error e →
      e = Exn.invalid_argument ("Invalid costing name: " ++ name)) ∧
    ((∃ tm, f.NameToTravelMode name = Except.ok tm) ↔
      ¬ (name = "" ∨ ∀ idx, idx < kModeCostingCount → f.mode_name_ idx ≠ name)) ∧
    (∀ tm, f.NameToTravelMode name = Except.ok tm ↔
      (tm < kModeCostingCount ∧ name ≠ "" ∧ f.mode_name_ tm = name ∧
        ∀ j, j < tm → f.mode_name_ j ≠ name)) ∧
    (∀ tm, f.NameToTravelMode name = Except.ok tm →
      f.TravelModeToName tm = Except.ok name) ∧
    (∀ (costing : Costing) (f2 : MapMatcherFactory) (index : Nat), name ≠ "" →
      f.register_costing name costing = Except.ok (f2, index) →
      index = costing.travelmode ∧ f2.mode_name_ index = name ∧
      ∃ tm, f2.NameToTravelMode name = Except.ok tm ∧ tm ≤ index ∧
        f2.TravelModeToName tm = Except.ok name) ∧
    (∀ e, f.NameToTravelMode name = Except.error e →
      ∀ (get_float : ptree → String → Except Exn ℚ) (exp : ℚ → ℚ),
        f.CreateByName get_float exp name = Except.error e ∧
        ∀ (preferences : ptree) (default_value : String),
          f.config_.get_string "mode" = Except.ok default_value →
          preferences.get_string_or "mode" default_value = name →
          f.CreateFromPreferences get_float exp preferences = Except.error e) := by
  have herr : (∃ what, f.NameToTravelMode name = Except.error (Exn.invalid_argument what)) ↔
      (name = "" ∨ ∀ idx, idx < kModeCostingCount → f.mode_name_ idx ≠ name) := by
    constructor
    · rintro ⟨what, h⟩
      exact ((MapMatcherFactory.NameToTravelMode_error_iff f name _).mp h).2
    · intro h
      exact ⟨_, (MapMatcherFactory.NameToTravelMode_error_iff f name _).mpr ⟨rfl, h⟩⟩
  refine ⟨herr, ?_, ?_, MapMatcherFactory.NameToTravelMode_ok_iff f name,
    fun tm h => MapMatcherFactory.TravelModeToName_of_name f name tm h, ?_, ?_⟩
  · intro e h
    exact ((MapMatcherFactory.NameToTravelMode_error_iff f name e).mp h).1
  · constructor
    · rintro ⟨tm, h⟩ hbad
      obtain ⟨what, hw⟩ := herr.mpr hbad
      rw [h] at hw
      cases hw
    · intro hgood
      cases h : f.NameToTravelMode name with
      | ok tm => exact ⟨tm, rfl⟩
      | error e =>
        exact absurd ((MapMatcherFactory.NameToTravelMode_error_iff f name e).mp h).2 hgood
  · intro costing f2 index hname h
    unfold MapMatcherFactory.register_costing at h
    simp only at h
    split at h
    · cases h
    · rename_i hlt
      split at h
      · cases h
      · simp only [Except.ok.injEq, Prod.mk.injEq] at h
        obtain ⟨hf2, hidx⟩ := h
        subst hf2
        subst hidx
        have hslot : (fun i => if i = costing.travelmode then name else f.mode_name_ i)
            costing.travelmode = name := by simp
        refine ⟨rfl, hslot, ?_⟩
        cases hn : MapMatcherFactory.NameToTravelMode
            { f with
              mode_costing_ := fun i =>
                if i = costing.travelmode then some costing else f.mode_costing_ i
              mode_name_ := fun i => if i = costing.travelmode then name else f.mode_name_ i }
            name with
        | error e =>
          rcases ((MapMatcherFactory.NameToTravelMode_error_iff _ name e).mp hn).2 with h1 | h1
          · exact absurd h1 hname
          · exact absurd hslot (h1 costing.travelmode (by omega))
        | ok tm =>
          obtain ⟨_, _, _, hlow⟩ := (MapMatcherFactory.NameToTravelMode_ok_iff _ name tm).mp hn
          refine ⟨tm, rfl, ?_, MapMatcherFactory.TravelModeToName_of_name _ name tm hn⟩
          by_contra hgt
          exact hlow costing.travelmode (by omega) hslot
  · intro e h get_float exp
    constructor
    · unfold MapMatcherFactory.CreateByName
      rw [h]
    · intro preferences default_value hd hname
      unfold MapMatcherFactory.CreateFromPreferences
      rw [hd]
      dsimp only
      rw [hname, h]

/-- Evaluation for C26: the example factory knows `bicycle` as travel mode 2
and does not know `train` nor the empty name. -/
theorem NameToTravelMode_registered_witness :
    Example.factory.NameToTravelMode "bicycle" = Except.ok 2 ∧
    Example.factory.TravelModeToName 2 = Except.ok "bicycle" ∧
    Example.factory.NameToTravelMode "train" =
      Except.error (Exn.invalid_argument "Invalid costing name: train") ∧
    Example.factory.NameToTravelMode "" =
      Except.error (Exn.invalid_argument "Invalid costing name: ") ∧
    Example.factory.CreateByName Example.get_float Example.exp "train" =
      Except.error (Exn.invalid_argument "Invalid costing name: train") :=
  ⟨by with_unfolding_all rfl,
    (NameToTravelMode_registered Example.factory "bicycle").2.2.2.2.1 2
      (by with_unfolding_all rfl),
    by with_unfolding_all rfl, by with_unfolding_all rfl,
    ((NameToTravelMode_registered Example.factory "train").2.2.2.2.2.2 _
      (by with_unfolding_all rfl) Example.get_float Example.exp).1⟩

/-! ## Matching the same input twice (C27) -/

/-- C27: `OfflineMatch` starts from the cleared model, which holds no
measurement, column or state any more. So for two states of one model (the
same graph reader, HMM parameters and turn cost table, as `Clear`,
`AppendState`, `TransitionCost` and the column building pass of `OfflineMatch`
leave them) and the same candidate index, measurements, search radius and
interpolation distance, the two runs build the same lattice and return equal
result lists. -/
theorem OfflineMatch_repeatable (D : PointLL → PointLL → ℚ)
    (SearchPath : MapMatching → Nat → List (Option State)) (mm1 mm2 : MapMatching)
    (cq : CandidateQuery) (ms : List Measurement) (r d : ℚ) (h : Spec.SameModel mm1 mm2) :
    OfflineMatch D SearchPath mm1 cq ms r d = OfflineMatch D SearchPath mm2 cq ms r d ∧
    OfflineMatch.loadStates D mm1 cq ms r d = OfflineMatch.loadStates D mm2 cq ms r d ∧
    mm1.Clear = mm2.Clear ∧
    (mm1.Clear.measurements_ = [] ∧ mm1.Clear.states_ = [] ∧ mm1.Clear.state_ = [] ∧
      mm1.Clear.unreached_states_ = []) ∧
    Spec.SameModel mm1 mm1.Clear ∧
    Spec.SameModel mm1 (OfflineMatch.loadStates D mm1 cq ms r d).mm ∧
    (∀ (measurement : Measurement) (candidates : List Candidate),
      Spec.SameModel mm1 (mm1.AppendState measurement candidates).1) ∧
    (∀ (Distance : PointLL → PointLL → ℚ) (fsp : ShortestPath) (pred : Nat → Option Nat)
      (left right : Nat) (c : ℚ) (mm3 : MapMatching),
      mm1.TransitionCost Distance fsp pred left right = some (c, mm3) →
      Spec.SameModel mm1 mm3) := by
  have hclear := Spec.SameModel.clear_eq mm1 mm2 h
  obtain ⟨hload, hresults⟩ := OfflineMatch.congr_clear D SearchPath mm1 mm2 cq ms r d hclear
  exact ⟨hresults, hload, hclear, ⟨rfl, rfl, rfl, rfl⟩,
    ⟨rfl, rfl, rfl, rfl, rfl, rfl, rfl, rfl, rfl⟩,
    OfflineMatch.loadPrefix_same D mm1 cq ms r d ms.length,
    fun measurement candidates => Spec.SameModel.appendState mm1 measurement candidates,
    fun Distance fsp pred left right c mm3 hc =>
      Spec.SameModel.transitionCost Distance fsp pred mm1 mm3 left right c hc⟩

/-- Witness of C27: the example model without any measurement and the example
lattice with a routed state are two states of one model, and matching the
example trace gives the same results from either. -/
theorem OfflineMatch_repeatable_witness :
    Spec.SameModel Example.mm Example.latticeRouted ∧
    Example.latticeRouted.state_.length = 2 ∧
    OfflineMatch Example.DistanceSquared Example.SearchPath Example.mm Example.cq
        Example.trace 100 2 =
      OfflineMatch Example.DistanceSquared Example.SearchPath Example.latticeRouted Example.cq
        Example.trace 100 2 :=
  ⟨⟨rfl, rfl, rfl, rfl, rfl, rfl, rfl, rfl, rfl⟩, rfl,
    (OfflineMatch_repeatable Example.DistanceSquared Example.SearchPath Example.mm
      Example.latticeRouted Example.cq Example.trace 100 2
      ⟨rfl, rfl, rfl, rfl, rfl, rfl, rfl, rfl, rfl⟩).1⟩

/-! ## The guessed results (C28, C29) -/

/-- C28: `guess_source_result`. With both path entries valid the result carries
the vertex and distance of the source candidate, the source state, and the
graph attachment of the last label of the chain (iterated from the target back
to the source) that has a valid node id or a valid edge id, the node id taking
precedence within a label, or an invalid id of type Unknown when no label has
one. With only the source valid it is the measurement point with distance 0,
an invalid id of type Unknown and the source state; with an invalid source it
is the measurement point with an invalid id of type Unknown and no state. -/
theorem guess_source_result_cases :
    (∀ (s t : State) (m : Measurement),
      (guess_source_result (some s) (some t) m).lnglat = s.candidate.vertex ∧
      (guess_source_result (some s) (some t) m).distance = s.candidate.distance ∧
      (guess_source_result (some s) (some t) m).state = some s ∧
      ((guess_source_result (some s) (some t) m).graphid,
        (guess_source_result (some s) (some t) m).graphtype) =
          ((s.RoutePath t).reverse.findSome? Spec.attachment).getD
            (GraphId.invalid, GraphType.kUnknown) ∧
      (∀ (pre post : List Label) (label : Label) (a : GraphId × GraphType),
        s.RoutePath t = pre ++ label :: post → Spec.attachment label = some a →
        (∀ l ∈ post, Spec.attachment l = none) →
        (guess_source_result (some s) (some t) m).graphid = a.1 ∧
        (guess_source_result (some s) (some t) m).graphtype = a.2) ∧
      ((∀ l ∈ s.RoutePath t, Spec.attachment l = none) →
        (guess_source_result (some s) (some t) m).graphid = GraphId.invalid ∧
        (guess_source_result (some s) (some t) m).graphtype = GraphType.kUnknown)) ∧
    (∀ (label : Label) (a : GraphId × GraphType), Spec.attachment label = some a →
      (label.nodeid.Is_Valid = true → a = (label.nodeid, GraphType.kNode)) ∧
      (label.nodeid.Is_Valid = false → a = (label.edgeid, GraphType.kEdge) ∧
        label.edgeid.Is_Valid = true)) ∧
    (∀ (s : State) (m : Measurement),
      guess_source_result (some s) none m =
        { lnglat := m.lnglat, distance := 0, graphid := GraphId.invalid,
          graphtype := GraphType.kUnknown, state := some s }) ∧
    (∀ (target : Option State) (m : Measurement),
      guess_source_result none target m =
        { lnglat := m.lnglat, distance := 0, graphid := GraphId.invalid,
          graphtype := GraphType.kUnknown, state := none }) := by
  refine ⟨?_, ?_, fun s m => rfl, ?_⟩
  · intro s t m
    rw [guess_source_result_both]
    refine ⟨rfl, rfl, rfl, rfl, ?_, ?_⟩
    · intro pre post label a hpath hatt hpost
      have hfind : (s.RoutePath t).reverse.findSome? Spec.attachment = some a := by
        rw [hpath, List.reverse_append, List.reverse_cons, List.append_assoc,
          List.findSome?_append]
        have hnone : post.reverse.findSome? Spec.attachment = none := by
          rw [List.findSome?_eq_none_iff]
          intro l hl
          exact hpost l (List.mem_reverse.mp hl)
        rw [hnone, Option.none_or, List.singleton_append, List.findSome?_cons, hatt]
      simp only [hfind, Option.getD_some, and_self]
    · intro hall
      have hfind : (s.RoutePath t).reverse.findSome? Spec.attachment = none := by
        rw [List.findSome?_eq_none_iff]
        intro l hl
        exact hall l (List.mem_reverse.mp hl)
      simp only [hfind, Option.getD_none, and_self]
  · intro label a h
    unfold Spec.attachment at h
    constructor
    · intro hv
      rw [if_pos hv] at h
      simp only [Option.some.injEq] at h
      exact h.symm
    · intro hv
      rw [if_neg (by simp [hv])] at h
      split at h
      · rename_i he
        simp only [Option.some.injEq] at h
        exact ⟨h.symm, he⟩
      · cases h
  · intro target m
    cases target with
    | none => rfl
    | some t => rfl

/-- Evaluation for C28: on the chain that reaches state 1 along `A` (to node
11) and `B`, the last label with a valid id, seen from the target, is the one
of `A`, and its node id 11 takes precedence over its edge id. -/
theorem guess_source_result_cases_witness :
    (Example.viaNode.RoutePath Example.second).map (fun l => (l.nodeid, l.edgeid)) =
      [(GraphId.invalid, Example.edgeB), (⟨11⟩, Example.edgeA),
        (GraphId.invalid, GraphId.invalid)] ∧
    ((guess_source_result (some Example.viaNode) (some Example.second) ⟨⟨1, 1⟩⟩).graphid,
      (guess_source_result (some Example.viaNode) (some Example.second) ⟨⟨1, 1⟩⟩).graphtype) =
        (⟨11⟩, GraphType.kNode) :=
  ⟨by decide,
    ((guess_source_result_cases.1 Example.viaNode Example.second ⟨⟨1, 1⟩⟩).2.2.2.1).trans
      (by decide)⟩

/-- C29 (as stated, refuted): on a chain whose first label, seen from the
target, has neither a valid node id nor a valid edge id and whose second label
lies on edge `A`, the first label with a valid id is the one of `A`, but
`guess_target_result` returns an invalid graph id of type Unknown. -/
theorem guess_target_result_ignores_later_labels :
    (Example.detour.RoutePath Example.second).map (fun l => (l.nodeid, l.edgeid)) =
      [(GraphId.invalid, GraphId.invalid), (GraphId.invalid, Example.edgeA),
        (GraphId.invalid, GraphId.invalid)] ∧
    (Example.detour.RoutePath Example.second).findSome? Spec.attachment =
      some (Example.edgeA, GraphType.kEdge) ∧
    (guess_target_result (some Example.detour) (some Example.second) ⟨⟨1, 1⟩⟩).graphid =
      GraphId.invalid ∧
    (guess_target_result (some Example.detour) (some Example.second) ⟨⟨1, 1⟩⟩).graphtype =
      GraphType.kUnknown := by
  decide

/-- C29 (amended): `guess_target_result`. With both path entries valid the
result carries the vertex and distance of the target candidate, the target
state, and as graph attachment the one of the first label of the chain from
the target back to the source (its node id when valid, else its edge id when
valid); when that first label has neither, or the chain is empty, the graph id
is invalid and of type Unknown, whatever the later labels hold. With only the
target valid it is the measurement point with distance 0, an invalid id of
type Unknown and the target state; with an invalid target it is the
measurement point with an invalid id of type Unknown and no state. -/
theorem guess_target_result_cases :
    (∀ (s t : State) (m : Measurement),
      (guess_target_result (some s) (some t) m).lnglat = t.candidate.vertex ∧
      (guess_target_result (some s) (some t) m).distance = t.candidate.distance ∧
      (guess_target_result (some s) (some t) m).state = some t ∧
      ((guess_target_result (some s) (some t) m).graphid,
        (guess_target_result (some s) (some t) m).graphtype) =
          ((s.RoutePath t).head?.bind Spec.attachment).getD
            (GraphId.invalid, GraphType.kUnknown) ∧
      (∀ (label : Label) (rest : List Label) (a : GraphId × GraphType),
        s.RoutePath t = label :: rest → Spec.attachment label = some a →
        (guess_target_result (some s) (some t) m).graphid = a.1 ∧
        (guess_target_result (some s) (some t) m).graphtype = a.2 ∧
        (s.RoutePath t).findSome? Spec.attachment = some a) ∧
      (∀ (label : Label) (rest : List Label),
        s.RoutePath t = label :: rest → Spec.attachment label = none →
        (guess_target_result (some s) (some t) m).graphid = GraphId.invalid ∧
        (guess_target_result (some s) (some t) m).graphtype = GraphType.kUnknown) ∧
      (s.RoutePath t = [] →
        (guess_target_result (some s) (some t) m).graphid = GraphId.invalid ∧
        (guess_target_result (some s) (some t) m).graphtype = GraphType.kUnknown)) ∧
    (∀ (t : State) (m : Measurement),
      guess_target_result none (some t) m =
        { lnglat := m.lnglat, distance := 0, graphid := GraphId.invalid,
          graphtype := GraphType.kUnknown, state := some t }) ∧
    (∀ (source : Option State) (m : Measurement),
      guess_target_result source none m =
        { lnglat := m.lnglat, distance := 0, graphid := GraphId.invalid,
          graphtype := GraphType.kUnknown, state := none }) := by
  refine ⟨?_, fun t m => rfl, ?_⟩
  · intro s t m
    rw [guess_target_result_both]
    refine ⟨rfl, rfl, rfl, rfl, ?_, ?_, ?_⟩
    · intro label rest a hpath hatt
      simp only [hpath, List.head?_cons, Option.some_bind, hatt, Option.getD_some,
        List.findSome?_cons, and_self]
    · intro label rest hpath hatt
      simp only [hpath, List.head?_cons, Option.some_bind, hatt, Option.getD_none, and_self]
    · intro hpath
      simp only [hpath, List.head?_nil, Option.none_bind, Option.getD_none, and_self]
  · intro source m
    cases source with
    | none => rfl
    | some s => rfl

/-- Evaluation for C29 (amended): on the chain along `A` and `B` the first
label, seen from the target, lies on `B`. -/
theorem guess_target_result_cases_witness :
    ((guess_target_result (some Example.viaNode) (some Example.second) ⟨⟨1, 1⟩⟩).graphid,
      (guess_target_result (some Example.viaNode) (some Example.second) ⟨⟨1, 1⟩⟩).graphtype) =
        (Example.edgeB, GraphType.kEdge) :=
  ((guess_target_result_cases.1 Example.viaNode Example.second ⟨⟨1, 1⟩⟩).2.2.2.1).trans
    (by decide)

/-! ## The node ids of a candidate (C30) -/

/-- C30: `collect_nodes` returns exactly the set of the node ids that the edge
projections of the candidate contribute: a projection on an existing edge
(valid edge id) with `dist == 0` contributes the end node of the opposing edge
when the reader finds that edge, one with `dist == 1` contributes the end node
of the edge itself when the reader finds its tile and the edge, and every
other projection, in particular every one with `0 < dist < 1`, contributes
nothing. The result holds no id twice. For a reader that finds nothing for an
invalid edge id, the validity test can be left out of this description. -/
theorem collect_nodes_exact (reader : GraphReader) (location : Candidate) :
    (∀ n : GraphId, n ∈ collect_nodes reader location ↔
      ∃ edge ∈ location.edges, edge.id.Is_Valid = true ∧
        ((edge.dist = 0 ∧ ∃ opp_edge, reader.GetOpposingEdge edge.id = some opp_edge ∧
            opp_edge.endnode = n) ∨
          (edge.dist = 1 ∧ ∃ tile directededge, reader.GetGraphTile edge.id = some tile ∧
            tile.directededge edge.id = some directededge ∧ directededge.endnode = n))) ∧
    (collect_nodes reader location).Nodup ∧
    ((∀ edge ∈ location.edges, 0 < edge.dist ∧ edge.dist < 1) →
      collect_nodes reader location = []) ∧
    (∀ edge : PathEdge, 0 < edge.dist → edge.dist < 1 → Spec.contribution reader edge = none) ∧
    ((∀ id : GraphId, id.Is_Valid = false →
        reader.GetOpposingEdge id = none ∧ reader.GetGraphTile id = none) →
      ∀ n : GraphId, n ∈ collect_nodes reader location ↔
        ∃ edge ∈ location.edges,
          (edge.dist = 0 ∧ ∃ opp_edge, reader.GetOpposingEdge edge.id = some opp_edge ∧
            opp_edge.endnode = n) ∨
          (edge.dist = 1 ∧ ∃ tile directededge, reader.GetGraphTile edge.id = some tile ∧
            tile.directededge edge.id = some directededge ∧ directededge.endnode = n)) := by
  have hcontrib : ∀ (edge : PathEdge) (n : GraphId), Spec.contribution reader edge = some n ↔
      (edge.id.Is_Valid = true ∧
        ((edge.dist = 0 ∧ ∃ opp_edge, reader.GetOpposingEdge edge.id = some opp_edge ∧
            opp_edge.endnode = n) ∨
          (edge.dist = 1 ∧ ∃ tile directededge, reader.GetGraphTile edge.id = some tile ∧
            tile.directededge edge.id = some directededge ∧ directededge.endnode = n))) := by
    intro edge n
    unfold Spec.contribution
    cases hv : edge.id.Is_Valid with
    | false => simp
    | true =>
      simp only [if_true, true_and]
      by_cases h0 : edge.dist = 0
      · have h01 : ¬ edge.dist = 1 := by rw [h0]; norm_num
        simp [h0]
      · by_cases h1 : edge.dist = 1
        · have e0 : (edge.dist = 0) = False := eq_false h0
          have e1 : (edge.dist = 1) = True := eq_true h1
          simp only [e0, e1, if_false, if_true, false_and, false_or, true_and,
            Option.map_eq_some', Option.bind_eq_some]
          constructor
          · rintro ⟨e, ⟨tile, ht, he⟩, hn⟩
            exact ⟨tile, e, ht, he, hn⟩
          · rintro ⟨tile, e, ht, he, hn⟩
            exact ⟨e, ⟨tile, ht, he⟩, hn⟩
        · simp [h0, h1]
  have hmem : ∀ n : GraphId, n ∈ collect_nodes reader location ↔
      ∃ edge ∈ location.edges, Spec.contribution reader edge = some n := by
    intro n
    rw [collect_nodes_eq]
    rw [(GraphIdSet.foldl_insert (Spec.contribution reader) location.edges []).1 n]
    simp
  have hmain : ∀ n : GraphId, n ∈ collect_nodes reader location ↔
      ∃ edge ∈ location.edges, edge.id.Is_Valid = true ∧
        ((edge.dist = 0 ∧ ∃ opp_edge, reader.GetOpposingEdge edge.id = some opp_edge ∧
            opp_edge.endnode = n) ∨
          (edge.dist = 1 ∧ ∃ tile directededge, reader.GetGraphTile edge.id = some tile ∧
            tile.directededge edge.id = some directededge ∧ directededge.endnode = n)) := by
    intro n
    rw [hmem n]
    constructor
    · rintro ⟨edge, he, hc⟩
      exact ⟨edge, he, (hcontrib edge n).mp hc⟩
    · rintro ⟨edge, he, hc⟩
      exact ⟨edge, he, (hcontrib edge n).mpr hc⟩
  have hnone : ∀ edge : PathEdge, 0 < edge.dist → edge.dist < 1 →
      Spec.contribution reader edge = none := by
    intro edge h0 h1
    unfold Spec.contribution
    have h0n : ¬ edge.dist = 0 := ne_of_gt h0
    have h1n : ¬ edge.dist = 1 := ne_of_lt h1
    simp [h0n, h1n]
  refine ⟨hmain, ?_, ?_, hnone, ?_⟩
  · rw [collect_nodes_eq]
    exact (GraphIdSet.foldl_insert (Spec.contribution reader) location.edges []).2
      List.nodup_nil
  · intro hall
    apply List.eq_nil_iff_forall_not_mem.mpr
    intro n hn
    obtain ⟨edge, he, hc⟩ := (hmem n).mp hn
    rw [hnone edge (hall edge he).1 (hall edge he).2] at hc
    cases hc
  · intro hreader n
    rw [hmain n]
    constructor
    · rintro ⟨edge, he, _, hc⟩
      exact ⟨edge, he, hc⟩
    · rintro ⟨edge, he, hc⟩
      refine ⟨edge, he, ?_, hc⟩
      cases hv : edge.id.Is_Valid with
      | true => rfl
      | false =>
        obtain ⟨ho, ht⟩ := hreader edge.id hv
        rcases hc with ⟨_, opp, hopp, _⟩ | ⟨_, tile, de, htile, _⟩
        · rw [ho] at hopp; cases hopp
        · rw [ht] at htile; cases htile

/-- Evaluation for C30: the candidate at node 10 lies at offset 0 of `A`, whose
opposing edge ends at node 10, and at offset 1 of `R`, which ends at node 10;
the candidate half way along `B` contributes nothing. -/
theorem collect_nodes_exact_witness :
    collect_nodes Example.reader Example.atNode10 = [⟨10⟩] ∧
    collect_nodes Example.reader Example.midB = [] ∧
    (⟨10⟩ : GraphId) ∈ collect_nodes Example.reader Example.atNode10 :=
  ⟨by decide, by with_unfolding_all decide,
    ((collect_nodes_exact Example.reader Example.atNode10).1 ⟨10⟩).mpr
      ⟨⟨Example.edgeR, 1⟩, by decide, by decide,
        Or.inr ⟨rfl, ⟨fun e => if (Example.endnode e).Is_Valid then
          some ⟨Example.endnode e⟩ else none⟩, ⟨⟨10⟩⟩, rfl, by decide, rfl⟩⟩⟩

/-! ## The states of the results (C31) -/

/-- C31 (as stated, refuted): for the single measurement at longitude 4, which
is admitted as column 0 and for which the search chooses the state of the one
candidate, the path entry of column 0 is valid, but the one result carries no
state. -/
theorem OfflineMatch_single_without_state :
    Spec.admitted_upto Example.DistanceSquared [⟨⟨4, 0⟩⟩] (2 * 2) 1 = [0] ∧
    (Example.SearchPath
      (OfflineMatch.loadStates Example.DistanceSquared Example.mm Example.oneCq [⟨⟨4, 0⟩⟩]
        100 2).mm
      (OfflineMatch.loadStates Example.DistanceSquared Example.mm Example.oneCq [⟨⟨4, 0⟩⟩]
        100 2).time).reverse.get? 0 = some (some (State.new 0 0 Example.atNode12Far)) ∧
    (OfflineMatch Example.DistanceSquared Example.SearchPath Example.mm Example.oneCq
      [⟨⟨4, 0⟩⟩] 100 2).map (fun results => results.map (fun res => res.state.isSome)) =
      some [false] := by
  refine ⟨by with_unfolding_all rfl, by with_unfolding_all rfl, by with_unfolding_all rfl⟩

/-- C31 (amended): when the Viterbi path holds one entry per column, the
result of a measurement that is not admitted (a skipped, interpolated
measurement) carries no state; for a trace of at least two measurements the
result at the index of the measurement admitted as column `t` carries the path
entry of column `t`, which is the chosen state when that entry is valid and
null otherwise, so that the states of the results, in result order, are the
valid path entries in column order; for a trace of one measurement the result
carries no state. In both cases `ConstructRoute` on the results handles the
consecutive pairs of the valid path entries, that is, of the chosen states. -/
theorem OfflineMatch_result_states (D : PointLL → PointLL → ℚ)
    (SearchPath : MapMatching → Nat → List (Option State)) (mm : MapMatching)
    (cq : CandidateQuery) (ms : List Measurement) (r d : ℚ) (hne : ms ≠ [])
    (hpath : (SearchPath (OfflineMatch.loadStates D mm cq ms r d).mm
        (OfflineMatch.loadStates D mm cq ms r d).time).length =
      (OfflineMatch.loadStates D mm cq ms r d).mm.size) :
    ∃ results, OfflineMatch D SearchPath mm cq ms r d = some results ∧
      results.length = ms.length ∧
      (∀ (i : Nat) (res : MatchResult), results.get? i = some res →
        Spec.admitted D ms (d * d) i = false → res.state = none) ∧
      (2 ≤ ms.length → ∀ (t i : Nat) (res : MatchResult),
        (Spec.admitted_upto D ms (d * d) ms.length).get? t = some i →
        results.get? i = some res →
        (SearchPath (OfflineMatch.loadStates D mm cq ms r d).mm
          (OfflineMatch.loadStates D mm cq ms r d).time).reverse.get? t = some res.state) ∧
      (ms.length = 1 → ∀ res ∈ results, res.state = none) ∧
      (2 ≤ ms.length → Spec.matched_states results =
        (SearchPath (OfflineMatch.loadStates D mm cq ms r d).mm
          (OfflineMatch.loadStates D mm cq ms r d).time).reverse.filterMap id) ∧
      ∀ g : GraphReader, ConstructRoute g results =
        Spec.construct g []
          (Spec.consecutive
            ((SearchPath (OfflineMatch.loadStates D mm cq ms r d).mm
              (OfflineMatch.loadStates D mm cq ms r d).time).reverse.filterMap id)) := by
  obtain ⟨results, hres, hlen, hall⟩ :=
    OfflineMatch.results_spec D SearchPath mm cq ms r d hne hpath
  obtain ⟨hexp, hplen, h1A, h2A⟩ :=
    OfflineMatch.results_expected D SearchPath mm cq ms r d hne hpath
  obtain ⟨_, hs, _, _, hprox, _⟩ := OfflineMatch.loadPrefix_spec D mm cq ms r d ms.length
  have hst : OfflineMatch.loadPrefix D mm cq ms r d ms.length =
      OfflineMatch.loadStates D mm cq ms r d := rfl
  rw [hst] at hs hprox
  have hT : (OfflineMatch.loadStates D mm cq ms r d).mm.states_.length =
      (Spec.admitted_upto D ms (d * d) ms.length).length := by
    have := congrArg List.length hs
    simpa [Spec.admitted_upto] using this
  have hskip : ∀ t i, i ∈ (OfflineMatch.loadStates D mm cq ms r d).proximate_measurements t →
      Spec.admitted D ms (d * d) i = false := by
    intro t i hmem
    rw [hprox t, List.mem_filter] at hmem
    have := hmem.2
    unfold Spec.skipped at this
    rw [Bool.and_eq_true, Bool.not_eq_true'] at this
    exact this.1
  have hmatched : 2 ≤ ms.length → Spec.matched_states results =
      (SearchPath (OfflineMatch.loadStates D mm cq ms r d).mm
        (OfflineMatch.loadStates D mm cq ms r d).time).reverse.filterMap id := by
    intro h2
    have h2T := h2A h2
    rw [hres, Option.some.injEq] at hexp
    rw [hexp, ← Spec.flatMap_entries, hplen]
    unfold Spec.expected
    rw [Spec.matched_states_append, Spec.matched_states_blocks _ _ _ _ _ _ _ _ _ (by omega)]
    have hlast : Spec.matched_states
        [Spec.placed ms
          (SearchPath (OfflineMatch.loadStates D mm cq ms r d).mm
            (OfflineMatch.loadStates D mm cq ms r d).time).reverse
          ((Spec.admitted_upto D ms (d * d) ms.length).length - 1)
          ((Spec.admitted_upto D ms (d * d) ms.length).getD
            ((Spec.admitted_upto D ms (d * d) ms.length).length - 1) 0)] =
        (((SearchPath (OfflineMatch.loadStates D mm cq ms r d).mm
            (OfflineMatch.loadStates D mm cq ms r d).time).reverse.getD
          ((Spec.admitted_upto D ms (d * d) ms.length).length - 1) none)).toList := by
      unfold Spec.matched_states
      rw [List.filterMap_cons, Spec.placed_state _ _ _ _ (by omega)]
      cases ((SearchPath (OfflineMatch.loadStates D mm cq ms r d).mm
          (OfflineMatch.loadStates D mm cq ms r d).time).reverse.getD
        ((Spec.admitted_upto D ms (d * d) ms.length).length - 1) none) <;> rfl
    rw [hlast]
    have hsplit : (Spec.admitted_upto D ms (d * d) ms.length).length =
        ((Spec.admitted_upto D ms (d * d) ms.length).length - 1) + 1 := by omega
    conv_rhs => rw [hsplit, List.range_succ, List.flatMap_append, List.flatMap_singleton]
  have hsingle : ms.length = 1 → ∀ res ∈ results, res.state = none := by
    intro h1 res hmem
    obtain ⟨m, hm⟩ : ∃ m, ms = [m] := List.length_eq_one.mp h1
    subst hm
    rw [OfflineMatch.single, Option.some.injEq] at hres
    rw [← hres, List.mem_singleton] at hmem
    rw [hmem]
    rfl
  refine ⟨results, hres, hlen, ?_, ?_, hsingle, hmatched, ?_⟩
  · intro i res hget hadm
    rcases hall i res hget with ⟨t, _, hA, _⟩ | ⟨t, _, _, hval⟩
    · have := (Spec.admitted_upto_mem D ms (d * d) ms.length t i hA).2
      rw [hadm] at this
      cases this
    · rw [hval]
      exact Spec.skipped_result_state _ _ _ _ _ _ _
  · intro h2 t i res hA hget
    have htlt : t < (Spec.admitted_upto D ms (d * d) ms.length).length := by
      rw [List.get?_eq_getElem?] at hA
      exact (List.getElem?_eq_some_iff.mp hA).1
    rcases hall i res hget with ⟨t2, _, hA2, hval⟩ | ⟨t2, _, hmem, _⟩
    · have htt := Spec.admitted_upto_column D ms (d * d) ms.length t t2 i hA hA2
      subst htt
      rw [hval, Spec.column_result_state _ _ _ _ _ (by intro _; rw [hT]; exact h2A h2)]
      exact Spec.path_get _ t (by rw [hplen]; exact htlt)
    · have := (Spec.admitted_upto_mem D ms (d * d) ms.length t i hA).2
      rw [hskip t2 i hmem] at this
      cases this
  · intro g
    rw [ConstructRoute_eq]
    by_cases h2 : 2 ≤ ms.length
    · rw [hmatched h2]
    · have h1 : ms.length = 1 := by
        have := List.length_pos.mpr hne
        omega
      have hnone : Spec.matched_states results = [] := by
        unfold Spec.matched_states
        rw [List.filterMap_eq_nil_iff]
        intro res hmem
        exact hsingle h1 res hmem
      have hA1 : (Spec.admitted_upto D ms (d * d) ms.length).length ≤ 1 := by
        unfold Spec.admitted_upto
        have := List.length_filter_le (Spec.admitted D ms (d * d)) (List.range ms.length)
        rw [List.length_range] at this
        omega
      have hshort : ((SearchPath (OfflineMatch.loadStates D mm cq ms r d).mm
          (OfflineMatch.loadStates D mm cq ms r d).time).reverse.filterMap id).length ≤ 1 := by
        have := List.length_filterMap_le id
          (SearchPath (OfflineMatch.loadStates D mm cq ms r d).mm
            (OfflineMatch.loadStates D mm cq ms r d).time).reverse
        omega
      rw [hnone, Spec.consecutive_short _ hshort]
      rfl

/-- Witness of C31 (amended): on the example trace, whose measurements 0, 2
and 4 are admitted as the columns 0, 1 and 2, the results of the measurements
1 and 3 carry no state and the others carry the states 0, 3 and 6 that the
search chooses. -/
theorem OfflineMatch_result_states_witness :
    Example.trace ≠ [] ∧
    (OfflineMatch Example.DistanceSquared Example.SearchPath Example.mm Example.cq
      Example.trace 100 2).map
        (fun results => results.map (fun res => res.state.map State.id)) =
      some [some 0, none, some 3, none, some 6] ∧
    ∃ results, OfflineMatch Example.DistanceSquared Example.SearchPath Example.mm Example.cq
        Example.trace 100 2 = some results ∧
      results.length = Example.trace.length :=
  ⟨by decide, by with_unfolding_all rfl,
    (OfflineMatch_result_states Example.DistanceSquared Example.SearchPath Example.mm
      Example.cq Example.trace 100 2 (by decide) (by with_unfolding_all decide)).imp
      (fun _ h => ⟨h.1, h.2.1⟩)⟩
/-! ## The two overloads of `MergeConfig` (C32) -/

/-- C33: the caching loop of `State::route` looks the target at position `k`
(0-based) up under the destination index `(k + 1) mod 2^16`: the cache is the
result of looking the targets up, in order, under these indices. When the
target list has at most 65535 elements, the index of the target at position
`k` is `k + 1`, the indices are `1, 2, ..., n`, and no target is looked up
under index 0, the index of the origin. -/
theorem route_destination_index (fsp : ShortestPath) (s : State) (targets : List State)
    (g : GraphReader) (b : ℚ) (el : Option Nat) (table : List ℚ) :
    (s.route fsp targets g b el table).label_idx_ =
      (targets.zip ((List.range targets.length).map (fun k => (k + 1) % 65536))).foldl
        (Spec.cache_under
          (fsp g (s.candidate :: targets.map State.candidate) 0 ⌈b⌉ el table).2) [] ∧
    (∀ (k : Nat) (t : State), targets.get? k = some t →
      (targets.zip ((List.range targets.length).map (fun k => (k + 1) % 65536))).get? k =
        some (t, (k + 1) % 65536)) ∧
    (targets.length ≤ 65535 →
      (s.route fsp targets g b el table).label_idx_ =
        (targets.zip (List.range' 1 targets.length)).foldl
          (Spec.cache_under
            (fsp g (s.candidate :: targets.map State.candidate) 0 ⌈b⌉ el table).2) [] ∧
      (∀ (k : Nat) (t : State), targets.get? k = some t →
        (targets.zip ((List.range targets.length).map (fun k => (k + 1) % 65536))).get? k =
          some (t, k + 1)) ∧
      ∀ p ∈ targets.zip ((List.range targets.length).map (fun k => (k + 1) % 65536)),
        p.2 ≠ 0) := by
  have hcache : (s.route fsp targets g b el table).label_idx_ =
      (targets.zip ((List.range targets.length).map (fun k => (k + 1) % 65536))).foldl
        (Spec.cache_under
          (fsp g (s.candidate :: targets.map State.candidate) 0 ⌈b⌉ el table).2) [] := by
    rw [State.route_label_idx, State.route.cache_under_counter _ targets 1 [] (by decide)]
    have hfun : (fun k => (1 + k) % 65536) = (fun k => (k + 1) % 65536) := by
      funext k
      rw [Nat.add_comm]
    rw [hfun]
  have hget := Spec.zip_get (fun k => (k + 1) % 65536) targets
  refine ⟨hcache, hget, ?_⟩
  intro hlen
  have hmap : (List.range targets.length).map (fun k => (k + 1) % 65536) =
      List.range' 1 targets.length := by
    rw [List.range'_eq_map_range 1]
    apply List.map_congr_left
    intro k hk
    rw [List.mem_range] at hk
    omega
  refine ⟨?_, ?_, ?_⟩
  · rw [hcache, hmap]
  · intro k t hk
    have hlt : k < targets.length := by
      rw [List.get?_eq_getElem?] at hk
      exact (List.getElem?_eq_some_iff.mp hk).1
    rw [hget k t hk, Nat.mod_eq_of_lt (by omega)]
  · intro p hp
    rw [hmap] at hp
    have := (List.of_mem_zip hp).2
    rw [List.mem_range'_1] at this
    omega

/-- Witness of C33: with one target, half way along `B`, the target is looked
up under destination index 1, under which the example search reports label 2. -/
theorem route_destination_index_witness :
    [State.new 1 1 Example.midB].length ≤ 65535 ∧
    ((State.new 0 0 Example.atNode10).route Example.find_shortest_path
      [State.new 1 1 Example.midB] Example.reader 9 none []).label_idx_ =
      ([State.new 1 1 Example.midB].zip (List.range' 1 1)).foldl
        (Spec.cache_under
          (Example.find_shortest_path Example.reader
            ((State.new 0 0 Example.atNode10).candidate ::
              [State.new 1 1 Example.midB].map State.candidate) 0 ⌈(9 : ℚ)⌉ none []).2) [] ∧
    ((State.new 0 0 Example.atNode10).route Example.find_shortest_path
      [State.new 1 1 Example.midB] Example.reader 9 none []).label_idx_ = [(1, 2)] :=
  ⟨by decide,
    ((route_destination_index Example.find_shortest_path (State.new 0 0 Example.atNode10)
      [State.new 1 1 Example.midB] Example.reader 9 none []).2.2 (by decide)).1,
    by with_unfolding_all rfl⟩
end mm
